import Mathlib

/-!
# Split-read alignment core of the Isaac aligner

A shallow embedding of `SplitReadAligner.cpp` (deletion, insertion, inversion and
translocation engines, `pickBestSplit`, `resolveConflict`).

Conventions of the embedding

* A function returns `Option`: `none` stands for a run that does not return
  (a failed `ISAAC_ASSERT_MSG` / `ISAAC_VERIFY_MSG` or a throwing
  `boost::numeric_cast`).
* The steps `moveNext` of the scans dereference their iterators without a check, and
  the step that ends a scan may read one base past a contig.  Such a read returns
  whatever byte lies there: `Outside` is that content of the memory around the
  sequences, a parameter of the embedding, and a step never aborts on it.
* Objects taken by non-const reference (`Cigar &`, `FragmentMetadata &`,
  `FragmentMetadataList &`) are passed in and returned.
* `unsigned` values are `Nat`; every `unsigned` subtraction of the source is wrapped
  with `u32` and every sum of two `unsigned` lengths is taken modulo `2^32`.  Counters
  that only grow by one per scanned base are not wrapped.  `int64_t` values are `Int`.
* Iterators are integer indices into the sequence they walk; a
  `std::reverse_iterator` is represented by the index of its `base()`.
-/

namespace Isaac

/-! ## Machine arithmetic -/

/-- Conversion of a wide signed value to `unsigned` (32 bit, wrapping). -/
def u32 (x : Int) : Nat := (x % 4294967296).toNat

/-- The value `-1U` that the underflow assertions compare against. -/
def minusOneU : Nat := 4294967295

/-- Conversion `int(unsigned)` / `unsigned -> int` by two's complement. -/
def toInt32 (x : Int) : Int :=
  if x % 4294967296 < 2147483648 then x % 4294967296 else x % 4294967296 - 4294967296

/-- Checked conversion `boost::numeric_cast<int>`: throws outside the `int` range. -/
def numericCastInt (x : Int) : Option Int :=
  if -2147483648 ≤ x ∧ x ≤ 2147483647 then some x else none

/-- Checked conversion `boost::numeric_cast<unsigned>`: throws outside the `unsigned` range. -/
def numericCastUnsigned (x : Int) : Option Nat :=
  if 0 ≤ x ∧ x ≤ 4294967295 then some x.toNat else none

/-! ## CIGAR -/

/-- Operation codes that the split-read aligner emits. -/
inductive OpCode where
  | ALIGN
  | INSERT
  | DELETE
  | SOFT_CLIP
  | HARD_CLIP
  | FLIP
  | CONTIG
deriving DecidableEq, Repr

/-- One CIGAR operation, kept unpacked as the pair (length, op code). -/
structure CigarOp where
  length : Int
  opCode : OpCode
deriving DecidableEq, Repr

/-- The CIGAR buffer (`class Cigar : public std::vector<unsigned>`). -/
abbrev Cigar := List CigarOp

/-- Modelled from the spec: `Cigar::addOperation` is declared in `alignment/Cigar.hh`,
which is not among the sources.  The CIGAR is a sequence of `(op, length)` pairs and the
emitter appends the operation it is given at the end of the buffer. -/
def Cigar.addOperation (cigarBuffer : Cigar) (length : Int) (opCode : OpCode) : Cigar :=
  cigarBuffer ++ [CigarOp.mk length opCode]

/-- The call `std::vector::resize(n)`: truncation to `n` elements, or padding with
value-initialised elements. -/
def Cigar.resize (cigarBuffer : Cigar) (n : Nat) : Cigar :=
  cigarBuffer.take n ++ List.replicate (n - cigarBuffer.length) (CigarOp.mk 0 OpCode.ALIGN)

/-! ## Reference, read and fragment alignment -/

/-- A contig is a byte sequence; the reference is the list of contigs. -/
abbrev Contig := List Char

abbrev ContigList := List Contig

/-- A read with both strands materialised. -/
structure Read where
  forwardSequence : List Char
  reverseSequence : List Char
deriving DecidableEq, Repr

def Read.getStrandSequence (read : Read) (reverse : Bool) : List Char :=
  if reverse then read.reverseSequence else read.forwardSequence

def Read.getLength (read : Read) : Nat := read.forwardSequence.length

/-- Modelled from the spec: `Anchor` is declared in `alignment/FragmentMetadata.hh`, which is
not among the sources.  It is a half-open read-coordinate interval `[first, second)`, empty
when `first == second`. -/
structure Anchor where
  first : Nat
  second : Nat
deriving DecidableEq, Repr

def Anchor.empty (a : Anchor) : Bool := a.first == a.second

def Anchor.length (a : Anchor) : Nat := a.second - a.first

/-- Modelled from the spec: `FragmentMetadata` is declared in `alignment/FragmentMetadata.hh`,
which is not among the sources.  The fields are those of the data model of the spec
(`begin_clip` and `end_clip` are the values returned by `getBeginClippedLength()` and
`getEndClippedLength()`), plus the clipping counters `lowClipped` / `highClipped` and the
CIGAR slice. -/
structure FragmentMetadata where
  read : Read
  contigId : Nat
  position : Int
  reverse : Bool
  lowClipped : Nat
  highClipped : Nat
  observedLength : Nat
  beginClippedLength : Nat
  endClippedLength : Nat
  mismatchCount : Nat
  gapCount : Nat
  editDistance : Nat
  alignmentScore : Nat
  firstAnchor_ : Anchor
  lastAnchor_ : Anchor
  cigarOffset : Nat
  cigarLength : Nat
deriving DecidableEq, Repr

namespace FragmentMetadata

def getStrandSequence (f : FragmentMetadata) : List Char := f.read.getStrandSequence f.reverse

def getReadLength (f : FragmentMetadata) : Nat := f.read.getLength

def getObservedLength (f : FragmentMetadata) : Nat := f.observedLength

def getBeginClippedLength (f : FragmentMetadata) : Nat := f.beginClippedLength

def getEndClippedLength (f : FragmentMetadata) : Nat := f.endClippedLength

def getPosition (f : FragmentMetadata) : Int := f.position

/-- The spec's `unclipped_position = position − begin_clip` (signed). -/
def getUnclippedPosition (f : FragmentMetadata) : Int := f.position - f.beginClippedLength

def getMismatchCount (f : FragmentMetadata) : Nat := f.mismatchCount

def getGapCount (f : FragmentMetadata) : Nat := f.gapCount

/-- Clipping on the left with respect to the reference, as `FragmentHeader::leftClipped`
in `io/Fragment.hh`. -/
def leftClipped (f : FragmentMetadata) : Nat := if f.reverse then f.highClipped else f.lowClipped

/-- Clipping on the right with respect to the reference, as `FragmentHeader::rightClipped`
in `io/Fragment.hh`. -/
def rightClipped (f : FragmentMetadata) : Nat := if f.reverse then f.lowClipped else f.highClipped

/-- The assignment `f.leftClipped() = v` through the returned reference. -/
def setLeftClipped (f : FragmentMetadata) (v : Nat) : FragmentMetadata :=
  if f.reverse then { f with highClipped := v } else { f with lowClipped := v }

/-- The assignment `f.rightClipped() = v` through the returned reference. -/
def setRightClipped (f : FragmentMetadata) (v : Nat) : FragmentMetadata :=
  if f.reverse then { f with lowClipped := v } else { f with highClipped := v }

end FragmentMetadata

/-- The caller-owned candidate list (`std::vector<FragmentMetadata>`) with its reserved
capacity. -/
structure FragmentMetadataList where
  items : List FragmentMetadata
  capacity : Nat
deriving DecidableEq, Repr

def FragmentMetadataList.size (l : FragmentMetadataList) : Nat := l.items.length

def FragmentMetadataList.push_back (l : FragmentMetadataList) (f : FragmentMetadata) :
    FragmentMetadataList :=
  { l with items := l.items ++ [f] }

/-- What a dereference outside a sequence reads: `outside s i` is the byte at index `i` of
the buffer that holds the sequence `s`, for an `i` that is no index of `s`.  The source
dereferences the iterators of `moveNext` without a check, so the byte is whatever the memory
holds there; it is a parameter of the embedding. -/
abbrev Outside := List Char → Int → Char

/-- Collaborators of the core that are declared outside the sources
(`FragmentMetadata::resetAlignment`, `FragmentMetadata::updateAlignment` reached through
`AlignerBase::updateFragmentCigar`, `FragmentMetadata::isBetterGapped`) and the one
configuration value the core reads (`alignmentCfg_.splitGapLength_`).  They are parameters of
the embedding.  `updateAlignment fragment contigList reverse contigId strandPosition
cigarBuffer cigarOffset` returns the `unsigned` result together with the updated fragment; the
CIGAR buffer is passed by const reference and is therefore not returned.  `outside` is the
content of the memory around the sequences, which the unchecked steps of the scans may
read. -/
structure AlignerBase where
  outside : Outside
  splitGapLength_ : Nat
  resetAlignment : FragmentMetadata → FragmentMetadata
  updateAlignment :
    FragmentMetadata → ContigList → Bool → Nat → Int → Cigar → Nat → Nat × FragmentMetadata
  isBetterGapped : FragmentMetadata → FragmentMetadata → Bool

/-- The member `AlignerBase::updateFragmentCigar` of `AlignerBase.cpp`: forwards to
`fragmentMetadata.updateAlignment`. -/
def AlignerBase.updateFragmentCigar (a : AlignerBase) (contigList : ContigList)
    (fragmentMetadata : FragmentMetadata) (reverse : Bool) (contigId : Nat)
    (strandPosition : Int) (cigarBuffer : Cigar) (cigarOffset : Nat) :
    Nat × FragmentMetadata :=
  a.updateAlignment fragmentMetadata contigList reverse contigId strandPosition cigarBuffer
    cigarOffset

/-! ## Mismatch counting -/

/-- Modelled from the spec: `isMatch` is declared in `alignment/Mismatch.hh`, which is not among
the sources.  A mismatch is a position where read and reference bases differ and neither
is `N`. -/
def isMatch (readBase referenceBase : Char) : Bool :=
  readBase == referenceBase || readBase == 'N' || referenceBase == 'N'

/-- Dereference of an iterator at index `i` of a sequence; `none` outside the sequence. -/
def deref (s : List Char) (i : Int) : Option Char :=
  if 0 ≤ i then s.get? i.toNat else none

/-- Dereference of a `std::reverse_iterator` whose `base()` is at index `i`. -/
def derefReverse (s : List Char) (i : Int) : Option Char := deref s (i - 1)

/-- The unchecked dereference `*it` of an iterator at index `i` of the sequence `s`: the
base at `i`, and outside `s` the byte that `outside` holds there. -/
def derefUnchecked (outside : Outside) (s : List Char) (i : Int) : Char :=
  match deref s i with
  | some base => base
  | none => outside s i

/-- The unchecked dereference of a `std::reverse_iterator` whose `base()` is at index `i`. -/
def derefReverseUnchecked (outside : Outside) (s : List Char) (i : Int) : Char :=
  derefUnchecked outside s (i - 1)

/-- Mismatches between `n` bases read through `seqAt` and through `refAt`. -/
def countMismatchesN (seqAt refAt : Nat → Option Char) : Nat → Option Nat
  | 0 => some 0
  | n + 1 =>
    match countMismatchesN seqAt refAt n, seqAt n, refAt n with
    | some c, some b, some r => some (c + (if isMatch b r then 0 else 1))
    | _, _, _ => none

/-- Modelled from the spec: `countMismatches(sequenceBegin, referenceBegin, referenceEnd, length,
baseExtractor)` is declared in `alignment/Mismatch.hh`, which is not among the sources.  It counts
the mismatching positions among the first `length` bases, the reference walker staying
within the contig (no read past `referenceEnd`). -/
def countMismatches (sequence : List Char) (sequenceBegin : Int) (reference : List Char)
    (referenceBegin referenceEnd : Int) (length : Nat) : Option Nat :=
  if referenceEnd < referenceBegin then none
  else
    countMismatchesN (fun i => deref sequence (sequenceBegin + i))
      (fun i => deref reference (referenceBegin + i))
      (min length (referenceEnd - referenceBegin).toNat)

/-- The same count through reverse iterators over the read and over the reference; the
reference walker stops at `rend()` (base index `0`). -/
def countMismatchesReverse (sequence : List Char) (sequenceBegin : Int) (reference : List Char)
    (referenceBegin : Int) (length : Nat) : Option Nat :=
  if referenceBegin < 0 then none
  else
    countMismatchesN (fun i => derefReverse sequence (sequenceBegin - i))
      (fun i => derefReverse reference (referenceBegin - i))
      (min length referenceBegin.toNat)

/-! ## Deletion engine -/

/-- The scan state `struct DeletionLocation`. -/
structure DeletionLocation where
  leftRealignedMismatches_ : Nat
  rightRealignedMismatches_ : Nat
  deletionOffset_ : Nat
  breakpointIterator_ : Int
  headEndReferenceIterator_ : Int
  tailBeginReferenceIterator_ : Int
deriving DecidableEq, Repr

/-- The step `DeletionLocation::moveNext` (lines 64-75); `sequence`, `headReference` and
`tailReference` are the sequences the three iterators walk.  The three dereferences are
unchecked and the step holds no assertion, so it always returns a location: the result is
never `none` (the `Option` is the type of the steps of the other two scans, which assert). -/
def DeletionLocation.moveNext (outside : Outside) (loc : DeletionLocation)
    (sequence headReference tailReference : List Char) : Option DeletionLocation :=
  let base := derefUnchecked outside sequence loc.breakpointIterator_
  let headBase := derefUnchecked outside headReference loc.headEndReferenceIterator_
  let tailBase := derefUnchecked outside tailReference loc.tailBeginReferenceIterator_
  some
    { leftRealignedMismatches_ :=
        loc.leftRealignedMismatches_ + (if isMatch base headBase then 0 else 1)
      rightRealignedMismatches_ :=
        u32 ((loc.rightRealignedMismatches_ : Int) - (if isMatch base tailBase then 0 else 1))
      deletionOffset_ := loc.deletionOffset_ + 1
      breakpointIterator_ := loc.breakpointIterator_ + 1
      headEndReferenceIterator_ := loc.headEndReferenceIterator_ + 1
      tailBeginReferenceIterator_ := loc.tailBeginReferenceIterator_ + 1 }

def DeletionLocation.getMistmatches (loc : DeletionLocation) : Nat :=
  (loc.leftRealignedMismatches_ + loc.rightRealignedMismatches_) % 4294967296

/-- The `for` loop of `alignSimpleDeletion` (lines 172-194), started with
`currentLocation = bestLocation`.  The first argument bounds the number of iterations; the
caller passes `lastBreakpointOffset + 1 - firstBreakpointOffset`, after which
`currentLocation.deletionOffset_ > lastBreakpointOffset` and the loop condition is false.
The step `moveNext` always returns, so the loop yields `none` only when the assertion of
line 173 fails. -/
def deletionScan (outside : Outside) (sequence headReference tailReference : List Char)
    (lastBreakpointOffset : Nat) :
    Nat → DeletionLocation → DeletionLocation → Option DeletionLocation
  | 0, bestLocation, _ => some bestLocation
  | fuel + 1, bestLocation, currentLocation =>
    if bestLocation.getMistmatches ≠ 0 ∧
        currentLocation.deletionOffset_ ≤ lastBreakpointOffset then
      if currentLocation.rightRealignedMismatches_ = minusOneU then none
      else
        match currentLocation.moveNext outside sequence headReference tailReference with
        | none => none
        | some nextLocation =>
          deletionScan outside sequence headReference tailReference lastBreakpointOffset fuel
            (if bestLocation.getMistmatches > currentLocation.getMistmatches
              then currentLocation else bestLocation)
            nextLocation
    else some bestLocation

/-- The member `SplitReadAligner::mergeDeletionAlignments` (lines 202-272).  Returns the
boolean result, the CIGAR buffer and the head alignment. -/
def mergeDeletionAlignments (a : AlignerBase) (cigarBuffer : Cigar)
    (headAlignment tailAlignment : FragmentMetadata) (bestOffset : Nat)
    (contigList : ContigList) (_bestMismatches : Nat) (deletionLength : Int) :
    Option (Bool × Cigar × FragmentMetadata) :=
  let clippingPositionOffset : Int := headAlignment.getBeginClippedLength
  let headMapped : Nat := u32 (bestOffset - clippingPositionOffset)
  if headMapped ≠ headAlignment.getObservedLength then
    let cigarOffset := cigarBuffer.length
    let cigarBuffer1 :=
      if clippingPositionOffset ≠ 0 then
        cigarBuffer.addOperation clippingPositionOffset OpCode.SOFT_CLIP
      else cigarBuffer
    let cigarBuffer2 :=
      if headMapped ≠ 0 then
        ((if tailAlignment.contigId ≠ headAlignment.contigId then
            (cigarBuffer1.addOperation headMapped OpCode.ALIGN).addOperation
              tailAlignment.contigId OpCode.CONTIG
          else cigarBuffer1.addOperation headMapped OpCode.ALIGN).addOperation
          deletionLength OpCode.DELETE)
      else cigarBuffer1
    let headAlignment1 :=
      if headMapped ≠ 0 then headAlignment
      else
        -- prevent cigars starting from deletion.
        { headAlignment with
          contigId := tailAlignment.contigId
          position := headAlignment.position + deletionLength }
    let tailMapped : Nat :=
      u32 ((tailAlignment.getObservedLength : Int) + tailAlignment.getBeginClippedLength
        - bestOffset)
    let cigarBuffer3 :=
      if tailMapped ≠ 0 then cigarBuffer2.addOperation tailMapped OpCode.ALIGN
      else cigarBuffer2
    let clipEndBases := tailAlignment.getEndClippedLength
    let cigarBuffer4 :=
      if clipEndBases ≠ 0 then cigarBuffer3.addOperation clipEndBases OpCode.SOFT_CLIP
      else cigarBuffer3
    let headAlignment2 :=
      (a.resetAlignment headAlignment1).setRightClipped tailAlignment.rightClipped
    let updated :=
      a.updateFragmentCigar contigList headAlignment2 headAlignment2.reverse
        headAlignment2.contigId (headAlignment2.position + clippingPositionOffset)
        cigarBuffer4 cigarOffset
    if updated.1 = 0 then none else some (true, cigarBuffer4, updated.2)
  else some (false, cigarBuffer, headAlignment)

/-- Lines 155-194 of `alignSimpleDeletion`: the two counters at the leftmost breakpoint, the
assertion on the right counter and the scan; the result is the final `bestLocation`. -/
def deletionBestLocation (outside : Outside) (headAlignment : FragmentMetadata)
    (firstBreakpointOffset : Nat)
    (tailAlignment : FragmentMetadata) (lastBreakpointOffset : Nat)
    (headReference tailReference : Contig) : Option DeletionLocation :=
  let sequence := headAlignment.getStrandSequence
  let breakpointIterator : Int := firstBreakpointOffset
  let tailEndOffset : Nat :=
    (tailAlignment.getBeginClippedLength + tailAlignment.getObservedLength) % 4294967296
  let tailLength : Nat := tailEndOffset - firstBreakpointOffset
  let headEndReferenceIterator : Int :=
    firstBreakpointOffset + headAlignment.getUnclippedPosition
  let headLength : Nat :=
    u32 ((firstBreakpointOffset : Int) - headAlignment.getBeginClippedLength)
  let tailBeginReferenceIterator : Int :=
    firstBreakpointOffset + tailAlignment.getUnclippedPosition
  -- number of mismatches before and after breakpoint when deletion is at the leftmost
  -- possible position
  match
    countMismatches sequence headAlignment.getBeginClippedLength headReference
      headAlignment.position headReference.length headLength,
    countMismatches sequence breakpointIterator tailReference
      tailBeginReferenceIterator tailReference.length tailLength with
  | some leftRealignedMismatches, some rightRealignedMismatches =>
    let bestLocation : DeletionLocation :=
      { leftRealignedMismatches_ := leftRealignedMismatches
        rightRealignedMismatches_ := rightRealignedMismatches
        deletionOffset_ := firstBreakpointOffset
        breakpointIterator_ := breakpointIterator
        headEndReferenceIterator_ := headEndReferenceIterator
        tailBeginReferenceIterator_ := tailBeginReferenceIterator }
    if bestLocation.rightRealignedMismatches_ = minusOneU then none
    else
      deletionScan outside sequence headReference tailReference lastBreakpointOffset
        (lastBreakpointOffset + 1 - firstBreakpointOffset) bestLocation bestLocation
  | _, _ => none

/-- The member `SplitReadAligner::alignSimpleDeletion` (lines 96-200); the block of lines
155-194 is `deletionBestLocation`. -/
def alignSimpleDeletion (a : AlignerBase) (cigarBuffer : Cigar)
    (headAlignment : FragmentMetadata) (firstBreakpointOffset : Nat)
    (tailAlignment : FragmentMetadata) (lastBreakpointOffset : Nat)
    (contigList : ContigList) : Option (Bool × Cigar × FragmentMetadata) :=
  match contigList.get? headAlignment.contigId, contigList.get? tailAlignment.contigId with
  | some headReference, some tailReference =>
    if ¬ ((lastBreakpointOffset : Int) - tailAlignment.getBeginClippedLength
          + tailAlignment.getPosition ≤ tailReference.length) then none
    else
      let sequence := headAlignment.getStrandSequence
      let breakpointIterator : Int := firstBreakpointOffset
      let tailEndOffset : Nat :=
        (tailAlignment.getBeginClippedLength + tailAlignment.getObservedLength) % 4294967296
      if tailEndOffset < firstBreakpointOffset then some (false, cigarBuffer, headAlignment)
      else
        let tailLength : Nat := tailEndOffset - firstBreakpointOffset
        if ¬ (headAlignment.getUnclippedPosition ≥ 0 ∨
              (firstBreakpointOffset : Int) ≥ -headAlignment.getUnclippedPosition) then none
        else
          let headEndReferenceIterator : Int :=
            firstBreakpointOffset + headAlignment.getUnclippedPosition
          if ¬ (tailAlignment.getUnclippedPosition ≥ 0 ∨
                (firstBreakpointOffset : Int) ≥ -tailAlignment.getUnclippedPosition) then none
          else
            let tailBeginReferenceIterator : Int :=
              firstBreakpointOffset + tailAlignment.getUnclippedPosition
            -- number of tail mismatches when deletion is not introduced
            match countMismatches sequence breakpointIterator headReference
                headEndReferenceIterator headReference.length tailLength with
            | none => none
            | some tailMismatches =>
              if tailMismatches = 0 then some (false, cigarBuffer, headAlignment)
              else
                match deletionBestLocation a.outside headAlignment firstBreakpointOffset
                    tailAlignment
                    lastBreakpointOffset headReference tailReference with
                | none => none
                | some bestLocation =>
                  match numericCastInt
                      (tailBeginReferenceIterator - headEndReferenceIterator) with
                  | none => none
                  | some deletionLength =>
                    mergeDeletionAlignments a cigarBuffer headAlignment tailAlignment
                      bestLocation.deletionOffset_ contigList bestLocation.getMistmatches
                      deletionLength
  | _, _ => none

/-! ## Inversion engines -/

/-- The scan state `struct InversionLocation`; the two tail iterators are reverse iterators. -/
structure InversionLocation where
  headMismatches_ : Nat
  tailMismatches_ : Nat
  breakpointOffset_ : Nat
  headBreakpointIterator_ : Int
  tailBreakpointIterator_ : Int
  headReferenceIterator_ : Int
  tailReferenceIterator_ : Int
deriving DecidableEq, Repr

/-- The step `InversionLocation::moveNext<headExtension>`, `headExtension` being `1` or `-1`;
`none` when its assertion `tailMismatches_ != -1U` fails.  The four dereferences are
unchecked. -/
def InversionLocation.moveNext (outside : Outside) (headExtension : Int)
    (loc : InversionLocation)
    (headSequence tailSequence headReference tailReference : List Char) :
    Option InversionLocation :=
  if loc.tailMismatches_ = minusOneU then none
  else
    let headBase := derefUnchecked outside headSequence loc.headBreakpointIterator_
    let headRefBase := derefUnchecked outside headReference loc.headReferenceIterator_
    let tailBase := derefReverseUnchecked outside tailSequence loc.tailBreakpointIterator_
    let tailRefBase := derefReverseUnchecked outside tailReference loc.tailReferenceIterator_
    some
      { headMismatches_ :=
          u32 ((loc.headMismatches_ : Int)
            + headExtension * (if isMatch headBase headRefBase then 0 else 1))
        tailMismatches_ :=
          u32 ((loc.tailMismatches_ : Int)
            - headExtension * (if isMatch tailBase tailRefBase then 0 else 1))
        breakpointOffset_ := loc.breakpointOffset_ + 1
        headBreakpointIterator_ := loc.headBreakpointIterator_ + 1
        tailBreakpointIterator_ := loc.tailBreakpointIterator_ - 1
        headReferenceIterator_ := loc.headReferenceIterator_ + 1
        tailReferenceIterator_ := loc.tailReferenceIterator_ - 1 }

def InversionLocation.getMistmatches (loc : InversionLocation) : Nat :=
  (loc.headMismatches_ + loc.tailMismatches_) % 4294967296

/-- The `for` loop of `alignLeftAnchoredInversion` (lines 402-414); the first argument bounds the
number of iterations (the caller passes `lastBreakpointOffset + 1 - firstBreakpointOffset`). -/
def leftInversionScan (outside : Outside)
    (headSequence tailSequence headReference tailReference : List Char)
    (lastBreakpointOffset : Nat) :
    Nat → InversionLocation → InversionLocation → Option InversionLocation
  | 0, bestLocation, _ => some bestLocation
  | fuel + 1, bestLocation, currentLocation =>
    if bestLocation.getMistmatches ≠ 0 ∧
        currentLocation.breakpointOffset_ ≤ lastBreakpointOffset then
      match currentLocation.moveNext outside 1 headSequence tailSequence headReference
          tailReference with
      | none => none
      | some nextLocation =>
        leftInversionScan outside headSequence tailSequence headReference tailReference
          lastBreakpointOffset fuel
          (if bestLocation.getMistmatches > currentLocation.getMistmatches
            then currentLocation else bestLocation)
          nextLocation
    else some bestLocation

/-- The member `SplitReadAligner::mergeLeftAnchoredInversions` (lines 423-493). -/
def mergeLeftAnchoredInversions (a : AlignerBase) (cigarBuffer : Cigar)
    (headAlignment tailAlignment : FragmentMetadata) (bestOffset : Nat)
    (contigList : ContigList) (_bestMismatches : Nat) (distance : Int) :
    Option (Bool × Cigar × FragmentMetadata) :=
  let beginClippingOffset : Int := headAlignment.getBeginClippedLength
  let beginMapped : Nat := u32 (bestOffset - beginClippingOffset)
  if beginMapped = 0 then some (false, cigarBuffer, headAlignment)
  else
    let cigarOffset := cigarBuffer.length
    let cigarBuffer1 :=
      if beginClippingOffset ≠ 0 then
        cigarBuffer.addOperation beginClippingOffset OpCode.SOFT_CLIP
      else cigarBuffer
    if beginMapped ≠ 0 then
      let cigarBuffer2 :=
        ((if tailAlignment.contigId ≠ headAlignment.contigId then
            ((cigarBuffer1.addOperation beginMapped OpCode.ALIGN).addOperation
              ((u32 ((headAlignment.getReadLength : Int) - beginMapped) : Int)
                - beginClippingOffset) OpCode.FLIP).addOperation
              tailAlignment.contigId OpCode.CONTIG
          else
            (cigarBuffer1.addOperation beginMapped OpCode.ALIGN).addOperation
              ((u32 ((headAlignment.getReadLength : Int) - beginMapped) : Int)
                - beginClippingOffset) OpCode.FLIP).addOperation
          distance OpCode.DELETE)
      let endClippingOffset : Int := tailAlignment.getBeginClippedLength
      let cigarBuffer3 :=
        if endClippingOffset ≠ 0 then
          cigarBuffer2.addOperation endClippingOffset OpCode.SOFT_CLIP
        else cigarBuffer2
      let endMapped : Nat :=
        u32 ((tailAlignment.getObservedLength : Int) + tailAlignment.getEndClippedLength
          - bestOffset)
      let cigarBuffer4 :=
        if endMapped ≠ 0 then cigarBuffer3.addOperation endMapped OpCode.ALIGN
        else cigarBuffer3
      let cigarBuffer5 :=
        cigarBuffer4.addOperation
          ((u32 ((tailAlignment.getReadLength : Int) - endMapped) : Int) - endClippingOffset)
          OpCode.HARD_CLIP
      let headAlignment2 :=
        (a.resetAlignment headAlignment).setRightClipped tailAlignment.rightClipped
      let updated :=
        a.updateFragmentCigar contigList headAlignment2 headAlignment2.reverse
          headAlignment2.contigId (headAlignment2.position + beginClippingOffset)
          cigarBuffer5 cigarOffset
      if updated.1 = 0 then none else some (true, cigarBuffer5, updated.2)
    else
      -- ISAAC_ASSERT_MSG(false, "TODO: Deal with this situation. ...")
      none

/-- The member `SplitReadAligner::alignLeftAnchoredInversion` (lines 333-420). -/
def alignLeftAnchoredInversion (a : AlignerBase) (cigarBuffer : Cigar)
    (headAlignment : FragmentMetadata) (firstBreakpointOffset : Nat)
    (tailAlignment : FragmentMetadata) (lastBreakpointOffset : Nat)
    (contigList : ContigList) : Option (Bool × Cigar × FragmentMetadata) :=
  match contigList.get? headAlignment.contigId, contigList.get? tailAlignment.contigId with
  | some headReference, some tailReference =>
    let headSequence := headAlignment.getStrandSequence
    let headBreakpointIterator : Int := firstBreakpointOffset
    let tailSequence := tailAlignment.getStrandSequence
    let tailBreakpointIterator : Int := (tailSequence.length : Int) - firstBreakpointOffset
    let headEndReferenceIterator : Int :=
      headAlignment.getUnclippedPosition + firstBreakpointOffset
    let tailBeginReferenceIterator : Int :=
      tailAlignment.getUnclippedPosition + tailAlignment.getReadLength - firstBreakpointOffset
    -- the std::size_t cast of a negative value exceeds every contig size
    if ¬ (0 ≤ tailBeginReferenceIterator ∧
          tailBeginReferenceIterator ≤ tailReference.length) then none
    else if firstBreakpointOffset < headAlignment.getBeginClippedLength then
      some (false, cigarBuffer, headAlignment)
    else
      let headLength : Nat := firstBreakpointOffset - headAlignment.getBeginClippedLength
      if ¬ (u32 ((tailAlignment.getReadLength : Int) - firstBreakpointOffset)
            ≥ tailAlignment.getBeginClippedLength) then none
      else
        let tailLength : Nat :=
          u32 ((tailAlignment.getReadLength : Int) - firstBreakpointOffset
            - tailAlignment.getBeginClippedLength)
        -- number of tail mismatches when breakpoint is not introduced
        match countMismatches headSequence headBreakpointIterator headReference
            headEndReferenceIterator headReference.length tailLength with
        | none => none
        | some tailMismatches =>
          if tailMismatches = 0 then some (false, cigarBuffer, headAlignment)
          else
            match
              countMismatches headSequence headAlignment.getBeginClippedLength headReference
                headAlignment.position headReference.length headLength,
              countMismatchesReverse tailSequence tailBreakpointIterator tailReference
                tailBeginReferenceIterator tailLength with
            | some leftRealignedMismatches, some rightRealignedMismatches =>
              let bestLocation : InversionLocation :=
                { headMismatches_ := leftRealignedMismatches
                  tailMismatches_ := rightRealignedMismatches
                  breakpointOffset_ := firstBreakpointOffset
                  headBreakpointIterator_ := headBreakpointIterator
                  tailBreakpointIterator_ := tailBreakpointIterator
                  headReferenceIterator_ := headEndReferenceIterator
                  tailReferenceIterator_ := tailBeginReferenceIterator }
              match leftInversionScan a.outside headSequence tailSequence headReference
                  tailReference
                  lastBreakpointOffset (lastBreakpointOffset + 1 - firstBreakpointOffset)
                  bestLocation bestLocation with
              | none => none
              | some best =>
                match numericCastInt (best.headReferenceIterator_ - tailAlignment.position) with
                | none => none
                | some d =>
                  mergeLeftAnchoredInversions a cigarBuffer headAlignment tailAlignment
                    best.breakpointOffset_ contigList best.getMistmatches (-d)
            | _, _ => none
  | _, _ => none

/-- The `for` loop of `alignRightAnchoredInversion` (lines 607-620); the first argument bounds
the number of iterations (the caller passes `lastBreakpointOffset - firstBreakpointOffset`). -/
def rightInversionScan (outside : Outside)
    (headSequence tailSequence headReference tailReference : List Char)
    (lastBreakpointOffset : Nat) :
    Nat → InversionLocation → InversionLocation → Option InversionLocation
  | 0, bestLocation, _ => some bestLocation
  | fuel + 1, bestLocation, currentLocation =>
    if bestLocation.getMistmatches ≠ 0 ∧
        currentLocation.breakpointOffset_ < lastBreakpointOffset then
      if ¬ (bestLocation.tailReferenceIterator_ ≥ 0) then none
      else
        match currentLocation.moveNext outside (-1) headSequence tailSequence headReference
            tailReference with
        | none => none
        | some nextLocation =>
          rightInversionScan outside headSequence tailSequence headReference tailReference
            lastBreakpointOffset fuel
            (if bestLocation.getMistmatches > currentLocation.getMistmatches
              then currentLocation else bestLocation)
            nextLocation
    else some bestLocation

/-- The member `SplitReadAligner::mergeRightAnchoredInversionAlignments` (lines 633-703). -/
def mergeRightAnchoredInversionAlignments (a : AlignerBase) (cigarBuffer : Cigar)
    (headAlignment tailAlignment : FragmentMetadata) (bestOffset : Nat)
    (contigList : ContigList) (_bestMismatches : Nat) (distance : Int) :
    Option (Bool × Cigar × FragmentMetadata) :=
  let beginMapped : Nat :=
    u32 ((headAlignment.getReadLength : Int) - bestOffset - headAlignment.getEndClippedLength)
  if beginMapped = 0 then some (false, cigarBuffer, headAlignment)
  else
    let cigarOffset := cigarBuffer.length
    let cigarBuffer1 := cigarBuffer.addOperation bestOffset OpCode.SOFT_CLIP
    if beginMapped ≠ 0 then
      let cigarBuffer2 := cigarBuffer1.addOperation beginMapped OpCode.ALIGN
      let cigarBuffer3 :=
        if headAlignment.getEndClippedLength ≠ 0 then
          cigarBuffer2.addOperation headAlignment.getEndClippedLength OpCode.SOFT_CLIP
        else cigarBuffer2
      -- no need to adjust sequence offset as the softclip will do the job
      let cigarBuffer4 :=
        cigarBuffer3.addOperation
          (u32 ((headAlignment.getReadLength : Int) - bestOffset
            - headAlignment.getEndClippedLength - beginMapped))
          OpCode.FLIP
      let cigarBuffer5 :=
        if tailAlignment.contigId ≠ headAlignment.contigId then
          cigarBuffer4.addOperation tailAlignment.contigId OpCode.CONTIG
        else cigarBuffer4
      let cigarBuffer6 := cigarBuffer5.addOperation distance OpCode.DELETE
      let cigarBuffer7 :=
        cigarBuffer6.addOperation
          (u32 ((tailAlignment.getReadLength : Int) - bestOffset)) OpCode.HARD_CLIP
      let endMapped : Nat := u32 ((bestOffset : Int) - tailAlignment.getEndClippedLength)
      if endMapped = 0 then
        -- in some clipping cases, the first possible breakpoint position gets accepted but as
        -- result the tail gets entirely clipped away. Just say this does not make an alignment.
        some (false, cigarBuffer7, headAlignment)
      else
        let cigarBuffer8 := cigarBuffer7.addOperation endMapped OpCode.ALIGN
        let cigarBuffer9 :=
          if tailAlignment.getEndClippedLength ≠ 0 then
            cigarBuffer8.addOperation tailAlignment.getEndClippedLength OpCode.SOFT_CLIP
          else cigarBuffer8
        let headAlignment2 :=
          (a.resetAlignment headAlignment).setRightClipped tailAlignment.rightClipped
        let updated :=
          a.updateFragmentCigar contigList headAlignment2 headAlignment2.reverse
            headAlignment2.contigId (headAlignment2.position + bestOffset)
            cigarBuffer9 cigarOffset
        if updated.1 = 0 then none else some (true, cigarBuffer9, updated.2)
    else
      -- ISAAC_ASSERT_MSG(false, "TODO: Deal with this situation. ...")
      none

/-- The member `SplitReadAligner::alignRightAnchoredInversion` (lines 530-628). -/
def alignRightAnchoredInversion (a : AlignerBase) (cigarBuffer : Cigar)
    (headAlignment : FragmentMetadata) (firstBreakpointOffset : Nat)
    (tailAlignment : FragmentMetadata) (lastBreakpointOffset : Nat)
    (contigList : ContigList) : Option (Bool × Cigar × FragmentMetadata) :=
  match contigList.get? headAlignment.contigId, contigList.get? tailAlignment.contigId with
  | some headReference, some tailReference =>
    let headSequence := headAlignment.getStrandSequence
    let headBreakpointIterator : Int := firstBreakpointOffset
    let tailSequence := tailAlignment.getStrandSequence
    let tailBreakpointIterator : Int := (tailSequence.length : Int) - firstBreakpointOffset
    let headReferenceIterator : Int :=
      headAlignment.getUnclippedPosition + firstBreakpointOffset
    let tailReferenceIterator : Int :=
      tailAlignment.getUnclippedPosition + tailAlignment.getReadLength - firstBreakpointOffset
    -- the std::size_t cast of a negative value exceeds every contig size
    if ¬ (0 ≤ tailReferenceIterator ∧ tailReferenceIterator ≤ tailReference.length) then none
    else if firstBreakpointOffset >
        (headAlignment.getBeginClippedLength + headAlignment.getObservedLength) % 4294967296 then
      some (false, cigarBuffer, headAlignment)
    else
      let headLength : Nat :=
        u32 ((headAlignment.getObservedLength : Int) + headAlignment.getBeginClippedLength
          - firstBreakpointOffset)
      if ¬ (u32 ((tailAlignment.getReadLength : Int) - firstBreakpointOffset)
            ≥ tailAlignment.getBeginClippedLength) then none
      else if ¬ (firstBreakpointOffset ≥ tailAlignment.getEndClippedLength) then none
      else
        let tailLength : Nat :=
          u32 ((firstBreakpointOffset : Int) - headAlignment.getBeginClippedLength)
        -- number of tail mismatches when breakpoint is not introduced
        match countMismatches headSequence headAlignment.getBeginClippedLength headReference
            (headReferenceIterator - tailLength) headReferenceIterator tailLength with
        | none => none
        | some count =>
          -- assume all soft-clipped bases mismatch
          let tailMismatches : Nat :=
            (count + headAlignment.getBeginClippedLength) % 4294967296
          if tailMismatches = 0 then some (false, cigarBuffer, headAlignment)
          else
            let realignedTailLength : Nat :=
              firstBreakpointOffset - tailAlignment.getEndClippedLength
            match
              countMismatches headSequence headBreakpointIterator headReference
                headReferenceIterator headReference.length headLength,
              countMismatches tailSequence tailBreakpointIterator tailReference
                tailReferenceIterator tailReference.length realignedTailLength with
            | some headRealignedMismatches, some tailRealignedMismatches =>
              let bestLocation : InversionLocation :=
                { headMismatches_ := headRealignedMismatches
                  tailMismatches_ := tailRealignedMismatches
                  breakpointOffset_ := firstBreakpointOffset
                  headBreakpointIterator_ := headBreakpointIterator
                  tailBreakpointIterator_ := tailBreakpointIterator
                  headReferenceIterator_ := headReferenceIterator
                  tailReferenceIterator_ := tailReferenceIterator }
              match rightInversionScan a.outside headSequence tailSequence headReference
                  tailReference
                  lastBreakpointOffset (lastBreakpointOffset - firstBreakpointOffset)
                  bestLocation bestLocation with
              | none => none
              | some best =>
                match numericCastInt
                    (best.headReferenceIterator_ - headAlignment.getEndClippedLength
                      - tailAlignment.position + tailAlignment.getBeginClippedLength) with
                | none => none
                | some d =>
                  mergeRightAnchoredInversionAlignments a cigarBuffer headAlignment
                    tailAlignment best.breakpointOffset_ contigList best.getMistmatches (-d)
            | _, _ => none
  | _, _ => none

/-! ## Insertion engine -/

/-- The scan state `struct InsertionLocation`. -/
structure InsertionLocation where
  insertionLength_ : Nat
  leftRealignedMismatches_ : Nat
  rightRealignedMismatches_ : Nat
  insertionOffset_ : Nat
  tailLength_ : Nat
deriving DecidableEq, Repr

/-- The step `InsertionLocation::moveNext(tailIterator, referenceIterator)`; the two iterators
are taken by reference and are returned advanced; `none` when its assertion
`rightRealignedMismatches_ != -1U` fails.  The three dereferences are unchecked. -/
def InsertionLocation.moveNext (outside : Outside) (loc : InsertionLocation)
    (sequence contig : List Char)
    (tailIterator referenceIterator : Int) : Option (InsertionLocation × Int × Int) :=
  if loc.rightRealignedMismatches_ = minusOneU then none
  else
    let leftBase := derefUnchecked outside sequence (tailIterator - loc.insertionLength_)
    let rightBase := derefUnchecked outside sequence tailIterator
    let referenceBase := derefUnchecked outside contig referenceIterator
    some
      ({ insertionLength_ := loc.insertionLength_
         leftRealignedMismatches_ :=
           loc.leftRealignedMismatches_ + (if isMatch leftBase referenceBase then 0 else 1)
         rightRealignedMismatches_ :=
           u32 ((loc.rightRealignedMismatches_ : Int)
             - (if isMatch rightBase referenceBase then 0 else 1))
         insertionOffset_ := loc.insertionOffset_ + 1
         tailLength_ := u32 ((loc.tailLength_ : Int) - 1) },
       tailIterator + 1, referenceIterator + 1)

def InsertionLocation.getMistmatches (loc : InsertionLocation) : Nat :=
  (loc.leftRealignedMismatches_ + loc.rightRealignedMismatches_) % 4294967296

/-- The `for` loop of `alignSimpleInsertion` (lines 839-854); `lastOffset` is the value of
`tailSeedOffset - insertionLength`, and the first argument bounds the number of
iterations (the caller passes `lastOffset + 1 - tailOffset`). -/
def insertionScan (outside : Outside) (sequence contig : List Char) (lastOffset : Nat) :
    Nat → InsertionLocation → InsertionLocation → Int → Int → Option InsertionLocation
  | 0, bestLocation, _, _, _ => some bestLocation
  | fuel + 1, bestLocation, currentLocation, tailIterator, referenceIterator =>
    if bestLocation.getMistmatches ≠ 0 ∧ currentLocation.insertionOffset_ ≤ lastOffset then
      if currentLocation.rightRealignedMismatches_ = minusOneU then none
      else
        match currentLocation.moveNext outside sequence contig tailIterator referenceIterator with
        | none => none
        | some (nextLocation, tailIterator1, referenceIterator1) =>
          insertionScan outside sequence contig lastOffset fuel
            (if bestLocation.getMistmatches > currentLocation.getMistmatches
              then currentLocation else bestLocation)
            nextLocation tailIterator1 referenceIterator1
    else some bestLocation

/-- The member `SplitReadAligner::mergeInsertionAlignments` (lines 861-929).  Returns the boolean
result, the CIGAR buffer and the tail alignment. -/
def mergeInsertionAlignments (a : AlignerBase) (cigarBuffer : Cigar)
    (headAlignment tailAlignment : FragmentMetadata) (bestOffset : Nat)
    (contigList : ContigList) (_bestMismatches : Nat) (insertionLength : Nat) :
    Option (Bool × Cigar × FragmentMetadata) :=
  let clippingPositionOffset : Int := headAlignment.getBeginClippedLength
  let leftMapped : Nat := u32 (bestOffset - clippingPositionOffset)
  if ¬ (leftMapped ≤ headAlignment.getReadLength) then none
  else
    let leftClipped : Nat :=
      u32 (if leftMapped ≠ 0 then clippingPositionOffset
           else clippingPositionOffset + insertionLength)
    let cigarOffset := cigarBuffer.length
    let cigarBuffer1 :=
      if leftClipped ≠ 0 then cigarBuffer.addOperation leftClipped OpCode.SOFT_CLIP
      else cigarBuffer
    let cigarBuffer2 :=
      if leftMapped ≠ 0 then
        (cigarBuffer1.addOperation leftMapped OpCode.ALIGN).addOperation
          insertionLength OpCode.INSERT
      else cigarBuffer1
    let rightMapped : Nat :=
      u32 ((headAlignment.getObservedLength : Int) + headAlignment.getEndClippedLength
        - leftMapped - tailAlignment.getEndClippedLength - insertionLength)
    if rightMapped = 0 then some (false, cigarBuffer2, tailAlignment)
    else
      let cigarBuffer3 := cigarBuffer2.addOperation rightMapped OpCode.ALIGN
      let clipEndBases := tailAlignment.getEndClippedLength
      let cigarBuffer4 :=
        if clipEndBases ≠ 0 then cigarBuffer3.addOperation clipEndBases OpCode.SOFT_CLIP
        else cigarBuffer3
      -- Unlike alignSimpleDeletion, update tailAlignment
      let tailAlignment2 :=
        (a.resetAlignment tailAlignment).setLeftClipped headAlignment.leftClipped
      let updated :=
        a.updateFragmentCigar contigList tailAlignment2 headAlignment.reverse
          headAlignment.contigId headAlignment.position cigarBuffer4 cigarOffset
      if updated.1 = 0 then none else some (true, cigarBuffer4, updated.2)

/-- The member `SplitReadAligner::alignSimpleInsertion` (lines 766-859).  Returns the boolean
result, the CIGAR buffer and the tail alignment. -/
def alignSimpleInsertion (a : AlignerBase) (cigarBuffer : Cigar)
    (headAlignment : FragmentMetadata) (headSeedOffset : Nat)
    (tailAlignment : FragmentMetadata) (tailSeedOffset : Nat)
    (contigList : ContigList) : Option (Bool × Cigar × FragmentMetadata) :=
  let tailOffset : Nat := max tailAlignment.getBeginClippedLength headSeedOffset
  let observedEnd : Nat :=
    (tailAlignment.getBeginClippedLength + tailAlignment.getObservedLength) % 4294967296
  match numericCastUnsigned
      (headAlignment.getUnclippedPosition - tailAlignment.getUnclippedPosition) with
  | none => none
  | some insertionLength =>
    if u32 ((tailSeedOffset : Int) - headSeedOffset) < insertionLength then
      some (false, cigarBuffer, tailAlignment)
    else
      let sequence := headAlignment.read.getStrandSequence headAlignment.reverse
      match contigList.get? headAlignment.contigId with
      | none => none
      | some contig =>
        let tailIterator : Int := (tailOffset : Int) + insertionLength
        let tailLength : Int := toInt32 ((observedEnd : Int) - tailOffset - insertionLength)
        if 0 ≥ tailLength then some (false, cigarBuffer, tailAlignment)
        else
          -- number of mismatches when insertion is at the left extremity
          match countMismatches sequence tailIterator contig
              (headAlignment.getUnclippedPosition + tailOffset) contig.length
              tailLength.toNat with
          | none => none
          | some tailMismatches =>
            let referenceIterator : Int := headAlignment.getUnclippedPosition + tailOffset
            let bestLocation : InsertionLocation :=
              { insertionLength_ := insertionLength
                leftRealignedMismatches_ := 0
                rightRealignedMismatches_ := tailMismatches
                insertionOffset_ := tailOffset
                tailLength_ := tailLength.toNat }
            let lastOffset : Nat := u32 ((tailSeedOffset : Int) - insertionLength)
            match insertionScan a.outside sequence contig lastOffset (lastOffset + 1 - tailOffset)
                bestLocation bestLocation tailIterator referenceIterator with
            | none => none
            | some best =>
              mergeInsertionAlignments a cigarBuffer headAlignment tailAlignment
                best.insertionOffset_ contigList best.getMistmatches insertionLength

/-- Lines 781-855 of `alignSimpleInsertion`: the insertion length and the final
`bestLocation` with which the function reaches its call of `mergeInsertionAlignments`;
`none` when the function returns `false` or aborts before that call. -/
def insertionBestLocation (outside : Outside) (headAlignment : FragmentMetadata)
    (headSeedOffset : Nat)
    (tailAlignment : FragmentMetadata) (tailSeedOffset : Nat) (contigList : ContigList) :
    Option (Nat × InsertionLocation) :=
  let tailOffset : Nat := max tailAlignment.getBeginClippedLength headSeedOffset
  let observedEnd : Nat :=
    (tailAlignment.getBeginClippedLength + tailAlignment.getObservedLength) % 4294967296
  match numericCastUnsigned
      (headAlignment.getUnclippedPosition - tailAlignment.getUnclippedPosition) with
  | none => none
  | some insertionLength =>
    if u32 ((tailSeedOffset : Int) - headSeedOffset) < insertionLength then none
    else
      let sequence := headAlignment.read.getStrandSequence headAlignment.reverse
      match contigList.get? headAlignment.contigId with
      | none => none
      | some contig =>
        let tailIterator : Int := (tailOffset : Int) + insertionLength
        let tailLength : Int := toInt32 ((observedEnd : Int) - tailOffset - insertionLength)
        if 0 ≥ tailLength then none
        else
          match countMismatches sequence tailIterator contig
              (headAlignment.getUnclippedPosition + tailOffset) contig.length
              tailLength.toNat with
          | none => none
          | some tailMismatches =>
            let referenceIterator : Int := headAlignment.getUnclippedPosition + tailOffset
            let bestLocation : InsertionLocation :=
              { insertionLength_ := insertionLength
                leftRealignedMismatches_ := 0
                rightRealignedMismatches_ := tailMismatches
                insertionOffset_ := tailOffset
                tailLength_ := tailLength.toNat }
            let lastOffset : Nat := u32 ((tailSeedOffset : Int) - insertionLength)
            match insertionScan outside sequence contig lastOffset (lastOffset + 1 - tailOffset)
                bestLocation bestLocation tailIterator referenceIterator with
            | none => none
            | some best => some (insertionLength, best)

/-! ## Dispatcher -/

/-- The member `SplitReadAligner::pickBestSplit` (lines 931-954).  Returns the boolean result
and the fragment list. -/
def pickBestSplit (a : AlignerBase) (tmp1Worked : Bool) (tmp1 : FragmentMetadata)
    (tmp2Worked : Bool) (tmp2 : FragmentMetadata) (fragmentList : FragmentMetadataList) :
    Option (Bool × FragmentMetadataList) :=
  if tmp1Worked || tmp2Worked then
    let best : FragmentMetadata :=
      if tmp1Worked then (if tmp2Worked then (if a.isBetterGapped tmp1 tmp2 then tmp1 else tmp2)
        else tmp1)
      else tmp2
    if ¬ (fragmentList.capacity > fragmentList.size) then none
    else if best.getGapCount = 0 then some (false, fragmentList)
    else some (true, fragmentList.push_back best)
  else some (false, fragmentList)

/-- The member `SplitReadAligner::alignTranslocation` (lines 1111-1121). -/
def alignTranslocation (a : AlignerBase) (cigarBuffer : Cigar) (contigList : ContigList)
    (head tail : FragmentMetadata) : Option (Bool × Cigar × FragmentMetadata) :=
  alignSimpleDeletion a cigarBuffer head (max tail.getBeginClippedLength head.firstAnchor_.second)
    tail tail.lastAnchor_.first contigList

/-- The member `SplitReadAligner::alignIndel` (lines 1129-1203). -/
def alignIndel (a : AlignerBase) (cigarBuffer : Cigar) (contigList : ContigList)
    (regularIndelsOnly : Bool) (head tail : FragmentMetadata) :
    Option (Bool × Cigar × FragmentMetadata) :=
  if tail.lastAnchor_.empty || head.firstAnchor_.empty then some (false, cigarBuffer, head)
  else
    let expectedSeedDistance : Int := (tail.lastAnchor_.first : Int) - head.firstAnchor_.second
    if expectedSeedDistance < 0 then some (false, cigarBuffer, head)
    else
      let distance : Int := tail.getUnclippedPosition - head.getUnclippedPosition
      if distance = 0 then none
      else if |distance| < (a.splitGapLength_ : Int) ∨ regularIndelsOnly = false then
        let headSeedPosition : Int := head.getUnclippedPosition + head.firstAnchor_.second
        let tailSeedPosition : Int := tail.getUnclippedPosition + tail.lastAnchor_.first
        let actualSeedDistance : Int := tailSeedPosition - headSeedPosition
        if expectedSeedDistance < actualSeedDistance then
          -- this handles regular deletions
          alignSimpleDeletion a cigarBuffer head
            (max head.getBeginClippedLength tail.getBeginClippedLength) tail
            -- empty anchor, though legal, must allow for one base at the other side of deletion
            (u32 ((tail.lastAnchor_.first : Int) - (if tail.lastAnchor_.empty then 1 else 0)))
            contigList
        else if 0 ≤ actualSeedDistance ∨ -actualSeedDistance < (head.firstAnchor_.length : Int) then
          -- insertions are allowed only if the tail anchor is not aligned before head anchor
          match alignSimpleInsertion a cigarBuffer head head.firstAnchor_.first tail
              tail.lastAnchor_.first contigList with
          | none => none
          | some (true, cigarBuffer1, tmp) => some (true, cigarBuffer1, tmp)
          | some (false, cigarBuffer1, _) => some (false, cigarBuffer1, head)
        else if regularIndelsOnly = false then
          -- this has to be the local translocation
          if ¬ (0 > actualSeedDistance ∧
                -actualSeedDistance ≥ (head.firstAnchor_.length : Int)) then none
          else
            alignSimpleDeletion a cigarBuffer head
              (max head.getBeginClippedLength tail.getBeginClippedLength) tail
              tail.lastAnchor_.first contigList
        else some (false, cigarBuffer, head)
      else some (false, cigarBuffer, head)

/-- The conditions of lines 1137-1170 under which `alignIndel` reaches its call of
`alignSimpleInsertion`: both anchors present, the tail anchor not before the end of the head
anchor, a non-zero distance that is short enough (or any distance when other events are
allowed), not the deletion case, and the tail anchor not aligned before the head anchor. -/
def insertionPath (a : AlignerBase) (regularIndelsOnly : Bool) (head tail : FragmentMetadata) :
    Prop :=
  (tail.lastAnchor_.empty || head.firstAnchor_.empty) = false ∧
  ¬ ((tail.lastAnchor_.first : Int) - head.firstAnchor_.second < 0) ∧
  tail.getUnclippedPosition - head.getUnclippedPosition ≠ 0 ∧
  (|tail.getUnclippedPosition - head.getUnclippedPosition| < (a.splitGapLength_ : Int) ∨
    regularIndelsOnly = false) ∧
  ¬ ((tail.lastAnchor_.first : Int) - head.firstAnchor_.second <
      tail.getUnclippedPosition + tail.lastAnchor_.first
        - (head.getUnclippedPosition + head.firstAnchor_.second)) ∧
  (0 ≤ tail.getUnclippedPosition + tail.lastAnchor_.first
        - (head.getUnclippedPosition + head.firstAnchor_.second) ∨
    -(tail.getUnclippedPosition + tail.lastAnchor_.first
        - (head.getUnclippedPosition + head.firstAnchor_.second)) <
      (head.firstAnchor_.length : Int))

instance (a : AlignerBase) (regularIndelsOnly : Bool) (head tail : FragmentMetadata) :
    Decidable (insertionPath a regularIndelsOnly head tail) := by
  unfold insertionPath
  infer_instance

/-- The member `SplitReadAligner::resolveConflict` (lines 956-1047).  Returns the boolean result,
the CIGAR buffer and the fragment list. -/
def resolveConflict (a : AlignerBase) (contigList : ContigList) (regularIndelsOnly : Bool)
    (cigarBuffer : Cigar) (fragmentList : FragmentMetadataList) (head tail : FragmentMetadata) :
    Option (Bool × Cigar × FragmentMetadataList) :=
  let before := cigarBuffer.length
  let finish (r : Bool × Cigar × FragmentMetadataList) : Bool × Cigar × FragmentMetadataList :=
    if r.1 = false then (r.1, r.2.1.resize before, r.2.2) else r
  if head.reverse = tail.reverse then
    if head.firstAnchor_.second ≤ tail.lastAnchor_.first ∨
        tail.firstAnchor_.second ≤ head.lastAnchor_.first then
      if head.contigId = tail.contigId then
        match alignIndel a cigarBuffer contigList regularIndelsOnly head tail with
        | none => none
        | some (tmp1Worked, cigarBuffer1, tmp1) =>
          match alignIndel a cigarBuffer1 contigList regularIndelsOnly tail head with
          | none => none
          | some (tmp2Worked, cigarBuffer2, tmp2) =>
            match pickBestSplit a tmp1Worked tmp1 tmp2Worked tmp2 fragmentList with
            | none => none
            | some (ret, fragmentList1) => some (finish (ret, cigarBuffer2, fragmentList1))
      else if regularIndelsOnly = false then
        match alignTranslocation a cigarBuffer contigList head tail with
        | none => none
        | some (tmp1Worked, cigarBuffer1, tmp1) =>
          match alignTranslocation a cigarBuffer1 contigList tail head with
          | none => none
          | some (tmp2Worked, cigarBuffer2, tmp2) =>
            match pickBestSplit a tmp1Worked tmp1 tmp2Worked tmp2 fragmentList with
            | none => none
            | some (ret, fragmentList1) => some (finish (ret, cigarBuffer2, fragmentList1))
      else some (finish (false, cigarBuffer, fragmentList))
    else
      -- the head and tail anchors overlap, no point to try splitting the read
      some (finish (false, cigarBuffer, fragmentList))
  else if regularIndelsOnly = false then
    if (head.getObservedLength + tail.getObservedLength) % 4294967296 > head.getReadLength then
      match
        (if !head.firstAnchor_.empty && !tail.firstAnchor_.empty then
          alignLeftAnchoredInversion a cigarBuffer head
            (max head.firstAnchor_.second tail.getEndClippedLength) tail
            (min (u32 ((head.getReadLength : Int) - tail.firstAnchor_.second))
              (u32 ((head.getReadLength : Int) - head.getEndClippedLength)))
            contigList
        else some (false, cigarBuffer, head)) with
      | none => none
      | some (tmp1Worked, cigarBuffer1, tmp1) =>
        match
          (if !head.lastAnchor_.empty && !tail.lastAnchor_.empty then
            alignRightAnchoredInversion a cigarBuffer1 head
              (max (u32 ((head.getReadLength : Int) - tail.lastAnchor_.first))
                head.getBeginClippedLength) tail
              (min head.lastAnchor_.first
                (u32 ((head.getReadLength : Int) - tail.getBeginClippedLength)))
              contigList
          else some (false, cigarBuffer1, head)) with
        | none => none
        | some (tmp2Worked, cigarBuffer2, tmp2) =>
          match pickBestSplit a tmp1Worked tmp1 tmp2Worked tmp2 fragmentList with
          | none => none
          | some (ret, fragmentList1) => some (finish (ret, cigarBuffer2, fragmentList1))
    else some (finish (false, cigarBuffer, fragmentList))
  else some (finish (false, cigarBuffer, fragmentList))

/-- The first attempt of the inversion branch of `resolveConflict` (lines 1015-1024): the
left-anchored engine is called only when both first anchors are present; otherwise the
attempt counts as one that did not work. -/
def leftInversionAttempt (a : AlignerBase) (cigarBuffer : Cigar) (contigList : ContigList)
    (head tail : FragmentMetadata) : Option (Bool × Cigar × FragmentMetadata) :=
  if !head.firstAnchor_.empty && !tail.firstAnchor_.empty then
    alignLeftAnchoredInversion a cigarBuffer head
      (max head.firstAnchor_.second tail.getEndClippedLength) tail
      (min (u32 ((head.getReadLength : Int) - tail.firstAnchor_.second))
        (u32 ((head.getReadLength : Int) - head.getEndClippedLength)))
      contigList
  else some (false, cigarBuffer, head)

/-- The second attempt of the inversion branch of `resolveConflict` (lines 1026-1035): the
right-anchored engine is called only when both last anchors are present. -/
def rightInversionAttempt (a : AlignerBase) (cigarBuffer : Cigar) (contigList : ContigList)
    (head tail : FragmentMetadata) : Option (Bool × Cigar × FragmentMetadata) :=
  if !head.lastAnchor_.empty && !tail.lastAnchor_.empty then
    alignRightAnchoredInversion a cigarBuffer head
      (max (u32 ((head.getReadLength : Int) - tail.lastAnchor_.first))
        head.getBeginClippedLength) tail
      (min head.lastAnchor_.first
        (u32 ((head.getReadLength : Int) - tail.getBeginClippedLength)))
      contigList
  else some (false, cigarBuffer, head)

/-! ## The driver -/

/-- The body of the inner loop of `SplitReadAligner::alignSimpleSv` (lines 1087-1107) for the
tail at `tailOffset`: `head` and `tail` are read through their iterators from the list as it
is at the time of the call. -/
def alignSimpleSvTail (a : AlignerBase) (contigList : ContigList) (headOffset : Nat)
    (state : Cigar × FragmentMetadataList) (tailOffset : Nat) :
    Option (Cigar × FragmentMetadataList) :=
  match state.2.items.get? headOffset, state.2.items.get? tailOffset with
  | some head, some tail =>
    if tail.getMismatchCount = 0 then some state
    else
      match resolveConflict a contigList false state.1 state.2 head tail with
      | none => none
      | some (_, cigarBuffer1, fragmentList1) => some (cigarBuffer1, fragmentList1)
  | _, _ => none

/-- The body of the outer loop of `SplitReadAligner::alignSimpleSv` (lines 1071-1108) for the
head at `headOffset`. -/
def alignSimpleSvHead (a : AlignerBase) (contigList : ContigList) (endOffset : Nat)
    (state : Cigar × FragmentMetadataList) (headOffset : Nat) :
    Option (Cigar × FragmentMetadataList) :=
  match state.2.items.get? headOffset with
  | none => none
  | some head =>
    if head.getMismatchCount = 0 then some state
    else
      (List.range' (headOffset + 1) (endOffset - (headOffset + 1))).foldlM
        (alignSimpleSvTail a contigList headOffset) state

/-- The member `SplitReadAligner::alignSimpleSv` (lines 1055-1109).  Returns the CIGAR buffer
and the fragment list. -/
def alignSimpleSv (a : AlignerBase) (contigList : ContigList) (cigarBuffer : Cigar)
    (fragmentList : FragmentMetadataList) : Option (Cigar × FragmentMetadataList) :=
  if fragmentList.size < 2 then some (cigarBuffer, fragmentList)
  else
    let endOffset : Nat := fragmentList.size
    (List.range' 0 endOffset).foldlM (alignSimpleSvHead a contigList endOffset)
      (cigarBuffer, fragmentList)

/-- Whether `items` holds at index `i` an alignment with a mismatch count above zero. -/
def hasMismatches (items : List FragmentMetadata) (i : Nat) : Bool :=
  (items.get? i).any (fun f => decide (0 < f.getMismatchCount))

/-- The pairs of the claim about the driver, in the words of the spec: the pairs `(i, j)`
with `i < j < n`, `n` the size of the list at entry, whose alignments both have a mismatch
count above zero, in lexicographic order. -/
def svPairs (items : List FragmentMetadata) : List (Nat × Nat) :=
  (List.product (List.range items.length) (List.range items.length)).filter
    (fun p => decide (p.1 < p.2) && hasMismatches items p.1 && hasMismatches items p.2)

/-- One invocation of `resolveConflict` (with `regularIndelsOnly = false`) for the pair
`(i, j)` of alignments of the list at entry. -/
def svCall (a : AlignerBase) (contigList : ContigList) (items : List FragmentMetadata)
    (state : Cigar × FragmentMetadataList) (p : Nat × Nat) :
    Option (Cigar × FragmentMetadataList) :=
  match items.get? p.1, items.get? p.2 with
  | some head, some tail =>
    match resolveConflict a contigList false state.1 state.2 head tail with
    | none => none
    | some (_, cigarBuffer1, fragmentList1) => some (cigarBuffer1, fragmentList1)
  | _, _ => none

/-- The invocations of `resolveConflict` for a list of pairs, one after the other. -/
def svRun (a : AlignerBase) (contigList : ContigList) (items : List FragmentMetadata)
    (pairs : List (Nat × Nat)) (state : Cigar × FragmentMetadataList) :
    Option (Cigar × FragmentMetadataList) :=
  pairs.foldlM (svCall a contigList items) state

/-! ## Reference clipping and the stored fragment header -/

/-- The static member `AlignerBase::clipReference` of `AlignerBase.cpp` (lines 49-81).  The two
sequence iterators are indices into the strand sequence; the three reference parameters are
returned as `(fragmentPosition, sequenceBegin, sequenceEnd)`.  The arithmetic is `int64_t`,
taken here without overflow. -/
def AlignerBase.clipReference (referenceSize fragmentPosition sequenceBegin sequenceEnd : Int) :
    Int × Int × Int :=
  let referenceLeft : Int := referenceSize - fragmentPosition
  if referenceLeft ≥ 0 then
    let sequenceEnd1 : Int :=
      if referenceLeft < sequenceEnd - sequenceBegin then sequenceBegin + referenceLeft
      else sequenceEnd
    let sequenceBegin1 : Int :=
      if 0 > fragmentPosition then sequenceBegin - fragmentPosition else sequenceBegin
    let fragmentPosition1 : Int := if 0 > fragmentPosition then 0 else fragmentPosition
    -- in some cases other clipping can end the sequence before the reference even begins
    -- or begin after it ends...
    (fragmentPosition1, sequenceBegin1, max sequenceEnd1 sequenceBegin1)
  else
    -- the picard sam ValidateSamFile does not like it when alignment position points to the
    -- next base after the end of the contig.
    let fragmentPosition1 : Int := fragmentPosition + (referenceLeft - 1)
    let sequenceBegin1 : Int := sequenceBegin + (referenceLeft - 1) - 1
    (fragmentPosition1, sequenceBegin1, sequenceBegin1)

/-- The fields of `struct FragmentHeader` (`io/Fragment.hh`) that `leftClipped()` and
`rightClipped()` read: the bit `flags_.reverse_` and the two `unsigned short` counters. -/
structure FragmentHeader where
  reverse_ : Bool
  lowClipped_ : Nat
  highClipped_ : Nat
deriving DecidableEq, Repr

/-- The member `FragmentHeader::leftClipped` (line 299): number of bases clipped on the left
side of the fragment in respect to the reference. -/
def FragmentHeader.leftClipped (h : FragmentHeader) : Nat :=
  if h.reverse_ then h.highClipped_ else h.lowClipped_

/-- The member `FragmentHeader::rightClipped` (line 301): number of bases clipped on the right
side of the fragment in respect to the reference. -/
def FragmentHeader.rightClipped (h : FragmentHeader) : Nat :=
  if h.reverse_ then h.lowClipped_ else h.highClipped_

/-! ## Operations appended by the merge functions -/

/-- The operations that `mergeDeletionAlignments` appends when it accepts: the sequence of
its `addOperation` calls, each under its guard. -/
def deletionOps (h t : FragmentMetadata) (b : Nat) (d : Int) : List CigarOp :=
  (if (h.beginClippedLength : Int) ≠ 0 then
    [CigarOp.mk h.beginClippedLength OpCode.SOFT_CLIP] else []) ++
  (if u32 ((b : Int) - h.beginClippedLength) ≠ 0 then
    [CigarOp.mk (u32 ((b : Int) - h.beginClippedLength)) OpCode.ALIGN] ++
    (if t.contigId ≠ h.contigId then [CigarOp.mk t.contigId OpCode.CONTIG] else []) ++
    [CigarOp.mk d OpCode.DELETE] else []) ++
  (if u32 ((t.observedLength : Int) + t.beginClippedLength - b) ≠ 0 then
    [CigarOp.mk (u32 ((t.observedLength : Int) + t.beginClippedLength - b)) OpCode.ALIGN]
    else []) ++
  (if t.endClippedLength ≠ 0 then [CigarOp.mk t.endClippedLength OpCode.SOFT_CLIP] else [])

/-- The operations that `mergeInsertionAlignments` appends before it looks at `rightMapped`:
the leading soft clip, which takes in the inserted bases when `leftMapped` is zero, then
`ALIGN leftMapped` and `INSERT insertionLength` when `leftMapped` is non-zero. -/
def insertionLeftOps (h : FragmentMetadata) (b n : Nat) : List CigarOp :=
  (if u32 (if u32 ((b : Int) - h.beginClippedLength) ≠ 0 then (h.beginClippedLength : Int)
        else (h.beginClippedLength : Int) + n) ≠ 0 then
    [CigarOp.mk
      (u32 (if u32 ((b : Int) - h.beginClippedLength) ≠ 0 then (h.beginClippedLength : Int)
        else (h.beginClippedLength : Int) + n)) OpCode.SOFT_CLIP]
    else []) ++
  (if u32 ((b : Int) - h.beginClippedLength) ≠ 0 then
    [CigarOp.mk (u32 ((b : Int) - h.beginClippedLength)) OpCode.ALIGN,
     CigarOp.mk n OpCode.INSERT]
    else [])

/-- The operations that `mergeInsertionAlignments` appends once `rightMapped` is known to be
non-zero: `ALIGN rightMapped`, then the trailing soft clip of the tail. -/
def insertionRightOps (h t : FragmentMetadata) (b n : Nat) : List CigarOp :=
  [CigarOp.mk
    (u32 ((h.observedLength : Int) + h.endClippedLength
      - u32 ((b : Int) - h.beginClippedLength) - t.endClippedLength - n)) OpCode.ALIGN] ++
  (if t.endClippedLength ≠ 0 then [CigarOp.mk t.endClippedLength OpCode.SOFT_CLIP] else [])

/-- The operations that `mergeLeftAnchoredInversions` appends when `beginMapped` is non-zero:
the sequence of its `addOperation` calls, each under its guard. -/
def leftInversionOps (h t : FragmentMetadata) (b : Nat) (d : Int) : List CigarOp :=
  (if (h.beginClippedLength : Int) ≠ 0 then
    [CigarOp.mk h.beginClippedLength OpCode.SOFT_CLIP] else []) ++
  [CigarOp.mk (u32 ((b : Int) - h.beginClippedLength)) OpCode.ALIGN,
   CigarOp.mk
     ((u32 ((h.getReadLength : Int) - u32 ((b : Int) - h.beginClippedLength)) : Int)
       - h.beginClippedLength) OpCode.FLIP] ++
  (if t.contigId ≠ h.contigId then [CigarOp.mk t.contigId OpCode.CONTIG] else []) ++
  [CigarOp.mk d OpCode.DELETE] ++
  (if (t.beginClippedLength : Int) ≠ 0 then
    [CigarOp.mk t.beginClippedLength OpCode.SOFT_CLIP] else []) ++
  (if u32 ((t.observedLength : Int) + t.endClippedLength - b) ≠ 0 then
    [CigarOp.mk (u32 ((t.observedLength : Int) + t.endClippedLength - b)) OpCode.ALIGN]
    else []) ++
  [CigarOp.mk
    ((u32 ((t.getReadLength : Int) - u32 ((t.observedLength : Int) + t.endClippedLength - b))
      : Int) - t.beginClippedLength) OpCode.HARD_CLIP]

/-- The operations that `mergeRightAnchoredInversionAlignments` appends, when `beginMapped`
is non-zero, before it looks at `endMapped`. -/
def rightInversionHeadOps (h t : FragmentMetadata) (b : Nat) (d : Int) : List CigarOp :=
  [CigarOp.mk b OpCode.SOFT_CLIP,
   CigarOp.mk (u32 ((h.getReadLength : Int) - b - h.endClippedLength)) OpCode.ALIGN] ++
  (if h.endClippedLength ≠ 0 then [CigarOp.mk h.endClippedLength OpCode.SOFT_CLIP] else []) ++
  [CigarOp.mk
    (u32 ((h.getReadLength : Int) - b - h.endClippedLength
      - u32 ((h.getReadLength : Int) - b - h.endClippedLength))) OpCode.FLIP] ++
  (if t.contigId ≠ h.contigId then [CigarOp.mk t.contigId OpCode.CONTIG] else []) ++
  [CigarOp.mk d OpCode.DELETE,
   CigarOp.mk (u32 ((t.getReadLength : Int) - b)) OpCode.HARD_CLIP]

/-- The operations that `mergeRightAnchoredInversionAlignments` appends once `endMapped` is
known to be non-zero. -/
def rightInversionTailOps (t : FragmentMetadata) (b : Nat) : List CigarOp :=
  [CigarOp.mk (u32 ((b : Int) - t.endClippedLength)) OpCode.ALIGN] ++
  (if t.endClippedLength ≠ 0 then [CigarOp.mk t.endClippedLength OpCode.SOFT_CLIP] else [])

/-- Number of read bases that a CIGAR operation consumes: the length of a `SOFT_CLIP`,
`ALIGN` or `INSERT` operation, nothing for any other operation. -/
def readBases (op : CigarOp) : Int :=
  match op.opCode with
  | OpCode.SOFT_CLIP => op.length
  | OpCode.ALIGN => op.length
  | OpCode.INSERT => op.length
  | _ => 0

/-- Number of read bases that a list of CIGAR operations consumes. -/
def readConsumed (ops : List CigarOp) : Int := (ops.map readBases).sum

/-- The head alignment that `mergeDeletionAlignments` hands to the updater: the position
shift of the `headMapped == 0` branch, then `resetAlignment`, then the carried-over right
clipping. -/
def deletionUpdateInput (a : AlignerBase) (h t : FragmentMetadata) (b : Nat) (d : Int) :
    FragmentMetadata :=
  (a.resetAlignment
    (if u32 ((b : Int) - h.beginClippedLength) ≠ 0 then h
     else { h with contigId := t.contigId, position := h.position + d })).setRightClipped
    t.rightClipped

/-- What a returning call of `resolveConflict` leaves behind: either nothing changed, or
operations were appended to the buffer and one alignment to the list. -/
def ResolveOutcome (buf : Cigar) (fl : FragmentMetadataList)
    (r : Bool × Cigar × FragmentMetadataList) : Prop :=
  (r.1 = false ∧ r.2.1 = buf ∧ r.2.2 = fl) ∨
    (r.1 = true ∧ (∃ ops, ops ≠ [] ∧ r.2.1 = buf ++ ops) ∧ ∃ best, r.2.2 = fl.push_back best)

/-! ## A concrete instance of the collaborators

The collaborators below are used to run the engines on concrete reads.  They follow the
description of the updater callback in the spec: the callback walks the CIGAR slice that
starts at `cigarOffset` and recomputes the clipping, the observed length, the mismatch count,
the gap count and the edit distance; its result is the number of matching bases. -/

/-- Running totals of the CIGAR walk of `sampleUpdateAlignment`. -/
structure CigarWalk where
  readOffset : Int
  referenceOffset : Int
  observed : Nat
  matchCount : Nat
  mismatches : Nat
  gaps : Nat
  edits : Nat
deriving DecidableEq, Repr

/-- Matches and mismatches of `n` aligned bases starting at the given read and reference
offsets; bases outside the sequences are counted as neither. -/
def walkAligned (sequence reference : List Char) (readOffset referenceOffset : Int) :
    Nat → Nat × Nat
  | 0 => (0, 0)
  | n + 1 =>
    let r := walkAligned sequence reference readOffset referenceOffset n
    match deref sequence (readOffset + n), deref reference (referenceOffset + n) with
    | some b, some c => if isMatch b c then (r.1 + 1, r.2) else (r.1, r.2 + 1)
    | _, _ => r

/-- One step of the CIGAR walk.  `FLIP`, `CONTIG` and `HARD_CLIP` leave the totals
unchanged. -/
def walkOperation (sequence reference : List Char) (w : CigarWalk) (op : CigarOp) : CigarWalk :=
  match op.opCode with
  | OpCode.ALIGN =>
    let r := walkAligned sequence reference w.readOffset w.referenceOffset op.length.toNat
    { w with
      readOffset := w.readOffset + op.length
      referenceOffset := w.referenceOffset + op.length
      observed := w.observed + op.length.toNat
      matchCount := w.matchCount + r.1
      mismatches := w.mismatches + r.2
      edits := w.edits + r.2 }
  | OpCode.SOFT_CLIP => { w with readOffset := w.readOffset + op.length }
  | OpCode.INSERT =>
    { w with
      readOffset := w.readOffset + op.length
      gaps := w.gaps + 1
      edits := w.edits + op.length.toNat }
  | OpCode.DELETE =>
    { w with
      referenceOffset := w.referenceOffset + op.length
      gaps := w.gaps + 1
      edits := w.edits + op.length.natAbs }
  | _ => w

/-- Length of the soft clip that an operation stands for (`0` for any other operation). -/
def softClipLength (op : Option CigarOp) : Nat :=
  match op with
  | some (CigarOp.mk length OpCode.SOFT_CLIP) => length.toNat
  | _ => 0

/-- Modelled from the spec: `FragmentMetadata::updateAlignment` is declared in
`alignment/FragmentMetadata.hh`, which is not among the sources.  The callback recomputes
mismatches, edit distance, gap count and clipping from the CIGAR slice at `cigarOffset`;
`strandPosition` is the reference position of the first base after the leading soft clip. -/
def sampleUpdateAlignment (fragment : FragmentMetadata) (contigList : ContigList)
    (reverse : Bool) (contigId : Nat) (strandPosition : Int) (cigarBuffer : Cigar)
    (cigarOffset : Nat) : Nat × FragmentMetadata :=
  let ops := cigarBuffer.drop cigarOffset
  let sequence := fragment.read.getStrandSequence reverse
  let reference := (contigList.get? contigId).getD []
  let w :=
    ops.foldl (walkOperation sequence reference)
      { readOffset := 0, referenceOffset := strandPosition,
        observed := 0, matchCount := 0, mismatches := 0, gaps := 0, edits := 0 }
  (w.matchCount,
    { fragment with
      contigId := contigId
      position := strandPosition
      reverse := reverse
      observedLength := w.observed
      beginClippedLength := softClipLength ops.head?
      endClippedLength := if ops.length ≤ 1 then 0 else softClipLength ops.getLast?
      mismatchCount := w.mismatches
      gapCount := w.gaps
      editDistance := w.edits
      cigarOffset := cigarOffset
      cigarLength := ops.length })

/-- Modelled from the spec: `FragmentMetadata::resetAlignment` is declared in
`alignment/FragmentMetadata.hh`, which is not among the sources.  It forgets the alignment
(CIGAR slice, lengths, counters, anchors) and keeps the read, the strand, the contig and the
alignment-independent clipping counters; the position falls back to the unclipped position,
to which the merge functions add the leading clip when they call the updater. -/
def sampleResetAlignment (f : FragmentMetadata) : FragmentMetadata :=
  { f with
    position := f.getUnclippedPosition
    observedLength := 0
    beginClippedLength := 0
    endClippedLength := 0
    mismatchCount := 0
    gapCount := 0
    editDistance := 0
    alignmentScore := 0
    firstAnchor_ := Anchor.mk 0 0
    lastAnchor_ := Anchor.mk 0 0
    cigarOffset := 0
    cigarLength := 0 }

/-- Modelled from the spec: `FragmentMetadata::isBetterGapped` is declared in
`alignment/FragmentMetadata.hh`, which is not among the sources.  The ordering is: fewest
mismatches, tiebreak lower gap count, tiebreak higher score. -/
def sampleIsBetterGapped (x y : FragmentMetadata) : Bool :=
  decide (x.mismatchCount < y.mismatchCount) ||
    (x.mismatchCount == y.mismatchCount &&
      (decide (x.gapCount < y.gapCount) ||
        (x.gapCount == y.gapCount && decide (x.alignmentScore > y.alignmentScore))))

/-- The collaborators above, with a split gap length of 10000 bases and a memory that holds
the byte 0 around every sequence. -/
def sampleAligner : AlignerBase where
  outside := fun _ _ => Char.ofNat 0
  splitGapLength_ := 10000
  resetAlignment := sampleResetAlignment
  updateAlignment := sampleUpdateAlignment
  isBetterGapped := sampleIsBetterGapped

/-- An ungapped candidate alignment of `read` (forward strand) at `position` of contig
`contigId`, with the given mismatch count and anchors. -/
def ungappedCandidate (read : Read) (contigId : Nat) (position : Int) (mismatchCount : Nat)
    (firstAnchor lastAnchor : Anchor) : FragmentMetadata where
  read := read
  contigId := contigId
  position := position
  reverse := false
  lowClipped := 0
  highClipped := 0
  observedLength := read.getLength
  beginClippedLength := 0
  endClippedLength := 0
  mismatchCount := mismatchCount
  gapCount := 0
  editDistance := mismatchCount
  alignmentScore := 0
  firstAnchor_ := firstAnchor
  lastAnchor_ := lastAnchor
  cigarOffset := 0
  cigarLength := 0

/-- Scenario 1 of the spec: the reference `AAAACCCCGGGGTTTT`. -/
def deletionReference : ContigList := ["AAAACCCCGGGGTTTT".toList]

/-- Scenario 1 of the spec: the read `AAAAGGGGTTTT`, which lacks `CCCC`. -/
def deletionRead : Read where
  forwardSequence := "AAAAGGGGTTTT".toList
  reverseSequence := "AAAACCCCTTTT".toList

/-- The candidate anchored on the first four bases of the read, at position 0. -/
def deletionHead : FragmentMetadata :=
  ungappedCandidate deletionRead 0 0 8 (Anchor.mk 0 4) (Anchor.mk 0 4)

/-- The candidate anchored on the last four bases of the read, at position 4. -/
def deletionTail : FragmentMetadata :=
  ungappedCandidate deletionRead 0 4 4 (Anchor.mk 8 12) (Anchor.mk 8 12)

/-- The gapped alignment `4M4D8M` at position 0 that scenario 1 produces from
`deletionHead` and `deletionTail`. -/
def deletionMerged : FragmentMetadata :=
  { ungappedCandidate deletionRead 0 0 0 (Anchor.mk 0 0) (Anchor.mk 0 0) with
    gapCount := 1
    editDistance := 4
    cigarLength := 3 }

/-- The CIGAR `4M4D8M` of scenario 1. -/
def deletionMergedCigar : Cigar :=
  [CigarOp.mk 4 OpCode.ALIGN, CigarOp.mk 4 OpCode.DELETE, CigarOp.mk 8 OpCode.ALIGN]

/-- The gapped alignment `8M4D4M` at position 0 that the clipped candidates of scenario 1
give when merged at offset 8: four mismatches. -/
def deletionShifted : FragmentMetadata :=
  { deletionMerged with
    mismatchCount := 4
    editDistance := 8 }

/-- The ungapped alignment `12M` at position 4 that the candidates of scenario 1 give when
merged at offset 0. -/
def deletionUngapped : FragmentMetadata :=
  { deletionMerged with
    position := 4
    mismatchCount := 4
    gapCount := 0
    cigarLength := 1 }

/-- A candidate alignment of `read` (forward strand) with soft clips: `beginClip` bases
clipped on the left, `observed` bases aligned from `position` on, `endClip` bases clipped on
the right. -/
def clippedCandidate (read : Read) (contigId : Nat) (position : Int)
    (beginClip observed endClip mismatchCount : Nat) (firstAnchor lastAnchor : Anchor) :
    FragmentMetadata :=
  { ungappedCandidate read contigId position mismatchCount firstAnchor lastAnchor with
    observedLength := observed
    beginClippedLength := beginClip
    endClippedLength := endClip
    cigarLength := 2 }

/-- Scenario 1 of the spec: the head `4M8S` at position 0. -/
def clippedHead : FragmentMetadata :=
  clippedCandidate deletionRead 0 0 0 4 8 0 (Anchor.mk 0 4) (Anchor.mk 0 4)

/-- Scenario 1 of the spec: the tail `8S4M`, whose first aligned base is at position 12. -/
def clippedTail : FragmentMetadata :=
  clippedCandidate deletionRead 0 12 8 4 0 0 (Anchor.mk 8 12) (Anchor.mk 8 12)

/-- The deletion CIGAR as the specification words it: the two soft clips are left out when
their length is zero, and `ALIGN head_mapped`, `DELETE deletion_length`, `ALIGN tail_mapped`
are always present, with `head_mapped = b* − head.begin_clip` and
`tail_mapped = tail.begin_clip + tail.observed_length − b*`. -/
def deletionCigarAsSpecified (head tail : FragmentMetadata) (bestOffset : Nat)
    (deletionLength : Int) : List CigarOp :=
  (if head.beginClippedLength = 0 then []
    else [CigarOp.mk head.beginClippedLength OpCode.SOFT_CLIP]) ++
  [CigarOp.mk ((bestOffset : Int) - head.beginClippedLength) OpCode.ALIGN,
   CigarOp.mk deletionLength OpCode.DELETE,
   CigarOp.mk ((tail.beginClippedLength : Int) + tail.observedLength - bestOffset)
     OpCode.ALIGN] ++
  (if tail.endClippedLength = 0 then []
    else [CigarOp.mk tail.endClippedLength OpCode.SOFT_CLIP])

/-- A contig on which the head candidate of `noGainRead` (position 0) has one mismatch, at
read offset 5, and the tail candidate (position 12) has five, at read offsets 0-3 and 11. -/
def noGainContig : Contig := "ACGTAGGTACGTTGCAACGTACGA".toList

/-- The read `ACGTACGTACGT`. -/
def noGainRead : Read where
  forwardSequence := "ACGTACGTACGT".toList
  reverseSequence := "ACGTACGTACGT".toList

/-- The ungapped candidate at position 0, anchored on read bases 0-3; one mismatch. -/
def noGainHead : FragmentMetadata :=
  ungappedCandidate noGainRead 0 0 1 (Anchor.mk 0 4) (Anchor.mk 0 4)

/-- The ungapped candidate at position 12, anchored on read bases 4-7; five mismatches. -/
def noGainTail : FragmentMetadata :=
  ungappedCandidate noGainRead 0 12 5 (Anchor.mk 4 8) (Anchor.mk 4 8)

/-- A contig on which the tail candidate of `deletionRead` (position 16) matches the whole
read but its last base, while the head candidate (position 0) matches the first four bases
only. -/
def ungappedContig : Contig := "AAAACCCCGGGGTTTTAAAAGGGGTTTA".toList

/-- The ungapped candidate of `deletionRead` at position 0 of `ungappedContig`. -/
def ungappedHead : FragmentMetadata :=
  ungappedCandidate deletionRead 0 0 8 (Anchor.mk 0 4) (Anchor.mk 0 4)

/-- The ungapped candidate of `deletionRead` at position 16 of `ungappedContig`. -/
def ungappedTail : FragmentMetadata :=
  ungappedCandidate deletionRead 0 16 1 (Anchor.mk 8 11) (Anchor.mk 8 11)

/-- A contig with the tandem repeat `TTTT`. -/
def insertionContig : Contig := "CCAAAATTTTGGGGCC".toList

/-- The read `AAAATTTTTTGGGG`: bases 2-15 of `insertionContig` with two more `T`. -/
def insertionRead : Read where
  forwardSequence := "AAAATTTTTTGGGG".toList
  reverseSequence := "CCCCAAAAAATTTT".toList

/-- The ungapped candidate at position 2, anchored on read bases 0-6 (`AAAATTT`). -/
def insertionHead : FragmentMetadata :=
  ungappedCandidate insertionRead 0 2 4 (Anchor.mk 0 7) (Anchor.mk 0 7)

/-- The ungapped candidate at position 2, anchored on read bases 0-4 (`AAAAT`). -/
def insertionShortHead : FragmentMetadata :=
  ungappedCandidate insertionRead 0 2 4 (Anchor.mk 0 5) (Anchor.mk 0 5)

/-- The ungapped candidate at position 0, anchored on read bases 8-13 (`TTGGGG`). -/
def insertionTail : FragmentMetadata :=
  ungappedCandidate insertionRead 0 0 4 (Anchor.mk 8 14) (Anchor.mk 8 14)

/-- The alignment `4M2I8M` at position 2 that the insertion aligner makes of `insertionRead`. -/
def insertionMerged : FragmentMetadata :=
  { ungappedCandidate insertionRead 0 2 0 (Anchor.mk 0 0) (Anchor.mk 0 0) with
    observedLength := 12
    gapCount := 1
    editDistance := 2
    cigarLength := 3 }

/-- A contig whose bases 2-13 are the last twelve bases of `prefixRead`. -/
def prefixContig : Contig := "TTACGTTGCATTGGCC".toList

/-- The read `ACACGTTGCATTGG`: its first two bases repeat the two bases that follow. -/
def prefixRead : Read where
  forwardSequence := "ACACGTTGCATTGG".toList
  reverseSequence := "CCAATGCAACGTGT".toList

/-- The ungapped candidate at position 2, anchored on read bases 0-1 (`AC`). -/
def prefixHead : FragmentMetadata :=
  ungappedCandidate prefixRead 0 2 12 (Anchor.mk 0 2) (Anchor.mk 0 2)

/-- The ungapped candidate at position 0, anchored on read bases 8-13 (`CATTGG`). -/
def prefixTail : FragmentMetadata :=
  ungappedCandidate prefixRead 0 0 2 (Anchor.mk 8 14) (Anchor.mk 8 14)

/-- A contig that holds `AAAACC` at position 0 and `AAACAC`, the reverse complement of
`GTGTTT`, at position 10. -/
def inversionContig : Contig := "AAAACCTTTTAAACACGGCCCCCC".toList

/-- The read `AAAACCGTGTTT`, whose last six bases are inverted on `inversionContig`. -/
def inversionRead : Read where
  forwardSequence := "AAAACCGTGTTT".toList
  reverseSequence := "AAACACGGTTTT".toList

/-- The forward candidate at position 0, anchored on read bases 0-5. -/
def inversionHead : FragmentMetadata :=
  ungappedCandidate inversionRead 0 0 4 (Anchor.mk 0 6) (Anchor.mk 0 6)

/-- The reverse-strand candidate at position 10, anchored on bases 0-5 of the reverse
sequence. -/
def inversionTail : FragmentMetadata :=
  { ungappedCandidate inversionRead 0 10 4 (Anchor.mk 0 6) (Anchor.mk 0 6) with reverse := true }

/-- The reverse-strand candidate `2S10M`, whose first aligned base is at position 12. -/
def inversionClippedTail : FragmentMetadata :=
  { clippedCandidate inversionRead 0 12 2 10 0 4 (Anchor.mk 2 6) (Anchor.mk 2 6) with
    reverse := true }

/-- Scenario 4 of the spec: contig 0 `AAAAAAAA` and contig 1 `TTTTTTTT`. -/
def translocationContigs : ContigList := ["AAAAAAAA".toList, "TTTTTTTT".toList]

/-- Scenario 4 of the spec: the read `AAAATTTT`. -/
def translocationRead : Read where
  forwardSequence := "AAAATTTT".toList
  reverseSequence := "AAAATTTT".toList

/-- The ungapped candidate at position 0 of contig 0, anchored on read bases 0-3. -/
def translocationHead : FragmentMetadata :=
  ungappedCandidate translocationRead 0 0 4 (Anchor.mk 0 4) (Anchor.mk 0 4)

/-- The ungapped candidate at position 0 of contig 1, anchored on read bases 4-7. -/
def translocationTail : FragmentMetadata :=
  ungappedCandidate translocationRead 1 0 4 (Anchor.mk 4 8) (Anchor.mk 4 8)

/-- The forward candidate of `inversionRead` with an empty first anchor at offset 6. -/
def inversionUnanchoredHead : FragmentMetadata :=
  { inversionHead with firstAnchor_ := Anchor.mk 6 6 }

/-- The candidate `deletionHead` with anchors that reach up to read base 8. -/
def overlapHead : FragmentMetadata :=
  ungappedCandidate deletionRead 0 0 8 (Anchor.mk 0 9) (Anchor.mk 0 9)

/-- The alignment `2S12M` at position 2 that the insertion merge makes of `prefixHead` and
`prefixTail` at offset 0. -/
def prefixMerged : FragmentMetadata :=
  { ungappedCandidate prefixRead 0 2 0 (Anchor.mk 0 0) (Anchor.mk 0 0) with
    observedLength := 12
    beginClippedLength := 2
    cigarLength := 2 }

/-- A contig that holds `TATTACAGGCTC` at position 0 and `GAGC` at position 20. -/
def mirrorContig : Contig := "TATTACAGGCTCAAAAAAAAGAGCAAAAGGGCAAAA".toList

/-- The read `GATTACAGGCTC`; its reverse complement is `GAGCCTGTAATC`. -/
def mirrorRead : Read where
  forwardSequence := "GATTACAGGCTC".toList
  reverseSequence := "GAGCCTGTAATC".toList

/-- The forward candidate at position 0, anchored on read bases 1-6: one mismatch, at the
first base. -/
def mirrorForward : FragmentMetadata :=
  ungappedCandidate mirrorRead 0 0 1 (Anchor.mk 1 7) (Anchor.mk 1 7)

/-- The reverse candidate at position 20, anchored on the first four bases of the reverse
complement: seven mismatches, all after the anchor. -/
def mirrorReverse : FragmentMetadata :=
  { ungappedCandidate mirrorRead 0 20 7 (Anchor.mk 0 4) (Anchor.mk 0 4) with reverse := true }

/-- The counters that `isBetterGapped` compares agree on two alignments. -/
def SameCounts (f g : FragmentMetadata) : Prop :=
  f.mismatchCount = g.mismatchCount ∧ f.gapCount = g.gapCount ∧
    f.alignmentScore = g.alignmentScore

/-- The updater reads the CIGAR buffer from `cigarOffset` on only: what the buffer holds
before the slice changes neither the number of matches it returns nor the counters of the
alignment it makes. -/
def PrefixIndependent (a : AlignerBase) : Prop :=
  ∀ (f : FragmentMetadata) (contigList : ContigList) (reverse : Bool) (contigId : Nat)
    (strandPosition : Int) (cigarBuffer cigarBuffer1 ops : Cigar),
    (a.updateAlignment f contigList reverse contigId strandPosition (cigarBuffer ++ ops)
        cigarBuffer.length).1 =
      (a.updateAlignment f contigList reverse contigId strandPosition (cigarBuffer1 ++ ops)
        cigarBuffer1.length).1 ∧
    SameCounts
      (a.updateAlignment f contigList reverse contigId strandPosition (cigarBuffer ++ ops)
        cigarBuffer.length).2
      (a.updateAlignment f contigList reverse contigId strandPosition (cigarBuffer1 ++ ops)
        cigarBuffer1.length).2

/-- Two attempts end alike: both abort, or both return the same boolean and, when it is
`true`, alignments with the same counters. -/
def SameAttempt (r r1 : Option (Bool × Cigar × FragmentMetadata)) : Prop :=
  match r, r1 with
  | none, none => True
  | some x, some y => x.1 = y.1 ∧ (x.1 = true → SameCounts x.2.2 y.2.2)
  | _, _ => False

/-- Two calls of `resolveConflict` on the list `fragmentList` end alike: both abort, or both
return the same boolean and, when it is `true`, each has appended one alignment to the list
and the two appended alignments have the same mismatch count. -/
def SameResolution (fragmentList : FragmentMetadataList)
    (r r1 : Option (Bool × Cigar × FragmentMetadataList)) : Prop :=
  match r, r1 with
  | none, none => True
  | some x, some y =>
    x.1 = y.1 ∧
      (x.1 = true →
        ∃ best best1, x.2.2 = fragmentList.push_back best ∧
          y.2.2 = fragmentList.push_back best1 ∧
          best.getMismatchCount = best1.getMismatchCount)
  | _, _ => False

/-- The file-local function `clipReference` of `FragmentSequencingAdapterClipper.cpp`
(lines 40-58), which reads the position off the fragment.  The two sequence iterators are
indices into the strand sequence; the result is the returned new position together with the
two iterators, `(newPosition, sequenceBegin, sequenceEnd)`.  The arithmetic is `int64_t`,
taken here without overflow. -/
def clipReference (fragmentMetadata : FragmentMetadata) (sequenceBegin sequenceEnd : Int)
    (referenceSize : Int) : Int × Int × Int :=
  let referenceLeft : Int := referenceSize - fragmentMetadata.position
  let sequenceEnd1 : Int :=
    if referenceLeft < sequenceEnd - sequenceBegin then sequenceBegin + referenceLeft
    else sequenceEnd
  if 0 > fragmentMetadata.position then
    (0, sequenceBegin - fragmentMetadata.position, sequenceEnd1)
  else (fragmentMetadata.position, sequenceBegin, sequenceEnd1)

/-- A contig that holds `AAAACCCC` at position 12 and, before it, `TTTT` at position 8. -/
def backJumpContig : Contig := "GGGGGGGGTTTTAAAACCCCGGGG".toList

/-- The read `AAAACCCCTTTT`: its last four bases lie on `backJumpContig` before its first
eight. -/
def backJumpRead : Read where
  forwardSequence := "AAAACCCCTTTT".toList
  reverseSequence := "AAAAGGGGTTTT".toList

/-- The candidate at position 12, anchored on the first eight bases of the read. -/
def backJumpHead : FragmentMetadata :=
  ungappedCandidate backJumpRead 0 12 4 (Anchor.mk 0 8) (Anchor.mk 0 8)

/-- The candidate at position 0, anchored on the last four bases of the read. -/
def backJumpTail : FragmentMetadata :=
  ungappedCandidate backJumpRead 0 0 8 (Anchor.mk 8 12) (Anchor.mk 8 12)

/-! ## The scans step by step -/

/-- The location that `k` calls of `DeletionLocation::moveNext` make of `start`. -/
def deletionLocationAfter (outside : Outside) (sequence headReference tailReference : List Char) :
    Nat → DeletionLocation → Option DeletionLocation
  | 0, start => some start
  | k + 1, start =>
    match start.moveNext outside sequence headReference tailReference with
    | none => none
    | some next => deletionLocationAfter outside sequence headReference tailReference k next

/-- Lines 155-170 of `alignSimpleDeletion`: the location at the leftmost breakpoint, with the
two counters that `countMismatches` gives; it is the value of both `bestLocation` and
`currentLocation` when the scan starts. -/
def deletionStartLocation (headAlignment : FragmentMetadata) (firstBreakpointOffset : Nat)
    (tailAlignment : FragmentMetadata) (headReference tailReference : Contig) :
    Option DeletionLocation :=
  let sequence := headAlignment.getStrandSequence
  let breakpointIterator : Int := firstBreakpointOffset
  let tailEndOffset : Nat :=
    (tailAlignment.getBeginClippedLength + tailAlignment.getObservedLength) % 4294967296
  let tailLength : Nat := tailEndOffset - firstBreakpointOffset
  let headEndReferenceIterator : Int :=
    firstBreakpointOffset + headAlignment.getUnclippedPosition
  let headLength : Nat :=
    u32 ((firstBreakpointOffset : Int) - headAlignment.getBeginClippedLength)
  let tailBeginReferenceIterator : Int :=
    firstBreakpointOffset + tailAlignment.getUnclippedPosition
  match
    countMismatches sequence headAlignment.getBeginClippedLength headReference
      headAlignment.position headReference.length headLength,
    countMismatches sequence breakpointIterator tailReference
      tailBeginReferenceIterator tailReference.length tailLength with
  | some leftRealignedMismatches, some rightRealignedMismatches =>
    some
      { leftRealignedMismatches_ := leftRealignedMismatches
        rightRealignedMismatches_ := rightRealignedMismatches
        deletionOffset_ := firstBreakpointOffset
        breakpointIterator_ := breakpointIterator
        headEndReferenceIterator_ := headEndReferenceIterator
        tailBeginReferenceIterator_ := tailBeginReferenceIterator }
  | _, _ => none

/-- Whether the base `sequence[i]` and the base `reference[i + shift]` are both there and do
not match. -/
def mismatchAt (sequence reference : List Char) (shift : Int) (i : Nat) : Bool :=
  match deref sequence i, deref reference (i + shift) with
  | some base, some referenceBase => !isMatch base referenceBase
  | _, _ => false

/-- The brute-force mismatch count of the claims on scanner consistency: the number of
offsets `i` of `[first, last)` at which the base `sequence[i]` does not match the base
`reference[i + shift]`. -/
def bruteForceMismatches (sequence reference : List Char) (shift : Int) (first last : Nat) :
    Nat :=
  ((List.range' first (last - first)).filter (mismatchAt sequence reference shift)).length

/-- The deletion location that a recount gives at the breakpoint offset `offset`: the left
counter is the brute-force count of `sequence[beginClip, offset)` against the head
reference, the right counter that of `sequence[offset, tailEnd)` against the tail reference,
the head reference lying `headShift` and the tail reference `tailShift` bases from the
read. -/
def recountedDeletionLocation (sequence headReference tailReference : List Char)
    (headShift tailShift : Int) (beginClip tailEnd offset : Nat) : DeletionLocation where
  leftRealignedMismatches_ :=
    bruteForceMismatches sequence headReference headShift beginClip offset
  rightRealignedMismatches_ :=
    bruteForceMismatches sequence tailReference tailShift offset tailEnd
  deletionOffset_ := offset
  breakpointIterator_ := offset
  headEndReferenceIterator_ := offset + headShift
  tailBeginReferenceIterator_ := offset + tailShift

/-- The location and the two iterators that `k` calls of `InsertionLocation::moveNext` make
of a location and the two iterators it is called with. -/
def insertionLocationAfter (outside : Outside) (sequence contig : List Char) :
    Nat → InsertionLocation × Int × Int → Option (InsertionLocation × Int × Int)
  | 0, state => some state
  | k + 1, state =>
    match state.1.moveNext outside sequence contig state.2.1 state.2.2 with
    | none => none
    | some next => insertionLocationAfter outside sequence contig k next

/-- Lines 781-836 of `alignSimpleInsertion`: the insertion length, the location at
`tailOffset` (the value of both `bestLocation` and `currentLocation` when the scan starts) and
the two iterators `tailIterator` and `referenceIterator`; `none` when the function returns
`false` or aborts before the scan. -/
def insertionStartLocation (headAlignment : FragmentMetadata) (headSeedOffset : Nat)
    (tailAlignment : FragmentMetadata) (tailSeedOffset : Nat) (contigList : ContigList) :
    Option (Nat × InsertionLocation × Int × Int) :=
  let tailOffset : Nat := max tailAlignment.getBeginClippedLength headSeedOffset
  let observedEnd : Nat :=
    (tailAlignment.getBeginClippedLength + tailAlignment.getObservedLength) % 4294967296
  match numericCastUnsigned
      (headAlignment.getUnclippedPosition - tailAlignment.getUnclippedPosition) with
  | none => none
  | some insertionLength =>
    if u32 ((tailSeedOffset : Int) - headSeedOffset) < insertionLength then none
    else
      let sequence := headAlignment.read.getStrandSequence headAlignment.reverse
      match contigList.get? headAlignment.contigId with
      | none => none
      | some contig =>
        let tailIterator : Int := (tailOffset : Int) + insertionLength
        let tailLength : Int := toInt32 ((observedEnd : Int) - tailOffset - insertionLength)
        if 0 ≥ tailLength then none
        else
          match countMismatches sequence tailIterator contig
              (headAlignment.getUnclippedPosition + tailOffset) contig.length
              tailLength.toNat with
          | none => none
          | some tailMismatches =>
            let referenceIterator : Int := headAlignment.getUnclippedPosition + tailOffset
            some (insertionLength,
              { insertionLength_ := insertionLength
                leftRealignedMismatches_ := 0
                rightRealignedMismatches_ := tailMismatches
                insertionOffset_ := tailOffset
                tailLength_ := tailLength.toNat },
              tailIterator, referenceIterator)

/-- The insertion location that a recount gives `k` steps after `tailOffset`, with the two
iterators: the left counter is the brute-force count of `sequence[tailOffset, tailOffset + k)`
against the reference `shift` bases from the read, the right counter that of
`sequence[tailOffset + k + insertionLength, observedEnd)` against the reference
`shift − insertionLength` bases from the read. -/
def recountedInsertionLocation (sequence contig : List Char) (shift : Int)
    (insertionLength tailOffset observedEnd k : Nat) : InsertionLocation × Int × Int :=
  ({ insertionLength_ := insertionLength
     leftRealignedMismatches_ :=
       bruteForceMismatches sequence contig shift tailOffset (tailOffset + k)
     rightRealignedMismatches_ :=
       bruteForceMismatches sequence contig (shift - insertionLength)
         (tailOffset + k + insertionLength) observedEnd
     insertionOffset_ := tailOffset + k
     tailLength_ := observedEnd - tailOffset - insertionLength - k },
   (tailOffset : Int) + insertionLength + k, shift + tailOffset + k)

/-- Lines 343-414 of `alignLeftAnchoredInversion`: the final `bestLocation` with which the
function reaches its call of `mergeLeftAnchoredInversions`; `none` when the function returns
`false` or aborts before that call. -/
def leftInversionBestLocation (outside : Outside) (headAlignment : FragmentMetadata)
    (firstBreakpointOffset : Nat)
    (tailAlignment : FragmentMetadata) (lastBreakpointOffset : Nat)
    (contigList : ContigList) : Option InversionLocation :=
  match contigList.get? headAlignment.contigId, contigList.get? tailAlignment.contigId with
  | some headReference, some tailReference =>
    let headSequence := headAlignment.getStrandSequence
    let headBreakpointIterator : Int := firstBreakpointOffset
    let tailSequence := tailAlignment.getStrandSequence
    let tailBreakpointIterator : Int := (tailSequence.length : Int) - firstBreakpointOffset
    let headEndReferenceIterator : Int :=
      headAlignment.getUnclippedPosition + firstBreakpointOffset
    let tailBeginReferenceIterator : Int :=
      tailAlignment.getUnclippedPosition + tailAlignment.getReadLength - firstBreakpointOffset
    if ¬ (0 ≤ tailBeginReferenceIterator ∧
          tailBeginReferenceIterator ≤ tailReference.length) then none
    else if firstBreakpointOffset < headAlignment.getBeginClippedLength then none
    else
      let headLength : Nat := firstBreakpointOffset - headAlignment.getBeginClippedLength
      if ¬ (u32 ((tailAlignment.getReadLength : Int) - firstBreakpointOffset)
            ≥ tailAlignment.getBeginClippedLength) then none
      else
        let tailLength : Nat :=
          u32 ((tailAlignment.getReadLength : Int) - firstBreakpointOffset
            - tailAlignment.getBeginClippedLength)
        match countMismatches headSequence headBreakpointIterator headReference
            headEndReferenceIterator headReference.length tailLength with
        | none => none
        | some tailMismatches =>
          if tailMismatches = 0 then none
          else
            match
              countMismatches headSequence headAlignment.getBeginClippedLength headReference
                headAlignment.position headReference.length headLength,
              countMismatchesReverse tailSequence tailBreakpointIterator tailReference
                tailBeginReferenceIterator tailLength with
            | some leftRealignedMismatches, some rightRealignedMismatches =>
              let bestLocation : InversionLocation :=
                { headMismatches_ := leftRealignedMismatches
                  tailMismatches_ := rightRealignedMismatches
                  breakpointOffset_ := firstBreakpointOffset
                  headBreakpointIterator_ := headBreakpointIterator
                  tailBreakpointIterator_ := tailBreakpointIterator
                  headReferenceIterator_ := headEndReferenceIterator
                  tailReferenceIterator_ := tailBeginReferenceIterator }
              leftInversionScan outside headSequence tailSequence headReference tailReference
                lastBreakpointOffset (lastBreakpointOffset + 1 - firstBreakpointOffset)
                bestLocation bestLocation
            | _, _ => none
  | _, _ => none

/-- Lines 541-620 of `alignRightAnchoredInversion`: the final `bestLocation` with which the
function reaches its call of `mergeRightAnchoredInversionAlignments`; `none` when the function
returns `false` or aborts before that call. -/
def rightInversionBestLocation (outside : Outside) (headAlignment : FragmentMetadata)
    (firstBreakpointOffset : Nat) (tailAlignment : FragmentMetadata)
    (lastBreakpointOffset : Nat) (contigList : ContigList) : Option InversionLocation :=
  match contigList.get? headAlignment.contigId, contigList.get? tailAlignment.contigId with
  | some headReference, some tailReference =>
    let headSequence := headAlignment.getStrandSequence
    let headBreakpointIterator : Int := firstBreakpointOffset
    let tailSequence := tailAlignment.getStrandSequence
    let tailBreakpointIterator : Int := (tailSequence.length : Int) - firstBreakpointOffset
    let headReferenceIterator : Int :=
      headAlignment.getUnclippedPosition + firstBreakpointOffset
    let tailReferenceIterator : Int :=
      tailAlignment.getUnclippedPosition + tailAlignment.getReadLength - firstBreakpointOffset
    if ¬ (0 ≤ tailReferenceIterator ∧ tailReferenceIterator ≤ tailReference.length) then none
    else if firstBreakpointOffset >
        (headAlignment.getBeginClippedLength + headAlignment.getObservedLength) % 4294967296 then
      none
    else
      let headLength : Nat :=
        u32 ((headAlignment.getObservedLength : Int) + headAlignment.getBeginClippedLength
          - firstBreakpointOffset)
      if ¬ (u32 ((tailAlignment.getReadLength : Int) - firstBreakpointOffset)
            ≥ tailAlignment.getBeginClippedLength) then none
      else if ¬ (firstBreakpointOffset ≥ tailAlignment.getEndClippedLength) then none
      else
        let tailLength : Nat :=
          u32 ((firstBreakpointOffset : Int) - headAlignment.getBeginClippedLength)
        match countMismatches headSequence headAlignment.getBeginClippedLength headReference
            (headReferenceIterator - tailLength) headReferenceIterator tailLength with
        | none => none
        | some count =>
          let tailMismatches : Nat :=
            (count + headAlignment.getBeginClippedLength) % 4294967296
          if tailMismatches = 0 then none
          else
            let realignedTailLength : Nat :=
              firstBreakpointOffset - tailAlignment.getEndClippedLength
            match
              countMismatches headSequence headBreakpointIterator headReference
                headReferenceIterator headReference.length headLength,
              countMismatches tailSequence tailBreakpointIterator tailReference
                tailReferenceIterator tailReference.length realignedTailLength with
            | some headRealignedMismatches, some tailRealignedMismatches =>
              let bestLocation : InversionLocation :=
                { headMismatches_ := headRealignedMismatches
                  tailMismatches_ := tailRealignedMismatches
                  breakpointOffset_ := firstBreakpointOffset
                  headBreakpointIterator_ := headBreakpointIterator
                  tailBreakpointIterator_ := tailBreakpointIterator
                  headReferenceIterator_ := headReferenceIterator
                  tailReferenceIterator_ := tailReferenceIterator }
              rightInversionScan outside headSequence tailSequence headReference tailReference
                lastBreakpointOffset (lastBreakpointOffset - firstBreakpointOffset)
                bestLocation bestLocation
            | _, _ => none
  | _, _ => none

/-- A contig that holds `AAAACC` at position 6 and `AAACAC`, the reverse complement of
`GTGTTT`, at position 20. -/
def rightEndContig : Contig := "CCCCCCAAAACCGGCCCCCCAAACACGGGG".toList

/-- The read `GTGTTTAAAACC`, whose first six bases are inverted on `rightEndContig`. -/
def rightEndRead : Read where
  forwardSequence := "GTGTTTAAAACC".toList
  reverseSequence := "GGTTTTAAACAC".toList

/-- The forward candidate at position 0, anchored on read bases 6-11 (`AAAACC`). -/
def rightEndHead : FragmentMetadata :=
  ungappedCandidate rightEndRead 0 0 6 (Anchor.mk 6 12) (Anchor.mk 6 12)

/-- The reverse-strand candidate at position 14, anchored on bases 8-11 of the reverse
sequence (`ACAC`). -/
def rightEndTail : FragmentMetadata :=
  { ungappedCandidate rightEndRead 0 14 6 (Anchor.mk 8 12) (Anchor.mk 8 12) with
    reverse := true }

/-- A contig that holds `AAAACC` at position 0 and `AAACAC`, the reverse complement of
`GTGTTT`, at position 10, followed by `TT`. -/
def leftEndContig : Contig := "AAAACCTTTTAAACACTTCCCCCC".toList

/-! ## The sequencing adapter clipper -/

/-- Modelled from the spec: `SequencingAdapterRange` is declared in
`alignment/templateBuilder/FragmentSequencingAdapterClipper.hh`, which is not among the
sources.  The fields are those that `checkInitStrand` writes and `clip` reads; the two
iterators are indices into the strand sequence of the read. -/
structure SequencingAdapterRange where
  initialized_ : Bool
  empty_ : Bool
  adapterRangeBegin_ : Int
  adapterRangeEnd_ : Int
deriving DecidableEq, Repr

/-- Collaborators of `FragmentSequencingAdapterClipper` that are declared outside the sources.
They are parameters of the embedding: the constant `TOO_GOOD_READ_MISMATCH_PERCENT` of the
class declaration, the overloads `countMismatches(sequenceBegin, sequenceEnd, referenceBegin,
referenceEnd)` and `countMatches(sequenceBegin, sequenceEnd, referenceBegin, referenceEnd)` of
`alignment/Mismatch.hh` (`none` when the count reads outside a sequence), and the members
`incrementClipLeft`, `incrementClipRight` and `incrementAdapterClip` of `FragmentMetadata`. -/
structure FragmentSequencingAdapterClipper where
  TOO_GOOD_READ_MISMATCH_PERCENT : Nat
  countMismatches : List Char → Int → Int → Contig → Int → Int → Option Nat
  countMatches : List Char → Int → Int → Contig → Int → Int → Option Nat
  incrementClipLeft : FragmentMetadata → Nat → FragmentMetadata
  incrementClipRight : FragmentMetadata → Nat → FragmentMetadata
  incrementAdapterClip : FragmentMetadata → Nat → FragmentMetadata

/-- The function `percentMismatches` (lines 63-72): the `unsigned` quotient
`countMismatches(...) * 100 / overlapLength`; `none` when the count aborts or the overlap is
empty (division by zero). -/
def percentMismatches (c : FragmentSequencingAdapterClipper) (sequence : List Char)
    (sequenceBegin sequenceEnd : Int) (reference : Contig)
    (referenceBegin referenceEnd : Int) : Option Nat :=
  let overlapLength : Nat :=
    u32 (min (sequenceEnd - sequenceBegin) (referenceEnd - referenceBegin))
  match c.countMismatches sequence sequenceBegin sequenceEnd reference referenceBegin
      referenceEnd with
  | none => none
  | some count =>
    if overlapLength = 0 then none
    else some (u32 ((count : Int) * 100) / overlapLength)

/-- The member `FragmentSequencingAdapterClipper::decideWhichSideToClip` (lines 151-221).  The
result is the returned `bool` with the final value of the out-parameter `clipBackwards`;
`none` where the `int` difference overflows or a collaborator aborts. -/
def FragmentSequencingAdapterClipper.decideWhichSideToClip
    (c : FragmentSequencingAdapterClipper) (contig : Contig) (contigPosition : Int)
    (sequence : List Char) (sequenceBegin sequenceEnd : Int)
    (adapterRange : SequencingAdapterRange) : Option (Bool × Bool) :=
  -- try preserve the longest useful sequence
  let backwardsClipped : Int := toInt32 (adapterRange.adapterRangeBegin_ - sequenceBegin)
  let forwardsClipped : Int := toInt32 (sequenceEnd - adapterRange.adapterRangeEnd_)
  let clipBackwards : Bool := decide (backwardsClipped < forwardsClipped)
  let sequenceLength : Nat := u32 (sequenceEnd - sequenceBegin)
  if backwardsClipped ≠ 0 ∧ forwardsClipped ≠ 0 ∧
      ¬ (-2147483648 < backwardsClipped - forwardsClipped ∧
        backwardsClipped - forwardsClipped < 2147483648) then none
  else if backwardsClipped ≠ 0 ∧ forwardsClipped ≠ 0 ∧
      (backwardsClipped - forwardsClipped).natAbs < 9 then
    -- avoid counting matches for alignments that partially fall outside the reference
    if contigPosition ≥ 0 ∧ contig.length ≥ u32 (contigPosition + sequenceLength) then
      let referenceBegin : Int := contigPosition
      let referenceEnd : Int := referenceBegin + sequenceLength
      -- count matches if both sides are of close lengths
      match
        c.countMatches sequence sequenceBegin adapterRange.adapterRangeBegin_ contig
          referenceBegin (referenceBegin + backwardsClipped),
        c.countMatches sequence adapterRange.adapterRangeEnd_ sequenceEnd contig
          (referenceEnd - forwardsClipped) referenceEnd with
      | some backwardsMatches, some forwardsMatches =>
        -- prefer clipping that leaves more and longer part unclipped
        some (true,
          decide (backwardsMatches % 4294967296 < forwardsMatches % 4294967296 ∨
            (backwardsMatches % 4294967296 = forwardsMatches % 4294967296 ∧
              backwardsClipped < forwardsClipped)))
      | _, _ => none
    else some (true, clipBackwards)
  else if backwardsClipped = 0 ∨ forwardsClipped = 0 then
    -- If it is clipping all the way to one of the ends, make sure the side that we clip has
    -- decent amount of mismatches.
    let referenceBegin : Int := contigPosition
    let referenceEnd : Int := referenceBegin + sequenceLength
    if clipBackwards = true ∧ backwardsClipped = 0 then
      let basesClipped : Nat := u32 (adapterRange.adapterRangeEnd_ - sequenceBegin)
      match percentMismatches c sequence sequenceBegin adapterRange.adapterRangeEnd_ contig
          referenceBegin (referenceBegin + basesClipped) with
      | none => none
      | some percent => some (decide (percent > c.TOO_GOOD_READ_MISMATCH_PERCENT), clipBackwards)
    else if clipBackwards = false ∧ forwardsClipped = 0 then
      let basesClipped : Nat := u32 (sequenceEnd - adapterRange.adapterRangeBegin_)
      match percentMismatches c sequence adapterRange.adapterRangeBegin_ sequenceEnd contig
          (referenceEnd - basesClipped) referenceEnd with
      | none => none
      | some percent => some (decide (percent > c.TOO_GOOD_READ_MISMATCH_PERCENT), clipBackwards)
    else some (true, clipBackwards)
  else some (true, clipBackwards)

/-- The member `FragmentSequencingAdapterClipper::clip` (lines 229-277).  `adapterRange` is
the entry `readAdapters_[fragment.getReadIndex()].strandRange_[fragment.reverse]`; the result
is the fragment with the new values of `sequenceBegin` and `sequenceEnd`, `none` on a failed
assertion. -/
def FragmentSequencingAdapterClipper.clip (c : FragmentSequencingAdapterClipper)
    (contig : Contig) (fragment : FragmentMetadata) (sequence : List Char)
    (sequenceBegin sequenceEnd : Int) (adapterRange : SequencingAdapterRange) :
    Option (FragmentMetadata × Int × Int) :=
  if adapterRange.initialized_ = false then none
  else if adapterRange.empty_ = false then
    -- non-empty range means adapter sequence identified around the currentBase
    if ¬ (adapterRange.adapterRangeBegin_ ≥ sequenceBegin ∧
          adapterRange.adapterRangeBegin_ ≤ sequenceEnd) then none
    else if ¬ (adapterRange.adapterRangeEnd_ ≥ sequenceBegin ∧
          adapterRange.adapterRangeEnd_ ≤ sequenceEnd) then none
    else
      match c.decideWhichSideToClip contig fragment.position sequence sequenceBegin
          sequenceEnd adapterRange with
      | none => none
      | some (true, clipBackwards) =>
        if clipBackwards then
          let clipBases : Nat := (adapterRange.adapterRangeEnd_ - sequenceBegin).toNat
          some (c.incrementAdapterClip (c.incrementClipLeft fragment clipBases) clipBases,
            adapterRange.adapterRangeEnd_, sequenceEnd)
        else
          let clipBases : Nat := (sequenceEnd - adapterRange.adapterRangeBegin_).toNat
          some (c.incrementAdapterClip (c.incrementClipRight fragment clipBases) clipBases,
            sequenceBegin, adapterRange.adapterRangeBegin_)
      | some (false, _) => some (fragment, sequenceBegin, sequenceEnd)
  else some (fragment, sequenceBegin, sequenceEnd)

/-- An instance of the collaborators of the clipper: the threshold 40, the counts over
the overlap of the two ranges, and the clip counters `lowClipped` / `highClipped`; the
fragment holds no adapter-clip counter, so `incrementAdapterClip` leaves it as it is. -/
def sampleClipper : FragmentSequencingAdapterClipper where
  TOO_GOOD_READ_MISMATCH_PERCENT := 40
  countMismatches := fun sequence sequenceBegin sequenceEnd reference referenceBegin
      referenceEnd =>
    Isaac.countMismatches sequence sequenceBegin reference referenceBegin referenceEnd
      (sequenceEnd - sequenceBegin).toNat
  countMatches := fun sequence sequenceBegin sequenceEnd reference referenceBegin
      referenceEnd =>
    (Isaac.countMismatches sequence sequenceBegin reference referenceBegin referenceEnd
      (sequenceEnd - sequenceBegin).toNat).map
        (fun m => min (sequenceEnd - sequenceBegin).toNat
          (referenceEnd - referenceBegin).toNat - m)
  incrementClipLeft := fun fragment bases =>
    { fragment.setLeftClipped (fragment.leftClipped + bases) with
      position := fragment.position + bases }
  incrementClipRight := fun fragment bases =>
    fragment.setRightClipped (fragment.rightClipped + bases)
  incrementAdapterClip := fun fragment _ => fragment

/-- A read that equals the first ten bases of `tooGoodContig`. -/
def tooGoodRead : Read where
  forwardSequence := "ACGTACGTAC".toList
  reverseSequence := "GTACGTACGT".toList

def tooGoodContig : Contig := "ACGTACGTACGG".toList

/-- A contig that differs from `tooGoodRead` on the last four bases of the read. -/
def adapterContig : Contig := "ACGTACTGCAGG".toList

/-- The forward candidate of `tooGoodRead` at position 0. -/
def tooGoodFragment : FragmentMetadata :=
  ungappedCandidate tooGoodRead 0 0 0 (Anchor.mk 0 0) (Anchor.mk 0 0)

/-- The adapter range `[6, 10)`, which reaches the end of `tooGoodRead`. -/
def tooGoodRange : SequencingAdapterRange := SequencingAdapterRange.mk true false 6 10

/-- The read `AAAATTTT`. -/
def contigEndRead : Read where
  forwardSequence := "AAAATTTT".toList
  reverseSequence := "AAAATTTT".toList

/-- Contig 0 `AAAAGG`, two bases shorter than `contigEndRead`, and contig 1 `TTTTTTTA`. -/
def contigEndContigs : ContigList := ["AAAAGG".toList, "TTTTTTTA".toList]

/-- The candidate at position 0 of contig 0, anchored on read bases 0-3: read bases 6 and 7
lie past the end of the contig. -/
def contigEndHead : FragmentMetadata :=
  ungappedCandidate contigEndRead 0 0 2 (Anchor.mk 0 4) (Anchor.mk 0 4)

/-- The candidate at position 0 of contig 1, anchored on read bases 6-7. -/
def contigEndTail : FragmentMetadata :=
  ungappedCandidate contigEndRead 1 0 5 (Anchor.mk 6 8) (Anchor.mk 6 8)

/-- A second candidate at position 0 of contig 1, anchored on read bases 5-7. -/
def contigEndWide : FragmentMetadata :=
  ungappedCandidate contigEndRead 1 0 5 (Anchor.mk 5 8) (Anchor.mk 5 8)

/-- The CIGAR `4M 1C 0D 4M` that the translocation engine makes of `contigEndHead` and
`contigEndTail`. -/
def contigEndCigar : Cigar :=
  [CigarOp.mk 4 OpCode.ALIGN, CigarOp.mk 1 OpCode.CONTIG, CigarOp.mk 0 OpCode.DELETE,
    CigarOp.mk 4 OpCode.ALIGN]

/-- The alignment that the translocation engine makes of `contigEndHead` and
`contigEndTail`; the mismatch count is the one `sampleUpdateAlignment` gives, which does not
follow the `CONTIG` operation. -/
def contigEndMerged : FragmentMetadata :=
  { ungappedCandidate contigEndRead 0 0 2 (Anchor.mk 0 0) (Anchor.mk 0 0) with
    gapCount := 1
    cigarLength := 4 }

/-! ## Auxiliary facts -/

theorem countMismatches_zero_length (s : List Char) (i : Int) (r : List Char) (j e : Int)
    (c : Nat) (hc : countMismatches s i r j e 0 = some c) : c = 0 := by
  unfold countMismatches at hc
  split_ifs at hc
  simp only [Nat.zero_min, countMismatchesN, Option.some.injEq] at hc
  exact hc.symm

theorem mergeDeletionAlignments_eq (a : AlignerBase) (buf : Cigar) (h t : FragmentMetadata)
    (b : Nat) (cl : ContigList) (mm : Nat) (d : Int) :
    mergeDeletionAlignments a buf h t b cl mm d =
      if u32 ((b : Int) - h.beginClippedLength) ≠ h.observedLength then
        if (a.updateFragmentCigar cl (deletionUpdateInput a h t b d)
              (deletionUpdateInput a h t b d).reverse (deletionUpdateInput a h t b d).contigId
              ((deletionUpdateInput a h t b d).position + h.beginClippedLength)
              (buf ++ deletionOps h t b d) buf.length).1 = 0 then none
        else
          some (true, buf ++ deletionOps h t b d,
            (a.updateFragmentCigar cl (deletionUpdateInput a h t b d)
              (deletionUpdateInput a h t b d).reverse (deletionUpdateInput a h t b d).contigId
              ((deletionUpdateInput a h t b d).position + h.beginClippedLength)
              (buf ++ deletionOps h t b d) buf.length).2)
      else some (false, buf, h) := by
  unfold mergeDeletionAlignments
  lift_lets
  extract_lets clip hm off b1 b2 hd1 tm b3 ce b4 hd2 upd
  have hb : b4 = buf ++ deletionOps h t b d := by
    simp only [b4, b3, b2, b1, ce, tm, hm, clip, deletionOps, Cigar.addOperation,
      FragmentMetadata.getEndClippedLength, FragmentMetadata.getBeginClippedLength,
      FragmentMetadata.getObservedLength]
    split_ifs <;> simp
  have hh : hd2 = deletionUpdateInput a h t b d := rfl
  have hu : upd = a.updateFragmentCigar cl (deletionUpdateInput a h t b d)
              (deletionUpdateInput a h t b d).reverse (deletionUpdateInput a h t b d).contigId
              ((deletionUpdateInput a h t b d).position + h.beginClippedLength)
              (buf ++ deletionOps h t b d) buf.length := by
    simp only [upd, hb, hh, off, clip, FragmentMetadata.getBeginClippedLength]
  rw [← hu, ← hb]
  rfl

theorem mergeDeletionAlignments_appends (a : AlignerBase) (buf buf1 : Cigar)
    (h t h1 : FragmentMetadata) (b : Nat) (cl : ContigList) (mm : Nat) (d : Int) (w : Bool)
    (hr : mergeDeletionAlignments a buf h t b cl mm d = some (w, buf1, h1)) :
    (w = false ∧ buf1 = buf ∧ h1 = h) ∨ (w = true ∧ buf1 = buf ++ deletionOps h t b d) := by
  rw [mergeDeletionAlignments_eq] at hr
  split_ifs at hr with h1 h2
  · simp only [Option.some.injEq, Prod.mk.injEq] at hr
    exact Or.inr ⟨hr.1.symm, hr.2.1.symm⟩
  · simp only [Option.some.injEq, Prod.mk.injEq] at hr
    exact Or.inl ⟨hr.1.symm, hr.2.1.symm, hr.2.2.symm⟩

theorem deletionOps_eq_nil (h t : FragmentMetadata) (b : Nat) (d : Int)
    (hn : deletionOps h t b d = []) :
    (t.beginClippedLength + t.observedLength) % 4294967296 = 0 := by
  unfold deletionOps at hn
  simp only [List.append_eq_nil, ite_eq_right_iff, List.cons_ne_self, imp_false,
    not_not, reduceCtorEq, and_false, ne_eq] at hn
  obtain ⟨⟨⟨h1, h2⟩, h3⟩, _⟩ := hn
  unfold u32 at h2 h3
  omega

theorem alignSimpleDeletion_appends (a : AlignerBase) (buf buf1 : Cigar)
    (h : FragmentMetadata) (first : Nat) (t : FragmentMetadata) (last : Nat)
    (cl : ContigList) (w : Bool) (h1 : FragmentMetadata)
    (hr : alignSimpleDeletion a buf h first t last cl = some (w, buf1, h1)) :
    ∃ ops, buf1 = buf ++ ops ∧ (w = true → ops ≠ []) ∧ (w = false → ops = [] ∧ h1 = h) := by
  simp only [alignSimpleDeletion] at hr
  repeat' split at hr
  all_goals try contradiction
  all_goals try
    (cases hr
     exact ⟨[], (List.append_nil _).symm, fun hw => Bool.noConfusion hw, fun _ => ⟨rfl, rfl⟩⟩)
  rename_i hle _ _ _ tmm hcm hne _ _ _ _ _ _
  rcases mergeDeletionAlignments_appends _ _ _ _ _ _ _ _ _ _ _ hr with ⟨rfl, rfl, rfl⟩ | ⟨rfl, rfl⟩
  · exact ⟨[], by simp, by simp, by simp⟩
  · refine ⟨_, rfl, fun _ hn => ?_, by simp⟩
    have h0 := deletionOps_eq_nil _ _ _ _ hn
    simp only [FragmentMetadata.getBeginClippedLength, FragmentMetadata.getObservedLength, h0,
      Nat.zero_sub] at hcm
    exact hne (countMismatches_zero_length _ _ _ _ _ _ hcm)

theorem mergeInsertionAlignments_appends (a : AlignerBase) (buf buf1 : Cigar)
    (h t t1 : FragmentMetadata) (b : Nat) (cl : ContigList) (mm : Nat) (n : Nat) (w : Bool)
    (hr : mergeInsertionAlignments a buf h t b cl mm n = some (w, buf1, t1)) :
    ∃ ops, buf1 = buf ++ ops ∧ (w = true → ops ≠ []) := by
  unfold mergeInsertionAlignments at hr
  lift_lets at hr
  extract_lets clip lm lc off b1 b2 rm b3 ce b4 t2 upd at hr
  split_ifs at hr with h1 h2 h3
  · simp only [Option.some.injEq, Prod.mk.injEq] at hr
    obtain ⟨rfl, rfl, rfl⟩ := hr
    refine ⟨List.drop buf.length b2, ?_, by simp⟩
    simp only [b2, b1, Cigar.addOperation]
    split_ifs <;> simp
  · simp only [Option.some.injEq, Prod.mk.injEq] at hr
    obtain ⟨rfl, rfl, rfl⟩ := hr
    refine ⟨List.drop buf.length b4, ?_, ?_⟩
    · simp only [b4, b3, b2, b1, Cigar.addOperation]
      split_ifs <;> simp
    · intro _
      simp only [b4, b3, b2, b1, Cigar.addOperation]
      split_ifs <;> simp

theorem mergeLeftAnchoredInversions_appends (a : AlignerBase) (buf buf1 : Cigar)
    (h t h1 : FragmentMetadata) (b : Nat) (cl : ContigList) (mm : Nat) (d : Int) (w : Bool)
    (hr : mergeLeftAnchoredInversions a buf h t b cl mm d = some (w, buf1, h1)) :
    ∃ ops, buf1 = buf ++ ops ∧ (w = true → ops ≠ []) := by
  unfold mergeLeftAnchoredInversions at hr
  lift_lets at hr
  extract_lets clip bm off b1 b2 ec b3 em b4 b5 h2 upd at hr
  split_ifs at hr with h1 h2
  · simp only [Option.some.injEq, Prod.mk.injEq] at hr
    obtain ⟨rfl, rfl, rfl⟩ := hr
    exact ⟨[], by simp, by simp⟩
  · simp only [Option.some.injEq, Prod.mk.injEq] at hr
    obtain ⟨rfl, rfl, rfl⟩ := hr
    refine ⟨List.drop buf.length b5, ?_, ?_⟩
    · simp only [b5, b4, b3, b2, b1, Cigar.addOperation]
      split_ifs <;> simp
    · intro _
      simp only [b5, b4, b3, b2, b1, Cigar.addOperation]
      split_ifs <;> simp

theorem mergeRightAnchoredInversionAlignments_appends (a : AlignerBase) (buf buf1 : Cigar)
    (h t h1 : FragmentMetadata) (b : Nat) (cl : ContigList) (mm : Nat) (d : Int) (w : Bool)
    (hr : mergeRightAnchoredInversionAlignments a buf h t b cl mm d = some (w, buf1, h1)) :
    ∃ ops, buf1 = buf ++ ops ∧ (w = true → ops ≠ []) := by
  unfold mergeRightAnchoredInversionAlignments at hr
  lift_lets at hr
  extract_lets bm off b1 b2 b3 b4 b5 b6 b7 em b8 b9 h2 upd at hr
  split_ifs at hr with h1 h2 h3
  · simp only [Option.some.injEq, Prod.mk.injEq] at hr
    obtain ⟨rfl, rfl, rfl⟩ := hr
    exact ⟨[], by simp, by simp⟩
  · simp only [Option.some.injEq, Prod.mk.injEq] at hr
    obtain ⟨rfl, rfl, rfl⟩ := hr
    refine ⟨List.drop buf.length b7, ?_, by simp⟩
    simp only [b7, b6, b5, b4, b3, b2, b1, Cigar.addOperation]
    split_ifs <;> simp
  · simp only [Option.some.injEq, Prod.mk.injEq] at hr
    obtain ⟨rfl, rfl, rfl⟩ := hr
    refine ⟨List.drop buf.length b9, ?_, ?_⟩
    · simp only [b9, b8, b7, b6, b5, b4, b3, b2, b1, Cigar.addOperation]
      split_ifs <;> simp
    · intro _
      simp only [b9, b8, b7, b6, b5, b4, b3, b2, b1, Cigar.addOperation]
      split_ifs <;> simp

theorem alignSimpleInsertion_appends (a : AlignerBase) (buf buf1 : Cigar)
    (h : FragmentMetadata) (headSeed : Nat) (t : FragmentMetadata) (tailSeed : Nat)
    (cl : ContigList) (w : Bool) (t1 : FragmentMetadata)
    (hr : alignSimpleInsertion a buf h headSeed t tailSeed cl = some (w, buf1, t1)) :
    ∃ ops, buf1 = buf ++ ops ∧ (w = true → ops ≠ []) := by
  simp only [alignSimpleInsertion] at hr
  repeat' split at hr
  all_goals try contradiction
  all_goals try
    (cases hr
     exact ⟨[], (List.append_nil _).symm, fun hw => Bool.noConfusion hw⟩)
  exact mergeInsertionAlignments_appends _ _ _ _ _ _ _ _ _ _ _ hr

theorem alignLeftAnchoredInversion_appends (a : AlignerBase) (buf buf1 : Cigar)
    (h : FragmentMetadata) (first : Nat) (t : FragmentMetadata) (last : Nat)
    (cl : ContigList) (w : Bool) (h1 : FragmentMetadata)
    (hr : alignLeftAnchoredInversion a buf h first t last cl = some (w, buf1, h1)) :
    ∃ ops, buf1 = buf ++ ops ∧ (w = true → ops ≠ []) := by
  simp only [alignLeftAnchoredInversion] at hr
  repeat' split at hr
  all_goals try contradiction
  all_goals try
    (cases hr
     exact ⟨[], (List.append_nil _).symm, fun hw => Bool.noConfusion hw⟩)
  exact mergeLeftAnchoredInversions_appends _ _ _ _ _ _ _ _ _ _ _ hr

theorem alignRightAnchoredInversion_appends (a : AlignerBase) (buf buf1 : Cigar)
    (h : FragmentMetadata) (first : Nat) (t : FragmentMetadata) (last : Nat)
    (cl : ContigList) (w : Bool) (h1 : FragmentMetadata)
    (hr : alignRightAnchoredInversion a buf h first t last cl = some (w, buf1, h1)) :
    ∃ ops, buf1 = buf ++ ops ∧ (w = true → ops ≠ []) := by
  simp only [alignRightAnchoredInversion] at hr
  repeat' split at hr
  all_goals try contradiction
  all_goals try
    (cases hr
     exact ⟨[], (List.append_nil _).symm, fun hw => Bool.noConfusion hw⟩)
  exact mergeRightAnchoredInversionAlignments_appends _ _ _ _ _ _ _ _ _ _ _ hr


theorem alignSimpleDeletion_grows (a : AlignerBase) (buf buf1 : Cigar)
    (h : FragmentMetadata) (first : Nat) (t : FragmentMetadata) (last : Nat)
    (cl : ContigList) (w : Bool) (h1 : FragmentMetadata)
    (hr : alignSimpleDeletion a buf h first t last cl = some (w, buf1, h1)) :
    ∃ ops, buf1 = buf ++ ops ∧ (w = true → ops ≠ []) := by
  obtain ⟨ops, h1, h2, _⟩ := alignSimpleDeletion_appends _ _ _ _ _ _ _ _ _ _ hr
  exact ⟨ops, h1, h2⟩

theorem alignIndel_appends (a : AlignerBase) (buf buf1 : Cigar) (cl : ContigList)
    (regularIndelsOnly : Bool) (h t : FragmentMetadata) (w : Bool) (h1 : FragmentMetadata)
    (hr : alignIndel a buf cl regularIndelsOnly h t = some (w, buf1, h1)) :
    ∃ ops, buf1 = buf ++ ops ∧ (w = true → ops ≠ []) := by
  simp only [alignIndel] at hr
  repeat' split at hr
  all_goals try contradiction
  all_goals first
    | exact alignSimpleDeletion_grows _ _ _ _ _ _ _ _ _ _ hr
    | (cases hr
       exact ⟨[], (List.append_nil _).symm, fun hw => Bool.noConfusion hw⟩)
    | (rename_i heq
       obtain ⟨ops, e, _⟩ := alignSimpleInsertion_appends _ _ _ _ _ _ _ _ _ _ heq
       cases hr
       first
         | exact ⟨ops, e, fun hw => Bool.noConfusion hw⟩
         | (rename_i s; exact ⟨ops, e, s⟩))

theorem alignTranslocation_appends (a : AlignerBase) (buf buf1 : Cigar) (cl : ContigList)
    (h t : FragmentMetadata) (w : Bool) (h1 : FragmentMetadata)
    (hr : alignTranslocation a buf cl h t = some (w, buf1, h1)) :
    ∃ ops, buf1 = buf ++ ops ∧ (w = true → ops ≠ []) :=
  alignSimpleDeletion_grows _ _ _ _ _ _ _ _ _ _ hr

theorem resize_append (buf ops : Cigar) : Cigar.resize (buf ++ ops) buf.length = buf := by
  simp [Cigar.resize]

theorem pickBestSplit_some (a : AlignerBase) (w1 : Bool) (t1 : FragmentMetadata) (w2 : Bool)
    (t2 : FragmentMetadata) (fl fl1 : FragmentMetadataList) (ret : Bool)
    (hp : pickBestSplit a w1 t1 w2 t2 fl = some (ret, fl1)) :
    (ret = false ∧ fl1 = fl) ∨
      (ret = true ∧ (w1 = true ∨ w2 = true) ∧ ∃ best, fl1 = fl.push_back best) := by
  unfold pickBestSplit at hp
  lift_lets at hp
  extract_lets best at hp
  split_ifs at hp with hw hc hg
  · cases hp; exact Or.inl ⟨rfl, rfl⟩
  · cases hp
    refine Or.inr ⟨rfl, ?_, best, rfl⟩
    simpa using hw
  · cases hp; exact Or.inl ⟨rfl, rfl⟩

theorem resolve_two_attempts (a : AlignerBase) (buf b1 b2 : Cigar)
    (fl fl1 : FragmentMetadataList) (w1 w2 ret : Bool) (t1 t2 : FragmentMetadata)
    (h1 : ∃ ops, b1 = buf ++ ops ∧ (w1 = true → ops ≠ []))
    (h2 : ∃ ops, b2 = b1 ++ ops ∧ (w2 = true → ops ≠ []))
    (hp : pickBestSplit a w1 t1 w2 t2 fl = some (ret, fl1)) :
    ResolveOutcome buf fl
      (if ret = false then (ret, Cigar.resize b2 buf.length, fl1) else (ret, b2, fl1)) := by
  obtain ⟨o1, rfl, s1⟩ := h1
  obtain ⟨o2, rfl, s2⟩ := h2
  rcases pickBestSplit_some _ _ _ _ _ _ _ _ hp with ⟨rfl, rfl⟩ | ⟨rfl, hw, best, rfl⟩
  · left
    simp only [if_true, List.append_assoc, resize_append, and_self]
  · right
    refine ⟨by simp, ⟨o1 ++ o2, ?_, by simp⟩, best, by simp⟩
    rcases hw with hw | hw
    · simp [s1 hw]
    · simp [s2 hw]

theorem resolve_no_attempt (buf : Cigar) (fl : FragmentMetadataList) :
    ResolveOutcome buf fl
      (if false = false then (false, Cigar.resize buf buf.length, fl) else (false, buf, fl)) := by
  left
  have := resize_append buf []
  simp only [List.append_nil] at this
  simp [this]

theorem resolveConflict_outcome (a : AlignerBase) (cl : ContigList) (regularIndelsOnly : Bool)
    (buf : Cigar) (fl : FragmentMetadataList) (head tail : FragmentMetadata)
    (r : Bool × Cigar × FragmentMetadataList)
    (hr : resolveConflict a cl regularIndelsOnly buf fl head tail = some r) :
    ResolveOutcome buf fl r := by
  simp only [resolveConflict] at hr
  repeat' split at hr
  all_goals try contradiction
  all_goals simp only [Option.some.injEq] at hr
  all_goals subst hr
  all_goals try exact resolve_no_attempt buf fl
  all_goals
    rename_i _ w1 c1 t1 e1 _ w2 c2 t2 e2 _ ret fl1 e3 hret
    have a1 : ∃ ops, c1 = buf ++ ops ∧ (w1 = true → ops ≠ []) := by
      first
        | exact alignIndel_appends _ _ _ _ _ _ _ _ _ e1
        | exact alignTranslocation_appends _ _ _ _ _ _ _ _ e1
        | (split at e1
           · exact alignLeftAnchoredInversion_appends _ _ _ _ _ _ _ _ _ _ e1
           · cases e1
             exact ⟨[], (List.append_nil _).symm, fun hw => Bool.noConfusion hw⟩)
    have a2 : ∃ ops, c2 = c1 ++ ops ∧ (w2 = true → ops ≠ []) := by
      first
        | exact alignIndel_appends _ _ _ _ _ _ _ _ _ e2
        | exact alignTranslocation_appends _ _ _ _ _ _ _ _ e2
        | (split at e2
           · exact alignRightAnchoredInversion_appends _ _ _ _ _ _ _ _ _ _ e2
           · cases e2
             exact ⟨[], (List.append_nil _).symm, fun hw => Bool.noConfusion hw⟩)
    have h := resolve_two_attempts a buf c1 c2 fl fl1 w1 w2 ret t1 t2 a1 a2 e3
    first
      | rw [if_pos hret] at h; exact h
      | rw [if_neg hret] at h; exact h

/-! ## The iteration bounds of the scans are enough

Each scan stops by its own loop condition before the bound is used up: with any larger
bound the result is the same. -/

theorem deletionLocation_moveNext_offset (outside : Outside) (loc next : DeletionLocation)
    (s hR tR : List Char) (h : loc.moveNext outside s hR tR = some next) :
    next.deletionOffset_ = loc.deletionOffset_ + 1 := by
  unfold DeletionLocation.moveNext at h
  simp only [Option.some.injEq] at h
  rw [← h]

theorem deletionScan_bound_enough (outside : Outside) (s hR tR : List Char) (last : Nat) :
    ∀ (fuel : Nat) (best cur : DeletionLocation),
      last + 1 - cur.deletionOffset_ ≤ fuel →
      deletionScan outside s hR tR last fuel best cur =
        deletionScan outside s hR tR last (last + 1 - cur.deletionOffset_) best cur := by
  intro fuel
  induction fuel with
  | zero =>
    intro best cur hle
    have h0 : last + 1 - cur.deletionOffset_ = 0 := Nat.le_zero.mp hle
    rw [h0]
  | succ n ih =>
    intro best cur hle
    by_cases hc : best.getMistmatches ≠ 0 ∧ cur.deletionOffset_ ≤ last
    · obtain ⟨k, hk⟩ : ∃ k, last + 1 - cur.deletionOffset_ = k + 1 :=
        ⟨last - cur.deletionOffset_, by omega⟩
      rw [hk]
      simp only [deletionScan, hc, and_self, if_true, ne_eq, not_false_eq_true]
      by_cases h1 : cur.rightRealignedMismatches_ = minusOneU
      · simp only [h1, if_true]
      · simp only [h1, if_false]
        cases hm : cur.moveNext outside s hR tR with
        | none => rfl
        | some next =>
          have ho := deletionLocation_moveNext_offset _ _ _ _ _ _ hm
          have hk' : last + 1 - next.deletionOffset_ = k := by omega
          simp only []
          rw [ih _ next (by omega), hk']
    · have hl : deletionScan outside s hR tR last (n + 1) best cur = some best := by
        simp only [deletionScan, hc, if_false]
      rw [hl]
      cases hf : last + 1 - cur.deletionOffset_ with
      | zero => rfl
      | succ k => simp only [deletionScan, hc, if_false]

theorem inversionLocation_moveNext_offset (outside : Outside) (e : Int)
    (loc next : InversionLocation)
    (hs ts hR tR : List Char) (h : loc.moveNext outside e hs ts hR tR = some next) :
    next.breakpointOffset_ = loc.breakpointOffset_ + 1 := by
  unfold InversionLocation.moveNext at h
  split_ifs at h
  simp only [Option.some.injEq] at h
  rw [← h]

theorem leftInversionScan_bound_enough (outside : Outside) (hs ts hR tR : List Char) (last : Nat) :
    ∀ (fuel : Nat) (best cur : InversionLocation),
      last + 1 - cur.breakpointOffset_ ≤ fuel →
      leftInversionScan outside hs ts hR tR last fuel best cur =
        leftInversionScan outside hs ts hR tR last (last + 1 - cur.breakpointOffset_) best cur := by
  intro fuel
  induction fuel with
  | zero =>
    intro best cur hle
    have h0 : last + 1 - cur.breakpointOffset_ = 0 := Nat.le_zero.mp hle
    rw [h0]
  | succ n ih =>
    intro best cur hle
    by_cases hc : best.getMistmatches ≠ 0 ∧ cur.breakpointOffset_ ≤ last
    · obtain ⟨k, hk⟩ : ∃ k, last + 1 - cur.breakpointOffset_ = k + 1 :=
        ⟨last - cur.breakpointOffset_, by omega⟩
      rw [hk]
      simp only [leftInversionScan, hc, and_self, if_true, ne_eq, not_false_eq_true]
      cases hm : cur.moveNext outside 1 hs ts hR tR with
      | none => rfl
      | some next =>
        have ho := inversionLocation_moveNext_offset _ _ _ _ _ _ _ _ hm
        have hk' : last + 1 - next.breakpointOffset_ = k := by omega
        simp only []
        rw [ih _ next (by omega), hk']
    · have hl : leftInversionScan outside hs ts hR tR last (n + 1) best cur = some best := by
        simp only [leftInversionScan, hc, if_false]
      rw [hl]
      cases hf : last + 1 - cur.breakpointOffset_ with
      | zero => rfl
      | succ k => simp only [leftInversionScan, hc, if_false]

theorem rightInversionScan_bound_enough (outside : Outside) (hs ts hR tR : List Char) (last : Nat) :
    ∀ (fuel : Nat) (best cur : InversionLocation),
      last - cur.breakpointOffset_ ≤ fuel →
      rightInversionScan outside hs ts hR tR last fuel best cur =
        rightInversionScan outside hs ts hR tR last (last - cur.breakpointOffset_) best cur := by
  intro fuel
  induction fuel with
  | zero =>
    intro best cur hle
    have h0 : last - cur.breakpointOffset_ = 0 := Nat.le_zero.mp hle
    rw [h0]
  | succ n ih =>
    intro best cur hle
    by_cases hc : best.getMistmatches ≠ 0 ∧ cur.breakpointOffset_ < last
    · obtain ⟨k, hk⟩ : ∃ k, last - cur.breakpointOffset_ = k + 1 :=
        ⟨last - cur.breakpointOffset_ - 1, by omega⟩
      rw [hk]
      simp only [rightInversionScan, hc, and_self, if_true, ne_eq, not_false_eq_true]
      by_cases h1 : ¬ (best.tailReferenceIterator_ ≥ 0)
      · simp only [h1, not_false_eq_true, if_true]
      · simp only [h1, if_false]
        cases hm : cur.moveNext outside (-1) hs ts hR tR with
        | none => rfl
        | some next =>
          have ho := inversionLocation_moveNext_offset _ _ _ _ _ _ _ _ hm
          have hk' : last - next.breakpointOffset_ = k := by omega
          simp only []
          rw [ih _ next (by omega), hk']
    · have hl : rightInversionScan outside hs ts hR tR last (n + 1) best cur = some best := by
        simp only [rightInversionScan, hc, if_false]
      rw [hl]
      cases hf : last - cur.breakpointOffset_ with
      | zero => rfl
      | succ k => simp only [rightInversionScan, hc, if_false]

theorem insertionLocation_moveNext_offset (outside : Outside) (loc next : InsertionLocation)
    (s c : List Char) (ti ri ti1 ri1 : Int)
    (h : loc.moveNext outside s c ti ri = some (next, ti1, ri1)) :
    next.insertionOffset_ = loc.insertionOffset_ + 1 := by
  unfold InsertionLocation.moveNext at h
  split_ifs at h
  simp only [Option.some.injEq, Prod.mk.injEq] at h
  rw [← h.1]

theorem insertionScan_bound_enough (outside : Outside) (s c : List Char) (last : Nat) :
    ∀ (fuel : Nat) (best cur : InsertionLocation) (ti ri : Int),
      last + 1 - cur.insertionOffset_ ≤ fuel →
      insertionScan outside s c last fuel best cur ti ri =
        insertionScan outside s c last (last + 1 - cur.insertionOffset_) best cur ti ri := by
  intro fuel
  induction fuel with
  | zero =>
    intro best cur ti ri hle
    have h0 : last + 1 - cur.insertionOffset_ = 0 := Nat.le_zero.mp hle
    rw [h0]
  | succ n ih =>
    intro best cur ti ri hle
    by_cases hc : best.getMistmatches ≠ 0 ∧ cur.insertionOffset_ ≤ last
    · obtain ⟨k, hk⟩ : ∃ k, last + 1 - cur.insertionOffset_ = k + 1 :=
        ⟨last - cur.insertionOffset_, by omega⟩
      rw [hk]
      simp only [insertionScan, hc, and_self, if_true, ne_eq, not_false_eq_true]
      by_cases h1 : cur.rightRealignedMismatches_ = minusOneU
      · simp only [h1, if_true]
      · simp only [h1, if_false]
        cases hm : cur.moveNext outside s c ti ri with
        | none => rfl
        | some r =>
          obtain ⟨next, ti1, ri1⟩ := r
          have ho := insertionLocation_moveNext_offset _ _ _ _ _ _ _ _ _ hm
          have hk' : last + 1 - next.insertionOffset_ = k := by omega
          simp only []
          rw [ih _ next _ _ (by omega), hk']
    · have hl : insertionScan outside s c last (n + 1) best cur ti ri = some best := by
        simp only [insertionScan, hc, if_false]
      rw [hl]
      cases hf : last + 1 - cur.insertionOffset_ with
      | zero => rfl
      | succ k => simp only [insertionScan, hc, if_false]

/-! ## The dispatcher is transactional (C1 - C3) -/

/-- C1. For every returning call of `resolveConflict`: if it returns `false` the size of the
CIGAR buffer equals its size at entry, and if it returns `true` the size is strictly greater
than at entry. -/
theorem resolveConflict_transactional_cigar (a : AlignerBase) (contigList : ContigList)
    (regularIndelsOnly : Bool) (cigarBuffer : Cigar) (fragmentList : FragmentMetadataList)
    (head tail : FragmentMetadata) (ret : Bool) (cigarBuffer1 : Cigar)
    (fragmentList1 : FragmentMetadataList)
    (hr : resolveConflict a contigList regularIndelsOnly cigarBuffer fragmentList head tail =
      some (ret, cigarBuffer1, fragmentList1)) :
    (ret = false → cigarBuffer1.length = cigarBuffer.length) ∧
      (ret = true → cigarBuffer.length < cigarBuffer1.length) := by
  rcases resolveConflict_outcome _ _ _ _ _ _ _ _ hr with ⟨h1, h2, _⟩ | ⟨h1, ⟨ops, hn, h2⟩, _⟩
  · simp only at h1 h2
    subst h1 h2
    simp
  · simp only at h1 h2
    subst h1 h2
    refine ⟨by simp, fun _ => ?_⟩
    have : 0 < ops.length := List.length_pos.mpr hn
    simp only [List.length_append]
    omega

/-- C1 (witness). Scenario 1 of the spec: `resolveConflict` returns `true` and the empty
buffer grows to the three operations `4M4D8M`.
The second part is the pair `contigEndHead`, `contigEndTail`, whose deletion scan
ends with a step that reads one base past contig 0: the call returns `true` with
`4M 1C 0D 4M`. -/
theorem resolveConflict_transactional_cigar_witness :
    (resolveConflict sampleAligner deletionReference false []
        (FragmentMetadataList.mk [deletionHead, deletionTail] 4) deletionHead deletionTail =
      some (true, deletionMergedCigar,
        FragmentMetadataList.mk [deletionHead, deletionTail, deletionMerged] 4) ∧
    ((true = false → deletionMergedCigar.length = ([] : Cigar).length) ∧
      (true = true → ([] : Cigar).length < deletionMergedCigar.length))) ∧
    (resolveConflict sampleAligner contigEndContigs false []
        (FragmentMetadataList.mk [contigEndHead, contigEndTail] 4) contigEndHead contigEndTail =
      some (true, contigEndCigar,
        FragmentMetadataList.mk [contigEndHead, contigEndTail, contigEndMerged] 4) ∧
      ((true = false → contigEndCigar.length = ([] : Cigar).length) ∧
        (true = true → ([] : Cigar).length < contigEndCigar.length))) :=
  ⟨(fun hrun => ⟨hrun,
    resolveConflict_transactional_cigar sampleAligner deletionReference false []
      (FragmentMetadataList.mk [deletionHead, deletionTail] 4) deletionHead deletionTail true
      deletionMergedCigar (FragmentMetadataList.mk [deletionHead, deletionTail, deletionMerged] 4)
      hrun⟩) (by decide),
    (fun hrun => ⟨hrun,
      resolveConflict_transactional_cigar sampleAligner contigEndContigs false []
        (FragmentMetadataList.mk [contigEndHead, contigEndTail] 4) contigEndHead contigEndTail true
        contigEndCigar (FragmentMetadataList.mk [contigEndHead, contigEndTail, contigEndMerged] 4)
        hrun⟩) (by decide)⟩

/-- C2. For every returning call of `resolveConflict`: it returns `true` if and only if the
fragment list grew by one element, in which case exactly one alignment was appended at the
end; when it returns `false` the fragment list is the one given at entry. -/
theorem resolveConflict_appends_iff_true (a : AlignerBase) (contigList : ContigList)
    (regularIndelsOnly : Bool) (cigarBuffer : Cigar) (fragmentList : FragmentMetadataList)
    (head tail : FragmentMetadata) (ret : Bool) (cigarBuffer1 : Cigar)
    (fragmentList1 : FragmentMetadataList)
    (hr : resolveConflict a contigList regularIndelsOnly cigarBuffer fragmentList head tail =
      some (ret, cigarBuffer1, fragmentList1)) :
    (ret = true ↔ fragmentList1.size = fragmentList.size + 1) ∧
      (ret = true → ∃ best, fragmentList1.items = fragmentList.items ++ [best]) ∧
      (ret = false → fragmentList1 = fragmentList) := by
  rcases resolveConflict_outcome _ _ _ _ _ _ _ _ hr with ⟨h1, _, h3⟩ | ⟨h1, _, best, h3⟩
  · simp only at h1 h3
    subst h1 h3
    simp
  · simp only at h1 h3
    subst h1 h3
    simp [FragmentMetadataList.size, FragmentMetadataList.push_back]

/-- C2 (witness). Scenario 1 of the spec with head and tail exchanged: `resolveConflict`
returns `true` and the list of two candidates grows by the merged alignment.
The second part is the pair `contigEndHead`, `contigEndTail`, whose deletion scan
ends with a step that reads one base past contig 0: the call returns `true` with
`4M 1C 0D 4M`. -/
theorem resolveConflict_appends_iff_true_witness :
    (resolveConflict sampleAligner deletionReference true []
        (FragmentMetadataList.mk [deletionTail, deletionHead] 3) deletionTail deletionHead =
      some (true, deletionMergedCigar,
        FragmentMetadataList.mk [deletionTail, deletionHead, deletionMerged] 3) ∧
    ((true = true ↔
        (FragmentMetadataList.mk [deletionTail, deletionHead, deletionMerged] 3).size =
          (FragmentMetadataList.mk [deletionTail, deletionHead] 3).size + 1) ∧
      (true = true → ∃ best,
        (FragmentMetadataList.mk [deletionTail, deletionHead, deletionMerged] 3).items =
          (FragmentMetadataList.mk [deletionTail, deletionHead] 3).items ++ [best]) ∧
      (true = false →
        FragmentMetadataList.mk [deletionTail, deletionHead, deletionMerged] 3 =
          FragmentMetadataList.mk [deletionTail, deletionHead] 3))) ∧
    (resolveConflict sampleAligner contigEndContigs false []
        (FragmentMetadataList.mk [contigEndHead, contigEndTail] 4) contigEndHead contigEndTail =
      some (true, contigEndCigar,
        FragmentMetadataList.mk [contigEndHead, contigEndTail, contigEndMerged] 4) ∧
      (true = true ↔
        (FragmentMetadataList.mk [contigEndHead, contigEndTail, contigEndMerged] 4).size =
          (FragmentMetadataList.mk [contigEndHead, contigEndTail] 4).size + 1)) :=
  ⟨(fun hrun => ⟨hrun,
    resolveConflict_appends_iff_true sampleAligner deletionReference true []
      (FragmentMetadataList.mk [deletionTail, deletionHead] 3) deletionTail deletionHead true
      deletionMergedCigar (FragmentMetadataList.mk [deletionTail, deletionHead, deletionMerged] 3)
      hrun⟩) (by decide),
    (fun hrun => ⟨hrun,
      (resolveConflict_appends_iff_true sampleAligner contigEndContigs false []
        (FragmentMetadataList.mk [contigEndHead, contigEndTail] 4) contigEndHead contigEndTail true
        contigEndCigar (FragmentMetadataList.mk [contigEndHead, contigEndTail, contigEndMerged] 4)
        hrun).1⟩) (by decide)⟩

/-- C3. For every returning call of `resolveConflict`, successful or not: the CIGAR buffer at
exit is the buffer at entry followed by appended operations, and the fragment list at exit
is the list at entry followed by appended alignments (with the same reserved capacity); no
element present at entry is changed. -/
theorem resolveConflict_only_appends (a : AlignerBase) (contigList : ContigList)
    (regularIndelsOnly : Bool) (cigarBuffer : Cigar) (fragmentList : FragmentMetadataList)
    (head tail : FragmentMetadata) (ret : Bool) (cigarBuffer1 : Cigar)
    (fragmentList1 : FragmentMetadataList)
    (hr : resolveConflict a contigList regularIndelsOnly cigarBuffer fragmentList head tail =
      some (ret, cigarBuffer1, fragmentList1)) :
    (∃ ops, cigarBuffer1 = cigarBuffer ++ ops) ∧
      (∃ appended, fragmentList1.items = fragmentList.items ++ appended) ∧
      fragmentList1.capacity = fragmentList.capacity ∧
      (∀ i, i < cigarBuffer.length → cigarBuffer1.get? i = cigarBuffer.get? i) ∧
      (∀ i, i < fragmentList.items.length →
        fragmentList1.items.get? i = fragmentList.items.get? i) := by
  rcases resolveConflict_outcome _ _ _ _ _ _ _ _ hr with
    ⟨_, h2, h3⟩ | ⟨_, ⟨ops, _, h2⟩, best, h3⟩
  · simp only at h2 h3
    subst h2 h3
    exact ⟨⟨[], by simp⟩, ⟨[], by simp⟩, rfl, fun _ _ => rfl, fun _ _ => rfl⟩
  · simp only at h2 h3
    subst h2 h3
    refine ⟨⟨ops, rfl⟩, ⟨[best], rfl⟩, rfl, fun i hi => ?_, fun i hi => ?_⟩
    · simp [List.getElem?_append_left hi]
    · simp [FragmentMetadataList.push_back, List.getElem?_append_left hi]

/-- C3 (witness). Scenario 1 of the spec run on a buffer that already holds `12M`: the
operation and the two candidates present at entry are still in place at exit.
The second part is the pair `contigEndHead`, `contigEndTail`, whose deletion scan
ends with a step that reads one base past contig 0: the call returns `true` with
`4M 1C 0D 4M`. -/
theorem resolveConflict_only_appends_witness :
    (resolveConflict sampleAligner deletionReference false [CigarOp.mk 12 OpCode.ALIGN]
        (FragmentMetadataList.mk [deletionHead, deletionTail] 4) deletionHead deletionTail =
      some (true, CigarOp.mk 12 OpCode.ALIGN :: deletionMergedCigar,
        FragmentMetadataList.mk
          [deletionHead, deletionTail, { deletionMerged with cigarOffset := 1 }] 4) ∧
    ((∃ ops, CigarOp.mk 12 OpCode.ALIGN :: deletionMergedCigar =
        [CigarOp.mk 12 OpCode.ALIGN] ++ ops) ∧
      (∃ appended,
        (FragmentMetadataList.mk
          [deletionHead, deletionTail, { deletionMerged with cigarOffset := 1 }] 4).items =
          (FragmentMetadataList.mk [deletionHead, deletionTail] 4).items ++ appended) ∧
      (FragmentMetadataList.mk
          [deletionHead, deletionTail, { deletionMerged with cigarOffset := 1 }] 4).capacity =
        (FragmentMetadataList.mk [deletionHead, deletionTail] 4).capacity ∧
      (∀ i, i < [CigarOp.mk 12 OpCode.ALIGN].length →
        (CigarOp.mk 12 OpCode.ALIGN :: deletionMergedCigar).get? i =
          [CigarOp.mk 12 OpCode.ALIGN].get? i) ∧
      (∀ i, i < (FragmentMetadataList.mk [deletionHead, deletionTail] 4).items.length →
        (FragmentMetadataList.mk
          [deletionHead, deletionTail, { deletionMerged with cigarOffset := 1 }] 4).items.get? i =
          (FragmentMetadataList.mk [deletionHead, deletionTail] 4).items.get? i))) ∧
    (resolveConflict sampleAligner contigEndContigs false []
        (FragmentMetadataList.mk [contigEndHead, contigEndTail] 4) contigEndHead contigEndTail =
      some (true, contigEndCigar,
        FragmentMetadataList.mk [contigEndHead, contigEndTail, contigEndMerged] 4) ∧
      (∃ ops, contigEndCigar = ([] : Cigar) ++ ops)) :=
  ⟨(fun hrun => ⟨hrun,
    resolveConflict_only_appends sampleAligner deletionReference false
      [CigarOp.mk 12 OpCode.ALIGN] (FragmentMetadataList.mk [deletionHead, deletionTail] 4)
      deletionHead deletionTail true (CigarOp.mk 12 OpCode.ALIGN :: deletionMergedCigar)
      (FragmentMetadataList.mk
        [deletionHead, deletionTail, { deletionMerged with cigarOffset := 1 }] 4)
      hrun⟩) (by decide),
    (fun hrun => ⟨hrun,
      (resolveConflict_only_appends sampleAligner contigEndContigs false []
        (FragmentMetadataList.mk [contigEndHead, contigEndTail] 4) contigEndHead contigEndTail true
        contigEndCigar (FragmentMetadataList.mk [contigEndHead, contigEndTail, contigEndMerged] 4)
        hrun).1⟩) (by decide)⟩

/-! ## The deletion merge (C4, C5, C7) -/

/-- C4 (as amended). For every accepted deletion merge (`mergeDeletionAlignments` returns
`true`) with `head_mapped ≠ 0` on one contig, the operations appended to the buffer are, in
this order: `SOFT_CLIP head.begin_clip` (left out when zero), `ALIGN head_mapped`,
`DELETE deletion_length`, `ALIGN tail_mapped` (left out when `tail_mapped` is zero),
`SOFT_CLIP tail.end_clip` (left out when zero), where `head_mapped = b* − head.begin_clip`
and `tail_mapped = tail.begin_clip + tail.observed_length − b*` as `unsigned` values. -/
theorem mergeDeletionAlignments_cigar_order (a : AlignerBase) (cigarBuffer : Cigar)
    (head tail : FragmentMetadata) (bestOffset : Nat) (contigList : ContigList)
    (bestMismatches : Nat) (deletionLength : Int) (cigarBuffer1 : Cigar)
    (head1 : FragmentMetadata)
    (hr : mergeDeletionAlignments a cigarBuffer head tail bestOffset contigList bestMismatches
      deletionLength = some (true, cigarBuffer1, head1))
    (hmapped : u32 ((bestOffset : Int) - head.beginClippedLength) ≠ 0)
    (hcontig : tail.contigId = head.contigId) :
    cigarBuffer1 = cigarBuffer ++
      ((if head.beginClippedLength = 0 then []
          else [CigarOp.mk head.beginClippedLength OpCode.SOFT_CLIP]) ++
        [CigarOp.mk (u32 ((bestOffset : Int) - head.beginClippedLength)) OpCode.ALIGN,
         CigarOp.mk deletionLength OpCode.DELETE] ++
        (if u32 ((tail.beginClippedLength : Int) + tail.observedLength - bestOffset) = 0 then []
          else [CigarOp.mk
            (u32 ((tail.beginClippedLength : Int) + tail.observedLength - bestOffset))
            OpCode.ALIGN]) ++
        (if tail.endClippedLength = 0 then []
          else [CigarOp.mk tail.endClippedLength OpCode.SOFT_CLIP])) := by
  rcases mergeDeletionAlignments_appends _ _ _ _ _ _ _ _ _ _ _ hr with ⟨hf, _⟩ | ⟨_, rfl⟩
  · exact absurd hf (by simp)
  · have hcomm : (tail.beginClippedLength : Int) + tail.observedLength - bestOffset =
        (tail.observedLength : Int) + tail.beginClippedLength - bestOffset := by ring
    simp only [deletionOps, hcomm, hcontig, ne_eq, not_true_eq_false, if_false, hmapped,
      not_false_eq_true, if_true, List.append_nil, Nat.cast_eq_zero, ite_not,
      List.append_assoc, List.singleton_append, List.cons_append, List.nil_append]

/-- C4 (witness). Scenario 1 of the spec merged at offset 8: `8M4D4M`. -/
theorem mergeDeletionAlignments_cigar_order_witness :
    mergeDeletionAlignments sampleAligner [] clippedHead clippedTail 8 deletionReference 4 4 =
      some (true,
        [CigarOp.mk 8 OpCode.ALIGN, CigarOp.mk 4 OpCode.DELETE, CigarOp.mk 4 OpCode.ALIGN],
        { deletionMerged with mismatchCount := 4, editDistance := 8 }) ∧
    u32 ((8 : Nat) - (clippedHead.beginClippedLength : Int)) ≠ 0 ∧
    clippedTail.contigId = clippedHead.contigId ∧
    [CigarOp.mk 8 OpCode.ALIGN, CigarOp.mk 4 OpCode.DELETE, CigarOp.mk 4 OpCode.ALIGN] =
      [] ++
      ((if clippedHead.beginClippedLength = 0 then []
          else [CigarOp.mk clippedHead.beginClippedLength OpCode.SOFT_CLIP]) ++
        [CigarOp.mk (u32 ((8 : Nat) - (clippedHead.beginClippedLength : Int))) OpCode.ALIGN,
         CigarOp.mk 4 OpCode.DELETE] ++
        (if u32 ((clippedTail.beginClippedLength : Int) + clippedTail.observedLength
            - (8 : Nat)) = 0 then []
          else [CigarOp.mk
            (u32 ((clippedTail.beginClippedLength : Int) + clippedTail.observedLength
              - (8 : Nat)))
            OpCode.ALIGN]) ++
        (if clippedTail.endClippedLength = 0 then []
          else [CigarOp.mk clippedTail.endClippedLength OpCode.SOFT_CLIP])) :=
  (fun hrun hm hc =>
    ⟨hrun, hm, hc,
      mergeDeletionAlignments_cigar_order sampleAligner [] clippedHead clippedTail 8
        deletionReference 4 4 _ _ hrun hm hc⟩)
    (by decide) (by decide) (by decide)

/-- C4 (counterexample). Scenario 1 of the spec merged at offset 12, the tail end: the merge
is accepted with `head_mapped = 12 > 0` on one contig and appends `12M 4D` only, whereas the
list as specified ends with a third operation `ALIGN 0`. -/
theorem mergeDeletionAlignments_cigar_as_specified_fails :
    (mergeDeletionAlignments sampleAligner [] clippedHead clippedTail 12 deletionReference 8
        4).map (fun r => (r.1, r.2.1)) =
      some (true, [CigarOp.mk 12 OpCode.ALIGN, CigarOp.mk 4 OpCode.DELETE]) ∧
    (0 : Int) < (12 : Nat) - (clippedHead.beginClippedLength : Int) ∧
    clippedTail.contigId = clippedHead.contigId ∧
    deletionCigarAsSpecified clippedHead clippedTail 12 4 =
      [CigarOp.mk 12 OpCode.ALIGN, CigarOp.mk 4 OpCode.DELETE, CigarOp.mk 0 OpCode.ALIGN] ∧
    [CigarOp.mk 12 OpCode.ALIGN, CigarOp.mk 4 OpCode.DELETE] ≠
      [] ++ deletionCigarAsSpecified clippedHead clippedTail 12 4 := by
  decide

/-- C5. In `mergeDeletionAlignments`, when `head_mapped == 0` and the head's observed length
is non-zero, the merge appends only `SOFT_CLIP head.begin_clip`, `ALIGN tail_mapped` and
`SOFT_CLIP tail.end_clip` (each left out when zero): no `ALIGN head_mapped`, no `DELETE`
(and no `CONTIG`) is emitted, and the first appended operation is not a `DELETE`.  The head
handed to `resetAlignment` and to the updater has its position advanced by exactly
`deletion_length` (and takes the tail's contig); the merge returns `true` with the updater's
result unless the updater reports zero matches. -/
theorem mergeDeletionAlignments_zero_head_mapped (a : AlignerBase) (cigarBuffer : Cigar)
    (head tail : FragmentMetadata) (bestOffset : Nat) (contigList : ContigList)
    (bestMismatches : Nat) (deletionLength : Int)
    (hmapped : u32 ((bestOffset : Int) - head.beginClippedLength) = 0)
    (hobserved : head.observedLength ≠ 0) :
    (mergeDeletionAlignments a cigarBuffer head tail bestOffset contigList bestMismatches
        deletionLength =
      if (a.updateFragmentCigar contigList
            (deletionUpdateInput a head tail bestOffset deletionLength)
            (deletionUpdateInput a head tail bestOffset deletionLength).reverse
            (deletionUpdateInput a head tail bestOffset deletionLength).contigId
            ((deletionUpdateInput a head tail bestOffset deletionLength).position
              + head.beginClippedLength)
            (cigarBuffer ++ deletionOps head tail bestOffset deletionLength)
            cigarBuffer.length).1 = 0 then none
      else
        some (true, cigarBuffer ++ deletionOps head tail bestOffset deletionLength,
          (a.updateFragmentCigar contigList
            (deletionUpdateInput a head tail bestOffset deletionLength)
            (deletionUpdateInput a head tail bestOffset deletionLength).reverse
            (deletionUpdateInput a head tail bestOffset deletionLength).contigId
            ((deletionUpdateInput a head tail bestOffset deletionLength).position
              + head.beginClippedLength)
            (cigarBuffer ++ deletionOps head tail bestOffset deletionLength)
            cigarBuffer.length).2)) ∧
    deletionUpdateInput a head tail bestOffset deletionLength =
      (a.resetAlignment
        { head with
          contigId := tail.contigId
          position := head.position + deletionLength }).setRightClipped tail.rightClipped ∧
    deletionOps head tail bestOffset deletionLength =
      (if head.beginClippedLength = 0 then []
        else [CigarOp.mk head.beginClippedLength OpCode.SOFT_CLIP]) ++
      (if u32 ((tail.beginClippedLength : Int) + tail.observedLength - bestOffset) = 0 then []
        else [CigarOp.mk
          (u32 ((tail.beginClippedLength : Int) + tail.observedLength - bestOffset))
          OpCode.ALIGN]) ++
      (if tail.endClippedLength = 0 then []
        else [CigarOp.mk tail.endClippedLength OpCode.SOFT_CLIP]) ∧
    (∀ op ∈ deletionOps head tail bestOffset deletionLength,
      op.opCode ≠ OpCode.DELETE ∧ op.opCode ≠ OpCode.CONTIG ∧
        op ≠ CigarOp.mk 0 OpCode.ALIGN) ∧
    (deletionOps head tail bestOffset deletionLength).head? ≠
      some (CigarOp.mk deletionLength OpCode.DELETE) := by
  have hcomm : (tail.beginClippedLength : Int) + tail.observedLength - bestOffset =
      (tail.observedLength : Int) + tail.beginClippedLength - bestOffset := by ring
  have hops : deletionOps head tail bestOffset deletionLength =
      (if head.beginClippedLength = 0 then []
        else [CigarOp.mk head.beginClippedLength OpCode.SOFT_CLIP]) ++
      (if u32 ((tail.beginClippedLength : Int) + tail.observedLength - bestOffset) = 0 then []
        else [CigarOp.mk
          (u32 ((tail.beginClippedLength : Int) + tail.observedLength - bestOffset))
          OpCode.ALIGN]) ++
      (if tail.endClippedLength = 0 then []
        else [CigarOp.mk tail.endClippedLength OpCode.SOFT_CLIP]) := by
    simp only [deletionOps, hcomm, hmapped, ne_eq, not_true_eq_false, if_false,
      List.append_nil, Nat.cast_eq_zero, ite_not]
  have hne : u32 ((bestOffset : Int) - head.beginClippedLength) ≠ head.observedLength := by
    rw [hmapped]; exact fun h => hobserved h.symm
  refine ⟨(mergeDeletionAlignments_eq _ _ _ _ _ _ _ _).trans (if_pos hne), ?_, hops, ?_, ?_⟩
  · simp only [deletionUpdateInput, hmapped, ne_eq, not_true_eq_false, if_false]
  · rw [hops]
    intro op hop
    simp only [List.mem_append] at hop
    rcases hop with (hop | hop) | hop
    · split_ifs at hop with h0
      · simp at hop
      · simp only [List.mem_singleton] at hop
        subst hop
        simp
    · split_ifs at hop with h0
      · simp at hop
      · simp only [List.mem_singleton] at hop
        subst hop
        refine ⟨by simp, by simp, ?_⟩
        intro hz
        simp only [CigarOp.mk.injEq, Nat.cast_eq_zero, and_true] at hz
        exact h0 hz
    · split_ifs at hop with h0
      · simp at hop
      · simp only [List.mem_singleton] at hop
        subst hop
        simp
  · rw [hops]
    split_ifs <;> simp

/-- C5 (witness). The ungapped candidates of scenario 1 merged at offset 0: the merge
appends `12M` only and hands the updater the head moved from position 0 to position 4. -/
theorem mergeDeletionAlignments_zero_head_mapped_witness :
    u32 ((0 : Nat) - (deletionHead.beginClippedLength : Int)) = 0 ∧
    deletionHead.observedLength ≠ 0 ∧
    mergeDeletionAlignments sampleAligner [] deletionHead deletionTail 0 deletionReference 4 4 =
      some (true, [CigarOp.mk 12 OpCode.ALIGN],
        { deletionMerged with
          position := 4, mismatchCount := 4, gapCount := 0, cigarLength := 1 }) ∧
    deletionOps deletionHead deletionTail 0 4 = [CigarOp.mk 12 OpCode.ALIGN] :=
  (fun hm ho =>
    ⟨hm, ho,
      (mergeDeletionAlignments_zero_head_mapped sampleAligner [] deletionHead deletionTail 0
        deletionReference 4 4 hm ho).1.trans (by decide),
      (mergeDeletionAlignments_zero_head_mapped sampleAligner [] deletionHead deletionTail 0
        deletionReference 4 4 hm ho).2.2.1.trans (by decide)⟩)
    (by decide) (by decide)

/-- C7 (as amended). Whenever `mergeDeletionAlignments` returns `true` and `head_mapped` is
non-zero, the operations it appended contain the operation `DELETE deletion_length`. -/
theorem mergeDeletionAlignments_emits_delete (a : AlignerBase) (cigarBuffer : Cigar)
    (head tail : FragmentMetadata) (bestOffset : Nat) (contigList : ContigList)
    (bestMismatches : Nat) (deletionLength : Int) (cigarBuffer1 : Cigar)
    (head1 : FragmentMetadata)
    (hr : mergeDeletionAlignments a cigarBuffer head tail bestOffset contigList bestMismatches
      deletionLength = some (true, cigarBuffer1, head1))
    (hmapped : u32 ((bestOffset : Int) - head.beginClippedLength) ≠ 0) :
    ∃ ops, cigarBuffer1 = cigarBuffer ++ ops ∧
      CigarOp.mk deletionLength OpCode.DELETE ∈ ops := by
  rcases mergeDeletionAlignments_appends _ _ _ _ _ _ _ _ _ _ _ hr with ⟨hf, _⟩ | ⟨_, rfl⟩
  · exact absurd hf (by simp)
  · refine ⟨_, rfl, ?_⟩
    simp only [deletionOps, ne_eq, hmapped, not_false_eq_true, if_true, List.mem_append,
      List.mem_singleton, or_true, true_or]

/-- C7 (witness). Scenario 1 of the spec merged at offset 8: `8M4D4M` contains `4D`. -/
theorem mergeDeletionAlignments_emits_delete_witness :
    mergeDeletionAlignments sampleAligner [] clippedHead clippedTail 8 deletionReference 4 4 =
      some (true,
        [CigarOp.mk 8 OpCode.ALIGN, CigarOp.mk 4 OpCode.DELETE, CigarOp.mk 4 OpCode.ALIGN],
        { deletionMerged with mismatchCount := 4, editDistance := 8 }) ∧
    u32 ((8 : Nat) - (clippedHead.beginClippedLength : Int)) ≠ 0 ∧
    ∃ ops,
      [CigarOp.mk 8 OpCode.ALIGN, CigarOp.mk 4 OpCode.DELETE, CigarOp.mk 4 OpCode.ALIGN] =
        [] ++ ops ∧
      CigarOp.mk 4 OpCode.DELETE ∈ ops :=
  (fun hrun hm =>
    ⟨hrun, hm,
      mergeDeletionAlignments_emits_delete sampleAligner [] clippedHead clippedTail 8
        deletionReference 4 4 _ _ hrun hm⟩)
    (by decide) (by decide)

/-- C7 (counterexample). The tail candidate at position 16 of `ungappedContig` explains the
whole read better than any split, so the scan keeps the leftmost offset 0: the deletion
aligner returns `true` after appending `12M` only, a CIGAR without a `DELETE`.  The ungapped
result is turned down later, by `pickBestSplit` inside `resolveConflict`. -/
theorem alignSimpleDeletion_accepts_without_delete :
    (alignSimpleDeletion sampleAligner [] ungappedHead 0 ungappedTail 8
        [ungappedContig]).map (fun r => (r.1, r.2.1)) =
      some (true, [CigarOp.mk 12 OpCode.ALIGN]) ∧
    (∀ op ∈ [CigarOp.mk 12 OpCode.ALIGN], op.opCode ≠ OpCode.DELETE) ∧
    (alignIndel sampleAligner [] [ungappedContig] true ungappedHead
        ungappedTail).map (fun r => (r.1, r.2.1)) =
      some (true, [CigarOp.mk 12 OpCode.ALIGN]) ∧
    resolveConflict sampleAligner [ungappedContig] true []
        (FragmentMetadataList.mk [ungappedHead, ungappedTail] 3) ungappedHead ungappedTail =
      some (false, [], FragmentMetadataList.mk [ungappedHead, ungappedTail] 3) := by
  decide

/-! ## Rejections of the deletion aligner (C6, C8, C9) and the deletion length (C10) -/

theorem alignSimpleDeletion_eq (a : AlignerBase) (buf : Cigar) (h : FragmentMetadata)
    (first : Nat) (t : FragmentMetadata) (last : Nat) (cl : ContigList)
    (headRef tailRef : Contig)
    (hH : cl.get? h.contigId = some headRef) (hT : cl.get? t.contigId = some tailRef) :
    alignSimpleDeletion a buf h first t last cl =
      if ¬ ((last : Int) - t.beginClippedLength + t.position ≤ tailRef.length) then none
      else if (t.beginClippedLength + t.observedLength) % 4294967296 < first then
        some (false, buf, h)
      else if ¬ (h.getUnclippedPosition ≥ 0 ∨ (first : Int) ≥ -h.getUnclippedPosition) then none
      else if ¬ (t.getUnclippedPosition ≥ 0 ∨ (first : Int) ≥ -t.getUnclippedPosition) then none
      else
        match countMismatches h.getStrandSequence first headRef
            (first + h.getUnclippedPosition) headRef.length
            ((t.beginClippedLength + t.observedLength) % 4294967296 - first) with
        | none => none
        | some tailMismatches =>
          if tailMismatches = 0 then some (false, buf, h)
          else
            match deletionBestLocation a.outside h first t last headRef tailRef with
            | none => none
            | some best =>
              if -2147483648 ≤ t.getUnclippedPosition - h.getUnclippedPosition ∧
                  t.getUnclippedPosition - h.getUnclippedPosition ≤ 2147483647 then
                mergeDeletionAlignments a buf h t best.deletionOffset_ cl best.getMistmatches
                  (t.getUnclippedPosition - h.getUnclippedPosition)
              else none := by
  have hsub : (first : Int) + t.getUnclippedPosition - (first + h.getUnclippedPosition) =
      t.getUnclippedPosition - h.getUnclippedPosition := by ring
  by_cases hrange : -2147483648 ≤ t.getUnclippedPosition - h.getUnclippedPosition ∧
      t.getUnclippedPosition - h.getUnclippedPosition ≤ 2147483647
  · simp only [alignSimpleDeletion, hH, hT, hsub, numericCastInt, hrange, and_self, if_true,
      FragmentMetadata.getBeginClippedLength, FragmentMetadata.getObservedLength,
      FragmentMetadata.getPosition]
  · simp only [alignSimpleDeletion, hH, hT, hsub, numericCastInt, hrange, if_false,
      FragmentMetadata.getBeginClippedLength, FragmentMetadata.getObservedLength,
      FragmentMetadata.getPosition]

/-- C6 (as amended). A returning call of `alignSimpleDeletion` returns `false` exactly when
`firstBreakpointOffset` lies past the tail end, or the pre-scan tail mismatch count is zero,
or the best offset found by the scan gives `head_mapped` equal to the head's observed length
(the head takes the whole length).  The best mismatch count of the scan is not compared with
the mismatch count of the head alignment. -/
theorem alignSimpleDeletion_false_iff (a : AlignerBase) (cigarBuffer : Cigar)
    (headAlignment : FragmentMetadata) (firstBreakpointOffset : Nat)
    (tailAlignment : FragmentMetadata) (lastBreakpointOffset : Nat) (contigList : ContigList)
    (headReference tailReference : Contig) (ret : Bool) (cigarBuffer1 : Cigar)
    (head1 : FragmentMetadata)
    (hH : contigList.get? headAlignment.contigId = some headReference)
    (hT : contigList.get? tailAlignment.contigId = some tailReference)
    (hr : alignSimpleDeletion a cigarBuffer headAlignment firstBreakpointOffset tailAlignment
      lastBreakpointOffset contigList = some (ret, cigarBuffer1, head1)) :
    ret = false ↔
      ((tailAlignment.beginClippedLength + tailAlignment.observedLength) % 4294967296
          < firstBreakpointOffset ∨
        countMismatches headAlignment.getStrandSequence firstBreakpointOffset headReference
          (firstBreakpointOffset + headAlignment.getUnclippedPosition) headReference.length
          ((tailAlignment.beginClippedLength + tailAlignment.observedLength) % 4294967296
            - firstBreakpointOffset) = some 0 ∨
        ∃ best,
          deletionBestLocation a.outside headAlignment firstBreakpointOffset tailAlignment
            lastBreakpointOffset headReference tailReference = some best ∧
          u32 ((best.deletionOffset_ : Int) - headAlignment.beginClippedLength) =
            headAlignment.observedLength) := by
  rw [alignSimpleDeletion_eq a _ _ _ _ _ _ _ _ hH hT] at hr
  by_cases h1 : ¬ ((lastBreakpointOffset : Int) - tailAlignment.beginClippedLength
      + tailAlignment.position ≤ tailReference.length)
  · rw [if_pos h1] at hr
    cases hr
  rw [if_neg h1] at hr
  by_cases h2 : (tailAlignment.beginClippedLength + tailAlignment.observedLength) % 4294967296
      < firstBreakpointOffset
  · rw [if_pos h2] at hr
    cases hr
    exact ⟨fun _ => Or.inl h2, fun _ => rfl⟩
  rw [if_neg h2] at hr
  by_cases h3 : ¬ (headAlignment.getUnclippedPosition ≥ 0 ∨
      (firstBreakpointOffset : Int) ≥ -headAlignment.getUnclippedPosition)
  · rw [if_pos h3] at hr
    cases hr
  rw [if_neg h3] at hr
  by_cases h4 : ¬ (tailAlignment.getUnclippedPosition ≥ 0 ∨
      (firstBreakpointOffset : Int) ≥ -tailAlignment.getUnclippedPosition)
  · rw [if_pos h4] at hr
    cases hr
  rw [if_neg h4] at hr
  split at hr
  · cases hr
  rename_i tmm hcm
  by_cases h5 : tmm = 0
  · rw [if_pos h5] at hr
    cases hr
    subst h5
    exact ⟨fun _ => Or.inr (Or.inl hcm), fun _ => rfl⟩
  rw [if_neg h5] at hr
  split at hr
  · cases hr
  rename_i best hbest
  split_ifs at hr with h6
  rw [mergeDeletionAlignments_eq] at hr
  split_ifs at hr with h7 h8
  · cases hr
    constructor
    · intro hf
      exact absurd hf (by simp)
    · rintro (hc | hc | ⟨b, hb, hc⟩)
      · exact absurd hc h2
      · rw [hcm] at hc
        exact absurd (Option.some.inj hc) h5
      · rw [hbest] at hb
        cases hb
        exact absurd hc h7
  · cases hr
    refine ⟨fun _ => Or.inr (Or.inr ⟨best, hbest, ?_⟩), fun _ => rfl⟩
    simpa using h7

/-- C6 (witness). On `noGainContig` the deletion aligner returns `true` for the candidates
of `noGainRead`, and none of the three rejection conditions holds.
The second part is the pair `contigEndHead`, `contigEndTail` with the window `[4, 6]`,
whose scan ends with a step that reads one base past contig 0: the call returns `true`
with `4M 1C 0D 4M`. -/
theorem alignSimpleDeletion_false_iff_witness :
    (List.get? [noGainContig] noGainHead.contigId = some noGainContig ∧
    List.get? [noGainContig] noGainTail.contigId = some noGainContig ∧
    alignSimpleDeletion sampleAligner [] noGainHead 0 noGainTail 4 [noGainContig] =
      some (true,
        [CigarOp.mk 4 OpCode.ALIGN, CigarOp.mk 12 OpCode.DELETE, CigarOp.mk 8 OpCode.ALIGN],
        { ungappedCandidate noGainRead 0 0 1 (Anchor.mk 0 0) (Anchor.mk 0 0) with
          gapCount := 1, editDistance := 13, cigarLength := 3 }) ∧
    (true = false ↔
      ((noGainTail.beginClippedLength + noGainTail.observedLength) % 4294967296 < 0 ∨
        countMismatches noGainHead.getStrandSequence (0 : Nat) noGainContig
          ((0 : Nat) + noGainHead.getUnclippedPosition) noGainContig.length
          ((noGainTail.beginClippedLength + noGainTail.observedLength) % 4294967296 - 0)
            = some 0 ∨
        ∃ best,
          deletionBestLocation sampleAligner.outside noGainHead 0 noGainTail 4 noGainContig
              noGainContig
            = some best ∧
          u32 ((best.deletionOffset_ : Int) - noGainHead.beginClippedLength) =
            noGainHead.observedLength))) ∧
    (List.get? contigEndContigs contigEndHead.contigId = some "AAAAGG".toList ∧
      List.get? contigEndContigs contigEndTail.contigId = some "TTTTTTTA".toList ∧
      alignSimpleDeletion sampleAligner [] contigEndHead 4 contigEndTail 6 contigEndContigs =
        some (true, contigEndCigar, contigEndMerged) ∧
      (true = false ↔
        ((contigEndTail.beginClippedLength + contigEndTail.observedLength) % 4294967296 < 4 ∨
          countMismatches contigEndHead.getStrandSequence (4 : Nat) "AAAAGG".toList
            ((4 : Nat) + contigEndHead.getUnclippedPosition) "AAAAGG".toList.length
            ((contigEndTail.beginClippedLength + contigEndTail.observedLength) % 4294967296
              - 4) = some 0 ∨
          ∃ best,
            deletionBestLocation sampleAligner.outside contigEndHead 4 contigEndTail 6
                "AAAAGG".toList "TTTTTTTA".toList = some best ∧
              u32 ((best.deletionOffset_ : Int) - contigEndHead.beginClippedLength) =
                contigEndHead.observedLength))) :=
  ⟨(fun hH hT hrun =>
    ⟨hH, hT, hrun,
      alignSimpleDeletion_false_iff sampleAligner [] noGainHead 0 noGainTail 4 [noGainContig]
        noGainContig noGainContig true _ _ hH hT hrun⟩)
    (by decide) (by decide) (by decide),
    (fun hH hT hrun =>
      ⟨hH, hT, hrun,
        alignSimpleDeletion_false_iff sampleAligner [] contigEndHead 4 contigEndTail 6
          contigEndContigs "AAAAGG".toList "TTTTTTTA".toList true _ _ hH hT hrun⟩)
      (by decide) (by decide) (by decide)⟩

/-- C6 (counterexample). On `noGainContig` the head alignment has one mismatch and the best
location of the scan (offset 4) has one mismatch as well, which is not strictly less; yet
`alignSimpleDeletion` returns `true` and appends `4M 12D 8M`. -/
theorem alignSimpleDeletion_accepts_without_gain :
    countMismatches noGainRead.forwardSequence 0 noGainContig 0 24 12 =
      some noGainHead.mismatchCount ∧
    (deletionBestLocation sampleAligner.outside noGainHead 0 noGainTail 4 noGainContig
        noGainContig).map
        (fun best => (best.deletionOffset_, best.getMistmatches)) = some (4, 1) ∧
    ¬ (1 < noGainHead.mismatchCount) ∧
    (alignSimpleDeletion sampleAligner [] noGainHead 0 noGainTail 4
        [noGainContig]).map (fun r => (r.1, r.2.1)) =
      some (true,
        [CigarOp.mk 4 OpCode.ALIGN, CigarOp.mk 12 OpCode.DELETE, CigarOp.mk 8 OpCode.ALIGN]) := by
  decide

/-- C8. Provided the two contigs exist and the entry assertion on `lastBreakpointOffset`
holds, `alignSimpleDeletion` returns `false`, with the CIGAR buffer and the head alignment
exactly as given, whenever
`firstBreakpointOffset > tail.begin_clip + tail.observed_length`. -/
theorem alignSimpleDeletion_first_past_tail_end (a : AlignerBase) (cigarBuffer : Cigar)
    (headAlignment : FragmentMetadata) (firstBreakpointOffset : Nat)
    (tailAlignment : FragmentMetadata) (lastBreakpointOffset : Nat) (contigList : ContigList)
    (headReference tailReference : Contig)
    (hH : contigList.get? headAlignment.contigId = some headReference)
    (hT : contigList.get? tailAlignment.contigId = some tailReference)
    (hassert : (lastBreakpointOffset : Int) - tailAlignment.beginClippedLength
      + tailAlignment.position ≤ tailReference.length)
    (hpast : firstBreakpointOffset >
      tailAlignment.beginClippedLength + tailAlignment.observedLength) :
    alignSimpleDeletion a cigarBuffer headAlignment firstBreakpointOffset tailAlignment
      lastBreakpointOffset contigList = some (false, cigarBuffer, headAlignment) := by
  rw [alignSimpleDeletion_eq a _ _ _ _ _ _ _ _ hH hT]
  have hmod : (tailAlignment.beginClippedLength + tailAlignment.observedLength) % 4294967296
      < firstBreakpointOffset :=
    lt_of_le_of_lt (Nat.mod_le _ _) hpast
  rw [if_neg (not_not.mpr hassert), if_pos hmod]

/-- C8 (witness). With the head `4M8S` in the role of the tail, the tail end is offset 4 and
a first breakpoint offset of 8 lies past it. -/
theorem alignSimpleDeletion_first_past_tail_end_witness :
    List.get? deletionReference clippedTail.contigId = some "AAAACCCCGGGGTTTT".toList ∧
    List.get? deletionReference clippedHead.contigId = some "AAAACCCCGGGGTTTT".toList ∧
    ((0 : Nat) : Int) - clippedHead.beginClippedLength + clippedHead.position
      ≤ "AAAACCCCGGGGTTTT".toList.length ∧
    8 > clippedHead.beginClippedLength + clippedHead.observedLength ∧
    alignSimpleDeletion sampleAligner [CigarOp.mk 12 OpCode.ALIGN] clippedTail 8 clippedHead 0
      deletionReference = some (false, [CigarOp.mk 12 OpCode.ALIGN], clippedTail) :=
  (fun hH hT ha hp =>
    ⟨hH, hT, ha, hp,
      alignSimpleDeletion_first_past_tail_end sampleAligner [CigarOp.mk 12 OpCode.ALIGN]
        clippedTail 8 clippedHead 0 deletionReference _ _ hH hT ha hp⟩)
    (by decide) (by decide) (by decide) (by decide)

/-- C9. Provided the two contigs exist and the three entry assertions hold,
`alignSimpleDeletion` returns `false`, with the CIGAR buffer and the head alignment exactly as
given, whenever the read bases in `[firstBreakpointOffset, tail end)` have zero mismatches
against the head's reference (the pre-scan tail mismatch count is zero). -/
theorem alignSimpleDeletion_no_tail_mismatches (a : AlignerBase) (cigarBuffer : Cigar)
    (headAlignment : FragmentMetadata) (firstBreakpointOffset : Nat)
    (tailAlignment : FragmentMetadata) (lastBreakpointOffset : Nat) (contigList : ContigList)
    (headReference tailReference : Contig)
    (hH : contigList.get? headAlignment.contigId = some headReference)
    (hT : contigList.get? tailAlignment.contigId = some tailReference)
    (hassert : (lastBreakpointOffset : Int) - tailAlignment.beginClippedLength
      + tailAlignment.position ≤ tailReference.length)
    (hheadLeft : headAlignment.getUnclippedPosition ≥ 0 ∨
      (firstBreakpointOffset : Int) ≥ -headAlignment.getUnclippedPosition)
    (htailLeft : tailAlignment.getUnclippedPosition ≥ 0 ∨
      (firstBreakpointOffset : Int) ≥ -tailAlignment.getUnclippedPosition)
    (hzero : countMismatches headAlignment.getStrandSequence firstBreakpointOffset
      headReference (firstBreakpointOffset + headAlignment.getUnclippedPosition)
      headReference.length
      ((tailAlignment.beginClippedLength + tailAlignment.observedLength) % 4294967296
        - firstBreakpointOffset) = some 0) :
    alignSimpleDeletion a cigarBuffer headAlignment firstBreakpointOffset tailAlignment
      lastBreakpointOffset contigList = some (false, cigarBuffer, headAlignment) := by
  rw [alignSimpleDeletion_eq a _ _ _ _ _ _ _ _ hH hT]
  rw [if_neg (not_not.mpr hassert)]
  by_cases h2 : (tailAlignment.beginClippedLength + tailAlignment.observedLength) % 4294967296
      < firstBreakpointOffset
  · rw [if_pos h2]
  · rw [if_neg h2, if_neg (not_not.mpr hheadLeft), if_neg (not_not.mpr htailLeft), hzero]
    rfl

/-- C9 (witness). With the candidate at position 4 as head and a first breakpoint offset of
4, the read bases 4-11 match the head's reference and the aligner returns `false`. -/
theorem alignSimpleDeletion_no_tail_mismatches_witness :
    List.get? deletionReference deletionTail.contigId = some "AAAACCCCGGGGTTTT".toList ∧
    List.get? deletionReference deletionHead.contigId = some "AAAACCCCGGGGTTTT".toList ∧
    ((8 : Nat) : Int) - deletionHead.beginClippedLength + deletionHead.position
      ≤ "AAAACCCCGGGGTTTT".toList.length ∧
    (deletionTail.getUnclippedPosition ≥ 0 ∨
      ((4 : Nat) : Int) ≥ -deletionTail.getUnclippedPosition) ∧
    (deletionHead.getUnclippedPosition ≥ 0 ∨
      ((4 : Nat) : Int) ≥ -deletionHead.getUnclippedPosition) ∧
    countMismatches deletionTail.getStrandSequence (4 : Nat) "AAAACCCCGGGGTTTT".toList
      ((4 : Nat) + deletionTail.getUnclippedPosition) "AAAACCCCGGGGTTTT".toList.length
      ((deletionHead.beginClippedLength + deletionHead.observedLength) % 4294967296 - 4)
        = some 0 ∧
    alignSimpleDeletion sampleAligner [CigarOp.mk 12 OpCode.ALIGN] deletionTail 4 deletionHead 8
      deletionReference = some (false, [CigarOp.mk 12 OpCode.ALIGN], deletionTail) :=
  (fun hH hT ha hl ht hz =>
    ⟨hH, hT, ha, hl, ht, hz,
      alignSimpleDeletion_no_tail_mismatches sampleAligner [CigarOp.mk 12 OpCode.ALIGN]
        deletionTail 4 deletionHead 8 deletionReference _ _ hH hT ha hl ht hz⟩)
    (by decide) (by decide) (by decide) (by decide) (by decide) (by decide)

/-- C10. Whenever `alignSimpleDeletion` reaches the merge (contigs exist, entry assertions
hold, the first breakpoint is not past the tail end, the pre-scan count is non-zero and the
scan ends with a best location), the deletion length it passes to `mergeDeletionAlignments`
is `tail.unclipped_position − head.unclipped_position`, whatever the window and the best
offset; outside the `int` range the checked cast throws instead. -/
theorem alignSimpleDeletion_deletion_length (a : AlignerBase) (cigarBuffer : Cigar)
    (headAlignment : FragmentMetadata) (firstBreakpointOffset : Nat)
    (tailAlignment : FragmentMetadata) (lastBreakpointOffset : Nat) (contigList : ContigList)
    (headReference tailReference : Contig) (tailMismatches : Nat) (best : DeletionLocation)
    (hH : contigList.get? headAlignment.contigId = some headReference)
    (hT : contigList.get? tailAlignment.contigId = some tailReference)
    (hassert : (lastBreakpointOffset : Int) - tailAlignment.beginClippedLength
      + tailAlignment.position ≤ tailReference.length)
    (hfirst : ¬ (tailAlignment.beginClippedLength + tailAlignment.observedLength) % 4294967296
      < firstBreakpointOffset)
    (hheadLeft : headAlignment.getUnclippedPosition ≥ 0 ∨
      (firstBreakpointOffset : Int) ≥ -headAlignment.getUnclippedPosition)
    (htailLeft : tailAlignment.getUnclippedPosition ≥ 0 ∨
      (firstBreakpointOffset : Int) ≥ -tailAlignment.getUnclippedPosition)
    (hcount : countMismatches headAlignment.getStrandSequence firstBreakpointOffset
      headReference (firstBreakpointOffset + headAlignment.getUnclippedPosition)
      headReference.length
      ((tailAlignment.beginClippedLength + tailAlignment.observedLength) % 4294967296
        - firstBreakpointOffset) = some tailMismatches)
    (hnonzero : tailMismatches ≠ 0)
    (hbest : deletionBestLocation a.outside headAlignment firstBreakpointOffset tailAlignment
      lastBreakpointOffset headReference tailReference = some best) :
    alignSimpleDeletion a cigarBuffer headAlignment firstBreakpointOffset tailAlignment
        lastBreakpointOffset contigList =
      if -2147483648 ≤ tailAlignment.getUnclippedPosition - headAlignment.getUnclippedPosition ∧
          tailAlignment.getUnclippedPosition - headAlignment.getUnclippedPosition
            ≤ 2147483647 then
        mergeDeletionAlignments a cigarBuffer headAlignment tailAlignment best.deletionOffset_
          contigList best.getMistmatches
          (tailAlignment.getUnclippedPosition - headAlignment.getUnclippedPosition)
      else none := by
  rw [alignSimpleDeletion_eq a _ _ _ _ _ _ _ _ hH hT]
  rw [if_neg (not_not.mpr hassert), if_neg hfirst, if_neg (not_not.mpr hheadLeft),
    if_neg (not_not.mpr htailLeft)]
  simp only [hcount, hnonzero, if_false, hbest]

/-- C10 (witness). Scenario 1 of the spec: the scan ends at offset 4 and the merge is called
with the deletion length `4 − 0 = 4`.
The second part is the pair `contigEndHead`, `contigEndTail` with the window `[4, 6]`,
whose scan ends with a step that reads one base past contig 0: the scan ends at offset 4
and the merge is called with the deletion length `0 − 0 = 0`. -/
theorem alignSimpleDeletion_deletion_length_witness :
    (List.get? deletionReference deletionHead.contigId = some "AAAACCCCGGGGTTTT".toList ∧
    List.get? deletionReference deletionTail.contigId = some "AAAACCCCGGGGTTTT".toList ∧
    ((8 : Nat) : Int) - deletionTail.beginClippedLength + deletionTail.position
      ≤ "AAAACCCCGGGGTTTT".toList.length ∧
    ¬ (deletionTail.beginClippedLength + deletionTail.observedLength) % 4294967296 < 0 ∧
    (deletionHead.getUnclippedPosition ≥ 0 ∨
      ((0 : Nat) : Int) ≥ -deletionHead.getUnclippedPosition) ∧
    (deletionTail.getUnclippedPosition ≥ 0 ∨
      ((0 : Nat) : Int) ≥ -deletionTail.getUnclippedPosition) ∧
    countMismatches deletionHead.getStrandSequence (0 : Nat) "AAAACCCCGGGGTTTT".toList
      ((0 : Nat) + deletionHead.getUnclippedPosition) "AAAACCCCGGGGTTTT".toList.length
      ((deletionTail.beginClippedLength + deletionTail.observedLength) % 4294967296 - 0)
        = some 8 ∧
    8 ≠ 0 ∧
    deletionBestLocation sampleAligner.outside deletionHead 0 deletionTail 8
        "AAAACCCCGGGGTTTT".toList
      "AAAACCCCGGGGTTTT".toList = some (DeletionLocation.mk 0 0 4 4 4 8) ∧
    deletionTail.getUnclippedPosition - deletionHead.getUnclippedPosition = 4 ∧
    alignSimpleDeletion sampleAligner [] deletionHead 0 deletionTail 8 deletionReference =
      if -2147483648 ≤ deletionTail.getUnclippedPosition - deletionHead.getUnclippedPosition ∧
          deletionTail.getUnclippedPosition - deletionHead.getUnclippedPosition
            ≤ 2147483647 then
        mergeDeletionAlignments sampleAligner [] deletionHead deletionTail
          (DeletionLocation.mk 0 0 4 4 4 8).deletionOffset_ deletionReference
          (DeletionLocation.mk 0 0 4 4 4 8).getMistmatches
          (deletionTail.getUnclippedPosition - deletionHead.getUnclippedPosition)
      else none) ∧
    (List.get? contigEndContigs contigEndHead.contigId = some "AAAAGG".toList ∧
      List.get? contigEndContigs contigEndTail.contigId = some "TTTTTTTA".toList ∧
      ((6 : Nat) : Int) - contigEndTail.beginClippedLength + contigEndTail.position
        ≤ "TTTTTTTA".toList.length ∧
      ¬ (contigEndTail.beginClippedLength + contigEndTail.observedLength) % 4294967296 < 4 ∧
      (contigEndHead.getUnclippedPosition ≥ 0 ∨
        ((4 : Nat) : Int) ≥ -contigEndHead.getUnclippedPosition) ∧
      (contigEndTail.getUnclippedPosition ≥ 0 ∨
        ((4 : Nat) : Int) ≥ -contigEndTail.getUnclippedPosition) ∧
      countMismatches contigEndHead.getStrandSequence (4 : Nat) "AAAAGG".toList
        ((4 : Nat) + contigEndHead.getUnclippedPosition) "AAAAGG".toList.length
        ((contigEndTail.beginClippedLength + contigEndTail.observedLength) % 4294967296 - 4)
          = some 2 ∧
      2 ≠ 0 ∧
      deletionBestLocation sampleAligner.outside contigEndHead 4 contigEndTail 6
        "AAAAGG".toList "TTTTTTTA".toList = some (DeletionLocation.mk 0 1 4 4 4 4) ∧
      contigEndTail.getUnclippedPosition - contigEndHead.getUnclippedPosition = 0 ∧
      alignSimpleDeletion sampleAligner [] contigEndHead 4 contigEndTail 6 contigEndContigs =
        if -2147483648 ≤
              contigEndTail.getUnclippedPosition - contigEndHead.getUnclippedPosition ∧
            contigEndTail.getUnclippedPosition - contigEndHead.getUnclippedPosition
              ≤ 2147483647 then
          mergeDeletionAlignments sampleAligner [] contigEndHead contigEndTail
            (DeletionLocation.mk 0 1 4 4 4 4).deletionOffset_ contigEndContigs
            (DeletionLocation.mk 0 1 4 4 4 4).getMistmatches
            (contigEndTail.getUnclippedPosition - contigEndHead.getUnclippedPosition)
        else none) :=
  ⟨(fun hH hT ha hf hl ht hc hn hb =>
    ⟨hH, hT, ha, hf, hl, ht, hc, hn, hb, by decide,
      alignSimpleDeletion_deletion_length sampleAligner [] deletionHead 0 deletionTail 8
        deletionReference _ _ 8 (DeletionLocation.mk 0 0 4 4 4 8) hH hT ha hf hl ht hc hn hb⟩)
    (by decide) (by decide) (by decide) (by decide) (by decide) (by decide) (by decide)
    (by decide) (by decide),
    (fun hH hT ha hf hl ht hc hn hb =>
      ⟨hH, hT, ha, hf, hl, ht, hc, hn, hb, by decide,
        alignSimpleDeletion_deletion_length sampleAligner [] contigEndHead 4 contigEndTail 6
          contigEndContigs _ _ 2 (DeletionLocation.mk 0 1 4 4 4 4) hH hT ha hf hl ht hc hn
          hb⟩)
      (by decide) (by decide) (by decide) (by decide) (by decide) (by decide) (by decide)
      (by decide) (by decide)⟩

/-! ## The insertion aligner: the scan window and the call made by `alignIndel` -/

theorem insertionScan_offset (outside : Outside) (s c : List Char) (last : Nat) :
    ∀ (fuel : Nat) (best cur : InsertionLocation) (ti ri : Int) (r : InsertionLocation),
      insertionScan outside s c last fuel best cur ti ri = some r →
      r.insertionOffset_ = best.insertionOffset_ ∨
        (cur.insertionOffset_ ≤ r.insertionOffset_ ∧ r.insertionOffset_ ≤ last) := by
  intro fuel
  induction fuel with
  | zero =>
    intro best cur ti ri r h
    simp only [insertionScan, Option.some.injEq] at h
    exact Or.inl (h ▸ rfl)
  | succ n ih =>
    intro best cur ti ri r h
    by_cases hc : best.getMistmatches ≠ 0 ∧ cur.insertionOffset_ ≤ last
    · simp only [insertionScan, hc, and_self, if_true, ne_eq, not_false_eq_true] at h
      by_cases h1 : cur.rightRealignedMismatches_ = minusOneU
      · simp only [h1, if_true] at h
        cases h
      · simp only [h1, if_false] at h
        cases hm : cur.moveNext outside s c ti ri with
        | none =>
          rw [hm] at h
          cases h
        | some q =>
          obtain ⟨next, ti1, ri1⟩ := q
          rw [hm] at h
          have ho := insertionLocation_moveNext_offset _ _ _ _ _ _ _ _ _ hm
          rcases ih _ _ _ _ _ h with h2 | ⟨h2, h3⟩
          · by_cases hb : best.getMistmatches > cur.getMistmatches
            · rw [if_pos hb] at h2
              exact Or.inr ⟨le_of_eq h2.symm, h2 ▸ hc.2⟩
            · rw [if_neg hb] at h2
              exact Or.inl h2
          · exact Or.inr ⟨by omega, h3⟩
    · simp only [insertionScan, hc, if_false, Option.some.injEq] at h
      exact Or.inl (h ▸ rfl)

theorem insertionBestLocation_offset (outside : Outside) (h : FragmentMetadata) (hs : Nat)
    (t : FragmentMetadata)
    (ts : Nat) (cl : ContigList) (n : Nat) (best : InsertionLocation)
    (hb : insertionBestLocation outside h hs t ts cl = some (n, best)) :
    numericCastUnsigned (h.getUnclippedPosition - t.getUnclippedPosition) = some n ∧
    ¬ u32 ((ts : Int) - hs) < n ∧
    max t.beginClippedLength hs ≤ best.insertionOffset_ ∧
    (best.insertionOffset_ ≤ u32 ((ts : Int) - n) ∨
      best.insertionOffset_ = max t.beginClippedLength hs) := by
  simp only [insertionBestLocation] at hb
  split at hb
  · cases hb
  rename_i n1 hn
  split at hb
  · cases hb
  rename_i hfit
  split at hb
  · cases hb
  split at hb
  · cases hb
  split at hb
  · cases hb
  split at hb
  · cases hb
  rename_i best1 hscan
  simp only [Option.some.injEq, Prod.mk.injEq] at hb
  obtain ⟨rfl, rfl⟩ := hb
  refine ⟨hn, hfit, ?_, ?_⟩
  · rcases insertionScan_offset _ _ _ _ _ _ _ _ _ _ hscan with h1 | ⟨h1, _⟩
    · exact le_of_eq h1.symm
    · exact h1
  · rcases insertionScan_offset _ _ _ _ _ _ _ _ _ _ hscan with h1 | ⟨_, h1⟩
    · exact Or.inr h1
    · exact Or.inl h1

theorem alignSimpleInsertion_merge (a : AlignerBase) (buf : Cigar) (h : FragmentMetadata)
    (hs : Nat) (t : FragmentMetadata) (ts : Nat) (cl : ContigList) (n : Nat)
    (best : InsertionLocation)
    (hb : insertionBestLocation a.outside h hs t ts cl = some (n, best)) :
    alignSimpleInsertion a buf h hs t ts cl =
      mergeInsertionAlignments a buf h t best.insertionOffset_ cl best.getMistmatches n := by
  simp only [insertionBestLocation] at hb
  simp only [alignSimpleInsertion]
  split at hb
  · cases hb
  rename_i n1 hn
  split at hb
  · cases hb
  rename_i hfit
  split at hb
  · cases hb
  rename_i contig hcontig
  split at hb
  · cases hb
  rename_i htl
  split at hb
  · cases hb
  rename_i tmm hcm
  split at hb
  · cases hb
  rename_i best1 hscan
  simp only [Option.some.injEq, Prod.mk.injEq] at hb
  obtain ⟨rfl, rfl⟩ := hb
  simp only [hn, hfit, if_false, hcontig, htl, hcm, hscan]

theorem alignIndel_insertion_call (a : AlignerBase) (buf : Cigar) (cl : ContigList)
    (regularIndelsOnly : Bool) (head tail : FragmentMetadata)
    (hp : insertionPath a regularIndelsOnly head tail) :
    alignIndel a buf cl regularIndelsOnly head tail =
      match alignSimpleInsertion a buf head head.firstAnchor_.first tail
          tail.lastAnchor_.first cl with
      | none => none
      | some (true, cigarBuffer1, tmp) => some (true, cigarBuffer1, tmp)
      | some (false, cigarBuffer1, _) => some (false, cigarBuffer1, head) := by
  obtain ⟨h1, h2, h3, h4, h5, h6⟩ := hp
  simp only [alignIndel, h1, h2, h3, h4, h5, h6, if_false, if_true, Bool.false_eq_true]

theorem numericCastUnsigned_some (x : Int) (n : Nat) (h : numericCastUnsigned x = some n) :
    (n : Int) = x := by
  unfold numericCastUnsigned at h
  split_ifs at h with hx
  cases h
  exact Int.toNat_of_nonneg hx.1

theorem alignIndel_insertion_fits (a : AlignerBase) (regularIndelsOnly : Bool)
    (head tail : FragmentMetadata) (insertionLength : Nat)
    (hp : insertionPath a regularIndelsOnly head tail)
    (hanchor : head.firstAnchor_.first ≤ head.firstAnchor_.second)
    (hrange : tail.lastAnchor_.first < 4294967296)
    (hcast : numericCastUnsigned (head.getUnclippedPosition - tail.getUnclippedPosition) =
      some insertionLength) :
    ¬ u32 ((tail.lastAnchor_.first : Int) - head.firstAnchor_.first) < insertionLength := by
  obtain ⟨_, h2, _, _, _, h6⟩ := hp
  have hL := numericCastUnsigned_some _ _ hcast
  unfold Anchor.length at h6
  unfold u32
  omega

/-! ## The insertion aligner (C11, C12) -/

/-- C11 (as amended). `alignSimpleInsertion` rejects the insertion, returning `false` with
the CIGAR buffer and the tail alignment exactly as given, whenever
`tailSeedOffset − headSeedOffset < insertion_length` as `unsigned` values, where
`insertion_length = head.unclipped_position − tail.unclipped_position` passes the checked
cast.  The two seed offsets are the ones the caller hands over: on its insertion path
`alignIndel` hands over `head.first_anchor.start` and `tail.last_anchor.start`. -/
theorem alignSimpleInsertion_seeds_too_close (a : AlignerBase) (cigarBuffer : Cigar)
    (head : FragmentMetadata) (headSeedOffset : Nat) (tail : FragmentMetadata)
    (tailSeedOffset : Nat) (contigList : ContigList) (insertionLength : Nat)
    (hcast : numericCastUnsigned (head.getUnclippedPosition - tail.getUnclippedPosition) =
      some insertionLength)
    (hfit : u32 ((tailSeedOffset : Int) - headSeedOffset) < insertionLength) :
    alignSimpleInsertion a cigarBuffer head headSeedOffset tail tailSeedOffset contigList =
      some (false, cigarBuffer, tail) := by
  simp only [alignSimpleInsertion, hcast, hfit, if_true]

/-- C11 (witness). With the seed offsets 7 and 8 there is room for one base between the
seeds, the insertion length of the `insertionRead` candidates is 2, and the aligner returns
`false` without touching the buffer. -/
theorem alignSimpleInsertion_seeds_too_close_witness :
    numericCastUnsigned
      (insertionHead.getUnclippedPosition - insertionTail.getUnclippedPosition) = some 2 ∧
    u32 (((8 : Nat) : Int) - (7 : Nat)) < 2 ∧
    alignSimpleInsertion sampleAligner [CigarOp.mk 14 OpCode.ALIGN] insertionHead 7
      insertionTail 8 [insertionContig] =
      some (false, [CigarOp.mk 14 OpCode.ALIGN], insertionTail) :=
  (fun hc hf =>
    ⟨hc, hf,
      alignSimpleInsertion_seeds_too_close sampleAligner [CigarOp.mk 14 OpCode.ALIGN]
        insertionHead 7 insertionTail 8 [insertionContig] 2 hc hf⟩)
    (by decide) (by decide)

/-- C11 (counterexample). The candidates of `insertionRead`: the head anchor ends at offset
7 and the tail anchor starts at offset 8, so `tail.last_anchor.start − head.first_anchor.end`
is 1, less than the insertion length 2.  `alignIndel` takes the insertion path and returns
`true` with `4M 2I 8M`: the test of `alignSimpleInsertion` measures from the start of the
head anchor, offset 0. -/
theorem alignIndel_accepts_insertion_between_close_seeds :
    insertionPath sampleAligner true insertionHead insertionTail ∧
    insertionHead.getUnclippedPosition - insertionTail.getUnclippedPosition = 2 ∧
    (insertionTail.lastAnchor_.first : Int) - insertionHead.firstAnchor_.second = 1 ∧
    alignIndel sampleAligner [] [insertionContig] true insertionHead insertionTail =
      some (true,
        [CigarOp.mk 4 OpCode.ALIGN, CigarOp.mk 2 OpCode.INSERT, CigarOp.mk 8 OpCode.ALIGN],
        insertionMerged) := by
  decide

/-- C12 (as amended). When `alignIndel` takes the insertion path and `alignSimpleInsertion`
gets as far as choosing an offset, that offset is what `mergeInsertionAlignments` is called
with, it is at least `max(head.first_anchor.start, tail.begin_clip)`, and it is at most
`tail.last_anchor.start − insertion_length` (an `unsigned` difference) unless it is that
lower bound itself, the offset at which the scan starts. -/
theorem alignIndel_insertion_offset_window (a : AlignerBase) (cigarBuffer : Cigar)
    (contigList : ContigList) (regularIndelsOnly : Bool) (head tail : FragmentMetadata)
    (insertionLength : Nat) (best : InsertionLocation)
    (hpath : insertionPath a regularIndelsOnly head tail)
    (hbest : insertionBestLocation a.outside head head.firstAnchor_.first tail
        tail.lastAnchor_.first
      contigList = some (insertionLength, best)) :
    alignIndel a cigarBuffer contigList regularIndelsOnly head tail =
      (match mergeInsertionAlignments a cigarBuffer head tail best.insertionOffset_ contigList
          best.getMistmatches insertionLength with
        | none => none
        | some (true, cigarBuffer1, tmp) => some (true, cigarBuffer1, tmp)
        | some (false, cigarBuffer1, _) => some (false, cigarBuffer1, head)) ∧
    (insertionLength : Int) = head.getUnclippedPosition - tail.getUnclippedPosition ∧
    max head.firstAnchor_.first tail.beginClippedLength ≤ best.insertionOffset_ ∧
    (best.insertionOffset_ ≤ u32 ((tail.lastAnchor_.first : Int) - insertionLength) ∨
      best.insertionOffset_ = max head.firstAnchor_.first tail.beginClippedLength) := by
  obtain ⟨hcast, _, hlo, hhi⟩ := insertionBestLocation_offset _ _ _ _ _ _ _ _ hbest
  rw [max_comm] at hlo hhi
  refine ⟨?_, numericCastUnsigned_some _ _ hcast, hlo, hhi⟩
  rw [alignIndel_insertion_call a cigarBuffer contigList regularIndelsOnly head tail hpath,
    alignSimpleInsertion_merge a cigarBuffer head _ tail _ contigList _ _ hbest]

/-- C12 (witness). The candidates of `insertionRead`, the head anchored on bases 0-4: the
scan ends at offset 4, inside `[max(0, 0), 8 − 2]`, and `alignIndel` returns what the merge
at offset 4 returns, `4M 2I 8M`. -/
theorem alignIndel_insertion_offset_window_witness :
    insertionPath sampleAligner true insertionShortHead insertionTail ∧
    insertionBestLocation sampleAligner.outside insertionShortHead
        insertionShortHead.firstAnchor_.first
      insertionTail insertionTail.lastAnchor_.first [insertionContig] =
      some (2, InsertionLocation.mk 2 0 0 4 8) ∧
    alignIndel sampleAligner [] [insertionContig] true insertionShortHead insertionTail =
      some (true,
        [CigarOp.mk 4 OpCode.ALIGN, CigarOp.mk 2 OpCode.INSERT, CigarOp.mk 8 OpCode.ALIGN],
        insertionMerged) ∧
    ((2 : Nat) : Int) =
      insertionShortHead.getUnclippedPosition - insertionTail.getUnclippedPosition ∧
    max insertionShortHead.firstAnchor_.first insertionTail.beginClippedLength ≤ 4 ∧
    (4 ≤ u32 ((insertionTail.lastAnchor_.first : Int) - (2 : Nat)) ∨
      4 = max insertionShortHead.firstAnchor_.first insertionTail.beginClippedLength) :=
  (fun hp hb =>
    ⟨hp, hb,
      (alignIndel_insertion_offset_window sampleAligner [] [insertionContig] true
        insertionShortHead insertionTail 2 (InsertionLocation.mk 2 0 0 4 8) hp hb).1.trans
        (by decide),
      (alignIndel_insertion_offset_window sampleAligner [] [insertionContig] true
        insertionShortHead insertionTail 2 (InsertionLocation.mk 2 0 0 4 8) hp hb).2⟩)
    (by decide) (by decide)

/-- C12 (counterexample). The candidates of `insertionRead`, the head anchored on bases 0-4:
the window as specified starts at `max(head.first_anchor.end, tail.begin_clip) = 5`, yet the
offset that `alignSimpleInsertion` chooses is 4, and `alignIndel` returns `true` with 4 bases
mapped left of the insertion. -/
theorem alignIndel_insertion_offset_before_anchor_end :
    insertionPath sampleAligner true insertionShortHead insertionTail ∧
    max insertionShortHead.firstAnchor_.second insertionTail.beginClippedLength = 5 ∧
    (insertionBestLocation sampleAligner.outside insertionShortHead
        insertionShortHead.firstAnchor_.first
      insertionTail insertionTail.lastAnchor_.first [insertionContig]).map
        (fun r => r.2.insertionOffset_) = some 4 ∧
    (alignIndel sampleAligner [] [insertionContig] true insertionShortHead
        insertionTail).map (fun r => (r.1, r.2.1)) =
      some (true,
        [CigarOp.mk 4 OpCode.ALIGN, CigarOp.mk 2 OpCode.INSERT, CigarOp.mk 8 OpCode.ALIGN]) := by
  decide

/-! ## The insertion merge (C13, C14) -/

theorem mergeInsertionAlignments_eq (a : AlignerBase) (buf : Cigar) (h t : FragmentMetadata)
    (b : Nat) (cl : ContigList) (mm : Nat) (n : Nat) :
    mergeInsertionAlignments a buf h t b cl mm n =
      if ¬ (u32 ((b : Int) - h.beginClippedLength) ≤ h.getReadLength) then none
      else if u32 ((h.observedLength : Int) + h.endClippedLength
          - u32 ((b : Int) - h.beginClippedLength) - t.endClippedLength - n) = 0 then
        some (false, buf ++ insertionLeftOps h b n, t)
      else if (a.updateFragmentCigar cl
            ((a.resetAlignment t).setLeftClipped h.leftClipped) h.reverse h.contigId h.position
            (buf ++ insertionLeftOps h b n ++ insertionRightOps h t b n) buf.length).1 = 0 then
        none
      else
        some (true, buf ++ insertionLeftOps h b n ++ insertionRightOps h t b n,
          (a.updateFragmentCigar cl
            ((a.resetAlignment t).setLeftClipped h.leftClipped) h.reverse h.contigId h.position
            (buf ++ insertionLeftOps h b n ++ insertionRightOps h t b n) buf.length).2) := by
  unfold mergeInsertionAlignments
  lift_lets
  extract_lets clip lm lc off b1 b2 rm b3 ce b4 t2 upd
  have hb2 : b2 = buf ++ insertionLeftOps h b n := by
    simp only [b2, b1, lc, lm, clip, insertionLeftOps, Cigar.addOperation,
      FragmentMetadata.getBeginClippedLength]
    split_ifs <;> simp
  have hb4 : b4 = buf ++ insertionLeftOps h b n ++ insertionRightOps h t b n := by
    simp only [b4, b3, hb2, ce, rm, lm, clip, insertionRightOps, Cigar.addOperation,
      FragmentMetadata.getEndClippedLength, FragmentMetadata.getBeginClippedLength,
      FragmentMetadata.getObservedLength]
    split_ifs <;> simp
  have hu : upd = a.updateFragmentCigar cl
      ((a.resetAlignment t).setLeftClipped h.leftClipped) h.reverse h.contigId h.position
      (buf ++ insertionLeftOps h b n ++ insertionRightOps h t b n) buf.length := by
    simp only [upd, hb4, t2, off]
  rw [← hu, ← hb4, ← hb2]
  rfl
/-- C13 (as amended). For every accepted insertion merge (`mergeInsertionAlignments`
returns `true`) `right_mapped` is non-zero and the operations appended are, in this order:
when `left_mapped ≠ 0`, `SOFT_CLIP head.begin_clip` (left out when zero), `ALIGN left_mapped`,
`INSERT insertion_length`, `ALIGN right_mapped`, `SOFT_CLIP tail.end_clip` (left out when
zero); when `left_mapped = 0`, `SOFT_CLIP (head.begin_clip + insertion_length)` (left out when
zero), `ALIGN right_mapped`, `SOFT_CLIP tail.end_clip` (left out when zero), with neither
`ALIGN left_mapped` nor `INSERT`.  Here `left_mapped = bestOffset − head.begin_clip` and
`right_mapped = head.observed_length + head.end_clip − left_mapped − tail.end_clip −
insertion_length` as `unsigned` values. -/
theorem mergeInsertionAlignments_cigar_order (a : AlignerBase) (cigarBuffer : Cigar)
    (head tail : FragmentMetadata) (bestOffset : Nat) (contigList : ContigList)
    (bestMismatches : Nat) (insertionLength : Nat) (cigarBuffer1 : Cigar)
    (tail1 : FragmentMetadata)
    (hr : mergeInsertionAlignments a cigarBuffer head tail bestOffset contigList bestMismatches
      insertionLength = some (true, cigarBuffer1, tail1)) :
    u32 ((head.observedLength : Int) + head.endClippedLength
      - u32 ((bestOffset : Int) - head.beginClippedLength) - tail.endClippedLength
      - insertionLength) ≠ 0 ∧
    cigarBuffer1 = cigarBuffer ++
      ((if u32 ((bestOffset : Int) - head.beginClippedLength) ≠ 0 then
          (if u32 (head.beginClippedLength : Int) = 0 then []
            else [CigarOp.mk (u32 (head.beginClippedLength : Int)) OpCode.SOFT_CLIP]) ++
          [CigarOp.mk (u32 ((bestOffset : Int) - head.beginClippedLength)) OpCode.ALIGN,
           CigarOp.mk insertionLength OpCode.INSERT]
        else
          (if u32 ((head.beginClippedLength : Int) + insertionLength) = 0 then []
            else [CigarOp.mk (u32 ((head.beginClippedLength : Int) + insertionLength))
              OpCode.SOFT_CLIP])) ++
        [CigarOp.mk
          (u32 ((head.observedLength : Int) + head.endClippedLength
            - u32 ((bestOffset : Int) - head.beginClippedLength) - tail.endClippedLength
            - insertionLength)) OpCode.ALIGN] ++
        (if tail.endClippedLength = 0 then []
          else [CigarOp.mk tail.endClippedLength OpCode.SOFT_CLIP])) := by
  rw [mergeInsertionAlignments_eq] at hr
  split_ifs at hr with h1 h2 h3
  · simp at hr
  simp only [Option.some.injEq, Prod.mk.injEq, true_and] at hr
  refine ⟨h2, ?_⟩
  rw [← hr.1]
  simp only [insertionLeftOps, insertionRightOps, List.append_assoc]
  by_cases hl : u32 ((bestOffset : Int) - head.beginClippedLength) = 0
  · simp only [hl, ne_eq, not_true_eq_false, if_false, List.append_nil, ite_not,
      List.nil_append]
  · simp only [hl, ne_eq, not_false_eq_true, if_true, ite_not, List.append_assoc,
      List.cons_append, List.nil_append]

/-- C13 (witness). The candidates of `insertionRead` merged at offset 4: `4M 2I 8M`. -/
theorem mergeInsertionAlignments_cigar_order_witness :
    mergeInsertionAlignments sampleAligner [] insertionHead insertionTail 4 [insertionContig]
        0 2 =
      some (true,
        [CigarOp.mk 4 OpCode.ALIGN, CigarOp.mk 2 OpCode.INSERT, CigarOp.mk 8 OpCode.ALIGN],
        insertionMerged) ∧
    u32 ((insertionHead.observedLength : Int) + insertionHead.endClippedLength
      - u32 (((4 : Nat) : Int) - insertionHead.beginClippedLength)
      - insertionTail.endClippedLength - (2 : Nat)) ≠ 0 ∧
    [CigarOp.mk 4 OpCode.ALIGN, CigarOp.mk 2 OpCode.INSERT, CigarOp.mk 8 OpCode.ALIGN] =
      [] ++
      ((if u32 (((4 : Nat) : Int) - insertionHead.beginClippedLength) ≠ 0 then
          (if u32 (insertionHead.beginClippedLength : Int) = 0 then []
            else [CigarOp.mk (u32 (insertionHead.beginClippedLength : Int))
              OpCode.SOFT_CLIP]) ++
          [CigarOp.mk (u32 (((4 : Nat) : Int) - insertionHead.beginClippedLength))
             OpCode.ALIGN,
           CigarOp.mk (2 : Nat) OpCode.INSERT]
        else
          (if u32 ((insertionHead.beginClippedLength : Int) + (2 : Nat)) = 0 then []
            else [CigarOp.mk (u32 ((insertionHead.beginClippedLength : Int) + (2 : Nat)))
              OpCode.SOFT_CLIP])) ++
        [CigarOp.mk
          (u32 ((insertionHead.observedLength : Int) + insertionHead.endClippedLength
            - u32 (((4 : Nat) : Int) - insertionHead.beginClippedLength)
            - insertionTail.endClippedLength - (2 : Nat))) OpCode.ALIGN] ++
        (if insertionTail.endClippedLength = 0 then []
          else [CigarOp.mk insertionTail.endClippedLength OpCode.SOFT_CLIP])) :=
  (fun hrun =>
    ⟨hrun,
      mergeInsertionAlignments_cigar_order sampleAligner [] insertionHead insertionTail 4
        [insertionContig] 0 2 _ _ hrun⟩)
    (by decide)

/-- C13 (counterexample). The candidates of `insertionRead` merged at offset 0, where
`left_mapped = 0`: the merge returns `true` and appends `2S 12M` only.  The appended
operations hold no `INSERT` and no `ALIGN left_mapped`. -/
theorem mergeInsertionAlignments_accepts_without_insert :
    u32 (((0 : Nat) : Int) - insertionHead.beginClippedLength) = 0 ∧
    (mergeInsertionAlignments sampleAligner [] insertionHead insertionTail 0 [insertionContig]
        2 2).map (fun r => (r.1, r.2.1)) =
      some (true, [CigarOp.mk 2 OpCode.SOFT_CLIP, CigarOp.mk 12 OpCode.ALIGN]) ∧
    (∀ op ∈ [CigarOp.mk 2 OpCode.SOFT_CLIP, CigarOp.mk 12 OpCode.ALIGN],
      op.opCode ≠ OpCode.INSERT ∧ op ≠ CigarOp.mk 0 OpCode.ALIGN) := by
  decide

/-- C14 (as amended). Provided its assertion `left_mapped ≤ read length` holds,
`mergeInsertionAlignments` returns `false` whenever `right_mapped` is zero, leaving the tail
alignment as given and the operations emitted so far in the buffer; and whenever
`right_mapped` is non-zero it does not return `false`, whatever `left_mapped` is: it returns
`true` with the merged CIGAR, unless the updater reports zero matches, which is fatal. -/
theorem mergeInsertionAlignments_false_iff (a : AlignerBase) (cigarBuffer : Cigar)
    (head tail : FragmentMetadata) (bestOffset : Nat) (contigList : ContigList)
    (bestMismatches : Nat) (insertionLength : Nat)
    (hassert : u32 ((bestOffset : Int) - head.beginClippedLength) ≤ head.getReadLength) :
    (u32 ((head.observedLength : Int) + head.endClippedLength
        - u32 ((bestOffset : Int) - head.beginClippedLength) - tail.endClippedLength
        - insertionLength) = 0 →
      mergeInsertionAlignments a cigarBuffer head tail bestOffset contigList bestMismatches
        insertionLength =
        some (false, cigarBuffer ++ insertionLeftOps head bestOffset insertionLength, tail)) ∧
    (u32 ((head.observedLength : Int) + head.endClippedLength
        - u32 ((bestOffset : Int) - head.beginClippedLength) - tail.endClippedLength
        - insertionLength) ≠ 0 →
      mergeInsertionAlignments a cigarBuffer head tail bestOffset contigList bestMismatches
        insertionLength = none ∨
      ∃ tail1,
        mergeInsertionAlignments a cigarBuffer head tail bestOffset contigList bestMismatches
          insertionLength =
          some (true,
            cigarBuffer ++ insertionLeftOps head bestOffset insertionLength ++
              insertionRightOps head tail bestOffset insertionLength, tail1)) := by
  rw [mergeInsertionAlignments_eq, if_neg (not_not.mpr hassert)]
  constructor
  · intro hz
    rw [if_pos hz]
  · intro hz
    rw [if_neg hz]
    split_ifs
    · exact Or.inl rfl
    · exact Or.inr ⟨_, rfl⟩

/-- C14 (witness). The candidates of `insertionRead` merged at offset 12, the end of the
read: `right_mapped = 14 − 12 − 2 = 0` and the merge returns `false`, with `12M 2I` left in
the buffer; merged at offset 4, `right_mapped = 8` and the merge returns `true`. -/
theorem mergeInsertionAlignments_false_iff_witness :
    u32 (((12 : Nat) : Int) - insertionHead.beginClippedLength) ≤ insertionHead.getReadLength ∧
    u32 ((insertionHead.observedLength : Int) + insertionHead.endClippedLength
        - u32 (((12 : Nat) : Int) - insertionHead.beginClippedLength)
        - insertionTail.endClippedLength - (2 : Nat)) = 0 ∧
    insertionLeftOps insertionHead 12 2 =
      [CigarOp.mk 12 OpCode.ALIGN, CigarOp.mk 2 OpCode.INSERT] ∧
    mergeInsertionAlignments sampleAligner [] insertionHead insertionTail 12 [insertionContig]
        4 2 =
      some (false, [] ++ insertionLeftOps insertionHead 12 2, insertionTail) ∧
    u32 (((4 : Nat) : Int) - insertionHead.beginClippedLength) ≤ insertionHead.getReadLength ∧
    u32 ((insertionHead.observedLength : Int) + insertionHead.endClippedLength
        - u32 (((4 : Nat) : Int) - insertionHead.beginClippedLength)
        - insertionTail.endClippedLength - (2 : Nat)) ≠ 0 ∧
    (mergeInsertionAlignments sampleAligner [] insertionHead insertionTail 4 [insertionContig]
        0 2 = none ∨
      ∃ tail1,
        mergeInsertionAlignments sampleAligner [] insertionHead insertionTail 4
          [insertionContig] 0 2 =
          some (true,
            [] ++ insertionLeftOps insertionHead 4 2 ++
              insertionRightOps insertionHead insertionTail 4 2, tail1)) :=
  (fun ha hz ha4 hz4 =>
    ⟨ha, hz, by decide,
      (mergeInsertionAlignments_false_iff sampleAligner [] insertionHead insertionTail 12
        [insertionContig] 4 2 ha).1 hz,
      ha4, hz4,
      (mergeInsertionAlignments_false_iff sampleAligner [] insertionHead insertionTail 4
        [insertionContig] 0 2 ha4).2 hz4⟩)
    (by decide) (by decide) (by decide) (by decide)

/-- C14 (counterexample). The candidates of `prefixRead`: the scan of `alignSimpleInsertion`
keeps its first offset 0, so the merge is called with `left_mapped = 0` and `right_mapped =
12`.  The merge returns `true`, with the two inserted bases soft-clipped (`2S 12M`), and so
does `alignIndel`.  The result has no gap and is turned down later, by `pickBestSplit`
inside `resolveConflict`. -/
theorem mergeInsertionAlignments_accepts_zero_left_mapped :
    insertionBestLocation sampleAligner.outside prefixHead prefixHead.firstAnchor_.first prefixTail
      prefixTail.lastAnchor_.first [prefixContig] = some (2, InsertionLocation.mk 2 0 0 0 12) ∧
    u32 (((0 : Nat) : Int) - prefixHead.beginClippedLength) = 0 ∧
    (mergeInsertionAlignments sampleAligner [] prefixHead prefixTail 0 [prefixContig] 0
        2).map (fun r => (r.1, r.2.1)) =
      some (true, [CigarOp.mk 2 OpCode.SOFT_CLIP, CigarOp.mk 12 OpCode.ALIGN]) ∧
    (alignIndel sampleAligner [] [prefixContig] true prefixHead prefixTail).map
        (fun r => (r.1, r.2.1)) =
      some (true, [CigarOp.mk 2 OpCode.SOFT_CLIP, CigarOp.mk 12 OpCode.ALIGN]) ∧
    resolveConflict sampleAligner [prefixContig] true []
        (FragmentMetadataList.mk [prefixHead, prefixTail] 3) prefixHead prefixTail =
      some (false, [], FragmentMetadataList.mk [prefixHead, prefixTail] 3) := by
  decide

/-! ## The inversion merges (C15, C16, C17) -/

theorem mergeLeftAnchoredInversions_eq (a : AlignerBase) (buf : Cigar)
    (h t : FragmentMetadata) (b : Nat) (cl : ContigList) (mm : Nat) (d : Int) :
    mergeLeftAnchoredInversions a buf h t b cl mm d =
      if u32 ((b : Int) - h.beginClippedLength) = 0 then some (false, buf, h)
      else if (a.updateFragmentCigar cl
            ((a.resetAlignment h).setRightClipped t.rightClipped)
            ((a.resetAlignment h).setRightClipped t.rightClipped).reverse
            ((a.resetAlignment h).setRightClipped t.rightClipped).contigId
            (((a.resetAlignment h).setRightClipped t.rightClipped).position
              + h.beginClippedLength)
            (buf ++ leftInversionOps h t b d) buf.length).1 = 0 then none
      else
        some (true, buf ++ leftInversionOps h t b d,
          (a.updateFragmentCigar cl
            ((a.resetAlignment h).setRightClipped t.rightClipped)
            ((a.resetAlignment h).setRightClipped t.rightClipped).reverse
            ((a.resetAlignment h).setRightClipped t.rightClipped).contigId
            (((a.resetAlignment h).setRightClipped t.rightClipped).position
              + h.beginClippedLength)
            (buf ++ leftInversionOps h t b d) buf.length).2) := by
  unfold mergeLeftAnchoredInversions
  lift_lets
  extract_lets clip bm off b1 b2 ec b3 em b4 b5 h2 upd
  have hb : b5 = buf ++ leftInversionOps h t b d := by
    simp only [b5, b4, b3, b2, b1, em, ec, bm, clip, leftInversionOps, Cigar.addOperation,
      FragmentMetadata.getEndClippedLength, FragmentMetadata.getBeginClippedLength,
      FragmentMetadata.getObservedLength]
    split_ifs <;> simp
  have hu : upd = a.updateFragmentCigar cl
      ((a.resetAlignment h).setRightClipped t.rightClipped)
      ((a.resetAlignment h).setRightClipped t.rightClipped).reverse
      ((a.resetAlignment h).setRightClipped t.rightClipped).contigId
      (((a.resetAlignment h).setRightClipped t.rightClipped).position + h.beginClippedLength)
      (buf ++ leftInversionOps h t b d) buf.length := by
    simp only [upd, hb, h2, off, clip, FragmentMetadata.getBeginClippedLength]
  rw [← hu, ← hb]
  have hbm : u32 ((b : Int) - h.beginClippedLength) = bm := rfl
  rw [hbm]
  by_cases h0 : bm = 0
  · simp only [h0, if_true]
  · simp only [h0, if_false, ne_eq, not_false_eq_true, if_true]

theorem mergeRightAnchoredInversionAlignments_eq (a : AlignerBase) (buf : Cigar)
    (h t : FragmentMetadata) (b : Nat) (cl : ContigList) (mm : Nat) (d : Int) :
    mergeRightAnchoredInversionAlignments a buf h t b cl mm d =
      if u32 ((h.getReadLength : Int) - b - h.endClippedLength) = 0 then some (false, buf, h)
      else if u32 ((b : Int) - t.endClippedLength) = 0 then
        some (false, buf ++ rightInversionHeadOps h t b d, h)
      else if (a.updateFragmentCigar cl
            ((a.resetAlignment h).setRightClipped t.rightClipped)
            ((a.resetAlignment h).setRightClipped t.rightClipped).reverse
            ((a.resetAlignment h).setRightClipped t.rightClipped).contigId
            (((a.resetAlignment h).setRightClipped t.rightClipped).position + b)
            (buf ++ rightInversionHeadOps h t b d ++ rightInversionTailOps t b)
            buf.length).1 = 0 then none
      else
        some (true, buf ++ rightInversionHeadOps h t b d ++ rightInversionTailOps t b,
          (a.updateFragmentCigar cl
            ((a.resetAlignment h).setRightClipped t.rightClipped)
            ((a.resetAlignment h).setRightClipped t.rightClipped).reverse
            ((a.resetAlignment h).setRightClipped t.rightClipped).contigId
            (((a.resetAlignment h).setRightClipped t.rightClipped).position + b)
            (buf ++ rightInversionHeadOps h t b d ++ rightInversionTailOps t b)
            buf.length).2) := by
  unfold mergeRightAnchoredInversionAlignments
  lift_lets
  extract_lets bm off b1 b2 b3 b4 b5 b6 b7 em b8 b9 h2 upd
  have hb7 : b7 = buf ++ rightInversionHeadOps h t b d := by
    simp only [b7, b6, b5, b4, b3, b2, b1, bm, rightInversionHeadOps, Cigar.addOperation,
      FragmentMetadata.getEndClippedLength]
    split_ifs <;> simp
  have hb9 : b9 = buf ++ rightInversionHeadOps h t b d ++ rightInversionTailOps t b := by
    simp only [b9, b8, hb7, em, rightInversionTailOps, Cigar.addOperation,
      FragmentMetadata.getEndClippedLength]
    split_ifs <;> simp
  have hu : upd = a.updateFragmentCigar cl
      ((a.resetAlignment h).setRightClipped t.rightClipped)
      ((a.resetAlignment h).setRightClipped t.rightClipped).reverse
      ((a.resetAlignment h).setRightClipped t.rightClipped).contigId
      (((a.resetAlignment h).setRightClipped t.rightClipped).position + b)
      (buf ++ rightInversionHeadOps h t b d ++ rightInversionTailOps t b) buf.length := by
    simp only [upd, hb9, h2, off]
  rw [← hu, ← hb9, ← hb7]
  have hbm : u32 ((h.getReadLength : Int) - b - h.endClippedLength) = bm := rfl
  have hem : u32 ((b : Int) - t.endClippedLength) = em := rfl
  rw [hbm, hem]
  by_cases h0 : bm = 0
  · simp only [h0, if_true]
  · simp only [h0, if_false, ne_eq, not_false_eq_true, if_true]
/-- C15 (as amended). For every accepted left-anchored inversion merge
(`mergeLeftAnchoredInversions` returns `true`) with `end_mapped ≠ 0`, `begin_mapped` is
non-zero and the appended operations are exactly, in order: `SOFT_CLIP head.begin_clip` (left
out when zero), `ALIGN begin_mapped`, `FLIP flipped_length`, `CONTIG tail.contig_id` (only
when the contigs differ), `DELETE distance`, `SOFT_CLIP tail.begin_clip` (left out when zero),
`ALIGN end_mapped`, `HARD_CLIP trailing`.  Here `begin_mapped = bestOffset − head.begin_clip`,
`flipped_length = read_length − begin_mapped − head.begin_clip`,
`end_mapped = tail.observed_length + tail.end_clip − bestOffset` and
`trailing = read_length − end_mapped − tail.begin_clip`. -/
theorem mergeLeftAnchoredInversions_cigar_order (a : AlignerBase) (cigarBuffer : Cigar)
    (head tail : FragmentMetadata) (bestOffset : Nat) (contigList : ContigList)
    (bestMismatches : Nat) (distance : Int) (cigarBuffer1 : Cigar) (head1 : FragmentMetadata)
    (hr : mergeLeftAnchoredInversions a cigarBuffer head tail bestOffset contigList
      bestMismatches distance = some (true, cigarBuffer1, head1))
    (hend : u32 ((tail.observedLength : Int) + tail.endClippedLength - bestOffset) ≠ 0) :
    u32 ((bestOffset : Int) - head.beginClippedLength) ≠ 0 ∧
    cigarBuffer1 = cigarBuffer ++
      ((if head.beginClippedLength = 0 then []
          else [CigarOp.mk head.beginClippedLength OpCode.SOFT_CLIP]) ++
        [CigarOp.mk (u32 ((bestOffset : Int) - head.beginClippedLength)) OpCode.ALIGN,
         CigarOp.mk
           ((u32 ((head.getReadLength : Int)
              - u32 ((bestOffset : Int) - head.beginClippedLength)) : Int)
             - head.beginClippedLength) OpCode.FLIP] ++
        (if tail.contigId = head.contigId then []
          else [CigarOp.mk tail.contigId OpCode.CONTIG]) ++
        [CigarOp.mk distance OpCode.DELETE] ++
        (if tail.beginClippedLength = 0 then []
          else [CigarOp.mk tail.beginClippedLength OpCode.SOFT_CLIP]) ++
        [CigarOp.mk (u32 ((tail.observedLength : Int) + tail.endClippedLength - bestOffset))
           OpCode.ALIGN,
         CigarOp.mk
           ((u32 ((tail.getReadLength : Int)
              - u32 ((tail.observedLength : Int) + tail.endClippedLength - bestOffset)) : Int)
             - tail.beginClippedLength) OpCode.HARD_CLIP]) := by
  rw [mergeLeftAnchoredInversions_eq] at hr
  split_ifs at hr with h1 h2
  · simp at hr
  simp only [Option.some.injEq, Prod.mk.injEq, true_and] at hr
  refine ⟨h1, ?_⟩
  rw [← hr.1]
  simp only [leftInversionOps, hend, ne_eq, not_false_eq_true, if_true, Nat.cast_eq_zero,
    ite_not, List.append_assoc, List.cons_append, List.nil_append]

/-- C15 (witness). The candidates of `inversionRead` merged at offset 6:
`6M 6F 4D 6M 6H`. -/
theorem mergeLeftAnchoredInversions_cigar_order_witness :
    mergeLeftAnchoredInversions sampleAligner [] inversionHead inversionTail 6
        [inversionContig] 0 4 =
      some (true,
        [CigarOp.mk 6 OpCode.ALIGN, CigarOp.mk 6 OpCode.FLIP, CigarOp.mk 4 OpCode.DELETE,
         CigarOp.mk 6 OpCode.ALIGN, CigarOp.mk 6 OpCode.HARD_CLIP],
        (sampleUpdateAlignment (sampleResetAlignment inversionHead) [inversionContig] false 0 0
          [CigarOp.mk 6 OpCode.ALIGN, CigarOp.mk 6 OpCode.FLIP, CigarOp.mk 4 OpCode.DELETE,
           CigarOp.mk 6 OpCode.ALIGN, CigarOp.mk 6 OpCode.HARD_CLIP] 0).2) ∧
    u32 ((inversionTail.observedLength : Int) + inversionTail.endClippedLength - (6 : Nat))
      ≠ 0 ∧
    u32 (((6 : Nat) : Int) - inversionHead.beginClippedLength) ≠ 0 ∧
    [CigarOp.mk 6 OpCode.ALIGN, CigarOp.mk 6 OpCode.FLIP, CigarOp.mk 4 OpCode.DELETE,
     CigarOp.mk 6 OpCode.ALIGN, CigarOp.mk 6 OpCode.HARD_CLIP] =
      [] ++
      ((if inversionHead.beginClippedLength = 0 then []
          else [CigarOp.mk inversionHead.beginClippedLength OpCode.SOFT_CLIP]) ++
        [CigarOp.mk (u32 (((6 : Nat) : Int) - inversionHead.beginClippedLength)) OpCode.ALIGN,
         CigarOp.mk
           ((u32 ((inversionHead.getReadLength : Int)
              - u32 (((6 : Nat) : Int) - inversionHead.beginClippedLength)) : Int)
             - inversionHead.beginClippedLength) OpCode.FLIP] ++
        (if inversionTail.contigId = inversionHead.contigId then []
          else [CigarOp.mk inversionTail.contigId OpCode.CONTIG]) ++
        [CigarOp.mk 4 OpCode.DELETE] ++
        (if inversionTail.beginClippedLength = 0 then []
          else [CigarOp.mk inversionTail.beginClippedLength OpCode.SOFT_CLIP]) ++
        [CigarOp.mk
           (u32 ((inversionTail.observedLength : Int) + inversionTail.endClippedLength
             - (6 : Nat))) OpCode.ALIGN,
         CigarOp.mk
           ((u32 ((inversionTail.getReadLength : Int)
              - u32 ((inversionTail.observedLength : Int) + inversionTail.endClippedLength
                - (6 : Nat))) : Int)
             - inversionTail.beginClippedLength) OpCode.HARD_CLIP]) :=
  (fun hrun he =>
    ⟨hrun, he,
      mergeLeftAnchoredInversions_cigar_order sampleAligner [] inversionHead inversionTail 6
        [inversionContig] 0 4 _ _ hrun he⟩)
    (by decide) (by decide)

/-- C15 (counterexample). The tail `2S10M` of `inversionRead`: the left-anchored inversion
aligner ends its scan at offset 6 and the merge, called with the distance 6, returns `true`
with `6M 6F 6D 2S 4M 6H`.  Between `DELETE 6` and `ALIGN end_mapped` stands
`SOFT_CLIP tail.begin_clip`. -/
theorem mergeLeftAnchoredInversions_soft_clip_after_delete :
    (alignLeftAnchoredInversion sampleAligner [] inversionHead 6 inversionClippedTail 6
        [inversionContig]).map (fun r => (r.1, r.2.1)) =
      some (true,
        [CigarOp.mk 6 OpCode.ALIGN, CigarOp.mk 6 OpCode.FLIP, CigarOp.mk 6 OpCode.DELETE,
         CigarOp.mk 2 OpCode.SOFT_CLIP, CigarOp.mk 4 OpCode.ALIGN,
         CigarOp.mk 6 OpCode.HARD_CLIP]) ∧
    (mergeLeftAnchoredInversions sampleAligner [] inversionHead inversionClippedTail 6
        [inversionContig] 0 6).map (fun r => (r.1, r.2.1)) =
      some (true,
        [CigarOp.mk 6 OpCode.ALIGN, CigarOp.mk 6 OpCode.FLIP, CigarOp.mk 6 OpCode.DELETE,
         CigarOp.mk 2 OpCode.SOFT_CLIP, CigarOp.mk 4 OpCode.ALIGN,
         CigarOp.mk 6 OpCode.HARD_CLIP]) ∧
    u32 ((inversionClippedTail.observedLength : Int) + inversionClippedTail.endClippedLength
      - (6 : Nat)) = 4 ∧
    [CigarOp.mk 6 OpCode.ALIGN, CigarOp.mk 6 OpCode.FLIP, CigarOp.mk 6 OpCode.DELETE,
     CigarOp.mk 2 OpCode.SOFT_CLIP, CigarOp.mk 4 OpCode.ALIGN,
     CigarOp.mk 6 OpCode.HARD_CLIP] ≠
      [CigarOp.mk 6 OpCode.ALIGN, CigarOp.mk 6 OpCode.FLIP, CigarOp.mk 6 OpCode.DELETE,
       CigarOp.mk 4 OpCode.ALIGN, CigarOp.mk 6 OpCode.HARD_CLIP] := by
  decide

/-- C16. For every accepted right-anchored inversion merge
(`mergeRightAnchoredInversionAlignments` returns `true`) with best offset `b*`, both
`begin_mapped` and `end_mapped` are non-zero and the appended operations are, in order:
`SOFT_CLIP b*`, `ALIGN begin_mapped`, `SOFT_CLIP head.end_clip` (left out when zero),
`FLIP flipped_length`, `CONTIG tail.contig_id` (only when the contigs differ),
`DELETE distance`, `HARD_CLIP (read_length − b*)`, `ALIGN end_mapped`,
`SOFT_CLIP tail.end_clip` (left out when zero), with
`begin_mapped = read_length − b* − head.end_clip`, `end_mapped = b* − tail.end_clip` and
`flipped_length = read_length − b* − head.end_clip − begin_mapped` as `unsigned` values.  The
code reads the read length off the head alignment, except for the hard clip, where it reads
it off the tail alignment; the two are alignments of one read. -/
theorem mergeRightAnchoredInversionAlignments_cigar_order (a : AlignerBase)
    (cigarBuffer : Cigar) (head tail : FragmentMetadata) (bestOffset : Nat)
    (contigList : ContigList) (bestMismatches : Nat) (distance : Int) (cigarBuffer1 : Cigar)
    (head1 : FragmentMetadata)
    (hr : mergeRightAnchoredInversionAlignments a cigarBuffer head tail bestOffset contigList
      bestMismatches distance = some (true, cigarBuffer1, head1)) :
    u32 ((head.getReadLength : Int) - bestOffset - head.endClippedLength) ≠ 0 ∧
    u32 ((bestOffset : Int) - tail.endClippedLength) ≠ 0 ∧
    cigarBuffer1 = cigarBuffer ++
      ([CigarOp.mk bestOffset OpCode.SOFT_CLIP,
        CigarOp.mk (u32 ((head.getReadLength : Int) - bestOffset - head.endClippedLength))
          OpCode.ALIGN] ++
        (if head.endClippedLength = 0 then []
          else [CigarOp.mk head.endClippedLength OpCode.SOFT_CLIP]) ++
        [CigarOp.mk
          (u32 ((head.getReadLength : Int) - bestOffset - head.endClippedLength
            - u32 ((head.getReadLength : Int) - bestOffset - head.endClippedLength)))
          OpCode.FLIP] ++
        (if tail.contigId = head.contigId then []
          else [CigarOp.mk tail.contigId OpCode.CONTIG]) ++
        [CigarOp.mk distance OpCode.DELETE,
         CigarOp.mk (u32 ((tail.getReadLength : Int) - bestOffset)) OpCode.HARD_CLIP,
         CigarOp.mk (u32 ((bestOffset : Int) - tail.endClippedLength)) OpCode.ALIGN] ++
        (if tail.endClippedLength = 0 then []
          else [CigarOp.mk tail.endClippedLength OpCode.SOFT_CLIP])) := by
  rw [mergeRightAnchoredInversionAlignments_eq] at hr
  split_ifs at hr with h1 h2 h3
  · simp at hr
  · simp at hr
  simp only [Option.some.injEq, Prod.mk.injEq, true_and] at hr
  refine ⟨h1, h2, ?_⟩
  rw [← hr.1]
  simp only [rightInversionHeadOps, rightInversionTailOps, ne_eq, ite_not,
    List.append_assoc, List.cons_append, List.nil_append]

/-- C16 (witness). The candidates of `inversionRead` merged at offset 6 by the
right-anchored merge: `6S 6M 0F 4D 6H 6M`. -/
theorem mergeRightAnchoredInversionAlignments_cigar_order_witness :
    mergeRightAnchoredInversionAlignments sampleAligner [] inversionHead inversionTail 6
        [inversionContig] 0 4 =
      some (true,
        [CigarOp.mk 6 OpCode.SOFT_CLIP, CigarOp.mk 6 OpCode.ALIGN, CigarOp.mk 0 OpCode.FLIP,
         CigarOp.mk 4 OpCode.DELETE, CigarOp.mk 6 OpCode.HARD_CLIP, CigarOp.mk 6 OpCode.ALIGN],
        (sampleUpdateAlignment (sampleResetAlignment inversionHead) [inversionContig] false 0 6
          [CigarOp.mk 6 OpCode.SOFT_CLIP, CigarOp.mk 6 OpCode.ALIGN, CigarOp.mk 0 OpCode.FLIP,
           CigarOp.mk 4 OpCode.DELETE, CigarOp.mk 6 OpCode.HARD_CLIP,
           CigarOp.mk 6 OpCode.ALIGN] 0).2) ∧
    u32 ((inversionHead.getReadLength : Int) - (6 : Nat) - inversionHead.endClippedLength)
      ≠ 0 ∧
    u32 (((6 : Nat) : Int) - inversionTail.endClippedLength) ≠ 0 ∧
    [CigarOp.mk 6 OpCode.SOFT_CLIP, CigarOp.mk 6 OpCode.ALIGN, CigarOp.mk 0 OpCode.FLIP,
     CigarOp.mk 4 OpCode.DELETE, CigarOp.mk 6 OpCode.HARD_CLIP, CigarOp.mk 6 OpCode.ALIGN] =
      [] ++
      ([CigarOp.mk (6 : Nat) OpCode.SOFT_CLIP,
        CigarOp.mk
          (u32 ((inversionHead.getReadLength : Int) - (6 : Nat)
            - inversionHead.endClippedLength)) OpCode.ALIGN] ++
        (if inversionHead.endClippedLength = 0 then []
          else [CigarOp.mk inversionHead.endClippedLength OpCode.SOFT_CLIP]) ++
        [CigarOp.mk
          (u32 ((inversionHead.getReadLength : Int) - (6 : Nat)
            - inversionHead.endClippedLength
            - u32 ((inversionHead.getReadLength : Int) - (6 : Nat)
              - inversionHead.endClippedLength)))
          OpCode.FLIP] ++
        (if inversionTail.contigId = inversionHead.contigId then []
          else [CigarOp.mk inversionTail.contigId OpCode.CONTIG]) ++
        [CigarOp.mk 4 OpCode.DELETE,
         CigarOp.mk (u32 ((inversionTail.getReadLength : Int) - (6 : Nat))) OpCode.HARD_CLIP,
         CigarOp.mk (u32 (((6 : Nat) : Int) - inversionTail.endClippedLength)) OpCode.ALIGN] ++
        (if inversionTail.endClippedLength = 0 then []
          else [CigarOp.mk inversionTail.endClippedLength OpCode.SOFT_CLIP])) :=
  (fun hrun =>
    ⟨hrun,
      mergeRightAnchoredInversionAlignments_cigar_order sampleAligner [] inversionHead
        inversionTail 6 [inversionContig] 0 4 _ _ hrun⟩)
    (by decide)
/-- C17 (as amended). `mergeLeftAnchoredInversions` returns `false`, with the buffer and the
head untouched, whenever `begin_mapped == 0`; `mergeRightAnchoredInversionAlignments` returns
`false` whenever `begin_mapped == 0` (buffer and head untouched) or `end_mapped == 0` (head
untouched, the operations emitted so far left in the buffer). -/
theorem inversion_merges_reject_unmapped_side (a : AlignerBase) (cigarBuffer : Cigar)
    (head tail : FragmentMetadata) (bestOffset : Nat) (contigList : ContigList)
    (bestMismatches : Nat) (distance : Int) :
    (u32 ((bestOffset : Int) - head.beginClippedLength) = 0 →
      mergeLeftAnchoredInversions a cigarBuffer head tail bestOffset contigList bestMismatches
        distance = some (false, cigarBuffer, head)) ∧
    (u32 ((head.getReadLength : Int) - bestOffset - head.endClippedLength) = 0 →
      mergeRightAnchoredInversionAlignments a cigarBuffer head tail bestOffset contigList
        bestMismatches distance = some (false, cigarBuffer, head)) ∧
    (u32 ((head.getReadLength : Int) - bestOffset - head.endClippedLength) ≠ 0 →
      u32 ((bestOffset : Int) - tail.endClippedLength) = 0 →
      mergeRightAnchoredInversionAlignments a cigarBuffer head tail bestOffset contigList
        bestMismatches distance =
        some (false, cigarBuffer ++ rightInversionHeadOps head tail bestOffset distance,
          head)) := by
  refine ⟨fun h0 => ?_, fun h0 => ?_, fun h0 h1 => ?_⟩
  · rw [mergeLeftAnchoredInversions_eq, if_pos h0]
  · rw [mergeRightAnchoredInversionAlignments_eq, if_pos h0]
  · rw [mergeRightAnchoredInversionAlignments_eq, if_neg h0, if_pos h1]

/-- C17 (witness). The candidates of `inversionRead`: the left-anchored merge at offset 0
and the right-anchored merge at offset 12 have `begin_mapped = 0`, the right-anchored merge
at offset 0 has `end_mapped = 0`; all three return `false`. -/
theorem inversion_merges_reject_unmapped_side_witness :
    u32 (((0 : Nat) : Int) - inversionHead.beginClippedLength) = 0 ∧
    mergeLeftAnchoredInversions sampleAligner [] inversionHead inversionTail 0
      [inversionContig] 0 4 = some (false, [], inversionHead) ∧
    u32 ((inversionHead.getReadLength : Int) - (12 : Nat) - inversionHead.endClippedLength)
      = 0 ∧
    mergeRightAnchoredInversionAlignments sampleAligner [] inversionHead inversionTail 12
      [inversionContig] 0 4 = some (false, [], inversionHead) ∧
    u32 ((inversionHead.getReadLength : Int) - (0 : Nat) - inversionHead.endClippedLength)
      ≠ 0 ∧
    u32 (((0 : Nat) : Int) - inversionTail.endClippedLength) = 0 ∧
    mergeRightAnchoredInversionAlignments sampleAligner [] inversionHead inversionTail 0
      [inversionContig] 0 4 =
      some (false, [] ++ rightInversionHeadOps inversionHead inversionTail 0 4,
        inversionHead) :=
  (fun h1 h2 h3 h4 =>
    ⟨h1,
      (inversion_merges_reject_unmapped_side sampleAligner [] inversionHead inversionTail 0
        [inversionContig] 0 4).1 h1,
      h2,
      (inversion_merges_reject_unmapped_side sampleAligner [] inversionHead inversionTail 12
        [inversionContig] 0 4).2.1 h2,
      h3, h4,
      (inversion_merges_reject_unmapped_side sampleAligner [] inversionHead inversionTail 0
        [inversionContig] 0 4).2.2 h3 h4⟩)
    (by decide) (by decide) (by decide) (by decide)

/-- C17 (counterexample). The candidates of `inversionRead` merged by the left-anchored
merge at offset 12, the whole read: `end_mapped = 12 + 0 − 12 = 0`, and the merge returns
`true` with `12M 0F 4D 12H`, leaving `ALIGN end_mapped` out. -/
theorem mergeLeftAnchoredInversions_accepts_zero_end_mapped :
    u32 ((inversionTail.observedLength : Int) + inversionTail.endClippedLength - (12 : Nat))
      = 0 ∧
    (mergeLeftAnchoredInversions sampleAligner [] inversionHead inversionTail 12
        [inversionContig] 0 4).map (fun r => (r.1, r.2.1)) =
      some (true,
        [CigarOp.mk 12 OpCode.ALIGN, CigarOp.mk 0 OpCode.FLIP, CigarOp.mk 4 OpCode.DELETE,
         CigarOp.mk 12 OpCode.HARD_CLIP]) := by
  decide

/-! ## The `CONTIG` operation of the deletion merge (C18) -/

/-- C18. For every accepted deletion merge (`mergeDeletionAlignments` returns `true`): when
`head.contig_id ≠ tail.contig_id` and `head_mapped` is non-zero, the appended operations are
`SOFT_CLIP head.begin_clip` (left out when zero), `ALIGN head_mapped`, `CONTIG tail.contig_id`,
`DELETE deletion_length`, `ALIGN tail_mapped` (left out when zero), `SOFT_CLIP tail.end_clip`
(left out when zero), so that exactly one `CONTIG` operation is emitted, it carries
`tail.contig_id`, and it stands right after the head `ALIGN` and right before the `DELETE`;
when the contigs are equal no `CONTIG` operation is emitted. -/
theorem mergeDeletionAlignments_contig_operation (a : AlignerBase) (cigarBuffer : Cigar)
    (head tail : FragmentMetadata) (bestOffset : Nat) (contigList : ContigList)
    (bestMismatches : Nat) (deletionLength : Int) (cigarBuffer1 : Cigar)
    (head1 : FragmentMetadata)
    (hr : mergeDeletionAlignments a cigarBuffer head tail bestOffset contigList bestMismatches
      deletionLength = some (true, cigarBuffer1, head1)) :
    ∃ ops, cigarBuffer1 = cigarBuffer ++ ops ∧
      (tail.contigId ≠ head.contigId →
        u32 ((bestOffset : Int) - head.beginClippedLength) ≠ 0 →
        ops =
          (if head.beginClippedLength = 0 then []
            else [CigarOp.mk head.beginClippedLength OpCode.SOFT_CLIP]) ++
          [CigarOp.mk (u32 ((bestOffset : Int) - head.beginClippedLength)) OpCode.ALIGN,
           CigarOp.mk tail.contigId OpCode.CONTIG,
           CigarOp.mk deletionLength OpCode.DELETE] ++
          (if u32 ((tail.beginClippedLength : Int) + tail.observedLength - bestOffset) = 0
            then []
            else [CigarOp.mk
              (u32 ((tail.beginClippedLength : Int) + tail.observedLength - bestOffset))
              OpCode.ALIGN]) ++
          (if tail.endClippedLength = 0 then []
            else [CigarOp.mk tail.endClippedLength OpCode.SOFT_CLIP]) ∧
        ops.filter (fun op => decide (op.opCode = OpCode.CONTIG)) =
          [CigarOp.mk tail.contigId OpCode.CONTIG]) ∧
      (tail.contigId = head.contigId → ∀ op ∈ ops, op.opCode ≠ OpCode.CONTIG) := by
  rcases mergeDeletionAlignments_appends _ _ _ _ _ _ _ _ _ _ _ hr with ⟨hf, _⟩ | ⟨_, rfl⟩
  · exact absurd hf (by simp)
  · have hcomm : (tail.beginClippedLength : Int) + tail.observedLength - bestOffset =
        (tail.observedLength : Int) + tail.beginClippedLength - bestOffset := by ring
    refine ⟨_, rfl, fun hc hm => ⟨?_, ?_⟩, fun hc => ?_⟩
    · simp only [deletionOps, hcomm, hc, ne_eq, not_false_eq_true, if_true, hm,
        Nat.cast_eq_zero, ite_not, List.append_assoc, List.singleton_append, List.cons_append,
        List.nil_append]
    · simp only [deletionOps, hc, ne_eq, not_false_eq_true, if_true, hm]
      split_ifs <;> simp [List.filter]
    · simp only [deletionOps, hc, ne_eq, not_true_eq_false, if_false, List.append_nil]
      split_ifs <;> simp

/-- C18 (witness). Scenario 4 of the spec: the read `AAAATTTT` with its head on contig 0
and its tail on contig 1, merged at offset 4, gives `4M CONTIG(1) 0D 4M`, which is also what
`alignTranslocation` appends. -/
theorem mergeDeletionAlignments_contig_operation_witness :
    mergeDeletionAlignments sampleAligner [] translocationHead translocationTail 4
        translocationContigs 0 0 =
      some (true,
        [CigarOp.mk 4 OpCode.ALIGN, CigarOp.mk 1 OpCode.CONTIG, CigarOp.mk 0 OpCode.DELETE,
         CigarOp.mk 4 OpCode.ALIGN],
        (sampleUpdateAlignment (sampleResetAlignment translocationHead) translocationContigs
          false 0 0
          [CigarOp.mk 4 OpCode.ALIGN, CigarOp.mk 1 OpCode.CONTIG, CigarOp.mk 0 OpCode.DELETE,
           CigarOp.mk 4 OpCode.ALIGN] 0).2) ∧
    (alignTranslocation sampleAligner [] translocationContigs translocationHead
        translocationTail).map (fun r => (r.1, r.2.1)) =
      some (true,
        [CigarOp.mk 4 OpCode.ALIGN, CigarOp.mk 1 OpCode.CONTIG, CigarOp.mk 0 OpCode.DELETE,
         CigarOp.mk 4 OpCode.ALIGN]) ∧
    translocationTail.contigId ≠ translocationHead.contigId ∧
    u32 (((4 : Nat) : Int) - translocationHead.beginClippedLength) ≠ 0 ∧
    ∃ ops,
      [CigarOp.mk 4 OpCode.ALIGN, CigarOp.mk 1 OpCode.CONTIG, CigarOp.mk 0 OpCode.DELETE,
       CigarOp.mk 4 OpCode.ALIGN] = [] ++ ops ∧
      ops.filter (fun op => decide (op.opCode = OpCode.CONTIG)) =
        [CigarOp.mk translocationTail.contigId OpCode.CONTIG] :=
  (fun hrun hc hm =>
    ⟨hrun, by decide, hc, hm,
      (mergeDeletionAlignments_contig_operation sampleAligner [] translocationHead
        translocationTail 4 translocationContigs 0 0 _ _ hrun).elim
        (fun ops h => ⟨ops, h.1, (h.2.1 hc hm).2⟩)⟩)
    (by decide) (by decide) (by decide)

/-! ## The choice between two attempts (C19, C20) -/

/-- C19. `pickBestSplit`, given two attempt results.  When neither attempt worked it returns
`false` and leaves the list as given.  When at least one attempt worked and the list has
spare capacity (the assertion of line 937), the selected alignment is the one that worked
when only one did, and when both worked `tmp1` if `tmp1.isBetterGapped(tmp2)` and `tmp2`
otherwise; the call returns `true` with exactly the selected alignment appended, unless the
selected alignment has no gap, in which case it returns `false` with the list as given.
Without spare capacity the call does not return.  For every returning call: a `false` result
leaves the list as given, and a `true` result has appended exactly the selected
alignment. -/
theorem pickBestSplit_selects (a : AlignerBase) (tmp1Worked : Bool) (tmp1 : FragmentMetadata)
    (tmp2Worked : Bool) (tmp2 : FragmentMetadata) (fragmentList : FragmentMetadataList) :
    (tmp1Worked = false → tmp2Worked = false →
      pickBestSplit a tmp1Worked tmp1 tmp2Worked tmp2 fragmentList =
        some (false, fragmentList)) ∧
    (tmp1Worked = true → tmp2Worked = false →
      fragmentList.capacity > fragmentList.size →
      pickBestSplit a tmp1Worked tmp1 tmp2Worked tmp2 fragmentList =
        if tmp1.getGapCount = 0 then some (false, fragmentList)
        else some (true, fragmentList.push_back tmp1)) ∧
    (tmp1Worked = false → tmp2Worked = true →
      fragmentList.capacity > fragmentList.size →
      pickBestSplit a tmp1Worked tmp1 tmp2Worked tmp2 fragmentList =
        if tmp2.getGapCount = 0 then some (false, fragmentList)
        else some (true, fragmentList.push_back tmp2)) ∧
    (tmp1Worked = true → tmp2Worked = true → a.isBetterGapped tmp1 tmp2 = true →
      fragmentList.capacity > fragmentList.size →
      pickBestSplit a tmp1Worked tmp1 tmp2Worked tmp2 fragmentList =
        if tmp1.getGapCount = 0 then some (false, fragmentList)
        else some (true, fragmentList.push_back tmp1)) ∧
    (tmp1Worked = true → tmp2Worked = true → a.isBetterGapped tmp1 tmp2 = false →
      fragmentList.capacity > fragmentList.size →
      pickBestSplit a tmp1Worked tmp1 tmp2Worked tmp2 fragmentList =
        if tmp2.getGapCount = 0 then some (false, fragmentList)
        else some (true, fragmentList.push_back tmp2)) ∧
    ((tmp1Worked = true ∨ tmp2Worked = true) →
      ¬ fragmentList.capacity > fragmentList.size →
      pickBestSplit a tmp1Worked tmp1 tmp2Worked tmp2 fragmentList = none) ∧
    (∀ (ret : Bool) (fragmentList1 : FragmentMetadataList),
      pickBestSplit a tmp1Worked tmp1 tmp2Worked tmp2 fragmentList =
        some (ret, fragmentList1) →
      (ret = false → fragmentList1 = fragmentList) ∧
      (ret = true → tmp1Worked = true → tmp2Worked = false →
        fragmentList1 = fragmentList.push_back tmp1) ∧
      (ret = true → tmp1Worked = false → tmp2Worked = true →
        fragmentList1 = fragmentList.push_back tmp2) ∧
      (ret = true → tmp1Worked = true → tmp2Worked = true →
        a.isBetterGapped tmp1 tmp2 = true → fragmentList1 = fragmentList.push_back tmp1) ∧
      (ret = true → tmp1Worked = true → tmp2Worked = true →
        a.isBetterGapped tmp1 tmp2 = false → fragmentList1 = fragmentList.push_back tmp2) ∧
      (ret = true → tmp1Worked = true ∨ tmp2Worked = true)) := by
  refine ⟨?_, ?_, ?_, ?_, ?_, ?_, ?_⟩
  · intro h1 h2
    simp [pickBestSplit, h1, h2]
  · intro h1 h2 hc
    simp only [pickBestSplit, h1, h2, Bool.or_false, if_true, hc, not_true_eq_false, if_false,
      Bool.false_eq_true]
  · intro h1 h2 hc
    simp only [pickBestSplit, h1, h2, Bool.false_or, if_true, hc, not_true_eq_false, if_false,
      Bool.false_eq_true]
  · intro h1 h2 hb hc
    simp only [pickBestSplit, h1, h2, hb, Bool.or_self, if_true, hc, not_true_eq_false,
      if_false]
  · intro h1 h2 hb hc
    simp only [pickBestSplit, h1, h2, hb, Bool.or_self, if_true, hc, not_true_eq_false,
      if_false, Bool.false_eq_true]
  · intro hw hc
    have hw1 : (tmp1Worked || tmp2Worked) = true := by
      rcases hw with h | h <;> simp [h]
    simp only [pickBestSplit, hw1, if_true, hc, not_false_eq_true]
  · intro ret fl1 hr
    unfold pickBestSplit at hr
    lift_lets at hr
    extract_lets best at hr
    split_ifs at hr with hw hc hg
    · cases hr
      simp
    · cases hr
      refine ⟨by simp, fun _ h1 h2 => ?_, fun _ h1 h2 => ?_, fun _ h1 h2 hb => ?_,
        fun _ h1 h2 hb => ?_, fun _ => by simpa using hw⟩
      · simp [best, h1, h2]
      · simp [best, h1, h2]
      · simp [best, h1, h2, hb]
      · simp [best, h1, h2, hb]
    · cases hr
      simp

/-- C19 (witness). The five cases on the results `deletionMerged` (`4M4D8M`, no mismatch) and
`deletionShifted` (`8M4D4M`, four mismatches), of which `isBetterGapped` prefers the first:
no attempt worked (nothing appended); only the first worked; only the second worked; both
worked with the better one first; both worked with the better one second.  With a worked
attempt the selected alignment is the one appended. -/
theorem pickBestSplit_selects_witness :
    sampleAligner.isBetterGapped deletionMerged deletionShifted = true ∧
    sampleAligner.isBetterGapped deletionShifted deletionMerged = false ∧
    (FragmentMetadataList.mk [deletionHead, deletionTail] 4).capacity >
      (FragmentMetadataList.mk [deletionHead, deletionTail] 4).size ∧
    pickBestSplit sampleAligner false deletionHead false deletionTail
        (FragmentMetadataList.mk [deletionHead, deletionTail] 4) =
      some (false, FragmentMetadataList.mk [deletionHead, deletionTail] 4) ∧
    pickBestSplit sampleAligner true deletionShifted false deletionMerged
        (FragmentMetadataList.mk [deletionHead, deletionTail] 4) =
      some (true, FragmentMetadataList.mk [deletionHead, deletionTail, deletionShifted] 4) ∧
    pickBestSplit sampleAligner false deletionMerged true deletionShifted
        (FragmentMetadataList.mk [deletionHead, deletionTail] 4) =
      some (true, FragmentMetadataList.mk [deletionHead, deletionTail, deletionShifted] 4) ∧
    pickBestSplit sampleAligner true deletionMerged true deletionShifted
        (FragmentMetadataList.mk [deletionHead, deletionTail] 4) =
      some (true, FragmentMetadataList.mk [deletionHead, deletionTail, deletionMerged] 4) ∧
    pickBestSplit sampleAligner true deletionShifted true deletionMerged
        (FragmentMetadataList.mk [deletionHead, deletionTail] 4) =
      some (true, FragmentMetadataList.mk [deletionHead, deletionTail, deletionMerged] 4) ∧
    pickBestSplit sampleAligner true deletionHead false deletionTail
        (FragmentMetadataList.mk [deletionHead, deletionTail] 4) =
      some (false, FragmentMetadataList.mk [deletionHead, deletionTail] 4) :=
  (fun hb hb1 hc =>
    ⟨hb, hb1, hc,
      (pickBestSplit_selects sampleAligner false deletionHead false deletionTail
        (FragmentMetadataList.mk [deletionHead, deletionTail] 4)).1 rfl rfl,
      ((pickBestSplit_selects sampleAligner true deletionShifted false deletionMerged
        (FragmentMetadataList.mk [deletionHead, deletionTail] 4)).2.1 rfl rfl hc).trans
        (by decide),
      ((pickBestSplit_selects sampleAligner false deletionMerged true deletionShifted
        (FragmentMetadataList.mk [deletionHead, deletionTail] 4)).2.2.1 rfl rfl hc).trans
        (by decide),
      ((pickBestSplit_selects sampleAligner true deletionMerged true deletionShifted
        (FragmentMetadataList.mk [deletionHead, deletionTail] 4)).2.2.2.1 rfl rfl hb hc).trans
        (by decide),
      ((pickBestSplit_selects sampleAligner true deletionShifted true deletionMerged
        (FragmentMetadataList.mk [deletionHead, deletionTail] 4)).2.2.2.2.1 rfl rfl hb1
        hc).trans (by decide),
      ((pickBestSplit_selects sampleAligner true deletionHead false deletionTail
        (FragmentMetadataList.mk [deletionHead, deletionTail] 4)).2.1 rfl rfl hc).trans
        (by decide)⟩)
    (by decide) (by decide) (by decide)

/-- C20. Every alignment appended by `pickBestSplit` has a gap count greater than zero:
a returning call that answers `true` has appended one of the two attempt results, one with
a non-zero gap count, and a call that answers `false` has appended nothing.  If neither of
the two attempts produced an alignment with a gap (each attempt failed or its result has gap
count zero), `pickBestSplit` returns `false` and appends nothing, provided the list has spare
capacity when an attempt worked (the capacity assertion precedes the gap test). -/
theorem pickBestSplit_appends_gapped_only (a : AlignerBase) (tmp1Worked : Bool)
    (tmp1 : FragmentMetadata) (tmp2Worked : Bool) (tmp2 : FragmentMetadata)
    (fragmentList : FragmentMetadataList) :
    (∀ (ret : Bool) (fragmentList1 : FragmentMetadataList),
      pickBestSplit a tmp1Worked tmp1 tmp2Worked tmp2 fragmentList =
        some (ret, fragmentList1) →
      (ret = true →
        ∃ best, fragmentList1 = fragmentList.push_back best ∧ 0 < best.getGapCount ∧
          ((best = tmp1 ∧ tmp1Worked = true) ∨ (best = tmp2 ∧ tmp2Worked = true))) ∧
      (ret = false → fragmentList1 = fragmentList)) ∧
    ((tmp1Worked = false ∨ tmp1.getGapCount = 0) →
      (tmp2Worked = false ∨ tmp2.getGapCount = 0) →
      (fragmentList.capacity > fragmentList.size ∨
        (tmp1Worked = false ∧ tmp2Worked = false)) →
      pickBestSplit a tmp1Worked tmp1 tmp2Worked tmp2 fragmentList =
        some (false, fragmentList)) := by
  constructor
  · intro ret fl1 hr
    unfold pickBestSplit at hr
    lift_lets at hr
    extract_lets best at hr
    split_ifs at hr with hw hc hg
    · cases hr
      simp
    · cases hr
      refine ⟨fun _ => ⟨best, rfl, Nat.pos_of_ne_zero hg, ?_⟩, by simp⟩
      cases tmp1Worked <;> cases tmp2Worked <;> simp [best] at hw ⊢
      by_cases hb : a.isBetterGapped tmp1 tmp2 = true <;> simp [hb]
    · cases hr
      simp
  · intro h1 h2 h3
    unfold pickBestSplit
    lift_lets
    extract_lets best
    by_cases hw : (tmp1Worked || tmp2Worked) = true
    · have hcap : fragmentList.capacity > fragmentList.size := by
        rcases h3 with h3 | ⟨h3, h4⟩
        · exact h3
        · simp [h3, h4] at hw
      have hg : best.getGapCount = 0 := by
        simp only [best]
        cases tmp1Worked <;> cases tmp2Worked <;> simp at hw h1 h2 ⊢
        · exact h2
        · exact h1
        · split_ifs
          · exact h1
          · exact h2
      rw [if_pos hw, if_neg (not_not.mpr hcap), if_pos hg]
    · rw [if_neg hw]

/-- C20 (witness). The ungapped result `12M` next to an attempt that failed: nothing is
appended and the answer is `false`.  The gapped result `4M4D8M` next to the same failed
attempt is appended, and its gap count is 1. -/
theorem pickBestSplit_appends_gapped_only_witness :
    (true = false ∨
      deletionUngapped.getGapCount = 0) ∧
    (false = false ∨ deletionTail.getGapCount = 0) ∧
    ((FragmentMetadataList.mk [deletionHead, deletionTail] 4).capacity >
        (FragmentMetadataList.mk [deletionHead, deletionTail] 4).size ∨
      (true = false ∧ false = false)) ∧
    pickBestSplit sampleAligner true
        deletionUngapped false deletionTail
        (FragmentMetadataList.mk [deletionHead, deletionTail] 4) =
      some (false, FragmentMetadataList.mk [deletionHead, deletionTail] 4) ∧
    pickBestSplit sampleAligner true deletionMerged false deletionTail
        (FragmentMetadataList.mk [deletionHead, deletionTail] 4) =
      some (true, FragmentMetadataList.mk [deletionHead, deletionTail, deletionMerged] 4) ∧
    ∃ best,
      FragmentMetadataList.mk [deletionHead, deletionTail, deletionMerged] 4 =
        (FragmentMetadataList.mk [deletionHead, deletionTail] 4).push_back best ∧
      0 < best.getGapCount ∧
      ((best = deletionMerged ∧ true = true) ∨ (best = deletionTail ∧ false = true)) :=
  (fun h1 h2 h3 hrun =>
    ⟨h1, h2, h3,
      (pickBestSplit_appends_gapped_only sampleAligner true
        deletionUngapped false deletionTail
        (FragmentMetadataList.mk [deletionHead, deletionTail] 4)).2 h1 h2 h3,
      hrun,
      ((pickBestSplit_appends_gapped_only sampleAligner true deletionMerged false deletionTail
        (FragmentMetadataList.mk [deletionHead, deletionTail] 4)).1 true
        (FragmentMetadataList.mk [deletionHead, deletionTail, deletionMerged] 4) hrun).1 rfl⟩)
    (by decide) (by decide) (by decide) (by decide)

/-! ## Reference clipping (C27, C28) and the clipping counters of the header (C29) -/

/-- C27. `AlignerBase::clipReference`, for every `fragmentPosition < 0` and
`referenceSize ≥ 0`: sets `fragmentPosition` to 0, advances `sequenceBegin` by exactly
`|fragmentPosition|` bases, leaves `sequenceBegin ≤ sequenceEnd`, and the remaining sequence
length is at most `referenceSize`, so that every remaining base maps to a reference offset
in `[0, referenceSize)`. -/
theorem clipReference_negative_position (referenceSize fragmentPosition sequenceBegin
    sequenceEnd : Int) (hneg : fragmentPosition < 0) (hsize : 0 ≤ referenceSize) :
    (AlignerBase.clipReference referenceSize fragmentPosition sequenceBegin sequenceEnd).1 = 0 ∧
    (AlignerBase.clipReference referenceSize fragmentPosition sequenceBegin sequenceEnd).2.1 =
      sequenceBegin + |fragmentPosition| ∧
    (AlignerBase.clipReference referenceSize fragmentPosition sequenceBegin sequenceEnd).2.1 ≤
      (AlignerBase.clipReference referenceSize fragmentPosition sequenceBegin sequenceEnd).2.2 ∧
    (AlignerBase.clipReference referenceSize fragmentPosition sequenceBegin sequenceEnd).2.2 -
      (AlignerBase.clipReference referenceSize fragmentPosition sequenceBegin sequenceEnd).2.1
        ≤ referenceSize ∧
    ∀ k : Int, 0 ≤ k →
      k < (AlignerBase.clipReference referenceSize fragmentPosition sequenceBegin
            sequenceEnd).2.2 -
          (AlignerBase.clipReference referenceSize fragmentPosition sequenceBegin
            sequenceEnd).2.1 →
      0 ≤ (AlignerBase.clipReference referenceSize fragmentPosition sequenceBegin
            sequenceEnd).1 + k ∧
      (AlignerBase.clipReference referenceSize fragmentPosition sequenceBegin
            sequenceEnd).1 + k < referenceSize := by
  have hleft : referenceSize - fragmentPosition ≥ 0 := by omega
  have habs : |fragmentPosition| = -fragmentPosition := abs_of_neg hneg
  have hpos : (0 : Int) > fragmentPosition := hneg
  simp only [AlignerBase.clipReference, hleft, if_true, hpos, habs]
  by_cases hcut : referenceSize - fragmentPosition < sequenceEnd - sequenceBegin
  · simp only [hcut, if_true]
    refine ⟨trivial, by ring, le_max_right _ _, ?_, ?_⟩
    · rw [max_def]; split_ifs <;> omega
    · intro k hk0 hk
      rw [max_def] at hk
      split_ifs at hk <;> omega
  · simp only [hcut, if_false]
    refine ⟨trivial, by ring, le_max_right _ _, ?_, ?_⟩
    · rw [max_def]; split_ifs <;> omega
    · intro k hk0 hk
      rw [max_def] at hk
      split_ifs at hk <;> omega

/-- C27 (witness). A 12-base sequence at position −3 of a contig of 5 bases: the position
becomes 0, the sequence starts 3 bases further on and keeps 5 bases. -/
theorem clipReference_negative_position_witness :
    (-3 : Int) < 0 ∧ (0 : Int) ≤ 5 ∧
    AlignerBase.clipReference 5 (-3) 0 12 = (0, 3, 8) ∧
    (AlignerBase.clipReference 5 (-3) 0 12).2.1 = 0 + |(-3 : Int)| ∧
    (AlignerBase.clipReference 5 (-3) 0 12).2.2 - (AlignerBase.clipReference 5 (-3) 0 12).2.1
      ≤ 5 :=
  (fun hn hs =>
    ⟨hn, hs, by decide,
      (clipReference_negative_position 5 (-3) 0 12 hn hs).2.1,
      (clipReference_negative_position 5 (-3) 0 12 hn hs).2.2.2.1⟩)
    (by decide) (by decide)

/-- C28 (as amended). `AlignerBase::clipReference`, for an alignment overhanging the end of a
contig (`fragmentPosition + sequence length > referenceSize`): when
`fragmentPosition < referenceSize`, the position becomes `max(fragmentPosition, 0)` and the
sequence keeps exactly the `referenceSize − max(fragmentPosition, 0)` bases that lie on the
contig, so the last remaining base aligns to the reference offset `referenceSize − 1`, the
last base of the contig; when `fragmentPosition > referenceSize`, the sequence is emptied and
the position becomes `referenceSize − 1`. -/
theorem clipReference_overhanging_end (referenceSize fragmentPosition sequenceBegin
    sequenceEnd : Int) (hsize : 0 ≤ referenceSize)
    (hover : fragmentPosition + (sequenceEnd - sequenceBegin) > referenceSize) :
    (fragmentPosition < referenceSize →
      (AlignerBase.clipReference referenceSize fragmentPosition sequenceBegin sequenceEnd).1 =
        max fragmentPosition 0 ∧
      (AlignerBase.clipReference referenceSize fragmentPosition sequenceBegin sequenceEnd).2.2 -
        (AlignerBase.clipReference referenceSize fragmentPosition sequenceBegin
          sequenceEnd).2.1 = referenceSize - max fragmentPosition 0 ∧
      (AlignerBase.clipReference referenceSize fragmentPosition sequenceBegin sequenceEnd).1 +
        ((AlignerBase.clipReference referenceSize fragmentPosition sequenceBegin
            sequenceEnd).2.2 -
          (AlignerBase.clipReference referenceSize fragmentPosition sequenceBegin
            sequenceEnd).2.1) - 1 = referenceSize - 1) ∧
    (fragmentPosition > referenceSize →
      (AlignerBase.clipReference referenceSize fragmentPosition sequenceBegin sequenceEnd).1 =
        referenceSize - 1 ∧
      (AlignerBase.clipReference referenceSize fragmentPosition sequenceBegin sequenceEnd).2.2 =
        (AlignerBase.clipReference referenceSize fragmentPosition sequenceBegin
          sequenceEnd).2.1) := by
  constructor
  · intro hlt
    have hleft : referenceSize - fragmentPosition ≥ 0 := by omega
    have hcut : referenceSize - fragmentPosition < sequenceEnd - sequenceBegin := by omega
    simp only [AlignerBase.clipReference, hleft, if_true, hcut]
    by_cases hpos : (0 : Int) > fragmentPosition
    · simp only [hpos, if_true]
      rw [max_def, max_def]
      split_ifs <;> omega
    · simp only [hpos, if_false]
      rw [max_def, max_def]
      split_ifs <;> omega
  · intro hgt
    have hleft : ¬ (referenceSize - fragmentPosition ≥ 0) := by omega
    simp only [AlignerBase.clipReference, hleft, if_false]
    exact ⟨by ring, trivial⟩

/-- C28 (witness). On a contig of 10 bases, 8 bases at position 5 are cut to 5 bases, the
last one at offset 9; 8 bases at position 13 are emptied, the position becoming 9. -/
theorem clipReference_overhanging_end_witness :
    (0 : Int) ≤ 10 ∧ (5 : Int) + (8 - 0) > 10 ∧ (5 : Int) < 10 ∧
    AlignerBase.clipReference 10 5 0 8 = (5, 0, 5) ∧
    (AlignerBase.clipReference 10 5 0 8).1 +
      ((AlignerBase.clipReference 10 5 0 8).2.2 - (AlignerBase.clipReference 10 5 0 8).2.1) - 1
        = 10 - 1 ∧
    (13 : Int) + (8 - 0) > 10 ∧ (13 : Int) > 10 ∧
    AlignerBase.clipReference 10 13 0 8 = (9, -5, -5) ∧
    (AlignerBase.clipReference 10 13 0 8).1 = 10 - 1 :=
  (fun hs ho hl ho2 hg =>
    ⟨hs, ho, hl, by decide,
      ((clipReference_overhanging_end 10 5 0 8 hs ho).1 hl).2.2,
      ho2, hg, by decide,
      ((clipReference_overhanging_end 10 13 0 8 hs ho2).2 hg).1⟩)
    (by decide) (by decide) (by decide) (by decide) (by decide)

/-- C28 (counterexample). On a contig of 10 bases, 8 bases at position 5 overhang the end.
After clipping 5 bases remain at position 5: the last one aligns to offset 9, the last base
of the contig, which is not strictly less than `referenceSize − 1 = 9`, and the sequence is
not empty. -/
theorem clipReference_keeps_last_contig_base :
    (5 : Int) + (8 - 0) > 10 ∧
    AlignerBase.clipReference 10 5 0 8 = (5, 0, 5) ∧
    ¬ ((5 : Int) + (5 - 0) - 1 < 10 - 1 ∨ ((5 : Int) - 0 = 0 ∧ (5 : Int) < 10)) := by
  decide

/-- C29. For every `FragmentHeader`: when the reverse flag is false `leftClipped()` is
`lowClipped_` and `rightClipped()` is `highClipped_`; when it is true the two are swapped;
hence flipping the reverse flag exchanges `leftClipped()` and `rightClipped()`. -/
theorem fragmentHeader_clipped_swap (h : FragmentHeader) :
    (h.reverse_ = false → h.leftClipped = h.lowClipped_ ∧ h.rightClipped = h.highClipped_) ∧
    (h.reverse_ = true → h.leftClipped = h.highClipped_ ∧ h.rightClipped = h.lowClipped_) ∧
    FragmentHeader.leftClipped { h with reverse_ := !h.reverse_ } = h.rightClipped ∧
    FragmentHeader.rightClipped { h with reverse_ := !h.reverse_ } = h.leftClipped := by
  cases hr : h.reverse_ <;>
    simp [FragmentHeader.leftClipped, FragmentHeader.rightClipped, hr]

/-- C29 (witness). A forward header with 3 bases clipped low and 7 clipped high, and the same
header on the reverse strand. -/
theorem fragmentHeader_clipped_swap_witness :
    (FragmentHeader.mk false 3 7).leftClipped = 3 ∧
    (FragmentHeader.mk false 3 7).rightClipped = 7 ∧
    (FragmentHeader.mk true 3 7).leftClipped = 7 ∧
    (FragmentHeader.mk true 3 7).rightClipped = 3 :=
  ⟨((fragmentHeader_clipped_swap (FragmentHeader.mk false 3 7)).1 rfl).1,
    ((fragmentHeader_clipped_swap (FragmentHeader.mk false 3 7)).1 rfl).2,
    ((fragmentHeader_clipped_swap (FragmentHeader.mk true 3 7)).2.1 rfl).1,
    ((fragmentHeader_clipped_swap (FragmentHeader.mk true 3 7)).2.1 rfl).2⟩

/-! ## The dispatch of `resolveConflict` (C21, C22, C23) and the gap limit of `alignIndel` (C26) -/

theorem resize_self (buf : Cigar) : Cigar.resize buf buf.length = buf := by
  have h := resize_append buf []
  simpa using h

/-- C21. With `regularIndelsOnly = true`, `resolveConflict` never tries a translocation or
an inversion: for every head/tail pair that differs in contig or in strand it returns
`false`, with the fragment list and the CIGAR buffer exactly as given. -/
theorem resolveConflict_regular_indels_only (a : AlignerBase) (contigList : ContigList)
    (cigarBuffer : Cigar) (fragmentList : FragmentMetadataList) (head tail : FragmentMetadata)
    (hdiff : head.contigId ≠ tail.contigId ∨ head.reverse ≠ tail.reverse) :
    resolveConflict a contigList true cigarBuffer fragmentList head tail =
      some (false, cigarBuffer, fragmentList) := by
  unfold resolveConflict
  by_cases hr : head.reverse = tail.reverse
  · have hc : head.contigId ≠ tail.contigId := by
      rcases hdiff with h | h
      · exact h
      · exact absurd hr h
    simp only [hr, if_true, hc, if_false, Bool.true_eq_false, resize_self]
    split_ifs <;> rfl
  · simp only [hr, if_false, Bool.true_eq_false, if_true, resize_self]
theorem resolveConflict_same_contig (a : AlignerBase) (cl : ContigList)
    (regularIndelsOnly : Bool) (buf : Cigar) (fl : FragmentMetadataList)
    (head tail : FragmentMetadata) (hsame : head.reverse = tail.reverse)
    (hanchor : head.firstAnchor_.second ≤ tail.lastAnchor_.first ∨
      tail.firstAnchor_.second ≤ head.lastAnchor_.first)
    (hcontig : head.contigId = tail.contigId) :
    resolveConflict a cl regularIndelsOnly buf fl head tail =
      match alignIndel a buf cl regularIndelsOnly head tail with
      | none => none
      | some (tmp1Worked, cigarBuffer1, tmp1) =>
        match alignIndel a cigarBuffer1 cl regularIndelsOnly tail head with
        | none => none
        | some (tmp2Worked, cigarBuffer2, tmp2) =>
          match pickBestSplit a tmp1Worked tmp1 tmp2Worked tmp2 fl with
          | none => none
          | some (ret, fl1) => some (ret, if ret = false then buf else cigarBuffer2, fl1) := by
  simp only [resolveConflict, hsame, if_true, hanchor, hcontig]
  cases e1 : alignIndel a buf cl regularIndelsOnly head tail with
  | none => rfl
  | some r1 =>
    obtain ⟨w1, b1, t1⟩ := r1
    simp only []
    cases e2 : alignIndel a b1 cl regularIndelsOnly tail head with
    | none => rfl
    | some r2 =>
      obtain ⟨w2, b2, t2⟩ := r2
      simp only []
      cases e3 : pickBestSplit a w1 t1 w2 t2 fl with
      | none => rfl
      | some r3 =>
        obtain ⟨ret, fl1⟩ := r3
        have hres : Cigar.resize b2 buf.length = buf := by
          obtain ⟨o1, rfl, _⟩ := alignIndel_appends _ _ _ _ _ _ _ _ _ e1
          obtain ⟨o2, rfl, _⟩ := alignIndel_appends _ _ _ _ _ _ _ _ _ e2
          rw [List.append_assoc, resize_append]
        cases ret <;> simp [hres]

theorem resolveConflict_other_contig (a : AlignerBase) (cl : ContigList)
    (buf : Cigar) (fl : FragmentMetadataList)
    (head tail : FragmentMetadata) (hsame : head.reverse = tail.reverse)
    (hanchor : head.firstAnchor_.second ≤ tail.lastAnchor_.first ∨
      tail.firstAnchor_.second ≤ head.lastAnchor_.first)
    (hcontig : head.contigId ≠ tail.contigId) :
    resolveConflict a cl false buf fl head tail =
      match alignTranslocation a buf cl head tail with
      | none => none
      | some (tmp1Worked, cigarBuffer1, tmp1) =>
        match alignTranslocation a cigarBuffer1 cl tail head with
        | none => none
        | some (tmp2Worked, cigarBuffer2, tmp2) =>
          match pickBestSplit a tmp1Worked tmp1 tmp2Worked tmp2 fl with
          | none => none
          | some (ret, fl1) => some (ret, if ret = false then buf else cigarBuffer2, fl1) := by
  simp only [resolveConflict, hsame, if_true, hanchor, hcontig, if_false]
  cases e1 : alignTranslocation a buf cl head tail with
  | none => rfl
  | some r1 =>
    obtain ⟨w1, b1, t1⟩ := r1
    simp only []
    cases e2 : alignTranslocation a b1 cl tail head with
    | none => rfl
    | some r2 =>
      obtain ⟨w2, b2, t2⟩ := r2
      simp only []
      cases e3 : pickBestSplit a w1 t1 w2 t2 fl with
      | none => rfl
      | some r3 =>
        obtain ⟨ret, fl1⟩ := r3
        have hres : Cigar.resize b2 buf.length = buf := by
          obtain ⟨o1, rfl, _⟩ := alignTranslocation_appends _ _ _ _ _ _ _ _ e1
          obtain ⟨o2, rfl, _⟩ := alignTranslocation_appends _ _ _ _ _ _ _ _ e2
          rw [List.append_assoc, resize_append]
        cases ret <;> simp [hres]

theorem resolveConflict_inversion (a : AlignerBase) (cl : ContigList)
    (buf : Cigar) (fl : FragmentMetadataList)
    (head tail : FragmentMetadata) (hopp : head.reverse ≠ tail.reverse)
    (hlen : (head.getObservedLength + tail.getObservedLength) % 4294967296 >
      head.getReadLength) :
    resolveConflict a cl false buf fl head tail =
      match leftInversionAttempt a buf cl head tail with
      | none => none
      | some (tmp1Worked, cigarBuffer1, tmp1) =>
        match rightInversionAttempt a cigarBuffer1 cl head tail with
        | none => none
        | some (tmp2Worked, cigarBuffer2, tmp2) =>
          match pickBestSplit a tmp1Worked tmp1 tmp2Worked tmp2 fl with
          | none => none
          | some (ret, fl1) => some (ret, if ret = false then buf else cigarBuffer2, fl1) := by
  simp only [resolveConflict, hopp, if_false, if_true, hlen]
  have hl : leftInversionAttempt a buf cl head tail =
      (if !head.firstAnchor_.empty && !tail.firstAnchor_.empty then
        alignLeftAnchoredInversion a buf head
          (max head.firstAnchor_.second tail.getEndClippedLength) tail
          (min (u32 ((head.getReadLength : Int) - tail.firstAnchor_.second))
            (u32 ((head.getReadLength : Int) - head.getEndClippedLength)))
          cl
      else some (false, buf, head)) := rfl
  rw [← hl]
  cases e1 : leftInversionAttempt a buf cl head tail with
  | none => rfl
  | some r1 =>
    obtain ⟨w1, b1, t1⟩ := r1
    simp only []
    have hr : rightInversionAttempt a b1 cl head tail =
        (if !head.lastAnchor_.empty && !tail.lastAnchor_.empty then
          alignRightAnchoredInversion a b1 head
            (max (u32 ((head.getReadLength : Int) - tail.lastAnchor_.first))
              head.getBeginClippedLength) tail
            (min head.lastAnchor_.first
              (u32 ((head.getReadLength : Int) - tail.getBeginClippedLength)))
            cl
        else some (false, b1, head)) := rfl
    rw [← hr]
    cases e2 : rightInversionAttempt a b1 cl head tail with
    | none => rfl
    | some r2 =>
      obtain ⟨w2, b2, t2⟩ := r2
      simp only []
      cases e3 : pickBestSplit a w1 t1 w2 t2 fl with
      | none => rfl
      | some r3 =>
        obtain ⟨ret, fl1⟩ := r3
        have hres : Cigar.resize b2 buf.length = buf := by
          have h1 : ∃ ops, b1 = buf ++ ops := by
            unfold leftInversionAttempt at e1
            split at e1
            · obtain ⟨o, ho, _⟩ := alignLeftAnchoredInversion_appends _ _ _ _ _ _ _ _ _ _ e1
              exact ⟨o, ho⟩
            · cases e1
              exact ⟨[], (List.append_nil _).symm⟩
          have h2 : ∃ ops, b2 = b1 ++ ops := by
            unfold rightInversionAttempt at e2
            split at e2
            · obtain ⟨o, ho, _⟩ := alignRightAnchoredInversion_appends _ _ _ _ _ _ _ _ _ _ e2
              exact ⟨o, ho⟩
            · cases e2
              exact ⟨[], (List.append_nil _).symm⟩
          obtain ⟨o1, rfl⟩ := h1
          obtain ⟨o2, rfl⟩ := h2
          rw [List.append_assoc, resize_append]
        cases ret <;> simp [hres]
/-- C21 (witness). Scenario 4 of the spec, head and tail on different contigs: with
`regularIndelsOnly = true` nothing is tried, whereas with `false` the translocation is
found. -/
theorem resolveConflict_regular_indels_only_witness :
    (translocationHead.contigId ≠ translocationTail.contigId ∨
      translocationHead.reverse ≠ translocationTail.reverse) ∧
    resolveConflict sampleAligner translocationContigs true [CigarOp.mk 8 OpCode.ALIGN]
      (FragmentMetadataList.mk [translocationHead, translocationTail] 4) translocationHead
      translocationTail =
      some (false, [CigarOp.mk 8 OpCode.ALIGN],
        FragmentMetadataList.mk [translocationHead, translocationTail] 4) ∧
    (resolveConflict sampleAligner translocationContigs false [CigarOp.mk 8 OpCode.ALIGN]
      (FragmentMetadataList.mk [translocationHead, translocationTail] 4) translocationHead
      translocationTail).map (fun r => (r.1, r.2.1)) =
      some (true,
        [CigarOp.mk 8 OpCode.ALIGN, CigarOp.mk 4 OpCode.ALIGN, CigarOp.mk 1 OpCode.CONTIG,
         CigarOp.mk 0 OpCode.DELETE, CigarOp.mk 4 OpCode.ALIGN]) :=
  (fun hd =>
    ⟨hd,
      resolveConflict_regular_indels_only sampleAligner translocationContigs
        [CigarOp.mk 8 OpCode.ALIGN]
        (FragmentMetadataList.mk [translocationHead, translocationTail] 4) translocationHead
        translocationTail hd,
      by decide⟩)
    (by decide)

/-- C22 (as amended). For head and tail on opposite strands, `resolveConflict` tries the
inversion engines only when `regularIndelsOnly` is `false` and
`head.observed_length + tail.observed_length > read_length`; otherwise it returns `false`
with buffer and list exactly as given.  When it does try, `alignLeftAnchoredInversion` is
called only if both first anchors are non-empty and `alignRightAnchoredInversion` only if
both last anchors are non-empty (an engine that is not called counts as one that did not
work); the two results are arbitrated by `pickBestSplit`, and a `false` answer brings the
buffer back to what was given. -/
theorem resolveConflict_opposite_strands (a : AlignerBase) (contigList : ContigList)
    (regularIndelsOnly : Bool) (cigarBuffer : Cigar) (fragmentList : FragmentMetadataList)
    (head tail : FragmentMetadata) (hopp : head.reverse ≠ tail.reverse) :
    (¬ (regularIndelsOnly = false ∧
        (head.observedLength + tail.observedLength) % 4294967296 > head.getReadLength) →
      resolveConflict a contigList regularIndelsOnly cigarBuffer fragmentList head tail =
        some (false, cigarBuffer, fragmentList)) ∧
    (regularIndelsOnly = false →
      (head.observedLength + tail.observedLength) % 4294967296 > head.getReadLength →
      resolveConflict a contigList regularIndelsOnly cigarBuffer fragmentList head tail =
        match
          (if !head.firstAnchor_.empty && !tail.firstAnchor_.empty then
            alignLeftAnchoredInversion a cigarBuffer head
              (max head.firstAnchor_.second tail.endClippedLength) tail
              (min (u32 ((head.getReadLength : Int) - tail.firstAnchor_.second))
                (u32 ((head.getReadLength : Int) - head.endClippedLength)))
              contigList
          else some (false, cigarBuffer, head)) with
        | none => none
        | some (tmp1Worked, cigarBuffer1, tmp1) =>
          match
            (if !head.lastAnchor_.empty && !tail.lastAnchor_.empty then
              alignRightAnchoredInversion a cigarBuffer1 head
                (max (u32 ((head.getReadLength : Int) - tail.lastAnchor_.first))
                  head.beginClippedLength) tail
                (min head.lastAnchor_.first
                  (u32 ((head.getReadLength : Int) - tail.beginClippedLength)))
                contigList
            else some (false, cigarBuffer1, head)) with
          | none => none
          | some (tmp2Worked, cigarBuffer2, tmp2) =>
            match pickBestSplit a tmp1Worked tmp1 tmp2Worked tmp2 fragmentList with
            | none => none
            | some (ret, fragmentList1) =>
              some (ret, if ret = false then cigarBuffer else cigarBuffer2, fragmentList1)) := by
  constructor
  · intro hno
    cases regularIndelsOnly with
    | false =>
      have hlen : ¬ (head.getObservedLength + tail.getObservedLength) % 4294967296 >
          head.getReadLength := fun h => hno ⟨rfl, h⟩
      simp only [resolveConflict, hopp, if_false, if_true, hlen, resize_self]
    | true =>
      simp only [resolveConflict, hopp, if_false, Bool.true_eq_false, if_true, resize_self]
  · intro hrio hlen
    subst hrio
    exact resolveConflict_inversion a contigList cigarBuffer fragmentList head tail hopp hlen

/-- C22 (witness). The candidates of `inversionRead`, on opposite strands and each covering
the 12 bases of the read: both engines are tried and the left-anchored result
`6M 6F 4D 6M 6H` is appended.  With `regularIndelsOnly = true` nothing is tried. -/
theorem resolveConflict_opposite_strands_witness :
    inversionHead.reverse ≠ inversionTail.reverse ∧
    (inversionHead.observedLength + inversionTail.observedLength) % 4294967296 >
      inversionHead.getReadLength ∧
    (resolveConflict sampleAligner [inversionContig] false []
      (FragmentMetadataList.mk [inversionHead, inversionTail] 4) inversionHead
      inversionTail).map (fun r => (r.1, r.2.1)) =
      some (true,
        [CigarOp.mk 6 OpCode.ALIGN, CigarOp.mk 6 OpCode.FLIP, CigarOp.mk 4 OpCode.DELETE,
         CigarOp.mk 6 OpCode.ALIGN, CigarOp.mk 6 OpCode.HARD_CLIP]) ∧
    resolveConflict sampleAligner [inversionContig] true []
      (FragmentMetadataList.mk [inversionHead, inversionTail] 4) inversionHead inversionTail =
      some (false, [], FragmentMetadataList.mk [inversionHead, inversionTail] 4) :=
  (fun ho hl =>
    ⟨ho, hl,
      (congrArg (Option.map (fun r => (r.1, r.2.1)))
        ((resolveConflict_opposite_strands sampleAligner [inversionContig] false []
          (FragmentMetadataList.mk [inversionHead, inversionTail] 4) inversionHead
          inversionTail ho).2 rfl hl)).trans (by decide),
      (resolveConflict_opposite_strands sampleAligner [inversionContig] true []
        (FragmentMetadataList.mk [inversionHead, inversionTail] 4) inversionHead
        inversionTail ho).1 (by decide)⟩)
    (by decide) (by decide)

/-- C22 (counterexample). The candidates of `inversionRead`, the head with an empty first
anchor at offset 6: the strands differ and the observed lengths add up to 24 > 12, so the
inversion branch is entered, and the left-anchored engine would succeed on the very
arguments of the branch (`6M 6F 4D 6M 6H`).  It is not called, because a first anchor is
empty, and `resolveConflict` returns `false`. -/
theorem resolveConflict_skips_unanchored_inversion :
    inversionUnanchoredHead.reverse ≠ inversionTail.reverse ∧
    (inversionUnanchoredHead.observedLength + inversionTail.observedLength) % 4294967296 >
      inversionUnanchoredHead.getReadLength ∧
    inversionUnanchoredHead.firstAnchor_.empty = true ∧
    (alignLeftAnchoredInversion sampleAligner [] inversionUnanchoredHead
      (max inversionUnanchoredHead.firstAnchor_.second inversionTail.endClippedLength)
      inversionTail
      (min (u32 ((inversionUnanchoredHead.getReadLength : Int)
          - inversionTail.firstAnchor_.second))
        (u32 ((inversionUnanchoredHead.getReadLength : Int)
          - inversionUnanchoredHead.endClippedLength)))
      [inversionContig]).map (fun r => (r.1, r.2.1)) =
      some (true,
        [CigarOp.mk 6 OpCode.ALIGN, CigarOp.mk 6 OpCode.FLIP, CigarOp.mk 4 OpCode.DELETE,
         CigarOp.mk 6 OpCode.ALIGN, CigarOp.mk 6 OpCode.HARD_CLIP]) ∧
    resolveConflict sampleAligner [inversionContig] false []
      (FragmentMetadataList.mk [inversionUnanchoredHead, inversionTail] 4)
      inversionUnanchoredHead inversionTail =
      some (false, [], FragmentMetadataList.mk [inversionUnanchoredHead, inversionTail] 4) := by
  decide

/-- C23. For same-strand head and tail, `resolveConflict` skips the pair (returns `false`,
list and buffer exactly as given) when `head.first_anchor.end > tail.last_anchor.start` and
`tail.first_anchor.end > head.last_anchor.start`.  In every other same-strand case an engine
is tried in both orders and the two results are arbitrated by `pickBestSplit`: `alignIndel`
when the contigs are equal, `alignTranslocation` when they differ and `regularIndelsOnly` is
`false`; when they differ and `regularIndelsOnly` is `true` nothing is tried. -/
theorem resolveConflict_anchor_overlap (a : AlignerBase) (contigList : ContigList)
    (regularIndelsOnly : Bool) (cigarBuffer : Cigar) (fragmentList : FragmentMetadataList)
    (head tail : FragmentMetadata) (hsame : head.reverse = tail.reverse) :
    (head.firstAnchor_.second > tail.lastAnchor_.first ∧
        tail.firstAnchor_.second > head.lastAnchor_.first →
      resolveConflict a contigList regularIndelsOnly cigarBuffer fragmentList head tail =
        some (false, cigarBuffer, fragmentList)) ∧
    (¬ (head.firstAnchor_.second > tail.lastAnchor_.first ∧
        tail.firstAnchor_.second > head.lastAnchor_.first) →
      (head.contigId = tail.contigId →
        resolveConflict a contigList regularIndelsOnly cigarBuffer fragmentList head tail =
          match alignIndel a cigarBuffer contigList regularIndelsOnly head tail with
          | none => none
          | some (tmp1Worked, cigarBuffer1, tmp1) =>
            match alignIndel a cigarBuffer1 contigList regularIndelsOnly tail head with
            | none => none
            | some (tmp2Worked, cigarBuffer2, tmp2) =>
              match pickBestSplit a tmp1Worked tmp1 tmp2Worked tmp2 fragmentList with
              | none => none
              | some (ret, fragmentList1) =>
                some (ret, if ret = false then cigarBuffer else cigarBuffer2,
                  fragmentList1)) ∧
      (head.contigId ≠ tail.contigId → regularIndelsOnly = false →
        resolveConflict a contigList regularIndelsOnly cigarBuffer fragmentList head tail =
          match alignTranslocation a cigarBuffer contigList head tail with
          | none => none
          | some (tmp1Worked, cigarBuffer1, tmp1) =>
            match alignTranslocation a cigarBuffer1 contigList tail head with
            | none => none
            | some (tmp2Worked, cigarBuffer2, tmp2) =>
              match pickBestSplit a tmp1Worked tmp1 tmp2Worked tmp2 fragmentList with
              | none => none
              | some (ret, fragmentList1) =>
                some (ret, if ret = false then cigarBuffer else cigarBuffer2,
                  fragmentList1)) ∧
      (head.contigId ≠ tail.contigId → regularIndelsOnly = true →
        resolveConflict a contigList regularIndelsOnly cigarBuffer fragmentList head tail =
          some (false, cigarBuffer, fragmentList))) := by
  constructor
  · rintro ⟨h1, h2⟩
    have hno : ¬ (head.firstAnchor_.second ≤ tail.lastAnchor_.first ∨
        tail.firstAnchor_.second ≤ head.lastAnchor_.first) := by omega
    simp only [resolveConflict, hsame, if_true, hno, if_false, resize_self]
  · intro hno
    have hanchor : head.firstAnchor_.second ≤ tail.lastAnchor_.first ∨
        tail.firstAnchor_.second ≤ head.lastAnchor_.first := by omega
    refine ⟨fun hc => ?_, fun hc hrio => ?_, fun hc hrio => ?_⟩
    · exact resolveConflict_same_contig a contigList regularIndelsOnly cigarBuffer
        fragmentList head tail hsame hanchor hc
    · subst hrio
      exact resolveConflict_other_contig a contigList cigarBuffer fragmentList head tail
        hsame hanchor hc
    · subst hrio
      simp only [resolveConflict, hsame, if_true, hanchor, hc, if_false, Bool.true_eq_false,
        resize_self]

/-- C23 (witness). Scenario 1 of the spec with the head anchored on read bases 0-8 and the
tail on bases 8-11: the anchors overlap both ways and the pair is skipped.  With the head
anchored on bases 0-3 the pair is tried and the deletion `4M4D8M` is found.
The last part is the pair `contigEndHead`, `contigEndTail` on two contigs, whose deletion
scan ends with a step that reads one base past contig 0: the translocation engine is tried
in both orders and `4M 1C 0D 4M` is found. -/
theorem resolveConflict_anchor_overlap_witness :
    (overlapHead.reverse = deletionTail.reverse ∧
    (overlapHead.firstAnchor_.second > deletionTail.lastAnchor_.first ∧
      deletionTail.firstAnchor_.second > overlapHead.lastAnchor_.first) ∧
    resolveConflict sampleAligner deletionReference false []
      (FragmentMetadataList.mk [overlapHead, deletionTail] 4) overlapHead deletionTail =
      some (false, [], FragmentMetadataList.mk [overlapHead, deletionTail] 4) ∧
    deletionHead.reverse = deletionTail.reverse ∧
    ¬ (deletionHead.firstAnchor_.second > deletionTail.lastAnchor_.first ∧
      deletionTail.firstAnchor_.second > deletionHead.lastAnchor_.first) ∧
    deletionHead.contigId = deletionTail.contigId ∧
    resolveConflict sampleAligner deletionReference false []
      (FragmentMetadataList.mk [deletionHead, deletionTail] 4) deletionHead deletionTail =
      some (true, deletionMergedCigar,
        FragmentMetadataList.mk [deletionHead, deletionTail, deletionMerged] 4)) ∧
    (contigEndHead.reverse = contigEndTail.reverse ∧
      ¬ (contigEndHead.firstAnchor_.second > contigEndTail.lastAnchor_.first ∧
        contigEndTail.firstAnchor_.second > contigEndHead.lastAnchor_.first) ∧
      contigEndHead.contigId ≠ contigEndTail.contigId ∧
      resolveConflict sampleAligner contigEndContigs false []
        (FragmentMetadataList.mk [contigEndHead, contigEndTail] 4) contigEndHead
        contigEndTail =
        some (true, contigEndCigar,
          FragmentMetadataList.mk [contigEndHead, contigEndTail, contigEndMerged] 4)) :=
  ⟨(fun hs ho hs2 hn hc =>
    ⟨hs, ho,
      (resolveConflict_anchor_overlap sampleAligner deletionReference false []
        (FragmentMetadataList.mk [overlapHead, deletionTail] 4) overlapHead deletionTail
        hs).1 ho,
      hs2, hn, hc,
      (((resolveConflict_anchor_overlap sampleAligner deletionReference false []
        (FragmentMetadataList.mk [deletionHead, deletionTail] 4) deletionHead deletionTail
        hs2).2 hn).1 hc).trans (by decide)⟩)
    (by decide) (by decide) (by decide) (by decide) (by decide),
    (fun hs hn hc =>
      ⟨hs, hn, hc,
        ((((resolveConflict_anchor_overlap sampleAligner contigEndContigs false []
          (FragmentMetadataList.mk [contigEndHead, contigEndTail] 4) contigEndHead
          contigEndTail hs).2 hn).2.1 hc rfl).trans (by decide))⟩)
      (by decide) (by decide) (by decide)⟩

theorem alignSimpleDeletion_gap_limit (a : AlignerBase) (g : Nat) (buf : Cigar)
    (h : FragmentMetadata) (first : Nat) (t : FragmentMetadata) (last : Nat)
    (cl : ContigList) :
    alignSimpleDeletion { a with splitGapLength_ := g } buf h first t last cl =
      alignSimpleDeletion a buf h first t last cl := rfl

theorem alignSimpleInsertion_gap_limit (a : AlignerBase) (g : Nat) (buf : Cigar)
    (h : FragmentMetadata) (hs : Nat) (t : FragmentMetadata) (ts : Nat) (cl : ContigList) :
    alignSimpleInsertion { a with splitGapLength_ := g } buf h hs t ts cl =
      alignSimpleInsertion a buf h hs t ts cl := rfl

/-- C26. In `alignIndel`, provided the distance
`tail.unclipped_position − head.unclipped_position` is non-zero (the function asserts it):
with `regularIndelsOnly = true`, when the absolute distance is at least `split_gap_length`
no engine is tried and `false` is returned with the buffer and the head exactly as given;
with `regularIndelsOnly = false` the result is the same whatever `split_gap_length` is, and
once the two anchor tests have passed an engine is called whatever the distance: the result
is that of `alignSimpleDeletion` when `expectedSeedDistance < actualSeedDistance`, else that
of `alignSimpleInsertion` when the tail seed is not aligned before the head seed by the
length of the head anchor or more, else that of `alignSimpleDeletion` again (the local
translocation). -/
theorem alignIndel_gap_limit (a : AlignerBase) (cigarBuffer : Cigar)
    (contigList : ContigList) (head tail : FragmentMetadata)
    (hdistance : tail.getUnclippedPosition - head.getUnclippedPosition ≠ 0) :
    (|tail.getUnclippedPosition - head.getUnclippedPosition| ≥ (a.splitGapLength_ : Int) →
      alignIndel a cigarBuffer contigList true head tail = some (false, cigarBuffer, head)) ∧
    (∀ splitGapLength : Nat,
      alignIndel { a with splitGapLength_ := splitGapLength } cigarBuffer contigList false
        head tail = alignIndel a cigarBuffer contigList false head tail) ∧
    ((tail.lastAnchor_.empty || head.firstAnchor_.empty) = false →
      ¬ ((tail.lastAnchor_.first : Int) - head.firstAnchor_.second < 0) →
      tail.lastAnchor_.first < 4294967296 →
      alignIndel a cigarBuffer contigList false head tail =
        if (tail.lastAnchor_.first : Int) - head.firstAnchor_.second <
            tail.getUnclippedPosition + tail.lastAnchor_.first
              - (head.getUnclippedPosition + head.firstAnchor_.second) then
          alignSimpleDeletion a cigarBuffer head
            (max head.getBeginClippedLength tail.getBeginClippedLength) tail
            tail.lastAnchor_.first contigList
        else if 0 ≤ tail.getUnclippedPosition + tail.lastAnchor_.first
              - (head.getUnclippedPosition + head.firstAnchor_.second) ∨
            -(tail.getUnclippedPosition + tail.lastAnchor_.first
              - (head.getUnclippedPosition + head.firstAnchor_.second)) <
              (head.firstAnchor_.length : Int) then
          match alignSimpleInsertion a cigarBuffer head head.firstAnchor_.first tail
              tail.lastAnchor_.first contigList with
          | none => none
          | some (true, cigarBuffer1, tmp) => some (true, cigarBuffer1, tmp)
          | some (false, cigarBuffer1, _) => some (false, cigarBuffer1, head)
        else
          alignSimpleDeletion a cigarBuffer head
            (max head.getBeginClippedLength tail.getBeginClippedLength) tail
            tail.lastAnchor_.first contigList) := by
  refine ⟨?_, ?_, ?_⟩
  · intro hfar
    have hfar' : ¬ |tail.getUnclippedPosition - head.getUnclippedPosition| <
        (a.splitGapLength_ : Int) := not_lt.mpr hfar
    by_cases h1 : (tail.lastAnchor_.empty || head.firstAnchor_.empty) = true
    · simp only [alignIndel, h1, if_true]
    · by_cases h2 : (tail.lastAnchor_.first : Int) - head.firstAnchor_.second < 0
      · simp only [alignIndel, h1, h2, if_true, if_false, Bool.false_eq_true]
      · simp only [alignIndel, h1, h2, hdistance, hfar', Bool.true_eq_false, or_self,
          if_false, Bool.false_eq_true]
  · intro g
    simp only [alignIndel, alignSimpleDeletion_gap_limit, alignSimpleInsertion_gap_limit,
      or_true, if_true]
  · intro hanchors hexpected hrange
    have hempty : tail.lastAnchor_.empty = false := by
      cases he : tail.lastAnchor_.empty
      · rfl
      · rw [he] at hanchors
        simp at hanchors
    have hfirst : head.firstAnchor_.empty = false := by
      cases he : head.firstAnchor_.empty
      · rfl
      · rw [he] at hanchors
        simp at hanchors
    have hlast : u32 ((tail.lastAnchor_.first : Int) - 0) = tail.lastAnchor_.first := by
      unfold u32
      omega
    by_cases hdel : (tail.lastAnchor_.first : Int) - head.firstAnchor_.second <
        tail.getUnclippedPosition + tail.lastAnchor_.first
          - (head.getUnclippedPosition + head.firstAnchor_.second)
    · simp only [alignIndel, hempty, hfirst, Bool.or_self, hexpected, hdistance, hdel,
        hlast, or_true, if_true, if_false, Bool.false_eq_true]
    · by_cases hins : 0 ≤ tail.getUnclippedPosition + tail.lastAnchor_.first
            - (head.getUnclippedPosition + head.firstAnchor_.second) ∨
          -(tail.getUnclippedPosition + tail.lastAnchor_.first
            - (head.getUnclippedPosition + head.firstAnchor_.second)) <
            (head.firstAnchor_.length : Int)
      · simp only [alignIndel, hempty, hfirst, Bool.or_self, hexpected, hdistance, hdel,
          hins, or_true, if_true, if_false, Bool.false_eq_true]
      · have hassert : 0 > tail.getUnclippedPosition + tail.lastAnchor_.first
              - (head.getUnclippedPosition + head.firstAnchor_.second) ∧
            -(tail.getUnclippedPosition + tail.lastAnchor_.first
              - (head.getUnclippedPosition + head.firstAnchor_.second)) ≥
              (head.firstAnchor_.length : Int) := by
          constructor <;> omega
        simp only [alignIndel, hempty, hfirst, Bool.or_self, hexpected, hdistance, hdel,
          hins, hassert, and_self, not_true_eq_false, or_true, if_true, if_false,
          Bool.false_eq_true]

/-- C26 (witness). Scenario 1 of the spec with a split gap length of 4: the distance between
the candidates is 4, so with `regularIndelsOnly = true` nothing is tried, while with `false`
the deletion engine is called and the deletion is found as it is with the gap length
10000. -/
theorem alignIndel_gap_limit_witness :
    deletionTail.getUnclippedPosition - deletionHead.getUnclippedPosition ≠ 0 ∧
    |deletionTail.getUnclippedPosition - deletionHead.getUnclippedPosition| ≥
      (({ sampleAligner with splitGapLength_ := 4 } : AlignerBase).splitGapLength_ : Int) ∧
    (deletionTail.lastAnchor_.empty || deletionHead.firstAnchor_.empty) = false ∧
    ¬ ((deletionTail.lastAnchor_.first : Int) - deletionHead.firstAnchor_.second < 0) ∧
    deletionTail.lastAnchor_.first < 4294967296 ∧
    alignIndel { sampleAligner with splitGapLength_ := 4 } [] deletionReference true
      deletionHead deletionTail = some (false, [], deletionHead) ∧
    alignIndel { sampleAligner with splitGapLength_ := 4 } [] deletionReference false
      deletionHead deletionTail = some (true, deletionMergedCigar, deletionMerged) ∧
    alignIndel { sampleAligner with splitGapLength_ := 4 } [] deletionReference false
        deletionHead deletionTail =
      alignSimpleDeletion { sampleAligner with splitGapLength_ := 4 } [] deletionHead
        (max deletionHead.getBeginClippedLength deletionTail.getBeginClippedLength)
        deletionTail deletionTail.lastAnchor_.first deletionReference ∧
    alignIndel sampleAligner [] deletionReference true deletionHead deletionTail =
      some (true, deletionMergedCigar, deletionMerged) :=
  (fun hd hf ha he hr =>
    ⟨hd, hf, ha, he, hr,
      (alignIndel_gap_limit { sampleAligner with splitGapLength_ := 4 } [] deletionReference
        deletionHead deletionTail hd).1 hf,
      ((alignIndel_gap_limit sampleAligner [] deletionReference deletionHead deletionTail
        hd).2.1 4).trans (by decide),
      ((alignIndel_gap_limit { sampleAligner with splitGapLength_ := 4 } [] deletionReference
        deletionHead deletionTail hd).2.2 ha he hr).trans (if_pos (by decide)),
      by decide⟩)
    (by decide) (by decide) (by decide) (by decide) (by decide)

/-! ## The read bases consumed by an emitted CIGAR (C30) -/

theorem readConsumed_append (xs ys : List CigarOp) :
    readConsumed (xs ++ ys) = readConsumed xs + readConsumed ys := by
  simp [readConsumed]

theorem deletionOps_readConsumed (h t : FragmentMetadata) (b : Nat) (d : Int) :
    readConsumed (deletionOps h t b d) =
      (h.beginClippedLength : Int) + u32 ((b : Int) - h.beginClippedLength)
        + u32 ((t.observedLength : Int) + t.beginClippedLength - b) + t.endClippedLength := by
  simp only [deletionOps, readConsumed_append]
  split_ifs <;> simp_all [readConsumed, readBases]

theorem insertionOps_readConsumed (h t : FragmentMetadata) (b n : Nat) :
    readConsumed (insertionLeftOps h b n ++ insertionRightOps h t b n) =
      (u32 (if u32 ((b : Int) - h.beginClippedLength) ≠ 0 then (h.beginClippedLength : Int)
          else (h.beginClippedLength : Int) + n) : Int)
        + (if u32 ((b : Int) - h.beginClippedLength) ≠ 0 then
            (u32 ((b : Int) - h.beginClippedLength) : Int) + n else 0)
        + u32 ((h.observedLength : Int) + h.endClippedLength
            - u32 ((b : Int) - h.beginClippedLength) - t.endClippedLength - n)
        + t.endClippedLength := by
  simp only [insertionLeftOps, insertionRightOps, readConsumed_append]
  split_ifs <;> simp_all [readConsumed, readBases] <;> ring

/-- C30. For every accepted deletion merge and every accepted insertion merge, on alignments
whose clips and observed length add up to the read length and with the best offset inside
the read (not left of the head's leading clip, and leaving a non-negative number of bases to
the right), the lengths of the read-consuming operations (`SOFT_CLIP`, `ALIGN`, `INSERT`) of
the emitted CIGAR sum to the read length.  For the deletion
`head.begin_clip + head_mapped + tail_mapped + tail.end_clip = read_length`; for the
insertion `head.begin_clip + left_mapped + insertion_length + right_mapped + tail.end_clip =
read_length`, also when `left_mapped = 0`, where the inserted bases are emitted as part of
the leading soft clip. -/
theorem merged_cigar_consumes_read (a : AlignerBase) (cigarBuffer : Cigar)
    (head tail : FragmentMetadata) (bestOffset : Nat) (contigList : ContigList)
    (bestMismatches : Nat) (cigarBuffer1 : Cigar) (merged : FragmentMetadata)
    (hrange : head.getReadLength < 4294967296)
    (hlow : head.beginClippedLength ≤ bestOffset) :
    (∀ deletionLength : Int,
      mergeDeletionAlignments a cigarBuffer head tail bestOffset contigList bestMismatches
        deletionLength = some (true, cigarBuffer1, merged) →
      tail.beginClippedLength + tail.observedLength + tail.endClippedLength =
        head.getReadLength →
      bestOffset ≤ tail.beginClippedLength + tail.observedLength →
      (∃ ops, cigarBuffer1 = cigarBuffer ++ ops ∧
        readConsumed ops = (head.getReadLength : Int)) ∧
      head.beginClippedLength + u32 ((bestOffset : Int) - head.beginClippedLength) +
        u32 ((tail.observedLength : Int) + tail.beginClippedLength - bestOffset) +
        tail.endClippedLength = head.getReadLength) ∧
    (∀ insertionLength : Nat,
      mergeInsertionAlignments a cigarBuffer head tail bestOffset contigList bestMismatches
        insertionLength = some (true, cigarBuffer1, merged) →
      head.beginClippedLength + head.observedLength + head.endClippedLength =
        head.getReadLength →
      bestOffset + insertionLength + tail.endClippedLength ≤ head.getReadLength →
      (∃ ops, cigarBuffer1 = cigarBuffer ++ ops ∧
        readConsumed ops = (head.getReadLength : Int)) ∧
      head.beginClippedLength + u32 ((bestOffset : Int) - head.beginClippedLength) +
        insertionLength +
        u32 ((head.observedLength : Int) + head.endClippedLength
          - u32 ((bestOffset : Int) - head.beginClippedLength) - tail.endClippedLength
          - insertionLength) +
        tail.endClippedLength = head.getReadLength) := by
  constructor
  · intro d hr htail hhigh
    have hsum : head.beginClippedLength + u32 ((bestOffset : Int) - head.beginClippedLength) +
        u32 ((tail.observedLength : Int) + tail.beginClippedLength - bestOffset) +
        tail.endClippedLength = head.getReadLength := by
      unfold u32
      omega
    refine ⟨?_, hsum⟩
    rcases mergeDeletionAlignments_appends _ _ _ _ _ _ _ _ _ _ _ hr with ⟨hf, _⟩ | ⟨_, rfl⟩
    · exact absurd hf (by simp)
    · refine ⟨_, rfl, ?_⟩
      rw [deletionOps_readConsumed, ← hsum]
      push_cast
      ring
  · intro n hr hhead hfit
    have hsum : head.beginClippedLength + u32 ((bestOffset : Int) - head.beginClippedLength) +
        n +
        u32 ((head.observedLength : Int) + head.endClippedLength
          - u32 ((bestOffset : Int) - head.beginClippedLength) - tail.endClippedLength - n) +
        tail.endClippedLength = head.getReadLength := by
      unfold u32
      omega
    refine ⟨?_, hsum⟩
    rw [mergeInsertionAlignments_eq] at hr
    split_ifs at hr with h1 h2 h3
    · simp at hr
    simp only [Option.some.injEq, Prod.mk.injEq, true_and] at hr
    refine ⟨_, by rw [← hr.1, List.append_assoc], ?_⟩
    rw [insertionOps_readConsumed, ← hsum]
    by_cases hl : u32 ((bestOffset : Int) - head.beginClippedLength) = 0
    · simp only [hl, ne_eq, not_true_eq_false, if_false]
      have hc : u32 ((head.beginClippedLength : Int) + n) = head.beginClippedLength + n := by
        unfold u32
        omega
      rw [hc]
      push_cast
      ring
    · simp only [hl, ne_eq, not_false_eq_true, if_true]
      have hc : u32 (head.beginClippedLength : Int) = head.beginClippedLength := by
        unfold u32
        omega
      rw [hc]
      push_cast
      ring

/-- C30 (witness). Scenario 1 of the spec merged at offset 8 (`8M4D4M`, a read of 16 bases),
the insertion example merged at offset 4 (`4M2I8M`, 14 bases) and the insertion with no
base left of it (`2S12M`, 14 bases). -/
theorem merged_cigar_consumes_read_witness :
    (mergeDeletionAlignments sampleAligner [] clippedHead clippedTail 8 deletionReference 4 4 =
        some (true,
          [CigarOp.mk 8 OpCode.ALIGN, CigarOp.mk 4 OpCode.DELETE, CigarOp.mk 4 OpCode.ALIGN],
          { deletionMerged with mismatchCount := 4, editDistance := 8 }) ∧
      clippedHead.getReadLength < 4294967296 ∧
      clippedHead.beginClippedLength ≤ 8 ∧
      (∃ ops,
        [CigarOp.mk 8 OpCode.ALIGN, CigarOp.mk 4 OpCode.DELETE, CigarOp.mk 4 OpCode.ALIGN] =
          [] ++ ops ∧
        readConsumed ops = (clippedHead.getReadLength : Int))) ∧
    (mergeInsertionAlignments sampleAligner [] insertionHead insertionTail 4 [insertionContig]
        0 2 =
        some (true,
          [CigarOp.mk 4 OpCode.ALIGN, CigarOp.mk 2 OpCode.INSERT, CigarOp.mk 8 OpCode.ALIGN],
          insertionMerged) ∧
      (∃ ops,
        [CigarOp.mk 4 OpCode.ALIGN, CigarOp.mk 2 OpCode.INSERT, CigarOp.mk 8 OpCode.ALIGN] =
          [] ++ ops ∧
        readConsumed ops = (insertionHead.getReadLength : Int))) ∧
    (mergeInsertionAlignments sampleAligner [] prefixHead prefixTail 0 [prefixContig] 0 2 =
        some (true, [CigarOp.mk 2 OpCode.SOFT_CLIP, CigarOp.mk 12 OpCode.ALIGN],
          prefixMerged) ∧
      u32 (((0 : Nat) : Int) - prefixHead.beginClippedLength) = 0 ∧
      (∃ ops,
        [CigarOp.mk 2 OpCode.SOFT_CLIP, CigarOp.mk 12 OpCode.ALIGN] = [] ++ ops ∧
        readConsumed ops = (prefixHead.getReadLength : Int))) :=
  ⟨(fun hrun hrange hlow =>
      ⟨hrun, hrange, hlow,
        ((merged_cigar_consumes_read sampleAligner [] clippedHead clippedTail 8
          deletionReference 4 _ _ hrange hlow).1 4 hrun (by decide) (by decide)).1⟩)
      (by decide) (by decide) (by decide),
    (fun hrun =>
      ⟨hrun,
        ((merged_cigar_consumes_read sampleAligner [] insertionHead insertionTail 4
          [insertionContig] 0 _ _ (by decide) (by decide)).2 2 hrun (by decide)
          (by decide)).1⟩)
      (by decide),
    (fun hrun =>
      ⟨hrun, by decide,
        ((merged_cigar_consumes_read sampleAligner [] prefixHead prefixTail 0
          [prefixContig] 0 _ _ (by decide) (by decide)).2 2 hrun (by decide)
          (by decide)).1⟩)
      (by decide)⟩

/-! The engines keep the best offset inside the read, so what they accept consumes the
whole read. -/

theorem deletionScan_offset (outside : Outside) (s hR tR : List Char) (last : Nat) :
    ∀ (fuel : Nat) (best cur r : DeletionLocation),
      deletionScan outside s hR tR last fuel best cur = some r →
      r.deletionOffset_ = best.deletionOffset_ ∨
        (cur.deletionOffset_ ≤ r.deletionOffset_ ∧ r.deletionOffset_ ≤ last) := by
  intro fuel
  induction fuel with
  | zero =>
    intro best cur r h
    simp only [deletionScan, Option.some.injEq] at h
    exact Or.inl (h ▸ rfl)
  | succ n ih =>
    intro best cur r h
    by_cases hc : best.getMistmatches ≠ 0 ∧ cur.deletionOffset_ ≤ last
    · simp only [deletionScan, hc, and_self, if_true, ne_eq, not_false_eq_true] at h
      by_cases h1 : cur.rightRealignedMismatches_ = minusOneU
      · simp only [h1, if_true] at h
        cases h
      · simp only [h1, if_false] at h
        cases hm : cur.moveNext outside s hR tR with
        | none =>
          rw [hm] at h
          cases h
        | some next =>
          rw [hm] at h
          have ho := deletionLocation_moveNext_offset _ _ _ _ _ _ hm
          rcases ih _ _ _ h with h2 | ⟨h2, h3⟩
          · by_cases hb : best.getMistmatches > cur.getMistmatches
            · rw [if_pos hb] at h2
              exact Or.inr ⟨le_of_eq h2.symm, h2 ▸ hc.2⟩
            · rw [if_neg hb] at h2
              exact Or.inl h2
          · exact Or.inr ⟨by omega, h3⟩
    · simp only [deletionScan, hc, if_false, Option.some.injEq] at h
      exact Or.inl (h ▸ rfl)

theorem deletionBestLocation_offset (outside : Outside) (h : FragmentMetadata) (first : Nat)
    (t : FragmentMetadata) (last : Nat) (hR tR : Contig) (best : DeletionLocation)
    (hb : deletionBestLocation outside h first t last hR tR = some best) :
    first ≤ best.deletionOffset_ ∧
      (best.deletionOffset_ ≤ last ∨ best.deletionOffset_ = first) := by
  simp only [deletionBestLocation] at hb
  split at hb
  · split at hb
    · cases hb
    · rcases deletionScan_offset _ _ _ _ _ _ _ _ _ hb with h1 | ⟨h1, h2⟩
      · exact ⟨le_of_eq h1.symm, Or.inr h1⟩
      · exact ⟨h1, Or.inl h2⟩
  · cases hb

theorem alignSimpleDeletion_consumes_read (a : AlignerBase) (buf buf1 : Cigar)
    (h : FragmentMetadata) (first : Nat) (t : FragmentMetadata) (last : Nat)
    (cl : ContigList) (h1 : FragmentMetadata)
    (hr : alignSimpleDeletion a buf h first t last cl = some (true, buf1, h1))
    (hrange : h.getReadLength < 4294967296)
    (htail : t.beginClippedLength + t.observedLength + t.endClippedLength = h.getReadLength)
    (hfirst : h.beginClippedLength ≤ first)
    (hlast : last ≤ t.beginClippedLength + t.observedLength) :
    ∃ ops, buf1 = buf ++ ops ∧ readConsumed ops = (h.getReadLength : Int) := by
  cases hH : cl.get? h.contigId with
  | none =>
    simp only [alignSimpleDeletion, hH] at hr
    cases hr
  | some headRef =>
    cases hT : cl.get? t.contigId with
    | none =>
      simp only [alignSimpleDeletion, hH, hT] at hr
      cases hr
    | some tailRef =>
      rw [alignSimpleDeletion_eq a _ _ _ _ _ _ _ _ hH hT] at hr
      split_ifs at hr with c1 c2 c3 c4 c0
      · simp at hr
      · split at hr
        · cases hr
        split_ifs at hr with c5
        · simp at hr
        split at hr
        · cases hr
        rename_i best hbest
        obtain ⟨hlo, hhi⟩ := deletionBestLocation_offset _ _ _ _ _ _ _ _ hbest
        have hmod : (t.beginClippedLength + t.observedLength) % 4294967296 =
            t.beginClippedLength + t.observedLength := Nat.mod_eq_of_lt (by omega)
        rw [hmod] at c2
        have hhigh : best.deletionOffset_ ≤ t.beginClippedLength + t.observedLength := by
          rcases hhi with hhi | hhi <;> omega
        rcases mergeDeletionAlignments_appends _ _ _ _ _ _ _ _ _ _ _ hr with ⟨hf, _⟩ | ⟨_, rfl⟩
        · exact absurd hf (by simp)
        · refine ⟨_, rfl, ?_⟩
          rw [deletionOps_readConsumed]
          unfold u32
          omega
      · split at hr
        · cases hr
        split_ifs at hr with c5
        · simp at hr
        split at hr <;> cases hr

theorem alignSimpleInsertion_true (a : AlignerBase) (buf buf1 : Cigar)
    (h : FragmentMetadata) (hs : Nat) (t : FragmentMetadata) (ts : Nat)
    (cl : ContigList) (t1 : FragmentMetadata)
    (hr : alignSimpleInsertion a buf h hs t ts cl = some (true, buf1, t1)) :
    ∃ n best, insertionBestLocation a.outside h hs t ts cl = some (n, best) ∧
      0 < toInt32 (((t.beginClippedLength + t.observedLength) % 4294967296 : Nat)
        - (max t.beginClippedLength hs : Nat) - (n : Int)) ∧
      mergeInsertionAlignments a buf h t best.insertionOffset_ cl best.getMistmatches n =
        some (true, buf1, t1) := by
  simp only [alignSimpleInsertion] at hr
  split at hr
  · cases hr
  rename_i n hn
  split at hr
  · cases hr
  rename_i hfit
  split at hr
  · cases hr
  rename_i contig hcontig
  split at hr
  · cases hr
  rename_i htl
  split at hr
  · cases hr
  rename_i tmm hcm
  split at hr
  · cases hr
  rename_i best hscan
  refine ⟨n, best, ?_, ?_, hr⟩
  · simp only [insertionBestLocation, hn, hfit, if_false, hcontig, htl, hcm, hscan]
  · simp only [FragmentMetadata.getBeginClippedLength, FragmentMetadata.getObservedLength,
      ge_iff_le, not_le] at htl
    exact htl

theorem alignSimpleInsertion_consumes_read (a : AlignerBase) (buf buf1 : Cigar)
    (h : FragmentMetadata) (hs : Nat) (t : FragmentMetadata) (ts : Nat)
    (cl : ContigList) (t1 : FragmentMetadata)
    (hr : alignSimpleInsertion a buf h hs t ts cl = some (true, buf1, t1))
    (hrange : h.getReadLength < 1073741824)
    (hhead : h.beginClippedLength + h.observedLength + h.endClippedLength = h.getReadLength)
    (htail : t.beginClippedLength + t.observedLength + t.endClippedLength = h.getReadLength)
    (hfirst : h.beginClippedLength ≤ max t.beginClippedLength hs)
    (hseeds : hs ≤ ts)
    (hlast : ts ≤ t.beginClippedLength + t.observedLength) :
    ∃ ops, buf1 = buf ++ ops ∧ readConsumed ops = (h.getReadLength : Int) := by
  obtain ⟨n, best, hbest, htl, hm⟩ := alignSimpleInsertion_true _ _ _ _ _ _ _ _ _ hr
  obtain ⟨hcast, hfit, hlo, hhi⟩ := insertionBestLocation_offset _ _ _ _ _ _ _ _ hbest
  have hn := numericCastUnsigned_some _ _ hcast
  have hb1 : h.beginClippedLength ≤ best.insertionOffset_ := le_trans hfirst hlo
  have hb2 : best.insertionOffset_ + n + t.endClippedLength ≤ h.getReadLength := by
    rcases hhi with hhi | hhi
    · unfold u32 at hhi hfit
      omega
    · unfold toInt32 at htl
      rw [hhi]
      have hmax : max t.beginClippedLength hs ≤ h.getReadLength := by
        rcases le_total t.beginClippedLength hs with hle | hle
        · rw [max_eq_right hle]; omega
        · rw [max_eq_left hle]; omega
      unfold u32 at hfit
      omega
  rw [mergeInsertionAlignments_eq] at hm
  split_ifs at hm with c1 c2 c3
  · simp at hm
  simp only [Option.some.injEq, Prod.mk.injEq, true_and] at hm
  refine ⟨_, by rw [← hm.1, List.append_assoc], ?_⟩
  rw [insertionOps_readConsumed]
  by_cases hl : u32 ((best.insertionOffset_ : Int) - h.beginClippedLength) = 0
  · simp only [hl, ne_eq, not_true_eq_false, if_false]
    unfold u32 at hl ⊢
    omega
  · simp only [hl, ne_eq, not_false_eq_true, if_true]
    unfold u32 at hl ⊢
    omega

/-! ## The pairs that alignSimpleSv hands to resolveConflict (C24) -/

theorem resolveConflict_items (a : AlignerBase) (cl : ContigList) (rio : Bool) (buf : Cigar)
    (fl : FragmentMetadataList) (head tail : FragmentMetadata)
    (r : Bool × Cigar × FragmentMetadataList)
    (hr : resolveConflict a cl rio buf fl head tail = some r) :
    ∃ app, r.2.2.items = fl.items ++ app := by
  rcases resolveConflict_outcome _ _ _ _ _ _ _ _ hr with ⟨_, _, h3⟩ | ⟨_, _, best, h3⟩
  · exact ⟨[], by simp [h3]⟩
  · exact ⟨[best], by simp [h3, FragmentMetadataList.push_back]⟩

theorem svCall_keeps_entries (a : AlignerBase) (cl : ContigList) (items : List FragmentMetadata)
    (s s1 : Cigar × FragmentMetadataList) (p : Nat × Nat)
    (hr : svCall a cl items s p = some s1) (hs : ∃ app, s.2.items = items ++ app) :
    ∃ app, s1.2.items = items ++ app := by
  unfold svCall at hr
  split at hr
  · split at hr
    · cases hr
    · rename_i r1 b1 f1 hcall
      cases hr
      obtain ⟨app, happ⟩ := hs
      obtain ⟨app1, happ1⟩ := resolveConflict_items _ _ _ _ _ _ _ _ hcall
      simp only at happ1
      exact ⟨app ++ app1, by rw [happ1, happ, List.append_assoc]⟩
  · cases hr

theorem svRun_keeps_entries (a : AlignerBase) (cl : ContigList) (items : List FragmentMetadata)
    (pairs : List (Nat × Nat)) :
    ∀ (s s1 : Cigar × FragmentMetadataList), svRun a cl items pairs s = some s1 →
      (∃ app, s.2.items = items ++ app) → ∃ app, s1.2.items = items ++ app := by
  induction pairs with
  | nil =>
    intro s s1 hr hs
    simp only [svRun, List.foldlM_nil, pure, Option.some.injEq] at hr
    subst hr
    exact hs
  | cons p ps ih =>
    intro s s1 hr hs
    simp only [svRun, List.foldlM_cons, bind, Option.bind] at hr
    split at hr
    · cases hr
    · rename_i s2 h2
      exact ih s2 s1 hr (svCall_keeps_entries _ _ _ _ _ _ h2 hs)

theorem svRun_append (a : AlignerBase) (cl : ContigList) (items : List FragmentMetadata)
    (p q : List (Nat × Nat)) (s : Cigar × FragmentMetadataList) :
    svRun a cl items (p ++ q) s = (svRun a cl items p s).bind (svRun a cl items q) := by
  simp only [svRun, List.foldlM_append]
  rfl

theorem entries_get? (items all app : List FragmentMetadata) (i : Nat)
    (happ : all = items ++ app) (hi : i < items.length) :
    ∃ f, items.get? i = some f ∧ all.get? i = some f := by
  refine ⟨items.get ⟨i, hi⟩, List.get?_eq_get hi, ?_⟩
  rw [happ, List.get?_eq_getElem?, List.getElem?_append_left hi, List.getElem?_eq_getElem hi]
  rfl

theorem alignSimpleSvTail_eq (a : AlignerBase) (cl : ContigList)
    (items : List FragmentMetadata) (s : Cigar × FragmentMetadataList) (i j : Nat)
    (hs : ∃ app, s.2.items = items ++ app) (hi : i < items.length) (hj : j < items.length) :
    alignSimpleSvTail a cl i s j =
      if hasMismatches items j then svCall a cl items s (i, j) else some s := by
  obtain ⟨app, happ⟩ := hs
  obtain ⟨hd, e3, e1⟩ := entries_get? items _ app i happ hi
  obtain ⟨tl, e4, e2⟩ := entries_get? items _ app j happ hj
  simp only [alignSimpleSvTail, svCall, hasMismatches, e1, e2, e3, e4, Option.any_some,
    decide_eq_true_eq]
  by_cases hm : tl.getMismatchCount = 0
  · simp [hm]
  · have hpos : 0 < tl.getMismatchCount := Nat.pos_of_ne_zero hm
    simp only [hm, if_false, hpos, if_true]

theorem alignSimpleSv_tails (a : AlignerBase) (cl : ContigList)
    (items : List FragmentMetadata) (i : Nat) (hi : i < items.length) (js : List Nat) :
    (∀ j ∈ js, j < items.length) → ∀ s : Cigar × FragmentMetadataList,
      (∃ app, s.2.items = items ++ app) →
      js.foldlM (alignSimpleSvTail a cl i) s =
        svRun a cl items ((js.filter (hasMismatches items)).map (Prod.mk i)) s := by
  induction js with
  | nil =>
    intro _ s _
    rfl
  | cons j js ih =>
    intro hjs s hs
    have hj : j < items.length := hjs j (List.mem_cons_self _ _)
    have hjs1 : ∀ k ∈ js, k < items.length := fun k hk => hjs k (List.mem_cons_of_mem _ hk)
    rw [List.foldlM_cons, alignSimpleSvTail_eq a cl items s i j hs hi hj]
    by_cases hm : hasMismatches items j = true
    · simp only [hm, if_true, List.filter_cons_of_pos, List.map_cons, svRun, List.foldlM_cons]
      cases hc : svCall a cl items s (i, j) with
      | none => rfl
      | some s1 =>
        simp only [bind, Option.bind]
        exact ih hjs1 s1 (svCall_keeps_entries _ _ _ _ _ _ hc hs)
    · simp only [hm, Bool.false_eq_true, if_false, List.filter_cons_of_neg, not_false_eq_true,
        bind, Option.bind]
      exact ih hjs1 s hs

/-- The pairs that the outer loop makes for the head at index `i`. -/
theorem alignSimpleSvHead_eq (a : AlignerBase) (cl : ContigList)
    (items : List FragmentMetadata) (s : Cigar × FragmentMetadataList) (i : Nat)
    (hs : ∃ app, s.2.items = items ++ app) (hi : i < items.length) :
    alignSimpleSvHead a cl items.length s i =
      svRun a cl items
        (if hasMismatches items i then
          ((List.range' (i + 1) (items.length - (i + 1))).filter (hasMismatches items)).map
            (Prod.mk i)
        else []) s := by
  obtain ⟨app, happ⟩ := hs
  obtain ⟨hd, e3, e1⟩ := entries_get? items _ app i happ hi
  simp only [alignSimpleSvHead, e1, hasMismatches, e3, Option.any_some, decide_eq_true_eq]
  by_cases hm : hd.getMismatchCount = 0
  · simp only [hm, if_true, lt_self_iff_false, if_false]
    rfl
  · have hpos : 0 < hd.getMismatchCount := Nat.pos_of_ne_zero hm
    simp only [hm, if_false, hpos, if_true]
    refine alignSimpleSv_tails a cl items i hi _ ?_ s ⟨app, happ⟩
    intro j hj
    rw [List.mem_range'_1] at hj
    omega

theorem alignSimpleSv_heads (a : AlignerBase) (cl : ContigList)
    (items : List FragmentMetadata) (is : List Nat) :
    (∀ i ∈ is, i < items.length) → ∀ s : Cigar × FragmentMetadataList,
      (∃ app, s.2.items = items ++ app) →
      is.foldlM (alignSimpleSvHead a cl items.length) s =
        svRun a cl items
          (is.flatMap (fun i =>
            if hasMismatches items i then
              ((List.range' (i + 1) (items.length - (i + 1))).filter
                (hasMismatches items)).map (Prod.mk i)
            else [])) s := by
  induction is with
  | nil =>
    intro _ s _
    rfl
  | cons i is ih =>
    intro his s hs
    have hi : i < items.length := his i (List.mem_cons_self _ _)
    have his1 : ∀ k ∈ is, k < items.length := fun k hk => his k (List.mem_cons_of_mem _ hk)
    rw [List.foldlM_cons, alignSimpleSvHead_eq a cl items s i hs hi, List.flatMap_cons,
      svRun_append]
    cases hc : svRun a cl items
        (if hasMismatches items i then
          ((List.range' (i + 1) (items.length - (i + 1))).filter (hasMismatches items)).map
            (Prod.mk i)
        else []) s with
    | none => rfl
    | some s1 =>
      simp only [bind, Option.bind]
      exact ih his1 s1 (svRun_keeps_entries _ _ _ _ _ _ hc hs)

theorem range_filter_lt (i : Nat) :
    ∀ n : Nat, (List.range n).filter (fun j => decide (i < j)) =
      List.range' (i + 1) (n - (i + 1)) := by
  intro n
  induction n with
  | zero => simp
  | succ n ih =>
    rw [List.range_succ, List.filter_append, ih]
    by_cases h : i < n
    · have e : n + 1 - (i + 1) = (n - (i + 1)) + 1 := by omega
      rw [e, List.range'_concat]
      have e2 : i + 1 + 1 * (n - (i + 1)) = n := by omega
      simp only [h, decide_True, List.filter_cons_of_pos, List.filter_nil]
      congr 2
      omega
    · have e : n + 1 - (i + 1) = 0 := by omega
      have e2 : n - (i + 1) = 0 := by omega
      simp [h, e, e2]

theorem svPairs_eq (items : List FragmentMetadata) :
    svPairs items =
      (List.range items.length).flatMap (fun i =>
        if hasMismatches items i then
          ((List.range' (i + 1) (items.length - (i + 1))).filter
            (hasMismatches items)).map (Prod.mk i)
        else []) := by
  unfold svPairs List.product
  rw [List.filter_flatMap]
  refine List.flatMap_congr ?_
  intro i _
  rw [List.filter_map]
  by_cases hm : hasMismatches items i = true
  · rw [if_pos hm, ← range_filter_lt i items.length, List.filter_filter]
    congr 1
    refine List.filter_congr ?_
    intro j _
    simp [hm, Bool.and_comm]
  · rw [if_neg hm]
    simp only [Bool.not_eq_true] at hm
    simp [hm]

theorem svPairs_mem (items : List FragmentMetadata) (i j : Nat) :
    (i, j) ∈ svPairs items ↔
      i < j ∧ j < items.length ∧
        ∃ head tail, items.get? i = some head ∧ items.get? j = some tail ∧
          0 < head.getMismatchCount ∧ 0 < tail.getMismatchCount := by
  simp only [svPairs, List.mem_filter, List.pair_mem_product, List.mem_range, hasMismatches,
    Bool.and_eq_true, decide_eq_true_eq]
  constructor
  · rintro ⟨⟨hi, hj⟩, ⟨hij, h1⟩, h2⟩
    rw [List.get?_eq_get hi] at h1 ⊢
    rw [List.get?_eq_get hj] at h2 ⊢
    simp only [Option.any_some, decide_eq_true_eq] at h1 h2
    exact ⟨hij, hj, _, _, rfl, rfl, h1, h2⟩
  · rintro ⟨hij, hj, head, tail, e1, e2, h1, h2⟩
    refine ⟨⟨by omega, hj⟩, ⟨hij, ?_⟩, ?_⟩
    · rw [e1]
      simpa using h1
    · rw [e2]
      simpa using h2

theorem svPairs_sorted (items : List FragmentMetadata) :
    (svPairs items).Pairwise (fun p q => p.1 < q.1 ∨ (p.1 = q.1 ∧ p.2 < q.2)) := by
  unfold svPairs
  refine List.Pairwise.filter _ ?_
  unfold List.product
  rw [List.pairwise_flatMap]
  constructor
  · intro i _
    rw [List.pairwise_map]
    exact (List.pairwise_lt_range _).imp (fun h => Or.inr ⟨rfl, h⟩)
  · refine (List.pairwise_lt_range _).imp ?_
    intro i k hik x hx y hy
    rw [List.mem_map] at hx hy
    obtain ⟨_, _, rfl⟩ := hx
    obtain ⟨_, _, rfl⟩ := hy
    exact Or.inl hik

theorem svPairs_short (items : List FragmentMetadata)
    (h : items.length < 2 ∨ ∀ f ∈ items, f.getMismatchCount = 0) : svPairs items = [] := by
  rw [List.eq_nil_iff_forall_not_mem]
  rintro ⟨i, j⟩ hmem
  rw [svPairs_mem] at hmem
  obtain ⟨hij, hj, head, tail, e1, e2, h1, h2⟩ := hmem
  rcases h with h | h
  · omega
  · have := h head (List.get?_mem e1)
    omega

/-- C24. The driver `alignSimpleSv` does what the invocations of `resolveConflict` (with
`regularIndelsOnly = false`) for the pairs of `svPairs` do, one after the other in the order
of that list, each with the two alignments that the list held at entry at the indices of the
pair: it aborts when one of them aborts and returns the CIGAR buffer and the list that they
leave otherwise.  The pairs of `svPairs` are exactly the pairs `(i, j)` with `i < j < n`,
`n` the size of the list at entry, whose alignments at entry both have a mismatch count above
zero, and they stand in lexicographic order; no index of an alignment appended during the
call is among them.  For a list shorter than two, and for a list in which every alignment
has zero mismatches, the driver returns the buffer and the list unchanged. -/
theorem alignSimpleSv_invokes_pairs (a : AlignerBase) (contigList : ContigList)
    (cigarBuffer : Cigar) (fragmentList : FragmentMetadataList) :
    alignSimpleSv a contigList cigarBuffer fragmentList =
        svRun a contigList fragmentList.items (svPairs fragmentList.items)
          (cigarBuffer, fragmentList) ∧
      (∀ i j, (i, j) ∈ svPairs fragmentList.items ↔
        i < j ∧ j < fragmentList.size ∧
          ∃ head tail, fragmentList.items.get? i = some head ∧
            fragmentList.items.get? j = some tail ∧
            0 < head.getMismatchCount ∧ 0 < tail.getMismatchCount) ∧
      (svPairs fragmentList.items).Pairwise
        (fun p q => p.1 < q.1 ∨ (p.1 = q.1 ∧ p.2 < q.2)) ∧
      ((fragmentList.size < 2 ∨ ∀ f ∈ fragmentList.items, f.getMismatchCount = 0) →
        alignSimpleSv a contigList cigarBuffer fragmentList =
          some (cigarBuffer, fragmentList)) := by
  have hrun : alignSimpleSv a contigList cigarBuffer fragmentList =
      svRun a contigList fragmentList.items (svPairs fragmentList.items)
        (cigarBuffer, fragmentList) := by
    unfold alignSimpleSv
    split_ifs with hshort
    · rw [svPairs_short _ (Or.inl hshort)]
      rfl
    · simp only [FragmentMetadataList.size]
      rw [svPairs_eq, ← List.range_eq_range']
      exact alignSimpleSv_heads a contigList fragmentList.items _
        (fun i hi => List.mem_range.mp hi) _ ⟨[], (List.append_nil _).symm⟩
  refine ⟨hrun, fun i j => svPairs_mem _ i j, svPairs_sorted _, fun h => ?_⟩
  rw [hrun, svPairs_short _ h]
  rfl

/-- Scenario 1 of the spec run through the driver: the list of the two candidates has the one
pair `(0, 1)`, and the driver appends `4M4D8M`. -/
theorem alignSimpleSv_deletion_example :
    svPairs [deletionHead, deletionTail] = [(0, 1)] ∧
    alignSimpleSv sampleAligner deletionReference []
        (FragmentMetadataList.mk [deletionHead, deletionTail] 4) =
      some (deletionMergedCigar,
        FragmentMetadataList.mk [deletionHead, deletionTail, deletionMerged] 4) := by
  decide

/-- C24 (witness). The driver on the list `contigEndHead`, `contigEndTail`, `contigEndWide`:
the pairs are `(0, 1)`, `(0, 2)` and `(1, 2)`.  The scan of the first pair ends with a step
that reads one base past contig 0; the invocation returns `true` with `4M 1C 0D 4M`, and the
driver goes on to the two later pairs, of which `(0, 2)` appends a second alignment and
`(1, 2)` is skipped for its overlapping anchors. -/
theorem alignSimpleSv_invokes_pairs_witness :
    svPairs [contigEndHead, contigEndTail, contigEndWide] = [(0, 1), (0, 2), (1, 2)] ∧
    alignSimpleSv sampleAligner contigEndContigs []
        (FragmentMetadataList.mk [contigEndHead, contigEndTail, contigEndWide] 8) =
      svRun sampleAligner contigEndContigs
        (FragmentMetadataList.mk [contigEndHead, contigEndTail, contigEndWide] 8).items
        (svPairs (FragmentMetadataList.mk [contigEndHead, contigEndTail, contigEndWide] 8).items)
        ([], FragmentMetadataList.mk [contigEndHead, contigEndTail, contigEndWide] 8) ∧
    alignSimpleSv sampleAligner contigEndContigs []
        (FragmentMetadataList.mk [contigEndHead, contigEndTail, contigEndWide] 8) =
      some (contigEndCigar ++ contigEndCigar,
        FragmentMetadataList.mk [contigEndHead, contigEndTail, contigEndWide, contigEndMerged,
          { contigEndMerged with cigarOffset := 4 }] 8) :=
  ⟨by decide,
    (alignSimpleSv_invokes_pairs sampleAligner contigEndContigs []
      (FragmentMetadataList.mk [contigEndHead, contigEndTail, contigEndWide] 8)).1,
    by decide⟩

/-! ## Swapping head and tail in resolveConflict (C25) -/

theorem sample_prefixIndependent : PrefixIndependent sampleAligner := by
  intro f cl rev cid pos buf buf1 ops
  simp only [sampleAligner, sampleUpdateAlignment, List.drop_left, SameCounts, and_self]

theorem sameAttempt_false (buf buf1 : Cigar) (f g : FragmentMetadata) :
    SameAttempt (some (false, buf, f)) (some (false, buf1, g)) := by
  simp [SameAttempt]

theorem mergeDeletionAlignments_same (a : AlignerBase) (hp : PrefixIndependent a)
    (buf buf1 : Cigar) (h t : FragmentMetadata) (b : Nat) (cl : ContigList) (mm : Nat)
    (d : Int) :
    SameAttempt (mergeDeletionAlignments a buf h t b cl mm d)
      (mergeDeletionAlignments a buf1 h t b cl mm d) := by
  rw [mergeDeletionAlignments_eq, mergeDeletionAlignments_eq]
  obtain ⟨h1, h2⟩ := hp (deletionUpdateInput a h t b d) cl (deletionUpdateInput a h t b d).reverse
    (deletionUpdateInput a h t b d).contigId
    ((deletionUpdateInput a h t b d).position + h.beginClippedLength) buf buf1
    (deletionOps h t b d)
  simp only [AlignerBase.updateFragmentCigar]
  by_cases c1 : u32 ((b : Int) - h.beginClippedLength) ≠ h.observedLength
  · simp only [c1, ne_eq, not_false_eq_true, if_true, h1]
    split_ifs
    · trivial
    · exact ⟨rfl, fun _ => h2⟩
  · simp only [c1, if_false]
    exact sameAttempt_false _ _ _ _

theorem mergeInsertionAlignments_same (a : AlignerBase) (hp : PrefixIndependent a)
    (buf buf1 : Cigar) (h t : FragmentMetadata) (b : Nat) (cl : ContigList) (mm : Nat)
    (n : Nat) :
    SameAttempt (mergeInsertionAlignments a buf h t b cl mm n)
      (mergeInsertionAlignments a buf1 h t b cl mm n) := by
  rw [mergeInsertionAlignments_eq, mergeInsertionAlignments_eq]
  obtain ⟨h1, h2⟩ := hp ((a.resetAlignment t).setLeftClipped h.leftClipped) cl h.reverse
    h.contigId h.position buf buf1 (insertionLeftOps h b n ++ insertionRightOps h t b n)
  simp only [AlignerBase.updateFragmentCigar, List.append_assoc]
  by_cases c1 : u32 ((b : Int) - h.beginClippedLength) ≤ h.getReadLength
  · by_cases c2 : u32 ((h.observedLength : Int) + h.endClippedLength
        - u32 ((b : Int) - h.beginClippedLength) - t.endClippedLength - n) = 0
    · simp only [c1, c2, not_true_eq_false, if_false, if_true]
      exact sameAttempt_false _ _ _ _
    · simp only [c1, c2, not_true_eq_false, if_false, h1]
      split_ifs
      · trivial
      · exact ⟨rfl, fun _ => h2⟩
  · simp only [c1, not_false_eq_true, if_true]
    trivial

theorem alignSimpleDeletion_same (a : AlignerBase) (hp : PrefixIndependent a)
    (buf buf1 : Cigar) (h : FragmentMetadata) (first : Nat) (t : FragmentMetadata)
    (last : Nat) (cl : ContigList) :
    SameAttempt (alignSimpleDeletion a buf h first t last cl)
      (alignSimpleDeletion a buf1 h first t last cl) := by
  cases hH : cl.get? h.contigId with
  | none =>
    simp only [alignSimpleDeletion, hH]
    trivial
  | some headRef =>
    cases hT : cl.get? t.contigId with
    | none =>
      simp only [alignSimpleDeletion, hH, hT]
      trivial
    | some tailRef =>
      rw [alignSimpleDeletion_eq a buf _ _ _ _ _ _ _ hH hT,
        alignSimpleDeletion_eq a buf1 _ _ _ _ _ _ _ hH hT]
      by_cases c1 : (last : Int) - t.beginClippedLength + t.position ≤ tailRef.length
      swap
      · simp only [c1, not_false_eq_true, if_true]
        trivial
      by_cases c2 : (t.beginClippedLength + t.observedLength) % 4294967296 < first
      · simp only [c1, c2, not_true_eq_false, if_false, if_true]
        exact sameAttempt_false _ _ _ _
      by_cases c3 : h.getUnclippedPosition ≥ 0 ∨ (first : Int) ≥ -h.getUnclippedPosition
      swap
      · simp only [c1, c2, c3, not_true_eq_false, not_false_eq_true, if_false, if_true]
        trivial
      by_cases c4 : t.getUnclippedPosition ≥ 0 ∨ (first : Int) ≥ -t.getUnclippedPosition
      swap
      · simp only [c1, c2, c3, c4, not_true_eq_false, not_false_eq_true, if_false, if_true]
        trivial
      simp only [c1, c2, c3, c4, not_true_eq_false, if_false]
      cases e1 : countMismatches h.getStrandSequence first headRef
          (first + h.getUnclippedPosition) headRef.length
          ((t.beginClippedLength + t.observedLength) % 4294967296 - first) with
      | none => trivial
      | some tailMismatches =>
        simp only []
        by_cases c5 : tailMismatches = 0
        · simp only [c5, if_true]
          exact sameAttempt_false _ _ _ _
        simp only [c5, if_false]
        cases e2 : deletionBestLocation a.outside h first t last headRef tailRef with
        | none => trivial
        | some best =>
          simp only []
          split_ifs
          · exact mergeDeletionAlignments_same a hp _ _ _ _ _ _ _ _
          · trivial

theorem alignSimpleInsertion_no_merge (a : AlignerBase) (h : FragmentMetadata) (hs : Nat)
    (t : FragmentMetadata) (ts : Nat) (cl : ContigList)
    (hb : insertionBestLocation a.outside h hs t ts cl = none) :
    (∀ (buf : Cigar), alignSimpleInsertion a buf h hs t ts cl = none) ∨
      (∀ (buf : Cigar), alignSimpleInsertion a buf h hs t ts cl = some (false, buf, t)) := by
  simp only [insertionBestLocation] at hb
  split at hb
  · rename_i hn
    exact Or.inl (fun buf => by simp only [alignSimpleInsertion, hn])
  rename_i n hn
  split at hb
  · rename_i hfit
    exact Or.inr (fun buf => by simp only [alignSimpleInsertion, hn, hfit, if_true])
  rename_i hfit
  split at hb
  · rename_i hcontig
    exact Or.inl (fun buf => by simp only [alignSimpleInsertion, hn, hfit, if_false, hcontig])
  rename_i contig hcontig
  split at hb
  · rename_i htl
    exact Or.inr (fun buf => by
      simp only [alignSimpleInsertion, hn, hfit, if_false, hcontig, htl, if_true])
  rename_i htl
  split at hb
  · rename_i hcm
    exact Or.inl (fun buf => by
      simp only [alignSimpleInsertion, hn, hfit, if_false, hcontig, htl, hcm])
  rename_i tmm hcm
  split at hb
  · rename_i hscan
    exact Or.inl (fun buf => by
      simp only [alignSimpleInsertion, hn, hfit, if_false, hcontig, htl, hcm, hscan])
  · cases hb

theorem alignSimpleInsertion_same (a : AlignerBase) (hp : PrefixIndependent a)
    (buf buf1 : Cigar) (h : FragmentMetadata) (hs : Nat) (t : FragmentMetadata) (ts : Nat)
    (cl : ContigList) :
    SameAttempt (alignSimpleInsertion a buf h hs t ts cl)
      (alignSimpleInsertion a buf1 h hs t ts cl) := by
  cases hb : insertionBestLocation a.outside h hs t ts cl with
  | none =>
    rcases alignSimpleInsertion_no_merge a h hs t ts cl hb with hn | hf
    · rw [hn, hn]
      trivial
    · rw [hf, hf]
      exact sameAttempt_false _ _ _ _
  | some r =>
    obtain ⟨n, best⟩ := r
    rw [alignSimpleInsertion_merge a buf _ _ _ _ _ _ _ hb,
      alignSimpleInsertion_merge a buf1 _ _ _ _ _ _ _ hb]
    exact mergeInsertionAlignments_same a hp _ _ _ _ _ _ _ _

theorem alignTranslocation_same (a : AlignerBase) (hp : PrefixIndependent a)
    (buf buf1 : Cigar) (cl : ContigList) (head tail : FragmentMetadata) :
    SameAttempt (alignTranslocation a buf cl head tail)
      (alignTranslocation a buf1 cl head tail) :=
  alignSimpleDeletion_same a hp _ _ _ _ _ _ _

theorem alignIndel_same (a : AlignerBase) (hp : PrefixIndependent a)
    (buf buf1 : Cigar) (cl : ContigList) (regularIndelsOnly : Bool)
    (head tail : FragmentMetadata) :
    SameAttempt (alignIndel a buf cl regularIndelsOnly head tail)
      (alignIndel a buf1 cl regularIndelsOnly head tail) := by
  simp only [alignIndel]
  split_ifs
  · exact sameAttempt_false _ _ _ _
  · exact sameAttempt_false _ _ _ _
  · exact True.intro
  · exact alignSimpleDeletion_same a hp _ _ _ _ _ _ _
  · exact alignSimpleDeletion_same a hp _ _ _ _ _ _ _
  rotate_left
  · exact alignSimpleDeletion_same a hp _ _ _ _ _ _ _
  · exact True.intro
  · exact sameAttempt_false _ _ _ _
  · exact sameAttempt_false _ _ _ _
  have hi := alignSimpleInsertion_same a hp buf buf1 head head.firstAnchor_.first tail
    tail.lastAnchor_.first cl
  cases e1 : alignSimpleInsertion a buf head head.firstAnchor_.first tail
      tail.lastAnchor_.first cl with
  | none =>
    cases e2 : alignSimpleInsertion a buf1 head head.firstAnchor_.first tail
        tail.lastAnchor_.first cl with
    | none => trivial
    | some r2 =>
      rw [e1, e2] at hi
      exact hi.elim
  | some r1 =>
    cases e2 : alignSimpleInsertion a buf1 head head.firstAnchor_.first tail
        tail.lastAnchor_.first cl with
    | none =>
      rw [e1, e2] at hi
      exact hi.elim
    | some r2 =>
      rw [e1, e2] at hi
      obtain ⟨w1, c1, f1⟩ := r1
      obtain ⟨w2, c2, f2⟩ := r2
      obtain ⟨hw, hc⟩ := hi
      simp only at hw hc
      subst hw
      cases w1
      · simp only []
        exact sameAttempt_false _ _ _ _
      · simp only []
        exact ⟨rfl, fun _ => hc rfl⟩

theorem sampleIsBetterGapped_swap (t1 t2 u1 u2 : FragmentMetadata) (h1 : SameCounts t1 u1)
    (h2 : SameCounts t2 u2) :
    (if sampleIsBetterGapped t1 t2 then t1 else t2).mismatchCount =
        (if sampleIsBetterGapped u2 u1 then u2 else u1).mismatchCount ∧
      (if sampleIsBetterGapped t1 t2 then t1 else t2).gapCount =
        (if sampleIsBetterGapped u2 u1 then u2 else u1).gapCount := by
  obtain ⟨m1, g1, s1⟩ := h1
  obtain ⟨m2, g2, s2⟩ := h2
  simp only [sampleIsBetterGapped, Bool.or_eq_true, Bool.and_eq_true, decide_eq_true_eq,
    beq_iff_eq, gt_iff_lt]
  split_ifs <;> constructor <;> omega

theorem pickBestSplit_tail_same (fl : FragmentMetadataList) (c c1 : Bool → Cigar)
    (best best1 : FragmentMetadata)
    (hm : best.mismatchCount = best1.mismatchCount) (hg : best.gapCount = best1.gapCount) :
    SameResolution fl
      ((if ¬ (fl.capacity > fl.size) then none
        else if best.getGapCount = 0 then some (false, fl)
        else some (true, fl.push_back best)).map (fun r => (r.1, c r.1, r.2)))
      ((if ¬ (fl.capacity > fl.size) then none
        else if best1.getGapCount = 0 then some (false, fl)
        else some (true, fl.push_back best1)).map (fun r => (r.1, c1 r.1, r.2))) := by
  simp only [FragmentMetadata.getGapCount, ← hg]
  by_cases hc : fl.capacity > fl.size
  · by_cases hz : best.gapCount = 0
    · simp only [hc, not_true_eq_false, if_false, hz, if_true, Option.map_some']
      exact ⟨rfl, fun h => Bool.noConfusion h⟩
    · simp only [hc, not_true_eq_false, if_false, hz, Option.map_some']
      exact ⟨rfl, fun _ => ⟨best, best1, rfl, rfl, hm⟩⟩
  · simp only [hc, not_false_eq_true, if_true, Option.map_none']
    exact True.intro

theorem pickBestSplit_swap (a : AlignerBase)
    (hbetter : ∀ x y, a.isBetterGapped x y = sampleIsBetterGapped x y)
    (w1 w2 : Bool) (t1 t2 u1 u2 : FragmentMetadata) (fl : FragmentMetadataList)
    (c c1 : Bool → Cigar)
    (h1 : w1 = true → SameCounts t1 u1) (h2 : w2 = true → SameCounts t2 u2) :
    SameResolution fl
      ((pickBestSplit a w1 t1 w2 t2 fl).map (fun r => (r.1, c r.1, r.2)))
      ((pickBestSplit a w2 u2 w1 u1 fl).map (fun r => (r.1, c1 r.1, r.2))) := by
  cases w1 <;> cases w2
  · simp only [pickBestSplit, Bool.or_self, Bool.false_eq_true, if_false, Option.map_some']
    exact ⟨rfl, fun h => Bool.noConfusion h⟩
  · obtain ⟨hm, hg, _⟩ := h2 rfl
    simp only [pickBestSplit, Bool.or_true, Bool.true_or, Bool.false_eq_true, if_false, if_true]
    exact pickBestSplit_tail_same fl c c1 t2 u2 hm hg
  · obtain ⟨hm, hg, _⟩ := h1 rfl
    simp only [pickBestSplit, Bool.or_true, Bool.true_or, Bool.or_false, Bool.false_eq_true,
      if_false, if_true]
    exact pickBestSplit_tail_same fl c c1 t1 u1 hm hg
  · obtain ⟨hm, hg⟩ := sampleIsBetterGapped_swap t1 t2 u1 u2 (h1 rfl) (h2 rfl)
    simp only [pickBestSplit, Bool.or_self, if_true, hbetter]
    exact pickBestSplit_tail_same fl c c1 _ _ hm hg

theorem pick_match_eq_map (p : Option (Bool × FragmentMetadataList)) (buf c2 : Cigar) :
    (match p with
      | none => none
      | some (ret, fl1) => some (ret, if ret = false then buf else c2, fl1)) =
      p.map (fun r => (r.1, (fun ret : Bool => if ret = false then buf else c2) r.1, r.2)) := by
  cases p with
  | none => rfl
  | some r => rfl

/-- Two attempts in both orders and the choice between them, as `resolveConflict` makes them
for two alignments of one strand, end alike when head and tail are swapped. -/
theorem both_orders_same (a : AlignerBase)
    (hbetter : ∀ x y, a.isBetterGapped x y = sampleIsBetterGapped x y)
    (att : Cigar → FragmentMetadata → FragmentMetadata →
      Option (Bool × Cigar × FragmentMetadata))
    (hatt : ∀ buf buf1 h t, SameAttempt (att buf h t) (att buf1 h t))
    (buf : Cigar) (fl : FragmentMetadataList) (x y : FragmentMetadata) :
    SameResolution fl
      (match att buf x y with
        | none => none
        | some (tmp1Worked, cigarBuffer1, tmp1) =>
          match att cigarBuffer1 y x with
          | none => none
          | some (tmp2Worked, cigarBuffer2, tmp2) =>
            match pickBestSplit a tmp1Worked tmp1 tmp2Worked tmp2 fl with
            | none => none
            | some (ret, fl1) => some (ret, if ret = false then buf else cigarBuffer2, fl1))
      (match att buf y x with
        | none => none
        | some (tmp1Worked, cigarBuffer1, tmp1) =>
          match att cigarBuffer1 x y with
          | none => none
          | some (tmp2Worked, cigarBuffer2, tmp2) =>
            match pickBestSplit a tmp1Worked tmp1 tmp2Worked tmp2 fl with
            | none => none
            | some (ret, fl1) =>
              some (ret, if ret = false then buf else cigarBuffer2, fl1)) := by
  cases e1 : att buf x y with
  | none =>
    simp only []
    cases e2 : att buf y x with
    | none => exact True.intro
    | some r2 =>
      obtain ⟨w2, c2, t2⟩ := r2
      simp only []
      have h3 := hatt buf c2 x y
      rw [e1] at h3
      cases e3 : att c2 x y with
      | none => exact True.intro
      | some r3 =>
        rw [e3] at h3
        exact h3.elim
  | some r1 =>
    obtain ⟨w1, c1, t1⟩ := r1
    simp only []
    have h2 := hatt c1 buf y x
    cases e2 : att c1 y x with
    | none =>
      simp only []
      rw [e2] at h2
      cases e4 : att buf y x with
      | none => exact True.intro
      | some r4 =>
        rw [e4] at h2
        exact h2.elim
    | some r2 =>
      obtain ⟨w2, c2, t2⟩ := r2
      simp only []
      rw [e2] at h2
      cases e4 : att buf y x with
      | none =>
        rw [e4] at h2
        exact h2.elim
      | some r4 =>
        obtain ⟨w4, c4, t4⟩ := r4
        simp only []
        rw [e4] at h2
        obtain ⟨hw2, hc2⟩ := h2
        simp only at hw2 hc2
        subst hw2
        have h5 := hatt buf c4 x y
        rw [e1] at h5
        cases e5 : att c4 x y with
        | none =>
          rw [e5] at h5
          exact h5.elim
        | some r5 =>
          obtain ⟨w5, c5, t5⟩ := r5
          simp only []
          rw [e5] at h5
          obtain ⟨hw1, hc1⟩ := h5
          simp only at hw1 hc1
          subst hw1
          rw [pick_match_eq_map, pick_match_eq_map]
          exact pickBestSplit_swap a hbetter w1 w2 t1 t2 t5 t4 fl
            (fun ret => if ret = false then buf else c2)
            (fun ret => if ret = false then buf else c5) hc1 hc2

/-- C25 (as amended). For every pair of alignments `(x, y)` on the same strand and identical
remaining inputs, with an updater whose outcome does not depend on what the CIGAR buffer
holds before the slice it is given and with `isBetterGapped` the ordering of the spec (fewest
mismatches, then lower gap count, then higher score): `resolveConflict(head = x, tail = y)`
and `resolveConflict(head = y, tail = x)` either both abort or both return, with the same
boolean, and when that boolean is `true` each has appended one alignment and the two appended
alignments have the same mismatch count. -/
theorem resolveConflict_same_strand_swap (a : AlignerBase) (contigList : ContigList)
    (regularIndelsOnly : Bool) (cigarBuffer : Cigar) (fragmentList : FragmentMetadataList)
    (x y : FragmentMetadata)
    (hstrand : x.reverse = y.reverse)
    (hupdater : PrefixIndependent a)
    (hbetter : ∀ f g, a.isBetterGapped f g = sampleIsBetterGapped f g) :
    SameResolution fragmentList
      (resolveConflict a contigList regularIndelsOnly cigarBuffer fragmentList x y)
      (resolveConflict a contigList regularIndelsOnly cigarBuffer fragmentList y x) := by
  by_cases hanchor : x.firstAnchor_.second ≤ y.lastAnchor_.first ∨
      y.firstAnchor_.second ≤ x.lastAnchor_.first
  · by_cases hcontig : x.contigId = y.contigId
    · rw [resolveConflict_same_contig a contigList regularIndelsOnly cigarBuffer fragmentList
          x y hstrand hanchor hcontig,
        resolveConflict_same_contig a contigList regularIndelsOnly cigarBuffer fragmentList
          y x hstrand.symm hanchor.symm hcontig.symm]
      exact both_orders_same a hbetter
        (fun buf h t => alignIndel a buf contigList regularIndelsOnly h t)
        (fun buf buf1 h t => alignIndel_same a hupdater buf buf1 contigList regularIndelsOnly
          h t) cigarBuffer fragmentList x y
    · cases regularIndelsOnly with
      | false =>
        rw [resolveConflict_other_contig a contigList cigarBuffer fragmentList x y hstrand
            hanchor hcontig,
          resolveConflict_other_contig a contigList cigarBuffer fragmentList y x hstrand.symm
            hanchor.symm (Ne.symm hcontig)]
        exact both_orders_same a hbetter
          (fun buf h t => alignTranslocation a buf contigList h t)
          (fun buf buf1 h t => alignTranslocation_same a hupdater buf buf1 contigList h t)
          cigarBuffer fragmentList x y
      | true =>
        have hcontig1 : ¬ y.contigId = x.contigId := Ne.symm hcontig
        simp only [resolveConflict, hstrand, if_true, hanchor, hanchor.symm, hcontig, hcontig1,
          if_false, Bool.true_eq_false]
        exact ⟨rfl, fun h => Bool.noConfusion h⟩
  · have hanchor1 : ¬ (y.firstAnchor_.second ≤ x.lastAnchor_.first ∨
        x.firstAnchor_.second ≤ y.lastAnchor_.first) := fun h => hanchor h.symm
    simp only [resolveConflict, hstrand, if_true, hanchor, hanchor1, if_false]
    exact ⟨rfl, fun h => Bool.noConfusion h⟩

/-- C25 (witness). Scenario 1 of the spec in both orders: either call appends the alignment
`4M4D8M`, which has no mismatch. -/
theorem resolveConflict_same_strand_swap_witness :
    deletionHead.reverse = deletionTail.reverse ∧
    (resolveConflict sampleAligner deletionReference true []
        (FragmentMetadataList.mk [deletionHead, deletionTail] 3) deletionHead
        deletionTail).map (fun r => (r.1, r.2.2.items.map FragmentMetadata.getMismatchCount)) =
      some (true, [8, 4, 0]) ∧
    (resolveConflict sampleAligner deletionReference true []
        (FragmentMetadataList.mk [deletionHead, deletionTail] 3) deletionTail
        deletionHead).map (fun r => (r.1, r.2.2.items.map FragmentMetadata.getMismatchCount)) =
      some (true, [8, 4, 0]) ∧
    SameResolution (FragmentMetadataList.mk [deletionHead, deletionTail] 3)
      (resolveConflict sampleAligner deletionReference true []
        (FragmentMetadataList.mk [deletionHead, deletionTail] 3) deletionHead deletionTail)
      (resolveConflict sampleAligner deletionReference true []
        (FragmentMetadataList.mk [deletionHead, deletionTail] 3) deletionTail deletionHead) :=
  (fun hstrand =>
    ⟨hstrand, by decide, by decide,
      resolveConflict_same_strand_swap sampleAligner deletionReference true []
        (FragmentMetadataList.mk [deletionHead, deletionTail] 3) deletionHead deletionTail
        hstrand sample_prefixIndependent (fun _ _ => rfl)⟩)
    (by decide)

/-- C25 (counterexample). The forward candidate `mirrorForward` (one mismatch, at the first
base) and the reverse candidate `mirrorReverse` (seven mismatches) of one read overlap by more
than the read length.  With `mirrorForward` as head the left-anchored engine finds no
mismatch of the head past its anchor and the right-anchored merge is left with no head base
to map, so `resolveConflict` returns `false`, whatever the collaborators are; with
`mirrorReverse` as head both engines make an alignment and `resolveConflict` returns `true`
and appends one. -/
theorem resolveConflict_swap_changes_result :
    mirrorForward.reverse ≠ mirrorReverse.reverse ∧
    (∀ a : AlignerBase,
      resolveConflict a [mirrorContig] false []
          (FragmentMetadataList.mk [mirrorForward, mirrorReverse] 4) mirrorForward
          mirrorReverse =
        some (false, [], FragmentMetadataList.mk [mirrorForward, mirrorReverse] 4)) ∧
    (resolveConflict sampleAligner [mirrorContig] false []
        (FragmentMetadataList.mk [mirrorForward, mirrorReverse] 4) mirrorReverse
        mirrorForward).map (fun r => (r.1, r.2.2.items.length)) = some (true, 3) ∧
    ¬ SameResolution (FragmentMetadataList.mk [mirrorForward, mirrorReverse] 4)
      (resolveConflict sampleAligner [mirrorContig] false []
        (FragmentMetadataList.mk [mirrorForward, mirrorReverse] 4) mirrorForward
        mirrorReverse)
      (resolveConflict sampleAligner [mirrorContig] false []
        (FragmentMetadataList.mk [mirrorForward, mirrorReverse] 4) mirrorReverse
        mirrorForward) := by
  refine ⟨by decide, fun a => rfl, by decide, ?_⟩
  have h1 : resolveConflict sampleAligner [mirrorContig] false []
      (FragmentMetadataList.mk [mirrorForward, mirrorReverse] 4) mirrorForward mirrorReverse =
      some (false, [], FragmentMetadataList.mk [mirrorForward, mirrorReverse] 4) := rfl
  have h2 : (resolveConflict sampleAligner [mirrorContig] false []
      (FragmentMetadataList.mk [mirrorForward, mirrorReverse] 4) mirrorReverse
      mirrorForward).map (fun r => r.1) = some true := by decide
  rw [h1]
  cases e : resolveConflict sampleAligner [mirrorContig] false []
      (FragmentMetadataList.mk [mirrorForward, mirrorReverse] 4) mirrorReverse mirrorForward with
  | none =>
    rw [e] at h2
    cases h2
  | some r =>
    rw [e] at h2
    simp only [Option.map_some', Option.some.injEq] at h2
    intro hs
    have := hs.1
    simp only [h2] at this
    cases this

/-! ## The two implementations of clipReference (C40) -/

/-- C40. `AlignerBase::clipReference` and the file-local `clipReference` of
`FragmentSequencingAdapterClipper.cpp`, run on one fragment position, one reference size and
one sequence range, produce the same new position, the same `sequenceBegin` and the same
`sequenceEnd` exactly when `referenceSize − position ≥ 0` and the range that the file-local
function leaves is not inverted (its end does not fall before its begin).  They differ
otherwise: for `referenceSize − position < 0` in the position, and for an inverted range in
`sequenceEnd`, which `AlignerBase::clipReference` brings back to `sequenceBegin`. -/
theorem clipReference_implementations_agree (fragmentMetadata : FragmentMetadata)
    (sequenceBegin sequenceEnd referenceSize : Int) :
    (AlignerBase.clipReference referenceSize fragmentMetadata.position sequenceBegin
        sequenceEnd =
      clipReference fragmentMetadata sequenceBegin sequenceEnd referenceSize ↔
      (referenceSize - fragmentMetadata.position ≥ 0 ∧
        (clipReference fragmentMetadata sequenceBegin sequenceEnd referenceSize).2.1 ≤
          (clipReference fragmentMetadata sequenceBegin sequenceEnd referenceSize).2.2)) ∧
    (referenceSize - fragmentMetadata.position < 0 →
      (AlignerBase.clipReference referenceSize fragmentMetadata.position sequenceBegin
          sequenceEnd).1 ≠
        (clipReference fragmentMetadata sequenceBegin sequenceEnd referenceSize).1) ∧
    (referenceSize - fragmentMetadata.position ≥ 0 →
      (AlignerBase.clipReference referenceSize fragmentMetadata.position sequenceBegin
          sequenceEnd).1 =
        (clipReference fragmentMetadata sequenceBegin sequenceEnd referenceSize).1 ∧
      (AlignerBase.clipReference referenceSize fragmentMetadata.position sequenceBegin
          sequenceEnd).2.1 =
        (clipReference fragmentMetadata sequenceBegin sequenceEnd referenceSize).2.1 ∧
      (AlignerBase.clipReference referenceSize fragmentMetadata.position sequenceBegin
          sequenceEnd).2.2 =
        max (clipReference fragmentMetadata sequenceBegin sequenceEnd referenceSize).2.2
          (clipReference fragmentMetadata sequenceBegin sequenceEnd referenceSize).2.1) := by
  refine ⟨?_, ?_, ?_⟩
  · by_cases hleft : referenceSize - fragmentMetadata.position ≥ 0
    · simp only [AlignerBase.clipReference, clipReference, hleft, if_true, true_and]
      by_cases hneg : (0 : Int) > fragmentMetadata.position
      · simp only [hneg, if_true, Prod.mk.injEq, true_and]
        rw [max_def]
        split_ifs <;> constructor <;> intro h <;> omega
      · simp only [hneg, if_false, Prod.mk.injEq, true_and]
        rw [max_def]
        split_ifs <;> constructor <;> intro h <;> omega
    · simp only [AlignerBase.clipReference, clipReference, hleft, if_false, false_and,
        iff_false]
      by_cases hneg : (0 : Int) > fragmentMetadata.position
      · simp only [hneg, if_true, Prod.mk.injEq, not_and]
        intro h
        omega
      · simp only [hneg, if_false, Prod.mk.injEq, not_and]
        intro h
        omega
  · intro hleft
    have hleft1 : ¬ (referenceSize - fragmentMetadata.position ≥ 0) := by omega
    simp only [AlignerBase.clipReference, clipReference, hleft1, if_false]
    by_cases hneg : (0 : Int) > fragmentMetadata.position
    · simp only [hneg, if_true]
      omega
    · simp only [hneg, if_false]
      omega
  · intro hleft
    simp only [AlignerBase.clipReference, clipReference, hleft, if_true]
    by_cases hneg : (0 : Int) > fragmentMetadata.position
    · simp only [hneg, if_true, and_self]
    · simp only [hneg, if_false, and_self]

/-- The two implementations on a reference of 5 bases.  A 12-base sequence at position −3:
they agree.  The same sequence at position 10, past the reference: the positions differ.
The range `[4, 12)` at position −9, which the shift of `sequenceBegin` inverts: the ends
differ. -/
theorem clipReference_implementations_examples :
    AlignerBase.clipReference 5 (-3) 0 12 = (0, 3, 8) ∧
    clipReference { deletionHead with position := -3 } 0 12 5 = (0, 3, 8) ∧
    AlignerBase.clipReference 5 10 0 12 = (4, -7, -7) ∧
    clipReference { deletionHead with position := 10 } 0 12 5 = (10, 0, -5) ∧
    AlignerBase.clipReference 5 (-9) 4 12 = (0, 13, 13) ∧
    clipReference { deletionHead with position := -9 } 4 12 5 = (0, 13, 12) := by
  decide

/-! ## The `FLIP` operation of the right-anchored merge (C38) -/

theorem rightInversion_flip_length (h : FragmentMetadata) (b : Nat) :
    u32 ((h.getReadLength : Int) - b - h.endClippedLength
      - u32 ((h.getReadLength : Int) - b - h.endClippedLength)) = 0 := by
  unfold u32
  omega

/-- C38. In `mergeRightAnchoredInversionAlignments` the `FLIP` operation is always emitted with
length 0.  For every call that gets past the `begin_mapped` test and returns, the `unsigned`
value `read_length − bestOffset − head.end_clip − begin_mapped` is zero, because
`begin_mapped` is `read_length − bestOffset − head.end_clip` as an `unsigned` value, and the
buffer holds after the operations it held before: `SOFT_CLIP bestOffset`,
`ALIGN begin_mapped`, `SOFT_CLIP head.end_clip` (left out when zero), `FLIP 0`, and then
operations none of which is a `FLIP`. -/
theorem mergeRightAnchoredInversionAlignments_flip_zero (a : AlignerBase)
    (cigarBuffer : Cigar) (head tail : FragmentMetadata) (bestOffset : Nat)
    (contigList : ContigList) (bestMismatches : Nat) (distance : Int) (ret : Bool)
    (cigarBuffer1 : Cigar) (head1 : FragmentMetadata)
    (hr : mergeRightAnchoredInversionAlignments a cigarBuffer head tail bestOffset contigList
      bestMismatches distance = some (ret, cigarBuffer1, head1))
    (hreach : u32 ((head.getReadLength : Int) - bestOffset - head.endClippedLength) ≠ 0) :
    u32 ((head.getReadLength : Int) - bestOffset - head.endClippedLength
      - u32 ((head.getReadLength : Int) - bestOffset - head.endClippedLength)) = 0 ∧
    ∃ after : List CigarOp,
      cigarBuffer1 = cigarBuffer ++
        ([CigarOp.mk bestOffset OpCode.SOFT_CLIP,
          CigarOp.mk (u32 ((head.getReadLength : Int) - bestOffset - head.endClippedLength))
            OpCode.ALIGN] ++
          (if head.endClippedLength = 0 then []
            else [CigarOp.mk head.endClippedLength OpCode.SOFT_CLIP]) ++
          [CigarOp.mk 0 OpCode.FLIP] ++ after) ∧
      ∀ op ∈ after, op.opCode ≠ OpCode.FLIP := by
  refine ⟨rightInversion_flip_length head bestOffset, ?_⟩
  rw [mergeRightAnchoredInversionAlignments_eq] at hr
  rw [if_neg hreach] at hr
  have hflip := rightInversion_flip_length head bestOffset
  split_ifs at hr with h2 h3
  · simp only [Option.some.injEq, Prod.mk.injEq] at hr
    refine ⟨(if tail.contigId = head.contigId then []
        else [CigarOp.mk tail.contigId OpCode.CONTIG]) ++
      [CigarOp.mk distance OpCode.DELETE,
       CigarOp.mk (u32 ((tail.getReadLength : Int) - bestOffset)) OpCode.HARD_CLIP], ?_, ?_⟩
    · rw [← hr.2.1]
      simp only [rightInversionHeadOps, hflip, ne_eq, ite_not, List.append_assoc,
        List.cons_append, List.nil_append, Nat.cast_zero]
    · split_ifs <;> simp
  · simp only [Option.some.injEq, Prod.mk.injEq] at hr
    refine ⟨(if tail.contigId = head.contigId then []
        else [CigarOp.mk tail.contigId OpCode.CONTIG]) ++
      [CigarOp.mk distance OpCode.DELETE,
       CigarOp.mk (u32 ((tail.getReadLength : Int) - bestOffset)) OpCode.HARD_CLIP,
       CigarOp.mk (u32 ((bestOffset : Int) - tail.endClippedLength)) OpCode.ALIGN] ++
      (if tail.endClippedLength = 0 then []
        else [CigarOp.mk tail.endClippedLength OpCode.SOFT_CLIP]), ?_, ?_⟩
    · rw [← hr.2.1]
      simp only [rightInversionHeadOps, rightInversionTailOps, hflip, ne_eq, ite_not,
        List.append_assoc, List.cons_append, List.nil_append, Nat.cast_zero]
    · split_ifs <;> simp

/-- C38 (witness). The candidates of `inversionRead` merged at offset 6 by the right-anchored
merge: `6S 6M 0F 4D 6H 6M`. -/
theorem mergeRightAnchoredInversionAlignments_flip_zero_witness :
    (mergeRightAnchoredInversionAlignments sampleAligner [] inversionHead inversionTail 6
        [inversionContig] 0 4).map (fun r => (r.1, r.2.1)) =
      some (true,
        [CigarOp.mk 6 OpCode.SOFT_CLIP, CigarOp.mk 6 OpCode.ALIGN, CigarOp.mk 0 OpCode.FLIP,
         CigarOp.mk 4 OpCode.DELETE, CigarOp.mk 6 OpCode.HARD_CLIP,
         CigarOp.mk 6 OpCode.ALIGN]) ∧
    u32 ((inversionHead.getReadLength : Int) - (6 : Nat) - inversionHead.endClippedLength)
      ≠ 0 ∧
    u32 ((inversionHead.getReadLength : Int) - (6 : Nat) - inversionHead.endClippedLength
      - u32 ((inversionHead.getReadLength : Int) - (6 : Nat)
        - inversionHead.endClippedLength)) = 0 :=
  (fun hreach =>
    ⟨by decide, hreach,
      (mergeRightAnchoredInversionAlignments_flip_zero sampleAligner [] inversionHead
        inversionTail 6 [inversionContig] 0 4 true
        [CigarOp.mk 6 OpCode.SOFT_CLIP, CigarOp.mk 6 OpCode.ALIGN, CigarOp.mk 0 OpCode.FLIP,
         CigarOp.mk 4 OpCode.DELETE, CigarOp.mk 6 OpCode.HARD_CLIP,
         CigarOp.mk 6 OpCode.ALIGN]
        ((sampleUpdateAlignment
          ((sampleResetAlignment inversionHead).setRightClipped inversionTail.rightClipped)
          [inversionContig] false 0 6
          [CigarOp.mk 6 OpCode.SOFT_CLIP, CigarOp.mk 6 OpCode.ALIGN, CigarOp.mk 0 OpCode.FLIP,
           CigarOp.mk 4 OpCode.DELETE, CigarOp.mk 6 OpCode.HARD_CLIP,
           CigarOp.mk 6 OpCode.ALIGN] 0).2)
        (by decide) hreach).1⟩)
    (by decide)

/-! ## The choice of the engine in alignIndel (C39) -/

/-- C39 (as amended). In `alignIndel`, once the anchor tests and the gap-length test have
passed (and the distance is non-zero, as the function asserts): the test
`expectedSeedDistance < actualSeedDistance` is equivalent to
`tail.unclipped_position > head.unclipped_position`, and in that case the result is that of
`alignSimpleDeletion` called with `lastBreakpointOffset = tail.last_anchor.start` exactly
(the correction for an empty anchor subtracts nothing, an empty tail anchor having returned
`false` before).  When `tail.unclipped_position < head.unclipped_position` the insertion
engine is called if the tail seed is not aligned before the head seed by the length of the
head anchor or more; otherwise, with `regularIndelsOnly = true` nothing is called and `false`
is returned, and with `regularIndelsOnly = false` `alignSimpleDeletion` is called again, as
the local translocation, also with `lastBreakpointOffset = tail.last_anchor.start`. -/
theorem alignIndel_engine_choice (a : AlignerBase) (cigarBuffer : Cigar)
    (contigList : ContigList) (regularIndelsOnly : Bool) (head tail : FragmentMetadata)
    (hanchors : (tail.lastAnchor_.empty || head.firstAnchor_.empty) = false)
    (hexpected : ¬ ((tail.lastAnchor_.first : Int) - head.firstAnchor_.second < 0))
    (hdistance : tail.getUnclippedPosition - head.getUnclippedPosition ≠ 0)
    (hgap : |tail.getUnclippedPosition - head.getUnclippedPosition| <
        (a.splitGapLength_ : Int) ∨ regularIndelsOnly = false)
    (hrange : tail.lastAnchor_.first < 4294967296) :
    (((tail.lastAnchor_.first : Int) - head.firstAnchor_.second <
        tail.getUnclippedPosition + tail.lastAnchor_.first
          - (head.getUnclippedPosition + head.firstAnchor_.second)) ↔
      tail.getUnclippedPosition > head.getUnclippedPosition) ∧
    (tail.getUnclippedPosition > head.getUnclippedPosition →
      alignIndel a cigarBuffer contigList regularIndelsOnly head tail =
        alignSimpleDeletion a cigarBuffer head
          (max head.getBeginClippedLength tail.getBeginClippedLength) tail
          tail.lastAnchor_.first contigList) ∧
    (tail.getUnclippedPosition < head.getUnclippedPosition →
      (0 ≤ tail.getUnclippedPosition + tail.lastAnchor_.first
            - (head.getUnclippedPosition + head.firstAnchor_.second) ∨
        -(tail.getUnclippedPosition + tail.lastAnchor_.first
            - (head.getUnclippedPosition + head.firstAnchor_.second)) <
          (head.firstAnchor_.length : Int)) →
      alignIndel a cigarBuffer contigList regularIndelsOnly head tail =
        match alignSimpleInsertion a cigarBuffer head head.firstAnchor_.first tail
            tail.lastAnchor_.first contigList with
        | none => none
        | some (true, cigarBuffer1, tmp) => some (true, cigarBuffer1, tmp)
        | some (false, cigarBuffer1, _) => some (false, cigarBuffer1, head)) ∧
    (tail.getUnclippedPosition < head.getUnclippedPosition →
      ¬ (0 ≤ tail.getUnclippedPosition + tail.lastAnchor_.first
            - (head.getUnclippedPosition + head.firstAnchor_.second) ∨
        -(tail.getUnclippedPosition + tail.lastAnchor_.first
            - (head.getUnclippedPosition + head.firstAnchor_.second)) <
          (head.firstAnchor_.length : Int)) →
      alignIndel a cigarBuffer contigList regularIndelsOnly head tail =
        if regularIndelsOnly = false then
          alignSimpleDeletion a cigarBuffer head
            (max head.getBeginClippedLength tail.getBeginClippedLength) tail
            tail.lastAnchor_.first contigList
        else some (false, cigarBuffer, head)) := by
  have hempty : tail.lastAnchor_.empty = false := by
    cases he : tail.lastAnchor_.empty
    · rfl
    · rw [he] at hanchors
      simp at hanchors
  have hfirst : head.firstAnchor_.empty = false := by
    cases he : head.firstAnchor_.empty
    · rfl
    · rw [he] at hanchors
      simp at hanchors
  have hlast : u32 ((tail.lastAnchor_.first : Int) - 0) = tail.lastAnchor_.first := by
    unfold u32
    omega
  refine ⟨by constructor <;> intro h <;> omega, ?_, ?_, ?_⟩
  · intro hgt
    have hdel : (tail.lastAnchor_.first : Int) - head.firstAnchor_.second <
        tail.getUnclippedPosition + tail.lastAnchor_.first
          - (head.getUnclippedPosition + head.firstAnchor_.second) := by omega
    simp only [alignIndel, hempty, hfirst, Bool.or_self, hexpected, hdistance, hgap, hdel,
      hlast, if_true, if_false, Bool.false_eq_true]
  · intro hlt hins
    have hdel : ¬ ((tail.lastAnchor_.first : Int) - head.firstAnchor_.second <
        tail.getUnclippedPosition + tail.lastAnchor_.first
          - (head.getUnclippedPosition + head.firstAnchor_.second)) := by omega
    simp only [alignIndel, hempty, hfirst, Bool.or_self, hexpected, hdistance, hgap, hdel,
      hins, if_true, if_false, Bool.false_eq_true]
  · intro hlt hins
    have hdel : ¬ ((tail.lastAnchor_.first : Int) - head.firstAnchor_.second <
        tail.getUnclippedPosition + tail.lastAnchor_.first
          - (head.getUnclippedPosition + head.firstAnchor_.second)) := by omega
    have hassert : 0 > tail.getUnclippedPosition + tail.lastAnchor_.first
          - (head.getUnclippedPosition + head.firstAnchor_.second) ∧
        -(tail.getUnclippedPosition + tail.lastAnchor_.first
          - (head.getUnclippedPosition + head.firstAnchor_.second)) ≥
          (head.firstAnchor_.length : Int) := by
      constructor <;> omega
    cases regularIndelsOnly with
    | false =>
      simp only [alignIndel, hempty, hfirst, Bool.or_self, hexpected, hdistance, hdel, hins,
        hassert, or_true, if_true, if_false, Bool.false_eq_true, and_self,
        not_true_eq_false]
    | true =>
      simp only [alignIndel, hempty, hfirst, Bool.or_self, hexpected, hdistance, hdel, hins,
        if_true, if_false, Bool.false_eq_true, Bool.true_eq_false, or_false, ite_self]

/-- C39 (witness). Scenario 1 of the spec: the tail lies 4 bases after the head, the regular
deletion is chosen, with `lastBreakpointOffset = 8`, and `4M4D8M` is found. -/
theorem alignIndel_engine_choice_witness :
    (deletionTail.lastAnchor_.empty || deletionHead.firstAnchor_.empty) = false ∧
    deletionTail.getUnclippedPosition > deletionHead.getUnclippedPosition ∧
    alignIndel sampleAligner [] deletionReference true deletionHead deletionTail =
      some (true, deletionMergedCigar, deletionMerged) ∧
    alignIndel sampleAligner [] deletionReference true deletionHead deletionTail =
      alignSimpleDeletion sampleAligner [] deletionHead
        (max deletionHead.getBeginClippedLength deletionTail.getBeginClippedLength)
        deletionTail deletionTail.lastAnchor_.first deletionReference :=
  (fun hanchors hexpected hdistance hgap hrange hgt =>
    ⟨hanchors, hgt, by decide,
      (alignIndel_engine_choice sampleAligner [] deletionReference true deletionHead
        deletionTail hanchors hexpected hdistance hgap hrange).2.1 hgt⟩)
    (by decide) (by decide) (by decide) (by decide) (by decide) (by decide)

/-- C39 (counterexample). The candidates of `backJumpRead`: the tail lies 12 bases BEFORE the
head (`tail.unclipped_position = 0 < 12 = head.unclipped_position`) and its seed is aligned 12
bases before the head seed, more than the 8 bases of the head anchor.  The anchor tests pass
and `regularIndelsOnly` is `false`, so the gap-length test passes; `alignIndel` calls
`alignSimpleDeletion` (with `lastBreakpointOffset = 8`), which makes `8M -12D 4M`. -/
theorem alignIndel_deletion_engine_for_back_jump :
    (backJumpTail.lastAnchor_.empty || backJumpHead.firstAnchor_.empty) = false ∧
    ¬ ((backJumpTail.lastAnchor_.first : Int) - backJumpHead.firstAnchor_.second < 0) ∧
    backJumpTail.getUnclippedPosition < backJumpHead.getUnclippedPosition ∧
    alignIndel sampleAligner [] [backJumpContig] false backJumpHead backJumpTail =
      alignSimpleDeletion sampleAligner [] backJumpHead
        (max backJumpHead.getBeginClippedLength backJumpTail.getBeginClippedLength)
        backJumpTail backJumpTail.lastAnchor_.first [backJumpContig] ∧
    (alignIndel sampleAligner [] [backJumpContig] false backJumpHead backJumpTail).map
        (fun r => (r.1, r.2.1)) =
      some (true, [CigarOp.mk 8 OpCode.ALIGN, CigarOp.mk (-12) OpCode.DELETE,
        CigarOp.mk 4 OpCode.ALIGN]) ∧
    alignIndel sampleAligner [] [backJumpContig] true backJumpHead backJumpTail =
      some (false, [], backJumpHead) := by
  decide

/-! ## The early exit of the scans (C34) -/

theorem deletionScan_stops (outside : Outside) (s hR tR : List Char) (last fuel : Nat)
    (best cur : DeletionLocation) (hz : best.getMistmatches = 0) :
    deletionScan outside s hR tR last fuel best cur = some best := by
  cases fuel with
  | zero => rfl
  | succ n => simp only [deletionScan, hz, ne_eq, not_true_eq_false, false_and, if_false]

theorem insertionScan_stops (outside : Outside) (s c : List Char) (last fuel : Nat)
    (best cur : InsertionLocation) (ti ri : Int) (hz : best.getMistmatches = 0) :
    insertionScan outside s c last fuel best cur ti ri = some best := by
  cases fuel with
  | zero => rfl
  | succ n => simp only [insertionScan, hz, ne_eq, not_true_eq_false, false_and, if_false]

theorem leftInversionScan_stops (outside : Outside) (hs ts hR tR : List Char) (last fuel : Nat)
    (best cur : InversionLocation) (hz : best.getMistmatches = 0) :
    leftInversionScan outside hs ts hR tR last fuel best cur = some best := by
  cases fuel with
  | zero => rfl
  | succ n => simp only [leftInversionScan, hz, ne_eq, not_true_eq_false, false_and, if_false]

theorem rightInversionScan_stops (outside : Outside) (hs ts hR tR : List Char) (last fuel : Nat)
    (best cur : InversionLocation) (hz : best.getMistmatches = 0) :
    rightInversionScan outside hs ts hR tR last fuel best cur = some best := by
  cases fuel with
  | zero => rfl
  | succ n => simp only [rightInversionScan, hz, ne_eq, not_true_eq_false, false_and, if_false]

/-- C34. Early exit.  In each of the four scan loops (deletion, insertion, left-anchored and
right-anchored inversion): once the best location has `left_mm + right_mm == 0` the loop
stops, whatever the current location and however many offsets are left, and the result is
that best location; a current location with no mismatch that beats the best location is the
result of the scan, the one step `moveNext` that ends its iteration apart; in particular a
scan started at a location without mismatches returns that location, so the result offset is
the initial offset. -/
theorem scans_stop_at_zero_mismatches (outside : Outside)
    (sequence headReference tailReference : List Char)
    (tailSequence : List Char) (lastOffset fuel : Nat) :
    (∀ (best cur : DeletionLocation), best.getMistmatches = 0 →
      deletionScan outside sequence headReference tailReference lastOffset fuel best cur =
        some best) ∧
    (∀ (best cur : InsertionLocation) (tailIterator referenceIterator : Int),
      best.getMistmatches = 0 →
      insertionScan outside sequence headReference lastOffset fuel best cur tailIterator
        referenceIterator = some best) ∧
    (∀ (best cur : InversionLocation), best.getMistmatches = 0 →
      leftInversionScan outside sequence tailSequence headReference tailReference lastOffset fuel
        best cur = some best) ∧
    (∀ (best cur : InversionLocation), best.getMistmatches = 0 →
      rightInversionScan outside sequence tailSequence headReference tailReference lastOffset fuel
        best cur = some best) ∧
    (∀ (best cur next : DeletionLocation), best.getMistmatches ≠ 0 →
      cur.getMistmatches = 0 → cur.deletionOffset_ ≤ lastOffset →
      cur.rightRealignedMismatches_ ≠ minusOneU →
      cur.moveNext outside sequence headReference tailReference = some next →
      deletionScan outside sequence headReference tailReference lastOffset (fuel + 1) best cur =
        some cur) ∧
    (∀ (best cur next : InsertionLocation) (tailIterator referenceIterator : Int)
      (tailIterator1 referenceIterator1 : Int), best.getMistmatches ≠ 0 →
      cur.getMistmatches = 0 → cur.insertionOffset_ ≤ lastOffset →
      cur.moveNext outside sequence headReference tailIterator referenceIterator =
        some (next, tailIterator1, referenceIterator1) →
      insertionScan outside sequence headReference lastOffset (fuel + 1) best cur tailIterator
        referenceIterator = some cur) ∧
    (∀ (best cur next : InversionLocation), best.getMistmatches ≠ 0 →
      cur.getMistmatches = 0 → cur.breakpointOffset_ ≤ lastOffset →
      cur.moveNext outside 1 sequence tailSequence headReference tailReference = some next →
      leftInversionScan outside sequence tailSequence headReference tailReference lastOffset
        (fuel + 1) best cur = some cur) ∧
    (∀ (best cur next : InversionLocation), best.getMistmatches ≠ 0 →
      cur.getMistmatches = 0 → cur.breakpointOffset_ < lastOffset →
      best.tailReferenceIterator_ ≥ 0 →
      cur.moveNext outside (-1) sequence tailSequence headReference tailReference = some next →
      rightInversionScan outside sequence tailSequence headReference tailReference lastOffset
        (fuel + 1) best cur = some cur) := by
  refine ⟨fun best cur hz => deletionScan_stops _ _ _ _ _ _ _ _ hz,
    fun best cur ti ri hz => insertionScan_stops _ _ _ _ _ _ _ _ _ hz,
    fun best cur hz => leftInversionScan_stops _ _ _ _ _ _ _ _ _ hz,
    fun best cur hz => rightInversionScan_stops _ _ _ _ _ _ _ _ _ hz, ?_, ?_, ?_, ?_⟩
  · intro best cur next hb hc hle hr hn
    have hgt : best.getMistmatches > cur.getMistmatches := by
      rw [hc]
      exact Nat.pos_of_ne_zero hb
    simp only [deletionScan, hb, hle, hr, hn, hgt, ne_eq, not_false_eq_true, and_self,
      if_true, if_false]
    exact deletionScan_stops _ _ _ _ _ _ _ _ hc
  · intro best cur next ti ri ti1 ri1 hb hc hle hn
    have hgt : best.getMistmatches > cur.getMistmatches := by
      rw [hc]
      exact Nat.pos_of_ne_zero hb
    have hr : cur.rightRealignedMismatches_ ≠ minusOneU := by
      intro hr
      simp only [InsertionLocation.moveNext, hr, if_true] at hn
      cases hn
    simp only [insertionScan, hb, hle, hr, hn, hgt, ne_eq, not_false_eq_true, and_self,
      if_true, if_false]
    exact insertionScan_stops _ _ _ _ _ _ _ _ _ hc
  · intro best cur next hb hc hle hn
    have hgt : best.getMistmatches > cur.getMistmatches := by
      rw [hc]
      exact Nat.pos_of_ne_zero hb
    simp only [leftInversionScan, hb, hle, hn, hgt, ne_eq, not_false_eq_true, and_self,
      if_true]
    exact leftInversionScan_stops _ _ _ _ _ _ _ _ _ hc
  · intro best cur next hb hc hlt ha hn
    have hgt : best.getMistmatches > cur.getMistmatches := by
      rw [hc]
      exact Nat.pos_of_ne_zero hb
    simp only [rightInversionScan, hb, hlt, ha, hn, hgt, ne_eq, not_false_eq_true, and_self,
      if_true, not_true_eq_false, if_false]
    exact rightInversionScan_stops _ _ _ _ _ _ _ _ _ hc

/-- Witness for C34: scenario 1 of the spec.  The deletion scan whose best location is the one
at read offset 4, without mismatches, returns it although the window goes on to offset 8; and
the scan that holds the location at offset 3 (one mismatch) as best and is at offset 4 returns
the location at offset 4. -/
theorem scans_stop_at_zero_mismatches_witness :
    (DeletionLocation.mk 0 0 4 4 4 8).getMistmatches = 0 ∧
    (DeletionLocation.mk 0 1 3 3 3 7).getMistmatches ≠ 0 ∧
    (DeletionLocation.mk 0 0 4 4 4 8).moveNext sampleAligner.outside "AAAAGGGGTTTT".toList
      "AAAACCCCGGGGTTTT".toList "AAAACCCCGGGGTTTT".toList =
        some (DeletionLocation.mk 1 0 5 5 5 9) ∧
    deletionScan sampleAligner.outside "AAAAGGGGTTTT".toList "AAAACCCCGGGGTTTT".toList
        "AAAACCCCGGGGTTTT".toList
      8 5 (DeletionLocation.mk 0 0 4 4 4 8) (DeletionLocation.mk 0 0 4 4 4 8) =
        some (DeletionLocation.mk 0 0 4 4 4 8) ∧
    deletionScan sampleAligner.outside "AAAAGGGGTTTT".toList "AAAACCCCGGGGTTTT".toList
        "AAAACCCCGGGGTTTT".toList
      8 (5 + 1) (DeletionLocation.mk 0 1 3 3 3 7) (DeletionLocation.mk 0 0 4 4 4 8) =
        some (DeletionLocation.mk 0 0 4 4 4 8) :=
  (fun h1 h2 h3 =>
    ⟨h1, h2, h3,
      (scans_stop_at_zero_mismatches sampleAligner.outside "AAAAGGGGTTTT".toList
          "AAAACCCCGGGGTTTT".toList
        "AAAACCCCGGGGTTTT".toList [] 8 5).1 _ _ h1,
      (scans_stop_at_zero_mismatches sampleAligner.outside "AAAAGGGGTTTT".toList
          "AAAACCCCGGGGTTTT".toList
        "AAAACCCCGGGGTTTT".toList [] 8 5).2.2.2.2.1 _ _ _ h2 h1 (by decide) (by decide) h3⟩)
    (by decide) (by decide) (by decide)

/-! ## The deletion scan keeps the lowest offset with the fewest mismatches (C31) -/

theorem deletionBestLocation_eq_scan (outside : Outside) (h : FragmentMetadata) (first : Nat)
    (t : FragmentMetadata) (last : Nat) (hR tR : Contig) :
    deletionBestLocation outside h first t last hR tR =
      match deletionStartLocation h first t hR tR with
      | none => none
      | some start =>
        if start.rightRealignedMismatches_ = minusOneU then none
        else deletionScan outside h.getStrandSequence hR tR last (last + 1 - first) start start
            := by
  simp only [deletionBestLocation, deletionStartLocation]
  split <;> rfl

theorem deletionStartLocation_offset (h : FragmentMetadata) (first : Nat)
    (t : FragmentMetadata) (hR tR : Contig) (start : DeletionLocation)
    (hs : deletionStartLocation h first t hR tR = some start) :
    start.deletionOffset_ = first := by
  simp only [deletionStartLocation] at hs
  split at hs
  · cases hs
    rfl
  · cases hs

theorem deletionLocationAfter_offset (outside : Outside) (s hR tR : List Char) :
    ∀ (k : Nat) (start loc : DeletionLocation),
      deletionLocationAfter outside s hR tR k start = some loc →
      loc.deletionOffset_ = start.deletionOffset_ + k := by
  intro k
  induction k with
  | zero =>
    intro start loc h
    simp only [deletionLocationAfter, Option.some.injEq] at h
    subst h
    rfl
  | succ n ih =>
    intro start loc h
    simp only [deletionLocationAfter] at h
    split at h
    · cases h
    · rename_i next hnext
      rw [ih next loc h, deletionLocation_moveNext_offset _ _ _ _ _ _ hnext]
      omega

theorem deletionScan_selects (outside : Outside) (s hR tR : List Char) (last : Nat) :
    ∀ (fuel : Nat) (best cur res : DeletionLocation),
      deletionScan outside s hR tR last fuel best cur = some res →
      last + 1 - cur.deletionOffset_ ≤ fuel →
      (res = best ∧
        ∀ j loc, cur.deletionOffset_ + j ≤ last →
          deletionLocationAfter outside s hR tR j cur = some loc →
          best.getMistmatches ≤ loc.getMistmatches) ∨
      (∃ j, cur.deletionOffset_ + j ≤ last ∧
        deletionLocationAfter outside s hR tR j cur = some res ∧
        res.getMistmatches < best.getMistmatches ∧
        (∀ i, i < j → ∃ loc, deletionLocationAfter outside s hR tR i cur = some loc ∧
          res.getMistmatches < loc.getMistmatches) ∧
        (∀ i loc, cur.deletionOffset_ + i ≤ last →
          deletionLocationAfter outside s hR tR i cur = some loc →
          res.getMistmatches ≤ loc.getMistmatches)) := by
  intro fuel
  induction fuel with
  | zero =>
    intro best cur res h hfuel
    simp only [deletionScan, Option.some.injEq] at h
    refine Or.inl ⟨h.symm, fun j loc hj _ => ?_⟩
    omega
  | succ n ih =>
    intro best cur res h hfuel
    by_cases hc : best.getMistmatches ≠ 0 ∧ cur.deletionOffset_ ≤ last
    · simp only [deletionScan, hc, and_self, if_true, ne_eq, not_false_eq_true] at h
      by_cases hassert : cur.rightRealignedMismatches_ = minusOneU
      · rw [if_pos hassert] at h
        cases h
      rw [if_neg hassert] at h
      split at h
      · cases h
      rename_i next hnext
      have hoff := deletionLocation_moveNext_offset _ _ _ _ _ _ hnext
      have hstep : ∀ i, deletionLocationAfter outside s hR tR (i + 1) cur =
          deletionLocationAfter outside s hR tR i next := by
        intro i
        simp only [deletionLocationAfter, hnext]
      by_cases hgt : best.getMistmatches > cur.getMistmatches
      · rw [if_pos hgt] at h
        rcases ih cur next res h (by omega) with ⟨hres, hmin⟩ | ⟨j, hj, hat, hlt, hlow, hmin⟩
        · subst hres
          refine Or.inr ⟨0, by omega, rfl, hgt, fun i hi => absurd hi (Nat.not_lt_zero i),
            fun i loc hi hloc => ?_⟩
          cases i with
          | zero =>
            simp only [deletionLocationAfter, Option.some.injEq] at hloc
            subst hloc
            exact le_refl _
          | succ i =>
            rw [hstep] at hloc
            exact hmin i loc (by omega) hloc
        · refine Or.inr ⟨j + 1, by omega, by rw [hstep]; exact hat, by omega,
            fun i hi => ?_, fun i loc hi hloc => ?_⟩
          · cases i with
            | zero => exact ⟨cur, rfl, hlt⟩
            | succ i =>
              obtain ⟨loc, hloc, hl⟩ := hlow i (by omega)
              exact ⟨loc, by rw [hstep]; exact hloc, hl⟩
          · cases i with
            | zero =>
              simp only [deletionLocationAfter, Option.some.injEq] at hloc
              subst hloc
              exact le_of_lt hlt
            | succ i =>
              rw [hstep] at hloc
              exact hmin i loc (by omega) hloc
      · rw [if_neg hgt] at h
        rcases ih best next res h (by omega) with ⟨hres, hmin⟩ | ⟨j, hj, hat, hlt, hlow, hmin⟩
        · refine Or.inl ⟨hres, fun i loc hi hloc => ?_⟩
          cases i with
          | zero =>
            simp only [deletionLocationAfter, Option.some.injEq] at hloc
            subst hloc
            omega
          | succ i =>
            rw [hstep] at hloc
            exact hmin i loc (by omega) hloc
        · refine Or.inr ⟨j + 1, by omega, by rw [hstep]; exact hat, hlt,
            fun i hi => ?_, fun i loc hi hloc => ?_⟩
          · cases i with
            | zero => exact ⟨cur, rfl, by omega⟩
            | succ i =>
              obtain ⟨loc, hloc, hl⟩ := hlow i (by omega)
              exact ⟨loc, by rw [hstep]; exact hloc, hl⟩
          · cases i with
            | zero =>
              simp only [deletionLocationAfter, Option.some.injEq] at hloc
              subst hloc
              omega
            | succ i =>
              rw [hstep] at hloc
              exact hmin i loc (by omega) hloc
    · simp only [deletionScan, hc, if_false, Option.some.injEq] at h
      refine Or.inl ⟨h.symm, fun j loc hj hloc => ?_⟩
      by_cases hz : best.getMistmatches = 0
      · omega
      · exact absurd ⟨hz, by omega⟩ hc

theorem deletionBestLocation_minimal (outside : Outside) (headAlignment : FragmentMetadata)
    (firstBreakpointOffset : Nat) (tailAlignment : FragmentMetadata)
    (lastBreakpointOffset : Nat) (headReference tailReference : Contig)
    (best : DeletionLocation)
    (hb : deletionBestLocation outside headAlignment firstBreakpointOffset tailAlignment
      lastBreakpointOffset headReference tailReference = some best) :
    ∃ start k,
      deletionStartLocation headAlignment firstBreakpointOffset tailAlignment headReference
        tailReference = some start ∧
      deletionLocationAfter outside headAlignment.getStrandSequence headReference tailReference k
        start = some best ∧
      best.deletionOffset_ = firstBreakpointOffset + k ∧
      (firstBreakpointOffset ≤ lastBreakpointOffset →
        best.deletionOffset_ ≤ lastBreakpointOffset) ∧
      (∀ i, i < k →
        ∃ loc, deletionLocationAfter outside headAlignment.getStrandSequence headReference
            tailReference i start = some loc ∧
          best.getMistmatches < loc.getMistmatches) ∧
      (∀ i loc, firstBreakpointOffset + i ≤ lastBreakpointOffset →
        deletionLocationAfter outside headAlignment.getStrandSequence headReference tailReference i
          start = some loc →
        best.getMistmatches ≤ loc.getMistmatches) := by
  rw [deletionBestLocation_eq_scan] at hb
  split at hb
  · cases hb
  rename_i start hstart
  have hoff := deletionStartLocation_offset _ _ _ _ _ _ hstart
  split_ifs at hb with hassert
  rcases deletionScan_selects _ _ _ _ _ _ _ _ _ hb (by rw [hoff]) with
    ⟨hres, hmin⟩ | ⟨j, hj, hat, hlt, hlow, hmin⟩
  · subst hres
    refine ⟨best, 0, hstart, rfl, by rw [hoff]; rfl, fun h => by rw [hoff]; exact h,
      fun i hi => absurd hi (Nat.not_lt_zero i), fun i loc hi hloc => ?_⟩
    exact hmin i loc (by rw [hoff]; exact hi) hloc
  · have hbo := deletionLocationAfter_offset _ _ _ _ _ _ _ hat
    refine ⟨start, j, hstart, hat, by rw [hbo, hoff], fun _ => by rw [hbo]; exact hj, hlow,
      fun i loc hi hloc => ?_⟩
    exact hmin i loc (by rw [hoff]; exact hi) hloc

theorem deletionLocationAfter_returns (outside : Outside) (s hR tR : List Char) :
    ∀ (k : Nat) (start : DeletionLocation),
      ∃ loc, deletionLocationAfter outside s hR tR k start = some loc := by
  intro k
  induction k with
  | zero => exact fun start => ⟨start, rfl⟩
  | succ n ih =>
    intro start
    simp only [deletionLocationAfter, DeletionLocation.moveNext]
    exact ih _

/-- C31. The deletion scan of `alignSimpleDeletion` returns a location that `k` steps of
`moveNext` make of the start location at `firstBreakpointOffset`, so its offset is
`firstBreakpointOffset + k`; the offset lies in
`[firstBreakpointOffset, lastBreakpointOffset]` whenever that window is not empty (when it is
empty the loop body never runs and the start location is returned).  Every offset of the
window has a location (the steps never abort, a read past a contig included), the sum
`left_mm + right_mm` of the returned location is not above the sum at any offset of the
window, and it is strictly below the sum at every lower offset from `firstBreakpointOffset`
on: among the offsets with the minimal sum the scan returns the lowest. -/
theorem deletionBestLocation_minimises (outside : Outside) (headAlignment : FragmentMetadata)
    (firstBreakpointOffset : Nat) (tailAlignment : FragmentMetadata)
    (lastBreakpointOffset : Nat) (headReference tailReference : Contig)
    (best : DeletionLocation)
    (hb : deletionBestLocation outside headAlignment firstBreakpointOffset tailAlignment
      lastBreakpointOffset headReference tailReference = some best) :
    ∃ start k,
      deletionStartLocation headAlignment firstBreakpointOffset tailAlignment headReference
        tailReference = some start ∧
      deletionLocationAfter outside headAlignment.getStrandSequence headReference
        tailReference k start = some best ∧
      best.deletionOffset_ = firstBreakpointOffset + k ∧
      (firstBreakpointOffset ≤ lastBreakpointOffset →
        best.deletionOffset_ ≤ lastBreakpointOffset) ∧
      (∀ i, i < k →
        ∃ loc, deletionLocationAfter outside headAlignment.getStrandSequence headReference
            tailReference i start = some loc ∧
          best.getMistmatches < loc.getMistmatches) ∧
      (∀ i, firstBreakpointOffset + i ≤ lastBreakpointOffset →
        ∃ loc, deletionLocationAfter outside headAlignment.getStrandSequence headReference
            tailReference i start = some loc ∧
          best.getMistmatches ≤ loc.getMistmatches) := by
  obtain ⟨start, k, h1, h2, h3, h4, h5, h6⟩ :=
    deletionBestLocation_minimal outside headAlignment firstBreakpointOffset tailAlignment
      lastBreakpointOffset headReference tailReference best hb
  refine ⟨start, k, h1, h2, h3, h4, h5, fun i hi => ?_⟩
  obtain ⟨loc, hloc⟩ := deletionLocationAfter_returns outside
    headAlignment.getStrandSequence headReference tailReference i start
  exact ⟨loc, hloc, h6 i loc hi hloc⟩

/-- C31 (witness). Scenario 1 of the spec scanned over the window `[0, 8]`: the sums at the
offsets 0 to 4 are 4, 3, 2, 1, 0, and the scan returns the location at offset 4.  The second
part is the pair `contigEndHead`, `contigEndTail` over the window `[4, 6]`: the sums at the
offsets 4, 5, 6 are 1, 2, 3, the step after offset 6 reads one base past contig 0, and the
scan returns the location at offset 4. -/
theorem deletionBestLocation_minimises_witness :
    (deletionBestLocation sampleAligner.outside deletionHead 0 deletionTail 8
        "AAAACCCCGGGGTTTT".toList "AAAACCCCGGGGTTTT".toList =
      some (DeletionLocation.mk 0 0 4 4 4 8) ∧
    (∃ start k,
      deletionStartLocation deletionHead 0 deletionTail "AAAACCCCGGGGTTTT".toList
        "AAAACCCCGGGGTTTT".toList = some start ∧
      deletionLocationAfter sampleAligner.outside deletionHead.getStrandSequence
        "AAAACCCCGGGGTTTT".toList "AAAACCCCGGGGTTTT".toList k start =
          some (DeletionLocation.mk 0 0 4 4 4 8) ∧
      (DeletionLocation.mk 0 0 4 4 4 8).deletionOffset_ = 0 + k ∧
      ((0 : Nat) ≤ 8 → (DeletionLocation.mk 0 0 4 4 4 8).deletionOffset_ ≤ 8) ∧
      (∀ i, i < k →
        ∃ loc, deletionLocationAfter sampleAligner.outside deletionHead.getStrandSequence
            "AAAACCCCGGGGTTTT".toList "AAAACCCCGGGGTTTT".toList i start = some loc ∧
          (DeletionLocation.mk 0 0 4 4 4 8).getMistmatches < loc.getMistmatches) ∧
      (∀ i, 0 + i ≤ 8 →
        ∃ loc, deletionLocationAfter sampleAligner.outside deletionHead.getStrandSequence
            "AAAACCCCGGGGTTTT".toList "AAAACCCCGGGGTTTT".toList i start = some loc ∧
          (DeletionLocation.mk 0 0 4 4 4 8).getMistmatches ≤ loc.getMistmatches))) ∧
    (deletionBestLocation sampleAligner.outside contigEndHead 4 contigEndTail 6
        "AAAAGG".toList "TTTTTTTA".toList = some (DeletionLocation.mk 0 1 4 4 4 4) ∧
    (∃ start k,
      deletionStartLocation contigEndHead 4 contigEndTail "AAAAGG".toList
        "TTTTTTTA".toList = some start ∧
      deletionLocationAfter sampleAligner.outside contigEndHead.getStrandSequence
        "AAAAGG".toList "TTTTTTTA".toList k start = some (DeletionLocation.mk 0 1 4 4 4 4) ∧
      (DeletionLocation.mk 0 1 4 4 4 4).deletionOffset_ = 4 + k ∧
      ((4 : Nat) ≤ 6 → (DeletionLocation.mk 0 1 4 4 4 4).deletionOffset_ ≤ 6) ∧
      (∀ i, i < k →
        ∃ loc, deletionLocationAfter sampleAligner.outside contigEndHead.getStrandSequence
            "AAAAGG".toList "TTTTTTTA".toList i start = some loc ∧
          (DeletionLocation.mk 0 1 4 4 4 4).getMistmatches < loc.getMistmatches) ∧
      (∀ i, 4 + i ≤ 6 →
        ∃ loc, deletionLocationAfter sampleAligner.outside contigEndHead.getStrandSequence
            "AAAAGG".toList "TTTTTTTA".toList i start = some loc ∧
          (DeletionLocation.mk 0 1 4 4 4 4).getMistmatches ≤ loc.getMistmatches))) :=
  ⟨(fun hb =>
      ⟨hb, deletionBestLocation_minimises sampleAligner.outside deletionHead 0 deletionTail 8
        "AAAACCCCGGGGTTTT".toList "AAAACCCCGGGGTTTT".toList (DeletionLocation.mk 0 0 4 4 4 8)
        hb⟩)
      (by decide),
    (fun hb =>
      ⟨hb, deletionBestLocation_minimises sampleAligner.outside contigEndHead 4 contigEndTail 6
        "AAAAGG".toList "TTTTTTTA".toList (DeletionLocation.mk 0 1 4 4 4 4) hb⟩)
      (by decide)⟩

/-- The scan on an empty window and on a tie.  With the window `[8, 4]` the loop body never
runs and the location at offset 8 is returned.  With the window `[5, 8]` the sums at the
offsets 5 to 8 are 1, 2, 3, 4 and the lowest offset is kept. -/
theorem deletionBestLocation_examples :
    (deletionBestLocation sampleAligner.outside deletionHead 8 deletionTail 4
        "AAAACCCCGGGGTTTT".toList
        "AAAACCCCGGGGTTTT".toList).map (fun loc => (loc.deletionOffset_, loc.getMistmatches)) =
      some (8, 4) ∧
    (deletionBestLocation sampleAligner.outside deletionHead 5 deletionTail 8
        "AAAACCCCGGGGTTTT".toList
        "AAAACCCCGGGGTTTT".toList).map (fun loc => (loc.deletionOffset_, loc.getMistmatches)) =
      some (5, 1) := by
  decide

/-! ## The counters of the deletion scan against a recount (C32, C36) -/

theorem deref_in_bounds (s : List Char) (i : Int) (h0 : 0 ≤ i) (h1 : i < s.length) :
    ∃ b, deref s i = some b := by
  have hlt : i.toNat < s.length := by omega
  exact ⟨s.get ⟨i.toNat, hlt⟩, by simp only [deref, h0, if_true, List.get?_eq_get hlt]⟩

theorem derefUnchecked_of_deref (outside : Outside) (s : List Char) (i : Int) (b : Char)
    (h : deref s i = some b) : derefUnchecked outside s i = b := by
  simp only [derefUnchecked, h]

theorem bruteForceMismatches_self (s r : List Char) (shift : Int) (a : Nat) :
    bruteForceMismatches s r shift a a = 0 := by
  simp [bruteForceMismatches]

theorem bruteForceMismatches_grow (s r : List Char) (shift : Int) (a o : Nat) (h : a ≤ o) :
    bruteForceMismatches s r shift a (o + 1) =
      bruteForceMismatches s r shift a o + (if mismatchAt s r shift o then 1 else 0) := by
  have e : o + 1 - a = (o - a) + 1 := by omega
  have e2 : a + 1 * (o - a) = o := by omega
  simp only [bruteForceMismatches, e, List.range'_concat, e2, List.filter_append,
    List.length_append]
  by_cases hm : mismatchAt s r shift o = true
  · simp [hm]
  · simp [hm]

theorem bruteForceMismatches_shrink (s r : List Char) (shift : Int) (o e : Nat) (h : o < e) :
    bruteForceMismatches s r shift o e =
      (if mismatchAt s r shift o then 1 else 0) + bruteForceMismatches s r shift (o + 1) e := by
  have e1 : e - o = (e - (o + 1)) + 1 := by omega
  simp only [bruteForceMismatches, e1, List.range'_succ]
  by_cases hm : mismatchAt s r shift o = true
  · simp [hm, List.filter_cons, Nat.add_comm]
  · simp [hm, List.filter_cons]

theorem bruteForceMismatches_le (s r : List Char) (shift : Int) (a e : Nat) :
    bruteForceMismatches s r shift a e ≤ e - a := by
  unfold bruteForceMismatches
  exact (List.length_filter_le _ _).trans (by simp)

theorem countMismatchesN_brute (s r : List Char) (sb : Nat) (rb : Int) :
    ∀ n : Nat, sb + n ≤ s.length → 0 ≤ rb → rb + n ≤ r.length →
      countMismatchesN (fun i => deref s ((sb : Int) + i)) (fun i => deref r (rb + i)) n =
        some (bruteForceMismatches s r (rb - sb) sb (sb + n)) := by
  intro n
  induction n with
  | zero =>
    intro _ _ _
    simp only [countMismatchesN, Nat.add_zero, bruteForceMismatches_self]
  | succ n ih =>
    intro hs h0 hr
    obtain ⟨b, hb⟩ := deref_in_bounds s ((sb : Int) + n) (by omega) (by omega)
    obtain ⟨c, hc⟩ := deref_in_bounds r (rb + n) (by omega) (by omega)
    have hidx : (((sb + n : Nat) : Int)) = (sb : Int) + n := by push_cast; ring
    have hidx2 : (((sb + n : Nat) : Int)) + (rb - sb) = rb + n := by push_cast; ring
    have hm : mismatchAt s r (rb - sb) (sb + n) = !isMatch b c := by
      simp only [mismatchAt, hidx2, hc]
      rw [hidx, hb]
    have hgrow := bruteForceMismatches_grow s r (rb - sb) sb (sb + n) (by omega)
    rw [show sb + (n + 1) = sb + n + 1 by omega, hgrow, hm]
    simp only [countMismatchesN, ih (by omega) h0 (by omega), hb, hc]
    cases isMatch b c <;> simp

theorem countMismatches_brute (s r : List Char) (sb : Nat) (rb : Int) (n : Nat)
    (hs : sb + n ≤ s.length) (h0 : 0 ≤ rb) (hr : rb + n ≤ r.length) :
    countMismatches s sb r rb r.length n =
      some (bruteForceMismatches s r (rb - sb) sb (sb + n)) := by
  have hnot : ¬ ((r.length : Int) < rb) := by omega
  have hmin : min n ((r.length : Int) - rb).toNat = n := by
    apply min_eq_left
    omega
  simp only [countMismatches, hnot, if_false, hmin]
  exact countMismatchesN_brute s r sb rb n hs h0 hr

theorem recountedDeletionLocation_moveNext (outside : Outside) (s hR tR : List Char) (hU tU : Int)
    (a e o : Nat) (ha : a ≤ o) (hoe : o < e) (he : e < 4294967296) (hseq : e ≤ s.length)
    (hh0 : 0 ≤ (o : Int) + hU) (hh1 : (o : Int) + hU < hR.length)
    (ht0 : 0 ≤ (o : Int) + tU) (ht1 : (o : Int) + tU < tR.length) :
    (recountedDeletionLocation s hR tR hU tU a e o).moveNext outside s hR tR =
      some (recountedDeletionLocation s hR tR hU tU a e (o + 1)) := by
  obtain ⟨b, hb⟩ := deref_in_bounds s (o : Int) (by omega) (by omega)
  obtain ⟨c, hc⟩ := deref_in_bounds hR ((o : Int) + hU) hh0 hh1
  obtain ⟨d, hd⟩ := deref_in_bounds tR ((o : Int) + tU) ht0 ht1
  have hmh : mismatchAt s hR hU o = !isMatch b c := by
    simp only [mismatchAt, hb, hc]
  have hmt : mismatchAt s tR tU o = !isMatch b d := by
    simp only [mismatchAt, hb, hd]
  have hgrow := bruteForceMismatches_grow s hR hU a o ha
  have hshrink := bruteForceMismatches_shrink s tR tU o e hoe
  have hle := bruteForceMismatches_le s tR tU (o + 1) e
  rw [hmh] at hgrow
  rw [hmt] at hshrink
  simp only [DeletionLocation.moveNext, recountedDeletionLocation,
    derefUnchecked_of_deref outside _ _ _ hb, derefUnchecked_of_deref outside _ _ _ hc,
    derefUnchecked_of_deref outside _ _ _ hd, Option.some.injEq, DeletionLocation.mk.injEq]
  refine ⟨?_, ?_, trivial, by push_cast; ring, by push_cast; ring, by push_cast; ring⟩
  · rw [hgrow]
    cases isMatch b c <;> simp
  · rw [hshrink]
    unfold u32
    cases isMatch b d <;> simp <;> omega

theorem recountedDeletionLocation_after (outside : Outside) (s hR tR : List Char) (hU tU : Int)
    (a e : Nat)
    (he : e < 4294967296) (hseq : e ≤ s.length) :
    ∀ (k o : Nat), a ≤ o → o + k ≤ e →
      0 ≤ (o : Int) + hU → (o : Int) + k + hU ≤ hR.length →
      0 ≤ (o : Int) + tU → (o : Int) + k + tU ≤ tR.length →
      deletionLocationAfter outside s hR tR k (recountedDeletionLocation s hR tR hU tU a e o) =
        some (recountedDeletionLocation s hR tR hU tU a e (o + k)) := by
  intro k
  induction k with
  | zero =>
    intro o _ _ _ _ _ _
    rfl
  | succ n ih =>
    intro o ha hoe hh0 hh1 ht0 ht1
    have hstep := recountedDeletionLocation_moveNext outside s hR tR hU tU a e o ha (by omega)
        he hseq
      hh0 (by omega) ht0 (by omega)
    simp only [deletionLocationAfter, hstep]
    rw [ih (o + 1) (by omega) (by omega) (by push_cast; omega) (by push_cast; omega)
      (by push_cast; omega) (by push_cast; omega)]
    rw [show o + 1 + n = o + (n + 1) by omega]

theorem deletionStartLocation_recounted (h : FragmentMetadata) (first : Nat)
    (t : FragmentMetadata) (hR tR : Contig)
    (hclip : h.beginClippedLength ≤ first)
    (hfirst : first ≤ (t.beginClippedLength + t.observedLength) % 4294967296)
    (hseq : (t.beginClippedLength + t.observedLength) % 4294967296 ≤
      h.getStrandSequence.length)
    (hh0 : 0 ≤ h.getUnclippedPosition + h.beginClippedLength)
    (hh1 : h.getUnclippedPosition + first ≤ hR.length)
    (ht0 : 0 ≤ t.getUnclippedPosition + first)
    (ht1 : t.getUnclippedPosition + ((t.beginClippedLength + t.observedLength) % 4294967296 :
      Nat) ≤ tR.length) :
    deletionStartLocation h first t hR tR =
      some (recountedDeletionLocation h.getStrandSequence hR tR h.getUnclippedPosition
        t.getUnclippedPosition h.beginClippedLength
        ((t.beginClippedLength + t.observedLength) % 4294967296) first) := by
  have hlt : (t.beginClippedLength + t.observedLength) % 4294967296 < 4294967296 :=
    Nat.mod_lt _ (by decide)
  have hhl : u32 ((first : Int) - h.beginClippedLength) = first - h.beginClippedLength := by
    unfold u32
    omega
  have hpos : h.position = h.getUnclippedPosition + h.beginClippedLength := by
    simp only [FragmentMetadata.getUnclippedPosition]
    ring
  have hleft := countMismatches_brute h.getStrandSequence hR h.beginClippedLength
    (h.getUnclippedPosition + h.beginClippedLength) (first - h.beginClippedLength)
    (by omega) hh0 (by push_cast [Nat.cast_sub hclip]; omega)
  have hright := countMismatches_brute h.getStrandSequence tR first
    ((first : Int) + t.getUnclippedPosition)
    ((t.beginClippedLength + t.observedLength) % 4294967296 - first)
    (by omega) (by omega) (by push_cast [Nat.cast_sub hfirst]; omega)
  rw [show h.beginClippedLength + (first - h.beginClippedLength) = first by omega,
    show h.getUnclippedPosition + (h.beginClippedLength : Int) - h.beginClippedLength =
      h.getUnclippedPosition by ring] at hleft
  rw [show first + ((t.beginClippedLength + t.observedLength) % 4294967296 - first) =
      (t.beginClippedLength + t.observedLength) % 4294967296 by omega,
    show (first : Int) + t.getUnclippedPosition - first = t.getUnclippedPosition by ring]
    at hright
  simp only [deletionStartLocation, FragmentMetadata.getBeginClippedLength,
    FragmentMetadata.getObservedLength, hhl, hpos, hleft, hright, recountedDeletionLocation]

/-- C32. Scanner consistency for the deletion scan.  Start from the location that
`alignSimpleDeletion` makes at `firstBreakpointOffset` (`b_lo`), with the counters that
`countMismatches` gives.  For every `k` with `b_lo + k` not past the tail end, all bases read
lying inside the read and inside the two references: `k` calls of `moveNext` succeed, and
after them `leftRealignedMismatches_` is the brute-force mismatch count of
`read[head.begin_clip, b_lo + k)` against the head reference and `rightRealignedMismatches_`
that of `read[b_lo + k, tail end)` against the tail reference. -/
theorem deletion_scanner_consistent (outside : Outside) (headAlignment : FragmentMetadata)
    (firstBreakpointOffset : Nat) (tailAlignment : FragmentMetadata)
    (headReference tailReference : Contig) (k : Nat)
    (hclip : headAlignment.beginClippedLength ≤ firstBreakpointOffset)
    (hk : firstBreakpointOffset + k ≤
      (tailAlignment.beginClippedLength + tailAlignment.observedLength) % 4294967296)
    (hseq : (tailAlignment.beginClippedLength + tailAlignment.observedLength) % 4294967296 ≤
      headAlignment.getStrandSequence.length)
    (hhead0 : 0 ≤ headAlignment.getUnclippedPosition + headAlignment.beginClippedLength)
    (hhead1 : headAlignment.getUnclippedPosition + firstBreakpointOffset + k ≤
      headReference.length)
    (htail0 : 0 ≤ tailAlignment.getUnclippedPosition + firstBreakpointOffset)
    (htail1 : tailAlignment.getUnclippedPosition +
      ((tailAlignment.beginClippedLength + tailAlignment.observedLength) % 4294967296 : Nat) ≤
      tailReference.length) :
    ∃ start loc,
      deletionStartLocation headAlignment firstBreakpointOffset tailAlignment headReference
        tailReference = some start ∧
      deletionLocationAfter outside headAlignment.getStrandSequence headReference tailReference k
        start = some loc ∧
      loc.deletionOffset_ = firstBreakpointOffset + k ∧
      loc.leftRealignedMismatches_ =
        bruteForceMismatches headAlignment.getStrandSequence headReference
          headAlignment.getUnclippedPosition headAlignment.beginClippedLength
          (firstBreakpointOffset + k) ∧
      loc.rightRealignedMismatches_ =
        bruteForceMismatches headAlignment.getStrandSequence tailReference
          tailAlignment.getUnclippedPosition (firstBreakpointOffset + k)
          ((tailAlignment.beginClippedLength + tailAlignment.observedLength) % 4294967296) := by
  have hlt : (tailAlignment.beginClippedLength + tailAlignment.observedLength) % 4294967296 <
      4294967296 := Nat.mod_lt _ (by decide)
  refine ⟨_, _, deletionStartLocation_recounted headAlignment firstBreakpointOffset
      tailAlignment headReference tailReference hclip (by omega) hseq hhead0 (by omega) htail0
      htail1,
    recountedDeletionLocation_after _ _ _ _ _ _ _ _ hlt hseq k firstBreakpointOffset hclip hk
      (by omega) (by omega) (by omega) (by omega), rfl, rfl, rfl⟩

/-- C32 (witness). Scenario 1 of the spec from offset 0: after 2 calls of `moveNext` the left
counter is 0, the count of `AA` against the head reference, and the right counter is 2, the
count of `AAGGGGTTTT` against the tail reference. -/
theorem deletion_scanner_consistent_witness :
    deletionLocationAfter sampleAligner.outside deletionHead.getStrandSequence
        "AAAACCCCGGGGTTTT".toList
        "AAAACCCCGGGGTTTT".toList 2 (DeletionLocation.mk 0 4 0 0 0 4) =
      some (DeletionLocation.mk 0 2 2 2 2 6) ∧
    bruteForceMismatches deletionHead.getStrandSequence "AAAACCCCGGGGTTTT".toList
      deletionHead.getUnclippedPosition deletionHead.beginClippedLength (0 + 2) = 0 ∧
    bruteForceMismatches deletionHead.getStrandSequence "AAAACCCCGGGGTTTT".toList
      deletionTail.getUnclippedPosition (0 + 2)
      ((deletionTail.beginClippedLength + deletionTail.observedLength) % 4294967296) = 2 ∧
    ∃ start loc,
      deletionStartLocation deletionHead 0 deletionTail "AAAACCCCGGGGTTTT".toList
        "AAAACCCCGGGGTTTT".toList = some start ∧
      deletionLocationAfter sampleAligner.outside deletionHead.getStrandSequence
          "AAAACCCCGGGGTTTT".toList
        "AAAACCCCGGGGTTTT".toList 2 start = some loc ∧
      loc.deletionOffset_ = 0 + 2 ∧
      loc.leftRealignedMismatches_ =
        bruteForceMismatches deletionHead.getStrandSequence "AAAACCCCGGGGTTTT".toList
          deletionHead.getUnclippedPosition deletionHead.beginClippedLength (0 + 2) ∧
      loc.rightRealignedMismatches_ =
        bruteForceMismatches deletionHead.getStrandSequence "AAAACCCCGGGGTTTT".toList
          deletionTail.getUnclippedPosition (0 + 2)
          ((deletionTail.beginClippedLength + deletionTail.observedLength) % 4294967296) :=
  ⟨by decide, by decide, by decide,
    deletion_scanner_consistent sampleAligner.outside deletionHead 0 deletionTail
        "AAAACCCCGGGGTTTT".toList
      "AAAACCCCGGGGTTTT".toList 2 (by decide) (by decide) (by decide) (by decide) (by decide)
      (by decide) (by decide)⟩

theorem bruteForceMismatches_antitone (s r : List Char) (shift : Int) (o e : Nat) :
    ∀ k : Nat, o + k ≤ e →
      bruteForceMismatches s r shift (o + k) e ≤ bruteForceMismatches s r shift o e := by
  intro k
  induction k with
  | zero =>
    intro _
    exact le_refl _
  | succ n ih =>
    intro h
    have hs := bruteForceMismatches_shrink s r shift (o + n) e (by omega)
    have := ih (by omega)
    rw [show o + (n + 1) = o + n + 1 by omega]
    omega

theorem deletionScan_recounted_returns (outside : Outside) (s hR tR : List Char) (hU tU : Int)
    (a e last : Nat) (hlast : last < e) (hseq : e ≤ s.length)
    (hlen : s.length < 4294967295)
    (hh1 : (last : Int) + 1 + hU ≤ hR.length) (ht1 : (e : Int) + tU ≤ tR.length) :
    ∀ (fuel : Nat) (best : DeletionLocation) (o : Nat), a ≤ o →
      0 ≤ (o : Int) + hU → 0 ≤ (o : Int) + tU →
      ∃ res, deletionScan outside s hR tR last fuel best
        (recountedDeletionLocation s hR tR hU tU a e o) = some res := by
  intro fuel
  induction fuel with
  | zero =>
    intro best o _ _ _
    exact ⟨best, rfl⟩
  | succ n ih =>
    intro best o ha hh0 ht0
    by_cases hc : best.getMistmatches ≠ 0 ∧
        (recountedDeletionLocation s hR tR hU tU a e o).deletionOffset_ ≤ last
    · have hol : o ≤ last := hc.2
      have hle := bruteForceMismatches_le s tR tU o e
      have hassert : (recountedDeletionLocation s hR tR hU tU a e o).rightRealignedMismatches_
          ≠ minusOneU := by
        simp only [recountedDeletionLocation, minusOneU]
        omega
      have hstep := recountedDeletionLocation_moveNext outside s hR tR hU tU a e o ha (by omega)
        (by omega) hseq hh0 (by omega) ht0 (by omega)
      simp only [deletionScan, hc, hassert, hstep, ne_eq, not_false_eq_true, and_self, if_true,
        if_false]
      exact ih _ (o + 1) (by omega) (by push_cast; omega) (by push_cast; omega)
    · exact ⟨best, by simp only [deletionScan, hc, if_false]⟩

/-- C36. In the deletion scan of `alignSimpleDeletion`, when the initial right counter is the
mismatch count of `read[b_lo, tail end)` against the tail reference (as `countMismatches`
gives it), `lastBreakpointOffset` lies before the tail end, and the bases read lie inside the
read (of fewer than `2^32 − 1` bases) and inside the two references: at every location that
the scan makes, that is after `k` calls of `moveNext` for every `k` with
`b_lo + k ≤ lastBreakpointOffset + 1`, the counter `rightRealignedMismatches_` is the count
of the mismatches that are left, never above its initial value and never `-1U`: it does not
wrap below zero.  The assertion never fires: the scan returns a best location. -/
theorem deletionScan_right_counter_never_wraps (outside : Outside)
    (headAlignment : FragmentMetadata)
    (firstBreakpointOffset : Nat) (tailAlignment : FragmentMetadata)
    (lastBreakpointOffset : Nat) (headReference tailReference : Contig)
    (hclip : headAlignment.beginClippedLength ≤ firstBreakpointOffset)
    (hfirst : firstBreakpointOffset ≤
      (tailAlignment.beginClippedLength + tailAlignment.observedLength) % 4294967296)
    (hlast : lastBreakpointOffset <
      (tailAlignment.beginClippedLength + tailAlignment.observedLength) % 4294967296)
    (hseq : (tailAlignment.beginClippedLength + tailAlignment.observedLength) % 4294967296 ≤
      headAlignment.getStrandSequence.length)
    (hlen : headAlignment.getStrandSequence.length < 4294967295)
    (hhead0 : 0 ≤ headAlignment.getUnclippedPosition + headAlignment.beginClippedLength)
    (hhead1 : headAlignment.getUnclippedPosition + firstBreakpointOffset ≤
      headReference.length)
    (hhead2 : headAlignment.getUnclippedPosition + lastBreakpointOffset + 1 ≤
      headReference.length)
    (htail0 : 0 ≤ tailAlignment.getUnclippedPosition + firstBreakpointOffset)
    (htail1 : tailAlignment.getUnclippedPosition +
      ((tailAlignment.beginClippedLength + tailAlignment.observedLength) % 4294967296 : Nat) ≤
      tailReference.length) :
    ∃ start,
      deletionStartLocation headAlignment firstBreakpointOffset tailAlignment headReference
        tailReference = some start ∧
      start.rightRealignedMismatches_ =
        bruteForceMismatches headAlignment.getStrandSequence tailReference
          tailAlignment.getUnclippedPosition firstBreakpointOffset
          ((tailAlignment.beginClippedLength + tailAlignment.observedLength) % 4294967296) ∧
      (∀ k, firstBreakpointOffset + k ≤ lastBreakpointOffset + 1 →
        ∃ loc,
          deletionLocationAfter outside headAlignment.getStrandSequence headReference
              tailReference k
            start = some loc ∧
          loc.rightRealignedMismatches_ =
            bruteForceMismatches headAlignment.getStrandSequence tailReference
              tailAlignment.getUnclippedPosition (firstBreakpointOffset + k)
              ((tailAlignment.beginClippedLength + tailAlignment.observedLength)
                % 4294967296) ∧
          loc.rightRealignedMismatches_ ≤ start.rightRealignedMismatches_ ∧
          loc.rightRealignedMismatches_ ≠ minusOneU) ∧
      ∃ best,
        deletionBestLocation outside headAlignment firstBreakpointOffset tailAlignment
          lastBreakpointOffset headReference tailReference = some best := by
  have hlt : (tailAlignment.beginClippedLength + tailAlignment.observedLength) % 4294967296 <
      4294967296 := Nat.mod_lt _ (by decide)
  have hstart := deletionStartLocation_recounted headAlignment firstBreakpointOffset
    tailAlignment headReference tailReference hclip hfirst hseq hhead0 hhead1 htail0 htail1
  refine ⟨_, hstart, rfl, fun k hk => ?_, ?_⟩
  · refine ⟨_, recountedDeletionLocation_after _ _ _ _ _ _ _ _ hlt hseq k firstBreakpointOffset
      hclip (by omega) (by omega) ?_ (by omega) (by omega), rfl, ?_, ?_⟩
    · cases k with
      | zero => push_cast; omega
      | succ n => push_cast; omega
    · exact bruteForceMismatches_antitone _ _ _ _ _ k (by omega)
    · have hle := bruteForceMismatches_le headAlignment.getStrandSequence tailReference
        tailAlignment.getUnclippedPosition (firstBreakpointOffset + k)
        ((tailAlignment.beginClippedLength + tailAlignment.observedLength) % 4294967296)
      simp only [recountedDeletionLocation, minusOneU]
      omega
  · rw [deletionBestLocation_eq_scan, hstart]
    have hle := bruteForceMismatches_le headAlignment.getStrandSequence tailReference
      tailAlignment.getUnclippedPosition firstBreakpointOffset
      ((tailAlignment.beginClippedLength + tailAlignment.observedLength) % 4294967296)
    have hassert : (recountedDeletionLocation headAlignment.getStrandSequence headReference
        tailReference headAlignment.getUnclippedPosition tailAlignment.getUnclippedPosition
        headAlignment.beginClippedLength
        ((tailAlignment.beginClippedLength + tailAlignment.observedLength) % 4294967296)
        firstBreakpointOffset).rightRealignedMismatches_ ≠ minusOneU := by
      simp only [recountedDeletionLocation, minusOneU]
      omega
    simp only [hassert, if_false]
    exact deletionScan_recounted_returns _ _ _ _ _ _ _ _ _ hlast hseq hlen (by omega) (by omega)
      _ _ firstBreakpointOffset hclip (by omega) (by omega)

/-- C36 (witness). Scenario 1 of the spec scanned over the window `[0, 8]`: the right counter
starts at 4 and the scan returns the location at offset 4. -/
theorem deletionScan_right_counter_never_wraps_witness :
    deletionBestLocation sampleAligner.outside deletionHead 0 deletionTail 8
        "AAAACCCCGGGGTTTT".toList
        "AAAACCCCGGGGTTTT".toList = some (DeletionLocation.mk 0 0 4 4 4 8) ∧
    ∃ start,
      deletionStartLocation deletionHead 0 deletionTail "AAAACCCCGGGGTTTT".toList
        "AAAACCCCGGGGTTTT".toList = some start ∧
      start.rightRealignedMismatches_ =
        bruteForceMismatches deletionHead.getStrandSequence "AAAACCCCGGGGTTTT".toList
          deletionTail.getUnclippedPosition 0
          ((deletionTail.beginClippedLength + deletionTail.observedLength) % 4294967296) ∧
      (∀ k, 0 + k ≤ 8 + 1 →
        ∃ loc,
          deletionLocationAfter sampleAligner.outside deletionHead.getStrandSequence
              "AAAACCCCGGGGTTTT".toList
            "AAAACCCCGGGGTTTT".toList k start = some loc ∧
          loc.rightRealignedMismatches_ =
            bruteForceMismatches deletionHead.getStrandSequence "AAAACCCCGGGGTTTT".toList
              deletionTail.getUnclippedPosition (0 + k)
              ((deletionTail.beginClippedLength + deletionTail.observedLength)
                % 4294967296) ∧
          loc.rightRealignedMismatches_ ≤ start.rightRealignedMismatches_ ∧
          loc.rightRealignedMismatches_ ≠ minusOneU) ∧
      ∃ best,
        deletionBestLocation sampleAligner.outside deletionHead 0 deletionTail 8
            "AAAACCCCGGGGTTTT".toList
          "AAAACCCCGGGGTTTT".toList = some best :=
  ⟨by decide,
    deletionScan_right_counter_never_wraps sampleAligner.outside deletionHead 0 deletionTail 8
      "AAAACCCCGGGGTTTT".toList "AAAACCCCGGGGTTTT".toList (by decide) (by decide) (by decide)
      (by decide) (by decide) (by decide) (by decide) (by decide) (by decide) (by decide)⟩

/-! ## The counters of the insertion scan against a recount (C33) -/

theorem recountedInsertionLocation_moveNext (outside : Outside) (s c : List Char) (shift : Int)
    (n a e k : Nat) (hk : a + k + n < e) (he : e < 4294967295) (hseq : e ≤ s.length)
    (h0 : 0 ≤ shift + a) (h1 : shift + a + k < c.length) :
    (recountedInsertionLocation s c shift n a e k).1.moveNext outside s c
        (recountedInsertionLocation s c shift n a e k).2.1
        (recountedInsertionLocation s c shift n a e k).2.2 =
      some (recountedInsertionLocation s c shift n a e (k + 1)) := by
  obtain ⟨l, hl⟩ := deref_in_bounds s ((a + k : Nat) : Int) (by omega) (by omega)
  obtain ⟨r, hr⟩ := deref_in_bounds s ((a + k + n : Nat) : Int) (by omega) (by omega)
  obtain ⟨b, hb⟩ := deref_in_bounds c (shift + a + k) (by omega) h1
  have hml : mismatchAt s c shift (a + k) = !isMatch l b := by
    simp only [mismatchAt, hl]
    rw [show (((a + k : Nat) : Int)) + shift = shift + a + k by push_cast; ring, hb]
  have hmr : mismatchAt s c (shift - n) (a + k + n) = !isMatch r b := by
    simp only [mismatchAt, hr]
    rw [show (((a + k + n : Nat) : Int)) + (shift - n) = shift + a + k by push_cast; ring, hb]
  have hgrow := bruteForceMismatches_grow s c shift a (a + k) (by omega)
  have hshrink := bruteForceMismatches_shrink s c (shift - n) (a + k + n) e hk
  have hle := bruteForceMismatches_le s c (shift - n) (a + k + n) e
  have hle1 := bruteForceMismatches_le s c (shift - n) (a + k + n + 1) e
  rw [hml] at hgrow
  rw [hmr] at hshrink
  have hassert : bruteForceMismatches s c (shift - n) (a + k + n) e ≠ minusOneU := by
    simp only [minusOneU]
    omega
  have hti : ((a + k + n : Nat) : Int) - n = ((a + k : Nat) : Int) := by push_cast; ring
  have hti2 : (a : Int) + n + k = ((a + k + n : Nat) : Int) := by push_cast; ring
  simp only [InsertionLocation.moveNext, recountedInsertionLocation, hassert, if_false, hti2,
    hti, derefUnchecked_of_deref outside _ _ _ hl, derefUnchecked_of_deref outside _ _ _ hr,
    derefUnchecked_of_deref outside _ _ _ hb, Option.some.injEq, Prod.mk.injEq,
    InsertionLocation.mk.injEq, true_and]
  refine ⟨⟨?_, ?_, by omega, ?_⟩, by push_cast; ring, by push_cast; ring⟩
  · rw [show a + (k + 1) = a + k + 1 by omega, hgrow]
    cases isMatch l b <;> simp
  · rw [show a + (k + 1) + n = a + k + n + 1 by omega, hshrink]
    unfold u32
    cases isMatch r b <;> simp <;> omega
  · unfold u32
    omega

theorem recountedInsertionLocation_after (outside : Outside) (s c : List Char) (shift : Int) (n
    a e : Nat)
    (he : e < 4294967295) (hseq : e ≤ s.length) (h0 : 0 ≤ shift + a) :
    ∀ (j k : Nat), a + k + j + n ≤ e → shift + a + k + j ≤ c.length →
      insertionLocationAfter outside s c j (recountedInsertionLocation s c shift n a e k) =
        some (recountedInsertionLocation s c shift n a e (k + j)) := by
  intro j
  induction j with
  | zero =>
    intro k _ _
    rfl
  | succ m ih =>
    intro k hk hc
    have hstep := recountedInsertionLocation_moveNext outside s c shift n a e k (by omega) he
        hseq h0
      (by omega)
    simp only [insertionLocationAfter, hstep]
    rw [ih (k + 1) (by omega) (by push_cast; omega)]
    rw [show k + 1 + m = k + (m + 1) by omega]

/-- C33. Scanner consistency for the insertion scan.  Start from the location that
`alignSimpleInsertion` makes at `tailOffset`, with the right counter that `countMismatches`
gives and the left counter zero.  For every `k` with `tailOffset + k + insertion_length` not
past `observedEnd`, all bases read lying inside the read and inside the contig: `k` calls of
`moveNext` succeed, and after them `leftRealignedMismatches_` is the brute-force mismatch
count of `read[tailOffset, tailOffset + k)` against the head reference offsets
`[tailOffset, tailOffset + k)` and `rightRealignedMismatches_` is that of
`read[tailOffset + k + insertion_length, observedEnd)` against the head reference offsets
from `tailOffset + k` on (reference offsets counted from `head.unclipped_position`). -/
theorem insertion_scanner_consistent (outside : Outside) (headAlignment : FragmentMetadata)
    (headSeedOffset : Nat) (tailAlignment : FragmentMetadata) (tailSeedOffset : Nat)
    (contigList : ContigList) (contig : Contig) (insertionLength : Nat)
    (start : InsertionLocation) (tailIterator referenceIterator : Int) (k : Nat)
    (hstart : insertionStartLocation headAlignment headSeedOffset tailAlignment
      tailSeedOffset contigList = some (insertionLength, start, tailIterator,
        referenceIterator))
    (hcontig : contigList.get? headAlignment.contigId = some contig)
    (hk : max tailAlignment.beginClippedLength headSeedOffset + k + insertionLength ≤
      (tailAlignment.beginClippedLength + tailAlignment.observedLength) % 4294967296)
    (hseq : (tailAlignment.beginClippedLength + tailAlignment.observedLength) % 4294967296 ≤
      (headAlignment.read.getStrandSequence headAlignment.reverse).length)
    (hlen : (headAlignment.read.getStrandSequence headAlignment.reverse).length < 4294967295)
    (href0 : 0 ≤ headAlignment.getUnclippedPosition +
      (max tailAlignment.beginClippedLength headSeedOffset : Nat))
    (href1 : headAlignment.getUnclippedPosition +
      ((tailAlignment.beginClippedLength + tailAlignment.observedLength) % 4294967296 : Nat)
        - insertionLength ≤ contig.length) :
    ∃ loc tailIterator1 referenceIterator1,
      insertionLocationAfter outside (headAlignment.read.getStrandSequence headAlignment.reverse)
        contig k (start, tailIterator, referenceIterator) =
          some (loc, tailIterator1, referenceIterator1) ∧
      loc.insertionOffset_ = max tailAlignment.beginClippedLength headSeedOffset + k ∧
      loc.leftRealignedMismatches_ =
        bruteForceMismatches (headAlignment.read.getStrandSequence headAlignment.reverse)
          contig headAlignment.getUnclippedPosition
          (max tailAlignment.beginClippedLength headSeedOffset)
          (max tailAlignment.beginClippedLength headSeedOffset + k) ∧
      loc.rightRealignedMismatches_ =
        bruteForceMismatches (headAlignment.read.getStrandSequence headAlignment.reverse)
          contig (headAlignment.getUnclippedPosition - insertionLength)
          (max tailAlignment.beginClippedLength headSeedOffset + k + insertionLength)
          ((tailAlignment.beginClippedLength + tailAlignment.observedLength)
            % 4294967296) := by
  have hlt : (tailAlignment.beginClippedLength + tailAlignment.observedLength) % 4294967296 <
      4294967296 := Nat.mod_lt _ (by decide)
  simp only [insertionStartLocation, hcontig, FragmentMetadata.getBeginClippedLength,
    FragmentMetadata.getObservedLength] at hstart
  split at hstart
  · cases hstart
  rename_i n hn
  split at hstart
  · cases hstart
  split at hstart
  · cases hstart
  rename_i hfit htl
  split at hstart
  · cases hstart
  rename_i tailMismatches hcm
  simp only [Option.some.injEq, Prod.mk.injEq] at hstart
  obtain ⟨hn1, hs1, hti, hri⟩ := hstart
  subst hn1
  have hx : toInt32 (((tailAlignment.beginClippedLength + tailAlignment.observedLength)
      % 4294967296 : Nat) - (max tailAlignment.beginClippedLength headSeedOffset : Nat)
      - (n : Int)) =
      (((tailAlignment.beginClippedLength + tailAlignment.observedLength) % 4294967296
        - max tailAlignment.beginClippedLength headSeedOffset - n : Nat) : Int) := by
    unfold toInt32 at htl ⊢
    split_ifs at htl ⊢ <;> omega
  rw [hx] at hcm hs1 htl
  simp only [Int.toNat_ofNat] at hcm hs1
  have hxpos : 0 < (tailAlignment.beginClippedLength + tailAlignment.observedLength)
      % 4294967296 - max tailAlignment.beginClippedLength headSeedOffset - n := by
    omega
  have hbrute := countMismatches_brute
    (headAlignment.read.getStrandSequence headAlignment.reverse) contig
    (max tailAlignment.beginClippedLength headSeedOffset + n)
    (headAlignment.getUnclippedPosition +
      (max tailAlignment.beginClippedLength headSeedOffset : Nat))
    ((tailAlignment.beginClippedLength + tailAlignment.observedLength) % 4294967296
      - max tailAlignment.beginClippedLength headSeedOffset - n)
    (by omega) href0 (by omega)
  rw [show (((max tailAlignment.beginClippedLength headSeedOffset + n : Nat)) : Int) =
      (max tailAlignment.beginClippedLength headSeedOffset : Nat) + (n : Int) by push_cast; rfl]
    at hbrute
  rw [hbrute] at hcm
  simp only [Option.some.injEq] at hcm
  have hrec : (start, tailIterator, referenceIterator) =
      recountedInsertionLocation (headAlignment.read.getStrandSequence headAlignment.reverse)
        contig headAlignment.getUnclippedPosition n
        (max tailAlignment.beginClippedLength headSeedOffset)
        ((tailAlignment.beginClippedLength + tailAlignment.observedLength) % 4294967296)
        0 := by
    rw [← hs1, ← hti, ← hri, ← hcm]
    simp only [recountedInsertionLocation, Nat.add_zero, bruteForceMismatches_self,
      Prod.mk.injEq, InsertionLocation.mk.injEq, true_and, Nat.cast_zero, add_zero, Nat.sub_zero]
    refine ⟨⟨?_, trivial⟩, trivial⟩
    congr 1
    · push_cast
      ring
    · omega
  rw [hrec]
  refine ⟨_, _, _, (recountedInsertionLocation_after _ _ _ _ _ _ _ (by omega) hseq href0 k 0
      (by omega) (by omega)).trans (by rw [Nat.zero_add]), rfl, rfl, rfl⟩

/-- Witness for C33: the scan of `insertionRead` over `insertionContig` from read offset 0 with
insertion length 2.  The start location has 2 mismatches on the right; three steps on, the
counters are those of `AAA` against contig bases 2-4 and of `TTTTTGGGG` against contig bases
5-13. -/
theorem insertion_scanner_consistent_witness :
    insertionStartLocation insertionHead 0 insertionTail 8 [insertionContig] =
      some (2, InsertionLocation.mk 2 0 2 0 12, 2, 2) ∧
    [insertionContig].get? insertionHead.contigId = some insertionContig ∧
    max insertionTail.beginClippedLength 0 + 3 + 2 ≤
      (insertionTail.beginClippedLength + insertionTail.observedLength) % 4294967296 ∧
    (insertionTail.beginClippedLength + insertionTail.observedLength) % 4294967296 ≤
      (insertionHead.read.getStrandSequence insertionHead.reverse).length ∧
    (insertionHead.read.getStrandSequence insertionHead.reverse).length < 4294967295 ∧
    0 ≤ insertionHead.getUnclippedPosition + (max insertionTail.beginClippedLength 0 : Nat) ∧
    insertionHead.getUnclippedPosition +
      ((insertionTail.beginClippedLength + insertionTail.observedLength) % 4294967296 : Nat)
        - (2 : Nat) ≤ insertionContig.length ∧
    ∃ loc tailIterator1 referenceIterator1,
      insertionLocationAfter sampleAligner.outside (insertionHead.read.getStrandSequence
          insertionHead.reverse)
        insertionContig 3 (InsertionLocation.mk 2 0 2 0 12, 2, 2) =
          some (loc, tailIterator1, referenceIterator1) ∧
      loc.insertionOffset_ = max insertionTail.beginClippedLength 0 + 3 ∧
      loc.leftRealignedMismatches_ =
        bruteForceMismatches (insertionHead.read.getStrandSequence insertionHead.reverse)
          insertionContig insertionHead.getUnclippedPosition
          (max insertionTail.beginClippedLength 0)
          (max insertionTail.beginClippedLength 0 + 3) ∧
      loc.rightRealignedMismatches_ =
        bruteForceMismatches (insertionHead.read.getStrandSequence insertionHead.reverse)
          insertionContig (insertionHead.getUnclippedPosition - (2 : Nat))
          (max insertionTail.beginClippedLength 0 + 3 + 2)
          ((insertionTail.beginClippedLength + insertionTail.observedLength)
            % 4294967296) :=
  (fun h1 h2 h3 h4 h5 h6 h7 =>
    ⟨h1, h2, h3, h4, h5, h6, h7,
      insertion_scanner_consistent sampleAligner.outside insertionHead 0 insertionTail 8
          [insertionContig]
        insertionContig 2 (InsertionLocation.mk 2 0 2 0 12) 2 2 3 h1 h2 h3 h4 h5 h6 h7⟩)
    (by decide) (by decide) (by decide) (by decide) (by decide) (by decide) (by decide)

/-- The counters of the insertion scan on `insertionRead`: three steps from read offset 0 the
location has no mismatch on the left and one on the right, and at read offset 4, where the
insertion is, both counters are zero. -/
theorem insertion_scanner_examples :
    insertionLocationAfter sampleAligner.outside insertionRead.forwardSequence insertionContig 3
        (InsertionLocation.mk 2 0 2 0 12, 2, 2) =
      some (InsertionLocation.mk 2 0 1 3 9, 5, 5) ∧
    insertionLocationAfter sampleAligner.outside insertionRead.forwardSequence insertionContig 4
        (InsertionLocation.mk 2 0 2 0 12, 2, 2) =
      some (InsertionLocation.mk 2 0 0 4 8, 6, 6) ∧
    bruteForceMismatches insertionRead.forwardSequence insertionContig 2 0 3 = 0 ∧
    bruteForceMismatches insertionRead.forwardSequence insertionContig 0 5 14 = 1 := by
  decide

/-! ## The ends of the scan windows (C35) -/

theorem rightInversionScan_below_last (outside : Outside) (hs ts hR tR : List Char) (last : Nat) :
    ∀ (fuel : Nat) (best cur r : InversionLocation), best.breakpointOffset_ < last →
      rightInversionScan outside hs ts hR tR last fuel best cur = some r →
      r.breakpointOffset_ < last := by
  intro fuel
  induction fuel with
  | zero =>
    intro best cur r hb h
    simp only [rightInversionScan, Option.some.injEq] at h
    rw [← h]
    exact hb
  | succ n ih =>
    intro best cur r hb h
    by_cases hc : best.getMistmatches ≠ 0 ∧ cur.breakpointOffset_ < last
    · simp only [rightInversionScan] at h
      rw [if_pos hc] at h
      by_cases ha : ¬ (best.tailReferenceIterator_ ≥ 0)
      · rw [if_pos ha] at h
        cases h
      · rw [if_neg ha] at h
        cases e : cur.moveNext outside (-1) hs ts hR tR with
        | none =>
          rw [e] at h
          cases h
        | some next =>
          rw [e] at h
          simp only [] at h
          refine ih _ next r ?_ h
          by_cases hgt : best.getMistmatches > cur.getMistmatches
          · rw [if_pos hgt]
            exact hc.2
          · rw [if_neg hgt]
            exact hb
    · simp only [rightInversionScan] at h
      rw [if_neg hc] at h
      simp only [Option.some.injEq] at h
      rw [← h]
      exact hb

theorem rightInversionBestLocation_below_last (outside : Outside) (headAlignment : FragmentMetadata)
    (firstBreakpointOffset : Nat) (tailAlignment : FragmentMetadata)
    (lastBreakpointOffset : Nat) (contigList : ContigList) (best : InversionLocation)
    (hlt : firstBreakpointOffset < lastBreakpointOffset)
    (hb : rightInversionBestLocation outside headAlignment firstBreakpointOffset tailAlignment
      lastBreakpointOffset contigList = some best) :
    best.breakpointOffset_ < lastBreakpointOffset := by
  unfold rightInversionBestLocation at hb
  split at hb
  · simp only [] at hb
    split_ifs at hb
    split at hb
    · cases hb
    · split_ifs at hb
      split at hb
      · exact rightInversionScan_below_last _ _ _ _ _ _ _ _ _ _ hlt hb
      · cases hb
  · cases hb

theorem alignRightAnchoredInversion_of_best (a : AlignerBase) (cigarBuffer : Cigar)
    (headAlignment : FragmentMetadata) (firstBreakpointOffset : Nat)
    (tailAlignment : FragmentMetadata) (lastBreakpointOffset : Nat)
    (contigList : ContigList) (best : InversionLocation)
    (hb : rightInversionBestLocation a.outside headAlignment firstBreakpointOffset tailAlignment
      lastBreakpointOffset contigList = some best) :
    alignRightAnchoredInversion a cigarBuffer headAlignment firstBreakpointOffset
        tailAlignment lastBreakpointOffset contigList =
      match numericCastInt
          (best.headReferenceIterator_ - headAlignment.getEndClippedLength
            - tailAlignment.position + tailAlignment.getBeginClippedLength) with
      | none => none
      | some d =>
        mergeRightAnchoredInversionAlignments a cigarBuffer headAlignment tailAlignment
          best.breakpointOffset_ contigList best.getMistmatches (-d) := by
  unfold rightInversionBestLocation at hb
  unfold alignRightAnchoredInversion
  split at hb
  · rename_i hR tR hh ht
    simp only [hh, ht] at hb ⊢
    split_ifs at hb with c1 c2 c3 c4
    simp only [c1, c2, c3, c4, not_true_eq_false, not_false_eq_true, if_false, if_true]
    split at hb
    · cases hb
    · rename_i count hcount
      split_ifs at hb with c5
      split at hb
      · simp only [hb, c5, and_self, not_true_eq_false, if_false]
      · cases hb
  · cases hb

theorem alignLeftAnchoredInversion_of_best (a : AlignerBase) (cigarBuffer : Cigar)
    (headAlignment : FragmentMetadata) (firstBreakpointOffset : Nat)
    (tailAlignment : FragmentMetadata) (lastBreakpointOffset : Nat)
    (contigList : ContigList) (best : InversionLocation)
    (hb : leftInversionBestLocation a.outside headAlignment firstBreakpointOffset tailAlignment
      lastBreakpointOffset contigList = some best) :
    alignLeftAnchoredInversion a cigarBuffer headAlignment firstBreakpointOffset
        tailAlignment lastBreakpointOffset contigList =
      match numericCastInt (best.headReferenceIterator_ - tailAlignment.position) with
      | none => none
      | some d =>
        mergeLeftAnchoredInversions a cigarBuffer headAlignment tailAlignment
          best.breakpointOffset_ contigList best.getMistmatches (-d) := by
  unfold leftInversionBestLocation at hb
  unfold alignLeftAnchoredInversion
  split at hb
  · rename_i hR tR hh ht
    simp only [hh, ht] at hb ⊢
    split_ifs at hb with c1 c2 c3
    simp only [c1, c2, c3, not_true_eq_false, not_false_eq_true, if_false, if_true]
    split at hb
    · cases hb
    · rename_i count hcount
      split_ifs at hb with c5
      split at hb
      · simp only [hb, c5, and_self, not_true_eq_false, if_false]
      · cases hb
  · cases hb

/-- C35. The ends of the scan windows.  The deletion scan, the insertion scan and the scan of
the left-anchored inversion each select `b_hi` on one input with `b_lo < b_hi` and `b_lo` on
another (`b_hi` of the insertion scan being `tailSeedOffset - insertion_length`), and the
scan of the right-anchored inversion selects `b_lo` on an input with `b_lo < b_hi`.  The scan
of the right-anchored inversion never selects `b_hi` when `b_lo < b_hi`: its loop runs while
the offset is strictly below `lastBreakpointOffset`.  On `rightEndHead` and `rightEndTail`
with the window `[4, 6]` it returns the offset 5 with one mismatch, although the location at
offset 6 has none. -/
theorem scan_window_ends :
    ((deletionBestLocation sampleAligner.outside deletionHead 0 deletionTail 4
        "AAAACCCCGGGGTTTT".toList
        "AAAACCCCGGGGTTTT".toList).map (fun loc => (loc.deletionOffset_, loc.getMistmatches))
      = some (4, 0) ∧
    (deletionBestLocation sampleAligner.outside deletionHead 5 deletionTail 8
        "AAAACCCCGGGGTTTT".toList
        "AAAACCCCGGGGTTTT".toList).map (fun loc => (loc.deletionOffset_, loc.getMistmatches))
      = some (5, 1)) ∧
    ((insertionBestLocation sampleAligner.outside insertionHead 0 insertionTail 6
        [insertionContig]).map
        (fun r => (r.2.insertionOffset_, r.2.getMistmatches, u32 ((6 : Int) - r.1)))
      = some (4, 0, 4) ∧
    (insertionBestLocation sampleAligner.outside insertionHead 4 insertionTail 8
        [insertionContig]).map
        (fun r => (r.2.insertionOffset_, r.2.getMistmatches, u32 ((8 : Int) - r.1)))
      = some (4, 0, 6)) ∧
    ((leftInversionBestLocation sampleAligner.outside inversionHead 4 inversionTail 6
        [leftEndContig]).map
        (fun loc => (loc.breakpointOffset_, loc.getMistmatches)) = some (6, 0) ∧
    (leftInversionBestLocation sampleAligner.outside inversionHead 6 inversionTail 8
        [leftEndContig]).map
        (fun loc => (loc.breakpointOffset_, loc.getMistmatches)) = some (6, 0)) ∧
    (rightInversionBestLocation sampleAligner.outside rightEndHead 6 rightEndTail 8
        [rightEndContig]).map
        (fun loc => (loc.breakpointOffset_, loc.getMistmatches)) = some (6, 0) ∧
    (∀ (outside : Outside) (headAlignment : FragmentMetadata) (firstBreakpointOffset : Nat)
      (tailAlignment : FragmentMetadata) (lastBreakpointOffset : Nat)
      (contigList : ContigList) (best : InversionLocation),
      firstBreakpointOffset < lastBreakpointOffset →
      rightInversionBestLocation outside headAlignment firstBreakpointOffset tailAlignment
        lastBreakpointOffset contigList = some best →
      best.breakpointOffset_ < lastBreakpointOffset) ∧
    (rightInversionBestLocation sampleAligner.outside rightEndHead 4 rightEndTail 6
        [rightEndContig]).map
        (fun loc => (loc.breakpointOffset_, loc.getMistmatches)) = some (5, 1) ∧
    (rightInversionBestLocation sampleAligner.outside rightEndHead 6 rightEndTail 6
        [rightEndContig]).map
        (fun loc => (loc.breakpointOffset_, loc.getMistmatches)) = some (6, 0) :=
  ⟨by decide, by decide, by decide, by decide,
    fun o h f t l c b hlt hb => rightInversionBestLocation_below_last o h f t l c b hlt hb,
    by decide, by decide⟩

/-- Witness for C35: the right-anchored scan that `resolveConflict` runs on `rightEndHead` and
`rightEndTail` has the window `[4, 6]`; it selects the offset 5, below the last offset, and
the engine emits `5S7M0F9D7H5M` with one mismatch. -/
theorem scan_window_ends_witness :
    (4 : Nat) < 6 ∧
    rightInversionBestLocation sampleAligner.outside rightEndHead 4 rightEndTail 6
        [rightEndContig] =
      some (InversionLocation.mk 1 0 5 5 7 5 21) ∧
    (InversionLocation.mk 1 0 5 5 7 5 21).breakpointOffset_ < 6 :=
  (fun h1 h2 =>
    ⟨h1, h2, scan_window_ends.2.2.2.2.1 sampleAligner.outside rightEndHead 4 rightEndTail 6
      [rightEndContig]
      (InversionLocation.mk 1 0 5 5 7 5 21) h1 h2⟩)
    (by decide) (by decide)

/-- The right-anchored engine on `rightEndHead` and `rightEndTail`: the window that
`resolveConflict` passes is `[4, 6]`, the engine emits the breakpoint 5 with one mismatch
(`5S7M0F9D7H5M`), and with the window `[4, 7]` it emits the breakpoint 6 without mismatch
(`6S6M0F8D6H6M`). -/
theorem alignRightAnchoredInversion_last_offset_examples :
    max (u32 ((rightEndHead.getReadLength : Int) - rightEndTail.lastAnchor_.first))
      rightEndHead.getBeginClippedLength = 4 ∧
    min rightEndHead.lastAnchor_.first
      (u32 ((rightEndHead.getReadLength : Int) - rightEndTail.getBeginClippedLength)) = 6 ∧
    (alignRightAnchoredInversion sampleAligner [] rightEndHead 4 rightEndTail 6
        [rightEndContig]).map (fun r => (r.1, r.2.1, r.2.2.mismatchCount)) =
      some (true, [CigarOp.mk 5 OpCode.SOFT_CLIP, CigarOp.mk 7 OpCode.ALIGN,
        CigarOp.mk 0 OpCode.FLIP, CigarOp.mk 9 OpCode.DELETE, CigarOp.mk 7 OpCode.HARD_CLIP,
        CigarOp.mk 5 OpCode.ALIGN], 1) ∧
    (alignRightAnchoredInversion sampleAligner [] rightEndHead 4 rightEndTail 7
        [rightEndContig]).map (fun r => (r.1, r.2.1, r.2.2.mismatchCount)) =
      some (true, [CigarOp.mk 6 OpCode.SOFT_CLIP, CigarOp.mk 6 OpCode.ALIGN,
        CigarOp.mk 0 OpCode.FLIP, CigarOp.mk 8 OpCode.DELETE, CigarOp.mk 6 OpCode.HARD_CLIP,
        CigarOp.mk 6 OpCode.ALIGN], 0) := by
  decide

/-! ## Adapter clipping of a too-good read (C37) -/

theorem toInt32_of_small (x : Int) (h0 : 0 ≤ x) (h1 : x < 2147483648) : toInt32 x = x := by
  unfold toInt32
  split_ifs <;> omega

/-- C37. Adapter clipping of a too-good read.  `clip` is called with an initialised adapter
range that lies inside the sequence (its two assertions).  First part: the sequence is
shorter than 2^31 bases, `backwardsClipped == 0` or `forwardsClipped == 0`, and the mismatch
percentage of the side selected for clipping (the backward side when
`backwardsClipped < forwardsClipped`, else the forward side) is not greater than
`TOO_GOOD_READ_MISMATCH_PERCENT`; then `decideWhichSideToClip` returns `false` and `clip`
returns the fragment, `sequenceBegin` and `sequenceEnd` as they were.  Second part: the
range is not empty, its begin is not after its end, and `decideWhichSideToClip` returns
`true`; then `clip` moves exactly one of `sequenceBegin` and `sequenceEnd`, by
`clipBases > 0` bases, and calls `incrementClipLeft` (backward) or `incrementClipRight`
(forward) and `incrementAdapterClip` with that same `clipBases`. -/
theorem clip_too_good_read (c : FragmentSequencingAdapterClipper) (contig : Contig)
    (fragment : FragmentMetadata) (sequence : List Char) (sequenceBegin sequenceEnd : Int)
    (adapterRange : SequencingAdapterRange)
    (hinit : adapterRange.initialized_ = true)
    (hbegin : adapterRange.adapterRangeBegin_ ≥ sequenceBegin ∧
      adapterRange.adapterRangeBegin_ ≤ sequenceEnd)
    (hend : adapterRange.adapterRangeEnd_ ≥ sequenceBegin ∧
      adapterRange.adapterRangeEnd_ ≤ sequenceEnd) :
    (∀ percent : Nat, sequenceEnd - sequenceBegin < 2147483648 →
      (toInt32 (adapterRange.adapterRangeBegin_ - sequenceBegin) = 0 ∨
        toInt32 (sequenceEnd - adapterRange.adapterRangeEnd_) = 0) →
      (if toInt32 (adapterRange.adapterRangeBegin_ - sequenceBegin) <
          toInt32 (sequenceEnd - adapterRange.adapterRangeEnd_) then
        percentMismatches c sequence sequenceBegin adapterRange.adapterRangeEnd_ contig
          fragment.position
          (fragment.position + u32 (adapterRange.adapterRangeEnd_ - sequenceBegin))
      else
        percentMismatches c sequence adapterRange.adapterRangeBegin_ sequenceEnd contig
          (fragment.position + u32 (sequenceEnd - sequenceBegin)
            - u32 (sequenceEnd - adapterRange.adapterRangeBegin_))
          (fragment.position + u32 (sequenceEnd - sequenceBegin))) = some percent →
      percent ≤ c.TOO_GOOD_READ_MISMATCH_PERCENT →
      (c.decideWhichSideToClip contig fragment.position sequence sequenceBegin sequenceEnd
          adapterRange).map Prod.fst = some false ∧
      c.clip contig fragment sequence sequenceBegin sequenceEnd adapterRange =
        some (fragment, sequenceBegin, sequenceEnd)) ∧
    (∀ clipBackwards : Bool, adapterRange.empty_ = false →
      adapterRange.adapterRangeBegin_ ≤ adapterRange.adapterRangeEnd_ →
      c.decideWhichSideToClip contig fragment.position sequence sequenceBegin sequenceEnd
        adapterRange = some (true, clipBackwards) →
      ∃ clipBases : Nat, 0 < clipBases ∧
        ((clipBackwards = true ∧
            (clipBases : Int) = adapterRange.adapterRangeEnd_ - sequenceBegin ∧
            c.clip contig fragment sequence sequenceBegin sequenceEnd adapterRange =
              some (c.incrementAdapterClip (c.incrementClipLeft fragment clipBases) clipBases,
                sequenceBegin + clipBases, sequenceEnd)) ∨
          (clipBackwards = false ∧
            (clipBases : Int) = sequenceEnd - adapterRange.adapterRangeBegin_ ∧
            c.clip contig fragment sequence sequenceBegin sequenceEnd adapterRange =
              some (c.incrementAdapterClip (c.incrementClipRight fragment clipBases) clipBases,
                sequenceBegin, sequenceEnd - clipBases)))) := by
  have hinit1 : ¬ (adapterRange.initialized_ = false) := by simp [hinit]
  refine ⟨?_, ?_⟩
  · intro percent hshort hzero hp hle
    have hb : toInt32 (adapterRange.adapterRangeBegin_ - sequenceBegin) =
        adapterRange.adapterRangeBegin_ - sequenceBegin :=
      toInt32_of_small _ (by omega) (by omega)
    have hf : toInt32 (sequenceEnd - adapterRange.adapterRangeEnd_) =
        sequenceEnd - adapterRange.adapterRangeEnd_ :=
      toInt32_of_small _ (by omega) (by omega)
    rw [hb, hf] at hzero hp
    have hnot : ¬ percent > c.TOO_GOOD_READ_MISMATCH_PERCENT := by omega
    have hdecide : c.decideWhichSideToClip contig fragment.position sequence sequenceBegin
        sequenceEnd adapterRange = some (false,
          decide (adapterRange.adapterRangeBegin_ - sequenceBegin <
            sequenceEnd - adapterRange.adapterRangeEnd_)) := by
      have h1 : ¬ (adapterRange.adapterRangeBegin_ - sequenceBegin ≠ 0 ∧
          sequenceEnd - adapterRange.adapterRangeEnd_ ≠ 0 ∧
          ¬ (-2147483648 < adapterRange.adapterRangeBegin_ - sequenceBegin -
              (sequenceEnd - adapterRange.adapterRangeEnd_) ∧
            adapterRange.adapterRangeBegin_ - sequenceBegin -
              (sequenceEnd - adapterRange.adapterRangeEnd_) < 2147483648)) := by
        intro h
        omega
      have h2 : ¬ (adapterRange.adapterRangeBegin_ - sequenceBegin ≠ 0 ∧
          sequenceEnd - adapterRange.adapterRangeEnd_ ≠ 0 ∧
          (adapterRange.adapterRangeBegin_ - sequenceBegin -
            (sequenceEnd - adapterRange.adapterRangeEnd_)).natAbs < 9) := by
        intro h
        omega
      unfold FragmentSequencingAdapterClipper.decideWhichSideToClip
      simp only [hb, hf]
      rw [if_neg h1, if_neg h2, if_pos hzero]
      by_cases hlt : adapterRange.adapterRangeBegin_ - sequenceBegin <
          sequenceEnd - adapterRange.adapterRangeEnd_
      · have hb0 : adapterRange.adapterRangeBegin_ - sequenceBegin = 0 := by omega
        rw [if_pos hlt] at hp
        rw [if_pos ⟨by simp [hlt], hb0⟩, hp]
        simp only [hnot, decide_False]
      · have hf0 : sequenceEnd - adapterRange.adapterRangeEnd_ = 0 := by omega
        rw [if_neg hlt] at hp
        rw [if_neg (by simp [hlt]), if_pos ⟨by simp [hlt], hf0⟩, hp]
        simp only [hnot, decide_False]
    refine ⟨by rw [hdecide]; rfl, ?_⟩
    unfold FragmentSequencingAdapterClipper.clip
    rw [if_neg hinit1]
    by_cases he : adapterRange.empty_ = false
    · rw [if_pos he, if_neg (not_not.mpr hbegin), if_neg (not_not.mpr hend), hdecide]
    · rw [if_neg he]
  · intro clipBackwards hne hrange hd
    have hclip : c.clip contig fragment sequence sequenceBegin sequenceEnd adapterRange =
        if clipBackwards then
          some (c.incrementAdapterClip
              (c.incrementClipLeft fragment
                (adapterRange.adapterRangeEnd_ - sequenceBegin).toNat)
              (adapterRange.adapterRangeEnd_ - sequenceBegin).toNat,
            adapterRange.adapterRangeEnd_, sequenceEnd)
        else
          some (c.incrementAdapterClip
              (c.incrementClipRight fragment
                (sequenceEnd - adapterRange.adapterRangeBegin_).toNat)
              (sequenceEnd - adapterRange.adapterRangeBegin_).toNat,
            sequenceBegin, adapterRange.adapterRangeBegin_) := by
      unfold FragmentSequencingAdapterClipper.clip
      rw [if_neg hinit1, if_pos hne, if_neg (not_not.mpr hbegin), if_neg (not_not.mpr hend),
        hd]
    have hpercent : ∀ (b e rb : Int), e - b = 0 →
        percentMismatches c sequence b e contig rb (rb + u32 (e - b)) = none := by
      intro b e rb h0
      have hmin : u32 (min (e - b) (rb + ↑(u32 (e - b)) - rb)) = 0 := by
        rw [h0]
        simp [u32]
      unfold percentMismatches
      simp only [hmin, if_true]
      cases c.countMismatches sequence b e contig rb (rb + ↑(u32 (e - b))) <;> rfl
    cases clipBackwards with
    | true =>
      have hpos : 0 < adapterRange.adapterRangeEnd_ - sequenceBegin := by
        by_contra hcon
        have he0 : adapterRange.adapterRangeEnd_ - sequenceBegin = 0 := by omega
        have hb0 : adapterRange.adapterRangeBegin_ - sequenceBegin = 0 := by omega
        have hb : toInt32 (adapterRange.adapterRangeBegin_ - sequenceBegin) = 0 := by
          rw [hb0]
          rfl
        unfold FragmentSequencingAdapterClipper.decideWhichSideToClip at hd
        simp only [hb, ne_eq, not_true_eq_false, false_and, if_false, true_or, if_true,
          and_true] at hd
        by_cases hlt : 0 < toInt32 (sequenceEnd - adapterRange.adapterRangeEnd_)
        · simp only [hlt, decide_True, if_true, hpercent _ _ _ he0] at hd
          cases hd
        · simp only [hlt, decide_False, Bool.false_eq_true, if_false, true_and] at hd
          split_ifs at hd
          · split at hd
            · cases hd
            · simp only [Option.some.injEq, Prod.mk.injEq] at hd
              exact Bool.noConfusion hd.2
          · simp only [Option.some.injEq, Prod.mk.injEq] at hd
            exact Bool.noConfusion hd.2
      refine ⟨(adapterRange.adapterRangeEnd_ - sequenceBegin).toNat, by omega,
        Or.inl ⟨rfl, by omega, ?_⟩⟩
      rw [hclip]
      simp only [if_true, Option.some.injEq, Prod.mk.injEq, true_and, and_true]
      omega
    | false =>
      have hpos : 0 < sequenceEnd - adapterRange.adapterRangeBegin_ := by
        by_contra hcon
        have hb0 : sequenceEnd - adapterRange.adapterRangeBegin_ = 0 := by omega
        have he0 : sequenceEnd - adapterRange.adapterRangeEnd_ = 0 := by omega
        have hf : toInt32 (sequenceEnd - adapterRange.adapterRangeEnd_) = 0 := by
          rw [he0]
          rfl
        have hnone : percentMismatches c sequence adapterRange.adapterRangeBegin_ sequenceEnd
            contig (fragment.position + u32 (sequenceEnd - sequenceBegin)
              - u32 (sequenceEnd - adapterRange.adapterRangeBegin_))
            (fragment.position + u32 (sequenceEnd - sequenceBegin)) = none := by
          have h := hpercent adapterRange.adapterRangeBegin_ sequenceEnd
            (fragment.position + u32 (sequenceEnd - sequenceBegin)
              - u32 (sequenceEnd - adapterRange.adapterRangeBegin_)) hb0
          rw [show fragment.position + ↑(u32 (sequenceEnd - sequenceBegin))
              - ↑(u32 (sequenceEnd - adapterRange.adapterRangeBegin_))
              + ↑(u32 (sequenceEnd - adapterRange.adapterRangeBegin_)) =
              fragment.position + ↑(u32 (sequenceEnd - sequenceBegin)) by ring] at h
          exact h
        unfold FragmentSequencingAdapterClipper.decideWhichSideToClip at hd
        simp only [hf, ne_eq, not_true_eq_false, false_and, and_false, if_false, or_true,
          if_true, and_true] at hd
        by_cases hlt : toInt32 (adapterRange.adapterRangeBegin_ - sequenceBegin) < 0
        · have hne0 : ¬ toInt32 (adapterRange.adapterRangeBegin_ - sequenceBegin) = 0 := by
            omega
          simp only [hlt, decide_True, hne0, and_false, if_false, Bool.true_eq_false,
            Option.some.injEq, Prod.mk.injEq, true_and] at hd
        · simp only [hlt, decide_False, Bool.false_eq_true, false_and, if_false, if_true,
            hnone] at hd
          cases hd
      refine ⟨(sequenceEnd - adapterRange.adapterRangeBegin_).toNat, by omega,
        Or.inr ⟨rfl, by omega, ?_⟩⟩
      rw [hclip]
      simp only [Bool.false_eq_true, if_false, Option.some.injEq, Prod.mk.injEq, true_and]
      omega

/-- Witness for C37: `tooGoodRead` with the adapter range `[6, 10)`.  On `tooGoodContig` the
four bases of the forward side all match (0 percent, threshold 40) and `clip` changes
nothing; on `adapterContig` they all mismatch and `clip` moves `sequenceEnd` by 4 bases. -/
theorem clip_too_good_read_witness :
    tooGoodRange.initialized_ = true ∧
    (tooGoodRange.adapterRangeBegin_ ≥ 0 ∧ tooGoodRange.adapterRangeBegin_ ≤ 10) ∧
    (tooGoodRange.adapterRangeEnd_ ≥ 0 ∧ tooGoodRange.adapterRangeEnd_ ≤ 10) ∧
    ((sampleClipper.decideWhichSideToClip tooGoodContig tooGoodFragment.position
          tooGoodRead.forwardSequence 0 10 tooGoodRange).map Prod.fst = some false ∧
      sampleClipper.clip tooGoodContig tooGoodFragment tooGoodRead.forwardSequence 0 10
        tooGoodRange = some (tooGoodFragment, 0, 10)) ∧
    (∃ clipBases : Nat, 0 < clipBases ∧
      (((false : Bool) = true ∧
          (clipBases : Int) = tooGoodRange.adapterRangeEnd_ - 0 ∧
          sampleClipper.clip adapterContig tooGoodFragment tooGoodRead.forwardSequence 0 10
            tooGoodRange =
            some (sampleClipper.incrementAdapterClip
                (sampleClipper.incrementClipLeft tooGoodFragment clipBases) clipBases,
              (0 : Int) + clipBases, 10)) ∨
        ((false : Bool) = false ∧
          (clipBases : Int) = 10 - tooGoodRange.adapterRangeBegin_ ∧
          sampleClipper.clip adapterContig tooGoodFragment tooGoodRead.forwardSequence 0 10
            tooGoodRange =
            some (sampleClipper.incrementAdapterClip
                (sampleClipper.incrementClipRight tooGoodFragment clipBases) clipBases,
              0, (10 : Int) - clipBases)))) :=
  (fun h1 h2 h3 =>
    ⟨h1, h2, h3,
      (clip_too_good_read sampleClipper tooGoodContig tooGoodFragment
        tooGoodRead.forwardSequence 0 10 tooGoodRange h1 h2 h3).1 0
        (by decide) (by decide) (by decide) (by decide),
      (clip_too_good_read sampleClipper adapterContig tooGoodFragment
        tooGoodRead.forwardSequence 0 10 tooGoodRange h1 h2 h3).2 false
        (by decide) (by decide) (by decide)⟩)
    (by decide) (by decide) (by decide)

/-- The clipper on `tooGoodRead`.  With the range `[6, 10)` the forward side has 0 percent
of mismatches on `tooGoodContig` (not clipped) and 100 percent on `adapterContig` (clipped,
`highClipped` grows by 4 and `sequenceEnd` becomes 6).  With the range `[0, 3)` the backward
side matches `adapterContig` and nothing is clipped.  With the range `[3, 6)`, which
reaches no end of the sequence, the forward side is clipped whatever its mismatches. -/
theorem clip_examples :
    percentMismatches sampleClipper tooGoodRead.forwardSequence 6 10 tooGoodContig 6 10 =
      some 0 ∧
    percentMismatches sampleClipper tooGoodRead.forwardSequence 6 10 adapterContig 6 10 =
      some 100 ∧
    sampleClipper.decideWhichSideToClip adapterContig 0 tooGoodRead.forwardSequence 0 10
      tooGoodRange = some (true, false) ∧
    (sampleClipper.clip adapterContig tooGoodFragment tooGoodRead.forwardSequence 0 10
        tooGoodRange).map (fun r => (r.1.lowClipped, r.1.highClipped, r.2)) =
      some (0, 4, 0, 6) ∧
    sampleClipper.clip adapterContig tooGoodFragment tooGoodRead.forwardSequence 0 10
        (SequencingAdapterRange.mk true false 0 3) = some (tooGoodFragment, 0, 10) ∧
    (sampleClipper.clip adapterContig tooGoodFragment tooGoodRead.forwardSequence 0 10
        (SequencingAdapterRange.mk true false 3 6)).map
          (fun r => (r.1.lowClipped, r.1.highClipped, r.2)) =
      some (0, 7, 0, 3) := by
  decide

/-! ## A scan that ends at the end of a contig

The step `moveNext` that ends an iteration of a scan reads the reference at the offset
just compared.  At the last offset of the window that read may lie one base past the contig;
the byte found there enters the counters of a location that is never compared, so the result
of the scan does not depend on it.  The steps return whatever they read: the step of the
deletion scan always, the steps of the other scans whenever their assertion holds. -/

theorem deletionLocation_moveNext_returns (outside : Outside) (loc : DeletionLocation)
    (s hR tR : List Char) : ∃ next, loc.moveNext outside s hR tR = some next :=
  ⟨_, rfl⟩

theorem inversionLocation_moveNext_returns (outside : Outside) (e : Int)
    (loc : InversionLocation) (hs ts hR tR : List Char)
    (h : loc.tailMismatches_ ≠ minusOneU) :
    ∃ next, loc.moveNext outside e hs ts hR tR = some next := by
  simp only [InversionLocation.moveNext, h, if_false]
  exact ⟨_, rfl⟩

theorem insertionLocation_moveNext_returns (outside : Outside) (loc : InsertionLocation)
    (s c : List Char) (ti ri : Int) (h : loc.rightRealignedMismatches_ ≠ minusOneU) :
    ∃ next, loc.moveNext outside s c ti ri = some next := by
  simp only [InsertionLocation.moveNext, h, if_false]
  exact ⟨_, rfl⟩

theorem mergeDeletionAlignments_memory (a : AlignerBase) (outside : Outside) :
    mergeDeletionAlignments { a with outside := outside } = mergeDeletionAlignments a := rfl

theorem pickBestSplit_memory (a : AlignerBase) (outside : Outside) :
    pickBestSplit { a with outside := outside } = pickBestSplit a := rfl

theorem alignSimpleDeletion_memory (a : AlignerBase) (outside : Outside) (buf : Cigar)
    (h : FragmentMetadata) (first : Nat) (t : FragmentMetadata) (last : Nat)
    (cl : ContigList) (headRef tailRef : Contig)
    (hH : cl.get? h.contigId = some headRef) (hT : cl.get? t.contigId = some tailRef)
    (hb : deletionBestLocation outside h first t last headRef tailRef =
      deletionBestLocation a.outside h first t last headRef tailRef) :
    alignSimpleDeletion { a with outside := outside } buf h first t last cl =
      alignSimpleDeletion a buf h first t last cl := by
  rw [alignSimpleDeletion_eq _ _ _ _ _ _ _ headRef tailRef hH hT,
    alignSimpleDeletion_eq a _ _ _ _ _ _ headRef tailRef hH hT]
  simp only [hb, mergeDeletionAlignments_memory]

/-- The deletion scan of `contigEndHead` and `contigEndTail` over the window `[4, 6]`, whatever
the memory holds outside the sequences: the sums at the offsets 4, 5 and 6 are 1, 2 and 3, the
step after offset 6 reads the base at index 6 of the 6-base contig 0, and the scan returns the
location at offset 4. -/
theorem deletionBestLocation_contig_end (outside : Outside) :
    deletionBestLocation outside contigEndHead 4 contigEndTail 6 "AAAAGG".toList
      "TTTTTTTA".toList = some (DeletionLocation.mk 0 1 4 4 4 4) := by
  rfl

/-- The translocation engine on `contigEndHead` and `contigEndTail`, whatever the memory holds
outside the sequences: it returns `true` with the operations `4M 1C 0D 4M`. -/
theorem alignTranslocation_contig_end (outside : Outside) :
    alignTranslocation { sampleAligner with outside := outside } [] contigEndContigs
        contigEndHead contigEndTail =
      alignTranslocation sampleAligner [] contigEndContigs contigEndHead contigEndTail ∧
    (alignTranslocation sampleAligner [] contigEndContigs contigEndHead contigEndTail).map
        (fun r => (r.1, r.2.1)) =
      some (true, [CigarOp.mk 4 OpCode.ALIGN, CigarOp.mk 1 OpCode.CONTIG,
        CigarOp.mk 0 OpCode.DELETE, CigarOp.mk 4 OpCode.ALIGN]) :=
  ⟨alignSimpleDeletion_memory sampleAligner outside [] contigEndHead 4 contigEndTail 6
      contigEndContigs "AAAAGG".toList "TTTTTTTA".toList rfl rfl
      ((deletionBestLocation_contig_end outside).trans
        (deletionBestLocation_contig_end sampleAligner.outside).symm),
    by decide⟩

/-- The dispatcher `resolveConflict` on `contigEndHead` and `contigEndTail`, whatever the memory
holds outside the sequences: it returns `true`, the buffer holds `4M 1C 0D 4M` and one
alignment is appended to the list. -/
theorem resolveConflict_contig_end (outside : Outside) :
    resolveConflict { sampleAligner with outside := outside } contigEndContigs false []
        (FragmentMetadataList.mk [contigEndHead, contigEndTail] 4) contigEndHead
        contigEndTail =
      resolveConflict sampleAligner contigEndContigs false []
        (FragmentMetadataList.mk [contigEndHead, contigEndTail] 4) contigEndHead
        contigEndTail ∧
    (resolveConflict sampleAligner contigEndContigs false []
        (FragmentMetadataList.mk [contigEndHead, contigEndTail] 4) contigEndHead
        contigEndTail).map (fun r => (r.1, r.2.1, r.2.2.items.length)) =
      some (true, [CigarOp.mk 4 OpCode.ALIGN, CigarOp.mk 1 OpCode.CONTIG,
        CigarOp.mk 0 OpCode.DELETE, CigarOp.mk 4 OpCode.ALIGN], 3) := by
  have h2 : ∀ buf : Cigar,
      alignTranslocation { sampleAligner with outside := outside } buf contigEndContigs
          contigEndTail contigEndHead =
        alignTranslocation sampleAligner buf contigEndContigs contigEndTail contigEndHead :=
    fun buf => alignSimpleDeletion_memory sampleAligner outside buf contigEndTail 8
      contigEndHead 0 contigEndContigs "TTTTTTTA".toList "AAAAGG".toList rfl rfl rfl
  refine ⟨?_, by decide⟩
  rw [resolveConflict_other_contig _ _ _ _ _ _ (by decide) (by decide) (by decide),
    resolveConflict_other_contig sampleAligner _ _ _ _ _ (by decide) (by decide) (by decide),
    (alignTranslocation_contig_end outside).1]
  simp only [h2, pickBestSplit_memory]

end Isaac
